import Mathlib

/-!
# Repetier-Firmware motion planner: a shallow embedding

The development follows `src/ArduinoAVR/Repetier/motion.cpp` and the arithmetic
kernels of `HAL.h`.

Conventions of the embedding.

* AVR machine integers are `Nat` / `Int` with the wrap-around written out:
  `unsigned int` is 16 bit, `unsigned long` is 32 bit, `long` is 32 bit
  two's complement, `byte` is 8 bit.
* `float` values are rationals (`ℚ`): every float operation is taken as the exact
  operation, a conversion to an integer type truncates towards zero, and NaN and
  infinities do not exist.  The square root is not a rational function; it is the
  parameter `fsqrt` of the printer configuration.
* Preprocessor switches (`DRIVE_SYSTEM`, `USE_ADVANCE`, ...) are fields of the
  configuration record, so that one definition covers every build.
* A C division by zero is undefined behaviour; the embedding inherits the value
  of the Lean division there, and no statement below relies on it.
-/

set_option autoImplicit false

namespace Repetier

/-! ## Machine arithmetic -/

/-- Truncation to an AVR `unsigned int` (16 bit). -/
def wrapU16 (n : Nat) : Nat := n % 65536

/-- Truncation to an AVR `unsigned long` (32 bit). -/
def wrapU32 (n : Nat) : Nat := n % 4294967296

/-- Truncation to a `byte`. -/
def wrapByte (n : Nat) : Nat := n % 256

/-- Reduction of an integer to the range of a 32 bit two's complement `long`. -/
def wrapLong (z : Int) : Int := (z + 2147483648) % 4294967296 - 2147483648

/-- Conversion of a float to a signed integer type: truncation towards zero. -/
def truncToLong (q : ℚ) : Int := if 0 ≤ q then ⌊q⌋ else -⌊-q⌋

/-- Conversion of a float to `unsigned long`: truncation, then 32 bit wrap.
A negative operand is undefined behaviour in C and is sent to zero here. -/
def truncToU32 (q : ℚ) : Nat := wrapU32 (truncToLong q).toNat

/-- Conversion of a float to `unsigned int`: truncation, then 16 bit wrap.
A negative operand is undefined behaviour in C and is sent to zero here. -/
def truncToU16 (q : ℚ) : Nat := wrapU16 (truncToLong q).toNat

/-- The C library `fabs`. -/
def fabs (q : ℚ) : ℚ := if q < 0 then -q else q

/-- Four values indexed by axis: 0 = X, 1 = Y, 2 = Z, 3 = E. -/
structure Vec4 (α : Type) where
  x : α
  y : α
  z : α
  e : α
deriving DecidableEq

/-- Array read `a[i]`. -/
def Vec4.get {α : Type} (a : Vec4 α) (i : Nat) : α :=
  match i with
  | 0 => a.x
  | 1 => a.y
  | 2 => a.z
  | _ => a.e

/-- Array write `a[i] = v`. -/
def Vec4.set {α : Type} (a : Vec4 α) (i : Nat) (v : α) : Vec4 α :=
  match i with
  | 0 => { a with x := v }
  | 1 => { a with y := v }
  | 2 => { a with z := v }
  | _ => { a with e := v }

/-! ## HAL kernels -/

/-- One AVR `add`/`adc`: the 8 bit sum and the carry out. -/
def adc8 (a b carry : Nat) : Nat × Nat := ((a + b + carry) % 256, (a + b + carry) / 256)

/-- The function `HAL::U16SquaredToU32`: the byte-wise AVR multiply/add sequence, register by
register (`%A0..%D0` are the result bytes, `%A1`, `%B1` the bytes of `val`). -/
def U16SquaredToU32 (val : Nat) : Nat :=
  let a1 := val % 256
  let b1 := (val / 256) % 256
  -- mul %A1,%A1 ; movw %A0,r0
  let a0 := (a1 * a1) % 256
  let b0 := (a1 * a1) / 256
  -- mul %B1,%B1 ; movw %C0,r0
  let c0 := (b1 * b1) % 256
  let d0 := (b1 * b1) / 256
  -- mul %A1,%B1 ; clr %A1
  let r0 := (a1 * b1) % 256
  let r1 := (a1 * b1) / 256
  -- add %B0,r0 ; adc %C0,r1 ; adc %D0,%A1
  let s1 := adc8 b0 r0 0
  let s2 := adc8 c0 r1 s1.2
  let s3 := adc8 d0 0 s2.2
  -- add %B0,r0 ; adc %C0,r1 ; adc %D0,%A1
  let t1 := adc8 s1.1 r0 0
  let t2 := adc8 s2.1 r1 t1.2
  let t3 := adc8 s3.1 0 t2.2
  a0 + 256 * t1.1 + 65536 * t2.1 + 16777216 * t3.1

/-- One AVR `lsr`: the shifted byte and the bit shifted out into the carry. -/
def lsr8 (a : Nat) : Nat × Nat := (a / 2, a % 2)

/-- One AVR `ror`: the byte rotated right through the carry, and the new carry. -/
def ror8 (a carry : Nat) : Nat × Nat := (a / 2 + 128 * carry, a % 2)

/-- The three accumulator bytes `%A0`, `%B0`, `%A1` of `HAL::ComputeV`, lowest first. -/
structure Acc24 where
  a0 : Nat
  b0 : Nat
  a1 : Nat
deriving DecidableEq

/-- The instruction group `add %A0,r0 ; adc %B0,r1 ; adc %A1,%D2` of `HAL::ComputeV`. -/
def Acc24.add3 (x : Acc24) (r0 r1 d2 : Nat) : Acc24 :=
  let s1 := adc8 x.a0 r0 0
  let s2 := adc8 x.b0 r1 s1.2
  let s3 := adc8 x.a1 d2 s2.2
  ⟨s1.1, s2.1, s3.1⟩

/-- The instruction group `add %B0,r0 ; adc %A1,r1` of `HAL::ComputeV`. -/
def Acc24.add2 (x : Acc24) (r0 r1 : Nat) : Acc24 :=
  let s2 := adc8 x.b0 r0 0
  let s3 := adc8 x.a1 r1 s2.2
  ⟨x.a0, s2.1, s3.1⟩

/-- The instruction `add %A1,r0` of `HAL::ComputeV`. -/
def Acc24.add1 (x : Acc24) (r0 : Nat) : Acc24 :=
  ⟨x.a0, x.b0, (adc8 x.a1 r0 0).1⟩

/-- The instruction group `lsr %A1 ; ror %B0 ; ror %A0` of `HAL::ComputeV`. -/
def Acc24.shr (x : Acc24) : Acc24 :=
  let y3 := lsr8 x.a1
  let y2 := ror8 x.b0 y3.2
  let y1 := ror8 x.a0 y2.2
  ⟨y1.1, y2.1, y3.1⟩

/-- The function `HAL::ComputeV` of the AVR build: the byte-wise multiply/add sequence, one
instruction group after the other.  `timer` and `accel` are the unsigned values of the two
32 bit registers; `%B1`, `%C1`, `%D1` are the upper bytes of `timer`, `%A2..%D2` the bytes of
`accel`.  The result is the register pair `%B0:%A0`. -/
def ComputeV (timer accel : Nat) : Nat :=
  let b1 := (timer / 256) % 256
  let c1 := (timer / 65536) % 256
  let d1 := (timer / 16777216) % 256
  let a2 := accel % 256
  let b2 := (accel / 256) % 256
  let c2 := (accel / 65536) % 256
  let d2 := (accel / 16777216) % 256
  -- mul %B1,%A2 ; mov %A0,r1 ; mul %B1,%C2 ; mov %B0,r0 ; mov %A1,r1
  let x0 : Acc24 := ⟨(b1 * a2) / 256, (b1 * c2) % 256, (b1 * c2) / 256⟩
  -- mul %B1,%B2 ; add %A0,r0 ; adc %B0,r1 ; adc %A1,%D2
  let x1 := x0.add3 ((b1 * b2) % 256) ((b1 * b2) / 256) d2
  -- mul %C1,%A2 ; add %A0,r0 ; adc %B0,r1 ; adc %A1,%D2
  let x2 := x1.add3 ((c1 * a2) % 256) ((c1 * a2) / 256) d2
  -- mul %C1,%B2 ; add %B0,r0 ; adc %A1,r1
  let x3 := x2.add2 ((c1 * b2) % 256) ((c1 * b2) / 256)
  -- mul %D1,%A2 ; add %B0,r0 ; adc %A1,r1
  let x4 := x3.add2 ((d1 * a2) % 256) ((d1 * a2) / 256)
  -- mul %C1,%C2 ; add %A1,r0
  let x5 := x4.add1 ((c1 * c2) % 256)
  -- mul %D1,%B2 ; add %A1,r0
  let x6 := x5.add1 ((d1 * b2) % 256)
  -- lsr %A1 ; ror %B0 ; ror %A0, twice
  let x8 := x6.shr.shr
  x8.a0 + 256 * x8.b0

/-- The portable expression named by the specification for `HAL::ComputeV`:
`((timer >> 8) * accel) >> 10`, the product taken modulo `2^32` and the result truncated to
16 bits. -/
def computeVPortable (timer accel : Nat) : Nat :=
  wrapU16 (wrapU32 ((timer / 256) * accel) / 1024)

/-- The method `HAL::delayMicroseconds(delayUs)`: its body is the call
`delayMicroseconds(delayUs)`, which inside the class `HAL` names the method itself.  One unit
of fuel is one call; `none` is an exhausted fuel, `some ()` a return to the caller. -/
def delayMicroseconds : Nat → Nat → Option Unit
  | 0, _ => none
  | fuel + 1, delayUs => delayMicroseconds fuel delayUs

/-! ## The segment record -/

/-- Modelled from the spec: the bits of `PrintLine::flags` (the `FLAG_*` constants and the
accessors `isWarmUp`, `block`, ... are declared in `Repetier.h`, which is not among the
sources); one boolean per named bit of the spec's flag set. -/
structure Flags where
  warmup : Bool
  nominal : Bool
  checkEndstops : Bool
  blocked : Bool
deriving DecidableEq

/-- Modelled from the spec: the bits of `PrintLine::joinFlags` (`FLAG_JOIN_STEPPARAMS_COMPUTED`,
`FLAG_JOIN_START_FIXED`, `FLAG_JOIN_END_FIXED`, declared in `Repetier.h`). -/
structure JoinFlags where
  stepParamsComputed : Bool
  startFixed : Bool
  endFixed : Bool
deriving DecidableEq

/-- Modelled from the spec: the `PrintLine` record (section 3 of the specification; the class
is declared in `Repetier.h`).  Integer fields carry the AVR widths used by `motion.cpp`:
the step counts `accelSteps`, `decelSteps` and the rates `vMax`, `vStart`, `vEnd` are
`unsigned int`, `accelerationPrim`, `facceleration` and `fullInterval` are `unsigned long`,
`delta`, `error`, `stepsRemaining` and `timeInTicks` are `long`.  The last three fields exist
on delta builds: `numDeltaSegments` is an `unsigned int`, `deltaSegmentReadPos` a position in
the delta segment cache, `numPrimaryStepPerSegment` a `long`. -/
structure PrintLine where
  flags : Flags
  joinFlags : JoinFlags
  primaryAxis : Nat
  timeInTicks : Int
  halfstep : Nat
  dir : Nat
  delta : Vec4 Int
  error : Vec4 Int
  speedX : ℚ
  speedY : ℚ
  speedZ : ℚ
  speedE : ℚ
  fullSpeed : ℚ
  invFullSpeed : ℚ
  acceleration : ℚ
  maxJunctionSpeed : ℚ
  startSpeed : ℚ
  endSpeed : ℚ
  distance : ℚ
  fullInterval : Nat
  stepsRemaining : Int
  accelSteps : Nat
  decelSteps : Nat
  accelerationPrim : Nat
  facceleration : Nat
  vMax : Nat
  vStart : Nat
  vEnd : Nat
  advanceRate : Int
  advanceFull : Int
  advanceStart : Int
  advanceEnd : Int
  advanceL : Nat
  moveID : Nat
  numDeltaSegments : Nat
  deltaSegmentReadPos : Nat
  numPrimaryStepPerSegment : Int
deriving DecidableEq

namespace PrintLine

/-- Accessor `isWarmUp()`. -/
def isWarmUp (l : PrintLine) : Bool := l.flags.warmup

/-- Accessor `areParameterUpToDate()`. -/
def areParameterUpToDate (l : PrintLine) : Bool := l.joinFlags.stepParamsComputed

/-- Accessor `isEndSpeedFixed()`. -/
def isEndSpeedFixed (l : PrintLine) : Bool := l.joinFlags.endFixed

/-- Accessor `isStartSpeedFixed()`. -/
def isStartSpeedFixed (l : PrintLine) : Bool := l.joinFlags.startFixed

/-- Mutator `setStartSpeedFixed(true)`. -/
def setStartSpeedFixed (l : PrintLine) : PrintLine :=
  { l with joinFlags := { l.joinFlags with startFixed := true } }

/-- Mutator `setEndSpeedFixed(true)`. -/
def setEndSpeedFixed (l : PrintLine) : PrintLine :=
  { l with joinFlags := { l.joinFlags with endFixed := true } }

/-- Mutator `invalidateParameter()`. -/
def invalidateParameter (l : PrintLine) : PrintLine :=
  { l with joinFlags := { l.joinFlags with stepParamsComputed := false } }

/-- Mutator `setParameterUpToDate()`. -/
def setParameterUpToDate (l : PrintLine) : PrintLine :=
  { l with joinFlags := { l.joinFlags with stepParamsComputed := true } }

/-- Mutator `block()`. -/
def block (l : PrintLine) : PrintLine := { l with flags := { l.flags with blocked := true } }

/-- Mutator `unblock()`. -/
def unblock (l : PrintLine) : PrintLine := { l with flags := { l.flags with blocked := false } }

/-- Accessor `isXMove()`: the moving bit 16 of `dir`. -/
def isXMove (l : PrintLine) : Bool := l.dir &&& 16 != 0

/-- Accessor `isYMove()`: the moving bit 32 of `dir`. -/
def isYMove (l : PrintLine) : Bool := l.dir &&& 32 != 0

/-- Accessor `isZMove()`: the moving bit 64 of `dir`. -/
def isZMove (l : PrintLine) : Bool := l.dir &&& 64 != 0

/-- Accessor `isEMove()`: the moving bit 128 of `dir`. -/
def isEMove (l : PrintLine) : Bool := l.dir &&& 128 != 0

/-- Accessor `isEPositiveMove()`: the extruder moves (128) in positive direction (8). -/
def isEPositiveMove (l : PrintLine) : Bool := l.dir &&& 136 == 136

end PrintLine

/-- Build switches and printer settings read by the planner.  The values live in
`Configuration.h`, in the `printer` and `current_extruder` records and in global arrays, none
of which is among the sources; they are parameters of the embedding. -/
structure Config where
  /-- The switch `DRIVE_SYSTEM`: 0 Cartesian, 1 and 2 H-Bot/CoreXY, 3 delta. -/
  driveSystem : Nat
  /-- Whether `NEW_XY_GANTRY` is defined. -/
  newXYGantry : Bool
  /-- Whether `USE_ADVANCE` is defined. -/
  useAdvance : Bool
  /-- Whether `ENABLE_QUADRATIC_ADVANCE` is defined. -/
  quadraticAdvance : Bool
  /-- The value of `printer.isAdvanceActivated()`. -/
  advanceActivated : Bool
  /-- The constant `MOVE_CACHE_SIZE`. -/
  moveCacheSize : Nat
  /-- The constant `MOVE_CACHE_LOW`. -/
  moveCacheLow : Nat
  /-- The constant `LOW_TICKS_PER_MOVE`. -/
  lowTicksPerMove : ℚ
  /-- The constant `MAX_HALFSTEP_INTERVAL`. -/
  maxHalfstepInterval : Nat
  /-- The constant `F_CPU`, timer ticks per second. -/
  fCpu : Nat
  /-- The setting `printer.feedrate`. -/
  feedrate : ℚ
  /-- The setting `printer.maxJerk`. -/
  maxJerk : ℚ
  /-- The setting `printer.maxZJerk`. -/
  maxZJerk : ℚ
  /-- The setting `printer.minimumSpeed`. -/
  minimumSpeed : ℚ
  /-- The setting `printer.extrudeMultiply`, in percent. -/
  extrudeMultiply : Int
  /-- The setting `current_extruder->maxStartFeedrate`. -/
  maxStartFeedrate : ℚ
  /-- The array `max_feedrate`. -/
  max_feedrate : Vec4 ℚ
  /-- The array `axis_steps_per_sqr_second`. -/
  axis_steps_per_sqr_second : Vec4 Nat
  /-- The array `axis_travel_steps_per_sqr_second`. -/
  axis_travel_steps_per_sqr_second : Vec4 Nat
  /-- The array `inv_axis_steps_per_unit`. -/
  inv_axis_steps_per_unit : Vec4 ℚ
  /-- The array `axis_steps_per_unit`. -/
  axis_steps_per_unit : Vec4 ℚ
  /-- The setting `current_extruder->advanceL`. -/
  extruderAdvanceL : ℚ
  /-- The setting `current_extruder->advanceK`. -/
  extruderAdvanceK : ℚ
  /-- The float square root of the C library. -/
  fsqrt : ℚ → ℚ
  /-- The conversion of a `long` to `float`, which rounds to a significand of 24 bits. -/
  floatOfLong : Int → ℚ
  /-- The `float` addition, which rounds its sum to a significand of 24 bits. -/
  floatAdd : ℚ → ℚ → ℚ

/-! ## Trapezoid materialiser -/

/-- The method `PrintLine::updateStepsParameter`. -/
def updateStepsParameter (cfg : Config) (l : PrintLine) : PrintLine :=
  if l.isWarmUp || l.areParameterUpToDate then l
  else
    let startFactor : ℚ := l.startSpeed * l.invFullSpeed
    let endFactor : ℚ := l.endSpeed * l.invFullSpeed
    let vStart := truncToU16 ((l.vMax : ℚ) * startFactor)
    let vEnd := truncToU16 ((l.vMax : ℚ) * endFactor)
    let vmax2 := U16SquaredToU32 l.vMax
    let accelSteps :=
      wrapU16 (wrapU32 (wrapU32 (vmax2 + 4294967296 - U16SquaredToU32 vStart)
        / wrapU32 (l.accelerationPrim <<< 1) + 1))
    let decelSteps :=
      wrapU16 (wrapU32 (wrapU32 (vmax2 + 4294967296 - U16SquaredToU32 vEnd)
        / wrapU32 (l.accelerationPrim <<< 1) + 1))
    let advanceStart :=
      if cfg.useAdvance && cfg.quadraticAdvance then
        truncToLong ((l.advanceFull : ℚ) * startFactor * startFactor) else l.advanceStart
    let advanceEnd :=
      if cfg.useAdvance && cfg.quadraticAdvance then
        truncToLong ((l.advanceFull : ℚ) * endFactor * endFactor) else l.advanceEnd
    let l1 : PrintLine :=
      { l with vStart := vStart, vEnd := vEnd, accelSteps := accelSteps,
               decelSteps := decelSteps, advanceStart := advanceStart,
               advanceEnd := advanceEnd }
    let l2 : PrintLine :=
      if (wrapU16 (accelSteps + decelSteps) : Int) ≥ l.stepsRemaining then
        -- can't reach limit speed
        let red : Nat :=
          (((((wrapU16 (wrapU16 (accelSteps + decelSteps) + 2) : Nat) : Int)
            - l.stepsRemaining) / 2) % 65536).toNat
        { l1 with
            accelSteps := if red < accelSteps then accelSteps - red else 0,
            decelSteps := if red < decelSteps then decelSteps - red else 0 }
      else l1
    l2.setParameterUpToDate

/-- A segment record with every field zero, as in freshly cleared memory. -/
def PrintLine.zero : PrintLine :=
  { flags := ⟨false, false, false, false⟩, joinFlags := ⟨false, false, false⟩,
    primaryAxis := 0, timeInTicks := 0, halfstep := 0, dir := 0,
    delta := ⟨0, 0, 0, 0⟩, error := ⟨0, 0, 0, 0⟩,
    speedX := 0, speedY := 0, speedZ := 0, speedE := 0, fullSpeed := 0, invFullSpeed := 0,
    acceleration := 0, maxJunctionSpeed := 0, startSpeed := 0, endSpeed := 0, distance := 0,
    fullInterval := 0, stepsRemaining := 0, accelSteps := 0, decelSteps := 0,
    accelerationPrim := 0, facceleration := 0, vMax := 0, vStart := 0, vEnd := 0,
    advanceRate := 0, advanceFull := 0, advanceStart := 0, advanceEnd := 0, advanceL := 0,
    moveID := 0, numDeltaSegments := 0, deltaSegmentReadPos := 0, numPrimaryStepPerSegment := 0 }

/-! ## The move cache -/

/-- The array `PrintLine::lines`, indexed by cache position. -/
abbrev Lines := Nat → PrintLine

/-- Assignment of a whole record: `lines[i] = v`. -/
def setLine (ls : Lines) (i : Nat) (v : PrintLine) : Lines :=
  fun j => if j = i then v else ls j

/-- Assignment through a line pointer: `lines[i]` becomes `f lines[i]`. -/
def upd (ls : Lines) (i : Nat) (f : PrintLine → PrintLine) : Lines :=
  let v := f (ls i)
  setLine ls i v

/-- The static planner variables of `motion.cpp`. -/
structure Planner where
  lines : Lines
  lines_write_pos : Nat
  lines_count : Nat
  lines_pos : Nat
  waitRelax : Nat

/-- Modelled from the spec: the macro `NEXT_PLANNER_INDEX` of `Repetier.h` (ring index
increment with explicit wrap at `MOVE_CACHE_SIZE`). -/
def nextPlannerIndex (cfg : Config) (idx : Nat) : Nat :=
  if idx + 1 = cfg.moveCacheSize then 0 else idx + 1

/-- Modelled from the spec: the macro `PREVIOUS_PLANNER_INDEX` of `Repetier.h` (ring index
decrement with explicit wrap to `MOVE_CACHE_SIZE - 1`). -/
def previousPlannerIndex (cfg : Config) (idx : Nat) : Nat :=
  if idx = 0 then cfg.moveCacheSize - 1 else idx - 1

/-! ## Path planner -/

/-- The function `computeMaxJunctionSpeed(previous, current)`; the two pointers are the cache
positions `pv` and `cu`. -/
def computeMaxJunctionSpeed (cfg : Config) (ls : Lines) (pv cu : Nat) : Lines :=
  if (ls pv).isWarmUp then upd ls cu PrintLine.setStartSpeedFixed
  else if cfg.useAdvance && cfg.advanceActivated
      && (((ls pv).dir &&& 128) != ((ls cu).dir &&& 128))
      && (((ls pv).dir &&& 48) != 0 || ((ls cu).dir &&& 48) != 0) then
    let ls1 := upd ls pv PrintLine.setEndSpeedFixed
    let ls2 := upd ls1 cu PrintLine.setStartSpeedFixed
    let ls3 := upd ls2 pv (fun l =>
      { l with maxJunctionSpeed := min (ls2 pv).endSpeed (ls2 cu).startSpeed })
    let ls4 := upd ls3 pv PrintLine.invalidateParameter
    let ls5 := upd ls4 cu PrintLine.invalidateParameter
    let ls6 := upd ls5 cu (fun l => { l with startSpeed := (ls5 pv).maxJunctionSpeed })
    upd ls6 pv (fun l => { l with endSpeed := (ls5 pv).maxJunctionSpeed })
  else if cfg.driveSystem = 3 && (ls pv).moveID = (ls cu).moveID then
    -- Avoid computing junction speed for split delta lines
    if (ls pv).fullSpeed > (ls cu).fullSpeed then
      upd ls pv (fun l => { l with maxJunctionSpeed := (ls cu).fullSpeed })
    else
      upd ls pv (fun l => { l with maxJunctionSpeed := (ls pv).fullSpeed })
  else
    let previous := ls pv
    let current := ls cu
    let dx := current.speedX - previous.speedX
    let dy := current.speedY - previous.speedY
    let jerk :=
      if cfg.driveSystem = 3 then
        let dz := current.speedZ - previous.speedZ
        cfg.fsqrt (dx * dx + dy * dy + dz * dz)
      else cfg.fsqrt (dx * dx + dy * dy)
    let factor0 : ℚ := if jerk > cfg.maxJerk then cfg.maxJerk / jerk else 1
    let factor1 : ℚ :=
      if cfg.driveSystem ≠ 3 && ((previous.dir &&& 64) != 0 || (current.dir &&& 64) != 0) then
        let dz := fabs (current.speedZ - previous.speedZ)
        if dz > cfg.maxZJerk then
          let tmp := cfg.maxZJerk / dz
          if tmp < factor0 then tmp else factor0
        else factor0
      else factor0
    let eJerk := fabs (current.speedE - previous.speedE)
    let factor2 : ℚ :=
      if eJerk > cfg.maxStartFeedrate then
        let tmp := cfg.maxStartFeedrate / eJerk
        if tmp < factor1 then tmp else factor1
      else factor1
    let mjs := previous.fullSpeed * factor2
    upd ls pv (fun l =>
      { l with maxJunctionSpeed := if mjs > current.fullSpeed then current.fullSpeed else mjs })

/-- The body of the `while` loop of `PrintLine::backwardPlanner`, entered with the loop index
`p` (the line `act` is `lines[p]`) and the carried speed `lastJunctionSpeed`.  The result is
the cache and, unless the body ends in `return`, the new `lastJunctionSpeed`; the loop goes on
with `p` and `act` at the previous cache position. -/
def backwardStep (cfg : Config) (ls : Lines) (p : Nat) (lastJunctionSpeed : ℚ) :
    Lines × Option ℚ :=
  let act := p
  let prev := previousPlannerIndex cfg p
  -- Avoid speed calc once crusing in split delta move
  let ls1 : Lines :=
    if cfg.driveSystem = 3 && (ls prev).moveID = (ls act).moveID
        && lastJunctionSpeed = (ls prev).maxJunctionSpeed then
      let a := upd ls prev (fun l => { l with endSpeed := lastJunctionSpeed })
      let b := upd a act (fun l => { l with startSpeed := lastJunctionSpeed })
      let c := upd b prev PrintLine.invalidateParameter
      upd c act PrintLine.invalidateParameter
    else ls
  if ((ls1 prev).dir &&& 240) != 128 && ((ls1 act).dir &&& 240) == 128 then
    -- switch move - extruder only move
    (upd (upd ls1 prev PrintLine.setEndSpeedFixed) act PrintLine.setStartSpeedFixed, none)
  else if (ls1 prev).isEndSpeedFixed then
    (upd ls1 act PrintLine.setStartSpeedFixed, none)
  else
    let lj : ℚ :=
      if (ls1 act).flags.nominal then (ls1 act).fullSpeed
      else cfg.fsqrt (lastJunctionSpeed * lastJunctionSpeed + (ls1 act).acceleration)
    if lj ≥ (ls1 prev).maxJunctionSpeed then
      -- Limit is reached
      let ls2 : Lines :=
        if (ls1 prev).endSpeed ≠ (ls1 prev).maxJunctionSpeed then
          let a := upd ls1 prev PrintLine.invalidateParameter
          upd a prev (fun l => { l with endSpeed := (a prev).maxJunctionSpeed })
        else ls1
      let ls3 : Lines :=
        if (ls2 act).startSpeed ≠ (ls2 prev).maxJunctionSpeed then
          let a := upd ls2 act (fun l => { l with startSpeed := (ls2 prev).maxJunctionSpeed })
          upd a act PrintLine.invalidateParameter
        else ls2
      (ls3, some (ls3 prev).maxJunctionSpeed)
    else
      let a := upd ls1 prev (fun l => { l with endSpeed := lj })
      let b := upd a act (fun l => { l with startSpeed := lj })
      let c := upd b prev PrintLine.invalidateParameter
      let d := upd c act PrintLine.invalidateParameter
      (d, some lj)

/-- The loop of `PrintLine::backwardPlanner`: `p` is the loop index, `lastJunctionSpeed` the
carried speed.  One unit of fuel is one iteration; `none` is an exhausted fuel. -/
def backwardLoop (cfg : Config) (last : Nat) : Nat → Lines → Nat → ℚ → Option Lines
  | fuel, ls, p, lastJunctionSpeed =>
    if p = last then some ls
    else
      match fuel with
      | 0 => none
      | fuel + 1 =>
        match backwardStep cfg ls p lastJunctionSpeed with
        | (ls1, none) => some ls1
        | (ls1, some lj) => backwardLoop cfg last fuel ls1 (previousPlannerIndex cfg p) lj

/-- The method `PrintLine::backwardPlanner(p, last)`. -/
def backwardPlanner (cfg : Config) (ls : Lines) (p last : Nat) : Option Lines :=
  if p = last then some ls
  else backwardLoop cfg last cfg.moveCacheSize ls p (ls p).endSpeed

/-- The body of the `while` loop of `PrintLine::forwardPlanner`, entered with the loop index
`p` (`act` is `lines[p]`, `next` the line after it) and the carried speed `leftspeed`.  The
result is the cache and the new `leftspeed`; the loop goes on at the next cache position. -/
def forwardStep (cfg : Config) (ls : Lines) (p : Nat) (leftspeed : ℚ) : Lines × ℚ :=
  let act := p
  let next := nextPlannerIndex cfg p
  if (ls act).isEndSpeedFixed then (ls, (ls act).endSpeed)
  else if cfg.driveSystem = 3 && (ls act).moveID = (ls next).moveID
      && (ls act).endSpeed = (ls act).maxJunctionSpeed then
    let a := upd ls act (fun l => { l with startSpeed := leftspeed })
    let left1 := (a act).endSpeed
    let b := upd a act PrintLine.setEndSpeedFixed
    let c := upd b next PrintLine.setStartSpeedFixed
    (c, left1)
  else
    let vmax_right : ℚ :=
      if (ls act).flags.nominal then (ls act).fullSpeed
      else cfg.fsqrt (leftspeed * leftspeed + (ls act).acceleration)
    if vmax_right > (ls act).endSpeed then
      -- Could be higher next run?
      let a := upd ls act (fun l => { l with startSpeed := leftspeed })
      let left1 := (a act).endSpeed
      let b : Lines :=
        if (a act).endSpeed = (a act).maxJunctionSpeed then
          upd (upd a act PrintLine.setEndSpeedFixed) next PrintLine.setStartSpeedFixed
        else a
      let c := upd b act PrintLine.invalidateParameter
      (c, left1)
    else
      let a := upd ls act (fun l =>
        { l with joinFlags := { l.joinFlags with endFixed := true, startFixed := true } })
      let b := upd a act PrintLine.invalidateParameter
      let c := upd b act (fun l => { l with startSpeed := leftspeed })
      let d := upd c next (fun l => { l with startSpeed := vmax_right })
      let e := upd d act (fun l => { l with endSpeed := vmax_right })
      let f := upd e next PrintLine.setStartSpeedFixed
      (f, vmax_right)

/-- The loop of `PrintLine::forwardPlanner`: `p` is the loop index (`next` points to
`lines[p]` at the loop head), `leftspeed` the carried speed.  The result is the cache
together with the final `leftspeed`. -/
def forwardLoop (cfg : Config) (last : Nat) : Nat → Lines → Nat → ℚ → Option (Lines × ℚ)
  | fuel, ls, p, leftspeed =>
    if p = last then some (ls, leftspeed)
    else
      match fuel with
      | 0 => none
      | fuel + 1 =>
        forwardLoop cfg last fuel (forwardStep cfg ls p leftspeed).1 (nextPlannerIndex cfg p)
          (forwardStep cfg ls p leftspeed).2

/-- The method `PrintLine::forwardPlanner(p)`; `wp` is `lines_write_pos`. -/
def forwardPlanner (cfg : Config) (ls : Lines) (wp p : Nat) : Option Lines :=
  if p = wp then some ls
  else
    match forwardLoop cfg wp cfg.moveCacheSize ls p (ls p).startSpeed with
    | none => none
    | some (ls1, leftspeed) => some (upd ls1 wp (fun l => { l with startSpeed := leftspeed }))

/-- The first horizon loop of `updateTrapezoids`: skip queued segments until enough execution
time is covered or the new line is reached. -/
def horizonLoop (cfg : Config) (ls : Lines) (p : Nat) : Nat → Int → Nat → Option Nat
  | fuel, timeleft, maxfirst =>
    if timeleft < 4500 * (cfg.moveCacheSize : Int) ∧ maxfirst ≠ p then
      match fuel with
      | 0 => none
      | fuel + 1 =>
        horizonLoop cfg ls p fuel (timeleft + (ls maxfirst).timeInTicks)
          (nextPlannerIndex cfg maxfirst)
    else some maxfirst

/-- The second horizon loop of `updateTrapezoids`: walk back while the end speed is free. -/
def firstLoop (cfg : Config) (ls : Lines) (maxfirst : Nat) : Nat → Nat → Option Nat
  | fuel, first =>
    if first ≠ maxfirst ∧ !(ls first).isEndSpeedFixed then
      match fuel with
      | 0 => none
      | fuel + 1 => firstLoop cfg ls maxfirst fuel (previousPlannerIndex cfg first)
    else some first

/-- The horizon selection of `updateTrapezoids(p)`: the index `first`. -/
def planningStart (cfg : Config) (s : Planner) (p : Nat) : Option Nat :=
  let maxfirst0 := s.lines_pos
  let maxfirst1 := if maxfirst0 ≠ p then nextPlannerIndex cfg maxfirst0 else maxfirst0
  match horizonLoop cfg s.lines p cfg.moveCacheSize 0 maxfirst1 with
  | none => none
  | some maxfirst =>
    match firstLoop cfg s.lines maxfirst cfg.moveCacheSize p with
    | none => none
    | some first =>
      if first ≠ p ∧ (s.lines first).isEndSpeedFixed then some (nextPlannerIndex cfg first)
      else some first

/-- The do-while loop of `updateTrapezoids` that materialises the planned segments. -/
def materialiseLoop (cfg : Config) (wp : Nat) : Nat → Lines → Nat → Option Lines
  | 0, _, _ => none
  | fuel + 1, ls, first =>
    let a := upd ls first (updateStepsParameter cfg)
    let b := upd a first PrintLine.unblock
    let first1 := nextPlannerIndex cfg first
    let c := upd b first1 PrintLine.block
    if first1 ≠ wp then materialiseLoop cfg wp fuel c first1 else some c

/-- The index `previdx` of `updateTrapezoids`: `p - 1` in `byte` arithmetic, wrapped to the
last cache position. -/
def previdxOf (cfg : Config) (p : Nat) : Nat :=
  let previdx := wrapByte (p + 255)
  if previdx ≥ cfg.moveCacheSize then cfg.moveCacheSize - 1 else previdx

/-- The method `PrintLine::updateTrapezoids(p)`. -/
def updateTrapezoids (cfg : Config) (s : Planner) (p : Nat) : Option Planner :=
  match planningStart cfg s p with
  | none => none
  | some first =>
    let act := p
    let ls0 := upd s.lines first PrintLine.block
    let previdx := previdxOf cfg p
    let ls1 : Lines :=
      if s.lines_count ≠ 0 ∧ !(ls0 previdx).isWarmUp then
        computeMaxJunctionSpeed cfg ls0 previdx act
      else upd ls0 act PrintLine.setStartSpeedFixed
    match backwardPlanner cfg ls1 p first with
    | none => none
    | some ls2 =>
      match forwardPlanner cfg ls2 s.lines_write_pos first with
      | none => none
      | some ls3 =>
        match materialiseLoop cfg s.lines_write_pos cfg.moveCacheSize ls3 first with
        | none => none
        | some ls4 =>
          let ls5 := upd ls4 act (updateStepsParameter cfg)
          let ls6 := upd ls5 act PrintLine.unblock
          some { s with lines := ls6 }

/-! ## Motion computations -/

/-- The method `PrintLine::safeSpeed`. -/
def safeSpeed (cfg : Config) (l : PrintLine) : ℚ :=
  let safe0 : ℚ :=
    if cfg.useAdvance && l.isEMove && cfg.advanceActivated then
      min l.fullSpeed cfg.minimumSpeed
    else min l.fullSpeed (max cfg.minimumSpeed (cfg.maxJerk * (1 / 2)))
  let safe1 : ℚ :=
    if cfg.driveSystem ≠ 3 && l.isZMove then
      if fabs l.speedZ > cfg.maxZJerk * (1 / 2) then
        let safe2 := cfg.maxZJerk * (1 / 2) * l.fullSpeed / fabs l.speedZ
        if safe2 < safe0 then safe2 else safe0
      else safe0
    else safe0
  let safe3 : ℚ :=
    if l.isEMove then
      if (l.dir &&& 112) != 0 then
        let safe2 := (1 / 2) * cfg.maxStartFeedrate * l.fullSpeed / fabs l.speedE
        if safe2 < safe1 then safe2 else safe1
      else (1 / 2) * cfg.maxStartFeedrate -- This is a retraction move
    else safe1
  if safe3 < l.fullSpeed then safe3 else l.fullSpeed

/-- The opening of `calculate_move`: `time_for_move` in ticks, lengthened when the cache
runs low, and the local flag `critical`. -/
def moveTime (cfg : Config) (lines_count : Nat) (distance : ℚ) : ℚ × Bool :=
  let time_for_move : ℚ := (cfg.fCpu : ℚ) * distance / cfg.feedrate
  if lines_count < cfg.moveCacheLow ∧ time_for_move < cfg.lowTicksPerMove then
    (time_for_move + (3 * (cfg.lowTicksPerMove - time_for_move)) / ((lines_count : ℚ) + 1), true)
  else (time_for_move, false)

/-- The local array `axis_interval` of `calculate_move` after the feedrate limits have been
evaluated (entry 4 exists on delta builds only). -/
def feedrateIntervals (cfg : Config) (l : PrintLine) (axis_diff : Nat → ℚ) : Nat → Int :=
  fun i =>
    match i with
    | 0 => truncToLong (fabs (axis_diff 0) * (cfg.fCpu : ℚ)
             / (cfg.max_feedrate.get 0 * (l.stepsRemaining : ℚ)))
    | 1 => truncToLong (fabs (axis_diff 1) * (cfg.fCpu : ℚ)
             / (cfg.max_feedrate.get 1 * (l.stepsRemaining : ℚ)))
    | 2 => if l.isZMove then
             truncToLong (fabs (axis_diff 2) * (cfg.fCpu : ℚ)
               / (cfg.max_feedrate.get 2 * (l.stepsRemaining : ℚ)))
           else 0
    | 3 => truncToLong (fabs (axis_diff 3) * (cfg.fCpu : ℚ)
             / (cfg.max_feedrate.get 3 * (l.stepsRemaining : ℚ)))
    | _ => truncToLong (fabs (axis_diff 4) * (cfg.fCpu : ℚ)
             / (cfg.max_feedrate.get 0 * (l.stepsRemaining : ℚ)))

/-- The local `limitInterval` of `calculate_move`: the slowest allowed interval in ticks per
step. -/
def limitIntervalOf (cfg : Config) (l : PrintLine) (axis_diff : Nat → ℚ) (time_for_move : ℚ) :
    Int :=
  let ai := feedrateIntervals cfg l axis_diff
  let li0 := truncToLong (time_for_move / (l.stepsRemaining : ℚ))
  let li1 := if ai 0 > li0 then ai 0 else li0
  let li2 := if ai 1 > li1 then ai 1 else li1
  let li3 := if l.isZMove then (if ai 2 > li2 then ai 2 else li2) else li2
  if ai 3 > li3 then ai 3 else li3

/-- The local array `axis_interval` of `calculate_move` after the per-axis speeds have been
set: a moving axis gets `time_for_move / delta[i]`, the others keep the feedrate entry. -/
def axisIntervals (cfg : Config) (l : PrintLine) (axis_diff : Nat → ℚ) (time_for_move : ℚ) :
    Nat → Int :=
  let ai := feedrateIntervals cfg l axis_diff
  fun i =>
    match i with
    | 0 => if l.isXMove then truncToLong (time_for_move / (l.delta.get 0 : ℚ)) else ai 0
    | 1 => if l.isYMove then truncToLong (time_for_move / (l.delta.get 1 : ℚ)) else ai 1
    | 2 => if l.isZMove then truncToLong (time_for_move / (l.delta.get 2 : ℚ)) else ai 2
    | 3 => if l.isEMove then truncToLong (time_for_move / (l.delta.get 3 : ℚ)) else ai 3
    | _ => if cfg.driveSystem = 3 then truncToLong (time_for_move / (l.stepsRemaining : ℚ))
           else ai 4

/-- The loop of `calculate_move` over the four axes that finds
`slowest_axis_plateau_time_repro`; `n` is the number of axes still to visit, `i = 4 - n` the
axis visited next. -/
def slowestAxisPlateau (cfg : Config) (dir : Nat) (is_print_move : Bool)
    (axis_interval : Nat → Int) : Nat → ℚ → ℚ
  | 0, slowest => slowest
  | n + 1, slowest =>
    let i := 3 - n
    let slowest1 : ℚ :=
      if (dir &&& (16 <<< i)) != 0 then
        min slowest ((axis_interval i : ℚ)
          * ((if is_print_move then cfg.axis_steps_per_sqr_second.get i
              else cfg.axis_travel_steps_per_sqr_second.get i : Nat) : ℚ))
      else slowest
    slowestAxisPlateau cfg dir is_print_move axis_interval n slowest1

/-- The local `limitInterval` of `calculate_move` for the segment `l` when `lines_count` moves
are queued. -/
def moveLimitInterval (cfg : Config) (lines_count : Nat) (l : PrintLine) (axis_diff : Nat → ℚ) :
    Int :=
  limitIntervalOf cfg l axis_diff (moveTime cfg lines_count l.distance).1

/-- The local array `axis_interval` of `calculate_move` as the acceleration loop reads it;
`time_for_move` has been re-derived as `limitInterval * stepsRemaining`. -/
def moveAxisIntervals (cfg : Config) (lines_count : Nat) (l : PrintLine) (axis_diff : Nat → ℚ) :
    Nat → Int :=
  axisIntervals cfg l axis_diff
    ((moveLimitInterval cfg lines_count l axis_diff : ℚ) * (l.stepsRemaining : ℚ))

/-- The acceleration limit of axis `i` that `calculate_move` applies: the print limit when the
extruder moves forward, the travel limit otherwise. -/
def axisAccelLimit (cfg : Config) (l : PrintLine) (i : Nat) : Nat :=
  if l.isEPositiveMove then cfg.axis_steps_per_sqr_second.get i
  else cfg.axis_travel_steps_per_sqr_second.get i

/-- The local `slowest_axis_plateau_time_repro` of `calculate_move` after the loop over the
axes, started at `1e20`. -/
def moveSlowest (cfg : Config) (lines_count : Nat) (l : PrintLine) (axis_diff : Nat → ℚ) : ℚ :=
  slowestAxisPlateau cfg l.dir l.isEPositiveMove (moveAxisIntervals cfg lines_count l axis_diff)
    4 100000000000000000000

/-- The body of `calculate_move` up to the call of the path planner: every field of the new
segment `l` that the function computes from the geometry.  `RAMP_ACCELERATION` is taken as
defined.  The result also carries the local flag `critical`. -/
def calculateMoveLine (cfg : Config) (lines_count : Nat) (l : PrintLine) (axis_diff : Nat → ℚ) :
    PrintLine × Bool :=
  let tc := moveTime cfg lines_count l.distance
  let critical := tc.2
  let l1 : PrintLine := { l with timeInTicks := truncToLong tc.1 }
  let limitInterval := moveLimitInterval cfg lines_count l axis_diff
  let fullInterval : Nat := wrapU32 (if limitInterval > 200 then limitInterval else 200).toNat
  let time_for_move : ℚ := (limitInterval : ℚ) * (l1.stepsRemaining : ℚ)
  let inv_time_s : ℚ := (cfg.fCpu : ℚ) / time_for_move
  let axis_interval := moveAxisIntervals cfg lines_count l axis_diff
  let speedX : ℚ :=
    if l1.isXMove then
      (if (l1.dir &&& 1) == 0 then -(axis_diff 0 * inv_time_s) else axis_diff 0 * inv_time_s)
    else 0
  let speedY : ℚ :=
    if l1.isYMove then
      (if (l1.dir &&& 2) == 0 then -(axis_diff 1 * inv_time_s) else axis_diff 1 * inv_time_s)
    else 0
  let speedZ : ℚ :=
    if l1.isZMove then
      (if (l1.dir &&& 4) == 0 then -(axis_diff 2 * inv_time_s) else axis_diff 2 * inv_time_s)
    else 0
  let speedE : ℚ :=
    if l1.isEMove then
      (if (l1.dir &&& 8) == 0 then -(axis_diff 3 * inv_time_s) else axis_diff 3 * inv_time_s)
    else l1.speedE
  let fullSpeed : ℚ := l1.distance * inv_time_s
  let slowest := moveSlowest cfg lines_count l axis_diff
  let error : Vec4 Int :=
    if cfg.driveSystem ≠ 3 then
      let h := l1.delta.get l1.primaryAxis / 2
      ⟨h, h, h, h⟩
    else { l1.error with e := l1.stepsRemaining / 2 }
  let invFullSpeed : ℚ := 1 / fullSpeed
  let accelerationPrim : Nat := truncToU32 (slowest / (axis_interval l1.primaryAxis : ℚ))
  let facceleration : Nat := truncToU32 (262144 * (accelerationPrim : ℚ) / (cfg.fCpu : ℚ))
  let acceleration : ℚ := 2 * l1.distance * slowest * fullSpeed / (cfg.fCpu : ℚ)
  let l2 : PrintLine :=
    { l1 with fullInterval := fullInterval, speedX := speedX, speedY := speedY,
              speedZ := speedZ, speedE := speedE, fullSpeed := fullSpeed, error := error,
              invFullSpeed := invFullSpeed, accelerationPrim := accelerationPrim,
              facceleration := facceleration, acceleration := acceleration }
  let safe := safeSpeed cfg l2
  let l3 : PrintLine := { l2 with startSpeed := safe, endSpeed := safe }
  let l4 : PrintLine :=
    if cfg.fsqrt (l3.startSpeed * l3.startSpeed + l3.acceleration) ≥ l3.fullSpeed then
      { l3 with flags := { l3.flags with nominal := true } }
    else l3
  let vMax : Nat := wrapU16 (cfg.fCpu / fullInterval)
  let l5 : PrintLine := { l4 with vMax := vMax }
  let l6 : PrintLine :=
    if cfg.useAdvance then
      if (l5.dir &&& 112) == 0 || (l5.dir &&& 128) == 0 || (l5.dir &&& 8) == 0 then
        if cfg.quadraticAdvance then { l5 with advanceRate := 0, advanceFull := 0, advanceL := 0 }
        else { l5 with advanceL := 0 }
      else
        let advlin : ℚ :=
          fabs l5.speedE * cfg.extruderAdvanceL * (1 / 1000) * cfg.axis_steps_per_unit.get 3
        let l5a : PrintLine := { l5 with advanceL := truncToU16 ((65536 * advlin) / (vMax : ℚ)) }
        if cfg.quadraticAdvance then
          let advanceFull : Int :=
            truncToLong (65536 * cfg.extruderAdvanceK * l5.speedE * l5.speedE)
          let steps : Int :=
            ((U16SquaredToU32 vMax / wrapU32 (accelerationPrim <<< 1) : Nat) : Int)
          { l5a with advanceFull := advanceFull, advanceRate := Int.tdiv advanceFull steps }
        else l5a
    else l5
  (l6, critical)

/-- The method `PrintLine::calculate_move`, called on the segment at `lines_write_pos`:
profile the segment, run the path planner, select halfstep mode, commit. -/
def calculate_move (cfg : Config) (s : Planner) (axis_diff : Nat → ℚ) (pathOptimize : Bool) :
    Option Planner :=
  let wp := s.lines_write_pos
  let lc := calculateMoveLine cfg s.lines_count (s.lines wp) axis_diff
  let s1 : Planner := { s with lines := setLine s.lines wp lc.1 }
  match updateTrapezoids cfg s1 wp with
  | none => none
  | some s2 =>
    let l := s2.lines wp
    let l1 : PrintLine :=
      if l.fullInterval < cfg.maxHalfstepInterval ∨ lc.2 then { l with halfstep := 0 }
      else if cfg.driveSystem = 3 then
        { l with halfstep := 1, error := { l.error with e := l.stepsRemaining } }
      else
        let d := l.delta.get l.primaryAxis
        { l with halfstep := 1, error := ⟨d, d, d, d⟩ }
    some { s2 with
      lines := setLine s2.lines wp l1,
      lines_write_pos := nextPlannerIndex cfg wp,
      waitRelax := if pathOptimize then 70 else s2.waitRelax,
      lines_count := wrapByte (s2.lines_count + 1) }

/-! ## Building a move: directions, deltas, primary axis -/

/-- The values produced by the direction loops of `queue_move`: the segment fields `delta` and
`dir`, the local `axis_diff` and the updated `Printer::currentPositionSteps`. -/
structure DirDelta where
  delta : Vec4 Int
  dir : Nat
  axis_diff : Vec4 ℚ
  currentPositionSteps : Vec4 Int
deriving DecidableEq

/-- The extrusion multiplier applied to a step count:
`(long)((d * (float)extrudeMultiply) * 0.01f)`. -/
def applyExtrudeMultiply (cfg : Config) (d : Int) : Int :=
  truncToLong (((d : ℚ) * (cfg.extrudeMultiply : ℚ)) * (1 / 100))

/-- One pass of the direction loop of `queue_move` on a Cartesian build
(`DRIVE_SYSTEM==0 || defined(NEW_XY_GANTRY)`), for axis `i`. -/
def cartesianDirStep (cfg : Config) (destinationSteps : Vec4 Int) (st : DirDelta) (i : Nat) :
    DirDelta :=
  let d0 := wrapLong (destinationSteps.get i - st.currentPositionSteps.get i)
  let dir1 := if d0 ≥ 0 then wrapByte (st.dir ||| (1 <<< i)) else st.dir
  let d1 := if d0 ≥ 0 then d0 else wrapLong (-d0)
  let d2 := if i = 3 ∧ cfg.extrudeMultiply ≠ 100 then applyExtrudeMultiply cfg d1 else d1
  let dir2 := if d2 ≠ 0 then wrapByte (dir1 ||| (16 <<< i)) else dir1
  { delta := st.delta.set i d2,
    dir := dir2,
    axis_diff := st.axis_diff.set i ((d2 : ℚ) * cfg.inv_axis_steps_per_unit.get i),
    currentPositionSteps := st.currentPositionSteps.set i (destinationSteps.get i) }

/-- The direction loop of `queue_move` on a Cartesian build, started with `p->dir = 0`; the
entries of `delta0` and `diff0` are the stale contents that the loop overwrites. -/
def cartesianDirDelta (cfg : Config) (destinationSteps currentPositionSteps : Vec4 Int)
    (delta0 : Vec4 Int) (diff0 : Vec4 ℚ) : DirDelta :=
  [0, 1, 2, 3].foldl (cartesianDirStep cfg destinationSteps)
    { delta := delta0, dir := 0, axis_diff := diff0,
      currentPositionSteps := currentPositionSteps }

/-- The tower deltas of `queue_move` on an H-Bot/CoreXY build, before the direction loop:
`DRIVE_SYSTEM==1` stores `deltax+deltay`, `deltax-deltay`, `DRIVE_SYSTEM==2` stores
`deltay+deltax`, `deltay-deltax`; Z and E are plain differences. -/
def gantryTowerDelta (cfg : Config) (destinationSteps currentPositionSteps : Vec4 Int) :
    Vec4 Int :=
  let deltax := wrapLong (destinationSteps.get 0 - currentPositionSteps.get 0)
  let deltay := wrapLong (destinationSteps.get 1 - currentPositionSteps.get 1)
  let dz := wrapLong (destinationSteps.get 2 - currentPositionSteps.get 2)
  let de := wrapLong (destinationSteps.get 3 - currentPositionSteps.get 3)
  if cfg.driveSystem = 1 then
    ⟨wrapLong (deltax + deltay), wrapLong (deltax - deltay), dz, de⟩
  else
    ⟨wrapLong (deltay + deltax), wrapLong (deltay - deltax), dz, de⟩

/-- One pass of the direction loop of `queue_move` on an H-Bot/CoreXY build, for axis `i`:
`axis_diff` keeps the sign, `delta` becomes the magnitude. -/
def gantryDirStep (cfg : Config) (destinationSteps : Vec4 Int) (st : DirDelta) (i : Nat) :
    DirDelta :=
  let d0 := st.delta.get i
  let dir1 := if d0 ≥ 0 then wrapByte (st.dir ||| (1 <<< i)) else st.dir
  let diff := (d0 : ℚ) * cfg.inv_axis_steps_per_unit.get i
  let d1 := if d0 ≥ 0 then d0 else wrapLong (-d0)
  let dir2 := if d1 ≠ 0 then wrapByte (dir1 ||| (16 <<< i)) else dir1
  { delta := st.delta.set i d1,
    dir := dir2,
    axis_diff := st.axis_diff.set i diff,
    currentPositionSteps := st.currentPositionSteps.set i (destinationSteps.get i) }

/-- The delta computation and direction loop of `queue_move` on an H-Bot/CoreXY build. -/
def gantryDirDelta (cfg : Config) (destinationSteps currentPositionSteps : Vec4 Int)
    (diff0 : Vec4 ℚ) : DirDelta :=
  [0, 1, 2, 3].foldl (gantryDirStep cfg destinationSteps)
    { delta := gantryTowerDelta cfg destinationSteps currentPositionSteps, dir := 0,
      axis_diff := diff0, currentPositionSteps := currentPositionSteps }

/-- The direction block of `queue_move`, selected by the build switches. -/
def queueMoveDirDelta (cfg : Config) (destinationSteps currentPositionSteps : Vec4 Int)
    (delta0 : Vec4 Int) (diff0 : Vec4 ℚ) : DirDelta :=
  if cfg.driveSystem = 0 ∨ cfg.newXYGantry then
    cartesianDirDelta cfg destinationSteps currentPositionSteps delta0 diff0
  else gantryDirDelta cfg destinationSteps currentPositionSteps diff0

/-- The comparison chain of `queue_move` that selects `primary_axis`. -/
def primaryAxisOf (delta : Vec4 Int) : Nat :=
  if delta.get 1 > delta.get 0 ∧ delta.get 1 > delta.get 2 ∧ delta.get 1 > delta.get 3 then 1
  else if delta.get 0 > delta.get 2 ∧ delta.get 0 > delta.get 3 then 0
  else if delta.get 2 > delta.get 3 then 2
  else 3

/-- The two assignments of `queue_move` after the comparison chain:
`p->primaryAxis = primary_axis; p->stepsRemaining = p->delta[primary_axis];`. -/
def setPrimaryAxis (l : PrintLine) : PrintLine :=
  { l with primaryAxis := primaryAxisOf l.delta,
           stepsRemaining := l.delta.get (primaryAxisOf l.delta) }

/-- The Cartesian displacement `(dx, dy)` in mm that `queue_move` recovers from `axis_diff`
for the distance computation. -/
def xyDisplacement (cfg : Config) (axis_diff : Vec4 ℚ) : ℚ × ℚ :=
  if cfg.driveSystem = 0 ∨ cfg.newXYGantry then (axis_diff.get 0, axis_diff.get 1)
  else if cfg.driveSystem = 1 then
    let dx := (1 / 2) * (axis_diff.get 0 + axis_diff.get 1)
    (dx, axis_diff.get 0 - dx)
  else
    let dy := (1 / 2) * (axis_diff.get 0 + axis_diff.get 1)
    (axis_diff.get 0 - dy, dy)

/-- The distance block of `queue_move`: the move length in mm, or `none` when the function
returns because there are no steps to take. -/
def queueMoveDistance (cfg : Config) (dir : Nat) (axis_diff : Vec4 ℚ) : Option ℚ :=
  if (dir &&& 112) != 0 then
    let d := xyDisplacement cfg axis_diff
    let xydist2 := d.1 * d.1 + d.2 * d.2
    if (dir &&& 64) != 0 then some (cfg.fsqrt (xydist2 + axis_diff.get 2 * axis_diff.get 2))
    else some (cfg.fsqrt xydist2)
  else if (dir &&& 128) != 0 then some (fabs (axis_diff.get 3))
  else none

/-- The loop body of `calculate_dir_delta` for axis `i`. -/
def dirDeltaStep (difference : Vec4 Int) (st : Nat × Vec4 Int) (i : Nat) : Nat × Vec4 Int :=
  let d := if difference.get i ≥ 0 then difference.get i else wrapLong (-(difference.get i))
  let dir1 := if difference.get i ≥ 0 then wrapByte (st.1 ||| (1 <<< i)) else st.1
  let dir2 := if d ≠ 0 then wrapByte (dir1 ||| (16 <<< i)) else dir1
  (dir2, st.2.set i d)

/-- The function `calculate_dir_delta(difference, dir, delta)` of the delta build; the result
is `(*dir, delta)`, and `delta0` is the stale content of the output array. -/
def calculate_dir_delta (cfg : Config) (difference : Vec4 Int) (delta0 : Vec4 Int) :
    Nat × Vec4 Int :=
  let r := [0, 1, 2, 3].foldl (dirDeltaStep difference) (0, delta0)
  if cfg.extrudeMultiply ≠ 100 then (r.1, r.2.set 3 (applyExtrudeMultiply cfg (r.2.get 3)))
  else r

/-! ## Warm-up moves -/

/-- Modelled from the spec: the accessor `getNextWriteLine()` of `Repetier.h`, the cache
position of the slot that is written next. -/
def getNextWriteLine (s : Planner) : Nat := s.lines_write_pos

/-- Modelled from the spec: the method `pushLine()` of `Repetier.h`, the commit of the slot at
`lines_write_pos`: advance the write position and count the line (`lines_count` is a `byte`). -/
def pushLine (cfg : Config) (s : Planner) : Planner :=
  { s with lines_write_pos := nextPlannerIndex cfg s.lines_write_pos,
           lines_count := wrapByte (s.lines_count + 1) }

/-- Modelled from the spec: the mutator `setWaitTicks(wait)` of `Repetier.h`, which stores the
waiting time of a warm-up segment in `timeInTicks`. -/
def PrintLine.setWaitTicks (l : PrintLine) (wait : Int) : PrintLine :=
  { l with timeInTicks := wait }

/-- The `while(w)` loop of `insertWaitMovesIfNeeded`, with `w` iterations to go. -/
def insertWaitLoop (cfg : Config) (waitExtraLines : Nat) : Nat → Planner → Planner
  | 0, s => s
  | w + 1, s =>
    let p := getNextWriteLine s
    let ticks : Nat := wrapU16 (10000 * wrapU16 (w + 1))
    let l : PrintLine :=
      { s.lines p with
        flags := ⟨true, false, false, false⟩,
        joinFlags := ⟨true, true, true⟩,
        dir := 0,
        primaryAxis := wrapByte (w + 1 + waitExtraLines),
        facceleration := ticks,
        timeInTicks := (ticks : Int) }
    let l1 := l.setWaitTicks l.timeInTicks
    insertWaitLoop cfg waitExtraLines w (pushLine cfg { s with lines := setLine s.lines p l1 })

/-- The method `PrintLine::insertWaitMovesIfNeeded(pathOptimize, waitExtraLines)`: the new
planner state and the returned byte. -/
def insertWaitMovesIfNeeded (cfg : Config) (s : Planner) (pathOptimize : Bool)
    (waitExtraLines : Nat) : Planner × Nat :=
  if s.lines_count = 0 ∧ s.waitRelax = 0 ∧ pathOptimize then
    -- First line after some time - warmup needed
    (insertWaitLoop cfg waitExtraLines 3 s, 1)
  else (s, 0)

/-! ## Delta kinematics and the delta move splitter -/

/-- Reduction of an integer to the range of a 16 bit two's complement `int`. -/
def wrapInt (z : Int) : Int := (z + 32768) % 65536 - 32768

/-- Constants and settings that only a delta build reads (`Configuration.h` and the `printer`
record, not among the sources); they are parameters of the embedding. -/
structure DeltaConfig where
  /-- The constant `DELTA_DIAGONAL_ROD_STEPS_SQUARED`. -/
  diagonalRodStepsSquared : Int
  /-- The constant `DELTA_TOWER1_X_STEPS`. -/
  tower1X : Int
  /-- The constant `DELTA_TOWER1_Y_STEPS`. -/
  tower1Y : Int
  /-- The constant `DELTA_TOWER2_X_STEPS`. -/
  tower2X : Int
  /-- The constant `DELTA_TOWER3_X_STEPS`. -/
  tower3X : Int
  /-- The constant `DELTA_TOWER3_Y_STEPS`. -/
  tower3Y : Int
  /-- The constant `DELTA_CACHE_SIZE`. -/
  deltaCacheSize : Nat
  /-- The constant `MAX_DELTA_SEGMENTS_PER_LINE`. -/
  maxDeltaSegmentsPerLine : Int
  /-- The constant `DELTA_SEGMENTS_PER_SECOND_PRINT`. -/
  deltaSegmentsPerSecondPrint : ℚ
  /-- The constant `DELTA_SEGMENTS_PER_SECOND_MOVE`. -/
  deltaSegmentsPerSecondMove : ℚ
  /-- The setting `printer.feedrateMultiply`, in percent. -/
  feedrateMultiply : Int
  /-- The setting `printer.maxDeltaPositionSteps`. -/
  maxDeltaPositionSteps : Int

/-- The Arduino macro `sq(x)` on a `long`. -/
def sq (z : Int) : Int := wrapLong (z * z)

/-- The function `calculate_delta(cartesianPosSteps, deltaPosSteps)`: the returned byte and
the array `deltaPosSteps`, whose entries 0 to 2 are the tower positions (arrays of three
`long` are `Vec4` values whose last entry is not used).  In
`deltaPosSteps[i] = sqrt(temp) + cartesianPosSteps[Z_AXIS]` the `long` values `temp` and
`cartesianPosSteps[Z_AXIS]` are converted to `float`, the square root and the sum are taken in
`float`, and the sum is converted to `long` by truncation. -/
def calculate_delta (cfg : Config) (dc : DeltaConfig) (cartesianPosSteps deltaPosSteps : Vec4 Int) :
    Nat × Vec4 Int :=
  let opt := wrapLong (dc.diagonalRodStepsSquared
    - sq (wrapLong (dc.tower1Y - cartesianPosSteps.get 1)))
  let temp1 := wrapLong (opt - sq (wrapLong (dc.tower1X - cartesianPosSteps.get 0)))
  if temp1 ≥ 0 then
    let d1 := deltaPosSteps.set 0
      (truncToLong (cfg.floatAdd (cfg.fsqrt (cfg.floatOfLong temp1))
        (cfg.floatOfLong (cartesianPosSteps.get 2))))
    let temp2 := wrapLong (opt - sq (wrapLong (dc.tower2X - cartesianPosSteps.get 0)))
    if temp2 ≥ 0 then
      let d2 := d1.set 1
        (truncToLong (cfg.floatAdd (cfg.fsqrt (cfg.floatOfLong temp2))
          (cfg.floatOfLong (cartesianPosSteps.get 2))))
      let temp3 := wrapLong (wrapLong (dc.diagonalRodStepsSquared
          - sq (wrapLong (dc.tower3X - cartesianPosSteps.get 0)))
        - sq (wrapLong (dc.tower3Y - cartesianPosSteps.get 1)))
      if temp3 ≥ 0 then
        (1, d2.set 2
          (truncToLong (cfg.floatAdd (cfg.fsqrt (cfg.floatOfLong temp3))
            (cfg.floatOfLong (cartesianPosSteps.get 2)))))
      else (0, d2)
    else (0, d1)
  else (0, deltaPosSteps)

/-- Modelled from the spec: the record `DeltaSegment` of `Repetier.h` (the spec's
DeltaSubSegment): a direction byte and per-tower step counts of 16 bits. -/
structure DeltaSegment where
  dir : Nat
  deltaSteps : Vec4 Nat
deriving DecidableEq

/-- The state that the delta move splitter reads and writes: the move cache, the delta segment
cache `segments` with its write position and fill count, the positions kept in `Printer`, the
filament counter, `lastMoveID`, and the number of lines written to the serial output. -/
structure DeltaPrinter where
  planner : Planner
  segments : Nat → DeltaSegment
  delta_segment_write_pos : Nat
  delta_segment_count : Nat
  currentPositionSteps : Vec4 Int
  destinationSteps : Vec4 Int
  currentDeltaPositionSteps : Vec4 Int
  filamentPrinted : ℚ
  lastMoveID : Nat
  output : Nat

/-- The local variables of `calculate_delta_segments` carried around its outer loop. -/
structure DeltaSegmentsState where
  printer : DeltaPrinter
  destination_steps : Vec4 Int
  destination_delta_steps : Vec4 Int
  max_axis_move : Int
  produced_segments : Nat

/-- The values carried through the tower loop of `calculate_delta_segments`. -/
structure TowerState where
  segment : DeltaSegment
  destination_delta_steps : Vec4 Int
  currentDeltaPositionSteps : Vec4 Int
  max_axis_move : Int
  output : Nat

/-- One pass of the tower loop of `calculate_delta_segments` (the branch with a solution), for
tower `i`; `DEBUG_DELTA_OVERFLOW` is defined, so a step count above 65535 writes a line. -/
def deltaTowerStep (dc : DeltaConfig) (softEndstop : Bool) (st : TowerState) (i : Nat) :
    TowerState :=
  let dds :=
    if softEndstop ∧ st.destination_delta_steps.get i > dc.maxDeltaPositionSteps then
      st.destination_delta_steps.set i dc.maxDeltaPositionSteps
    else st.destination_delta_steps
  let delta := wrapLong (dds.get i - st.currentDeltaPositionSteps.get i)
  let d1 : DeltaSegment :=
    if delta = 0 then { st.segment with deltaSteps := st.segment.deltaSteps.set i 0 }
    else if delta > 0 then
      { dir := wrapByte (st.segment.dir ||| (17 <<< i)),
        deltaSteps := st.segment.deltaSteps.set i (wrapU16 delta.toNat) }
    else
      { dir := wrapByte (st.segment.dir ||| (16 <<< i)),
        deltaSteps := st.segment.deltaSteps.set i (wrapU16 (wrapLong (-delta)).toNat) }
  let out1 :=
    if delta = 0 then st.output
    else if delta > 0 then (if delta > 65535 then st.output + 1 else st.output)
    else (if wrapLong (-delta) > 65535 then st.output + 1 else st.output)
  let mam :=
    if st.max_axis_move < (d1.deltaSteps.get i : Int) then (d1.deltaSteps.get i : Int)
    else st.max_axis_move
  { segment := d1, destination_delta_steps := dds,
    currentDeltaPositionSteps := st.currentDeltaPositionSteps.set i (dds.get i),
    max_axis_move := mam, output := out1 }

/-- The outer loop of `calculate_delta_segments`, with `s` sub-segments to go.  The wait for a
free entry of the delta segment cache has no exit without the stepper interrupt: `none`. -/
def deltaSegmentsLoop (cfg : Config) (dc : DeltaConfig) (softEndstop : Bool) :
    Nat → DeltaSegmentsState → Option DeltaSegmentsState
  | 0, st => some st
  | s + 1, st =>
    let dest := [0, 1, 2].foldl (fun (ds : Vec4 Int) i =>
      ds.set i (wrapLong (ds.get i
        + Int.tdiv (wrapLong (st.printer.destinationSteps.get i - ds.get i)) ((s : Int) + 1))))
      st.destination_steps
    if st.printer.delta_segment_count + st.produced_segments ≥ dc.deltaCacheSize then none
    else
      let r := calculate_delta cfg dc dest st.destination_delta_steps
      let pr := st.printer
      let st1 : DeltaSegmentsState :=
        if r.1 ≠ 0 then
          -- Verify that delta calc has a solution
          let t := [0, 1, 2].foldl (deltaTowerStep dc softEndstop)
            { segment := { pr.segments pr.delta_segment_write_pos with dir := 0 },
              destination_delta_steps := r.2,
              currentDeltaPositionSteps := pr.currentDeltaPositionSteps,
              max_axis_move := st.max_axis_move, output := pr.output }
          { st with
            printer := { pr with
              segments := fun j => if j = pr.delta_segment_write_pos then t.segment
                                   else pr.segments j,
              currentDeltaPositionSteps := t.currentDeltaPositionSteps,
              output := t.output },
            destination_steps := dest,
            destination_delta_steps := t.destination_delta_steps,
            max_axis_move := t.max_axis_move }
        else
          -- Illegal position - ignore move
          { st with
            printer := { pr with
              segments := fun j => if j = pr.delta_segment_write_pos then
                                     { dir := 0, deltaSteps :=
                                         (((pr.segments j).deltaSteps.set 0 0).set 1 0).set 2 0 }
                                   else pr.segments j,
              output := pr.output + 1 },
            destination_steps := dest,
            destination_delta_steps := r.2 }
      -- Move to the next segment
      let wp1 := st1.printer.delta_segment_write_pos + 1
      let st2 : DeltaSegmentsState :=
        { st1 with
          printer := { st1.printer with
            delta_segment_write_pos := if wp1 ≥ dc.deltaCacheSize then 0 else wp1 },
          produced_segments := wrapU16 (st1.produced_segments + 1) }
      deltaSegmentsLoop cfg dc softEndstop s st2

/-- The function `calculate_delta_segments(p, softEndstop)` for the line `p` at
`lines_write_pos`: the new state and the returned `max_axis_move`.  The local array
`destination_delta_steps` starts with unspecified contents, taken as zero; it is read only
after `calculate_delta` has written it. -/
def calculate_delta_segments (cfg : Config) (dc : DeltaConfig) (pr : DeltaPrinter)
    (softEndstop : Bool) : Option (DeltaPrinter × Int) :=
  let p := pr.planner.lines_write_pos
  let pr1 : DeltaPrinter :=
    { pr with planner := { pr.planner with
        lines := upd pr.planner.lines p
          (fun l => { l with deltaSegmentReadPos := pr.delta_segment_write_pos }) } }
  match deltaSegmentsLoop cfg dc softEndstop
      (wrapInt ((pr1.planner.lines p).numDeltaSegments : Int)).toNat
      { printer := pr1,
        destination_steps := { pr.currentPositionSteps with e := 0 },
        destination_delta_steps := ⟨0, 0, 0, 0⟩,
        max_axis_move := 0, produced_segments := 0 } with
  | none => none
  | some st =>
    some ({ st.printer with
            delta_segment_count := st.printer.delta_segment_count + st.produced_segments },
          st.max_axis_move)

/-- The function `calculate_distance(axis_diff, dir, distance)`: the returned byte and
`*distance`, which keeps `distance0` when there are no steps to take. -/
def calculate_distance (cfg : Config) (axis_diff : Vec4 ℚ) (dir : Nat) (distance0 : ℚ) :
    Nat × ℚ :=
  if (dir &&& 112) != 0 then
    if (dir &&& 64) != 0 then
      (1, cfg.fsqrt (axis_diff.get 0 * axis_diff.get 0 + axis_diff.get 1 * axis_diff.get 1
        + axis_diff.get 2 * axis_diff.get 2))
    else (1, cfg.fsqrt (axis_diff.get 0 * axis_diff.get 0 + axis_diff.get 1 * axis_diff.get 1))
  else if (dir &&& 128) != 0 then (1, fabs (axis_diff.get 3))
  else (0, distance0)

/-- Modelled from the spec: the call `check_new_move(pathOptimize, waitExtraLines)` of the
delta code, which has no definition among the sources; it is taken as the warm-up insertion
`insertWaitMovesIfNeeded` that `queue_move` calls at the same place. -/
def check_new_move (cfg : Config) (s : Planner) (pathOptimize : Bool) (waitExtraLines : Nat) :
    Planner × Nat :=
  insertWaitMovesIfNeeded cfg s pathOptimize waitExtraLines

/-- The method `PrintLine::queue_E_move(e_diff, check_endstops, pathOptimize)`.  The wait for a
free cache entry has no exit without the stepper interrupt: `none`. -/
def queue_E_move (cfg : Config) (pr : DeltaPrinter) (e_diff : Int)
    (check_endstops pathOptimize : Bool) : Option DeltaPrinter :=
  if pr.planner.lines_count ≥ cfg.moveCacheSize then none
  else
    let pl1 := (check_new_move cfg pr.planner pathOptimize 0).1
    let wp := pl1.lines_write_pos
    let d3 := if e_diff ≥ 0 then e_diff else wrapLong (-e_diff)
    let dir := if e_diff ≥ 0 then 136 else 128
    let d3m := if cfg.extrudeMultiply ≠ 100 then applyExtrudeMultiply cfg d3 else d3
    let axis_diff : Vec4 ℚ := ⟨0, 0, 0, (e_diff : ℚ) * cfg.inv_axis_steps_per_unit.get 3⟩
    let l : PrintLine :=
      { pl1.lines wp with
        flags := ⟨false, false, check_endstops, false⟩,
        joinFlags := ⟨false, false, !pathOptimize⟩,
        dir := dir, delta := ⟨0, 0, 0, d3m⟩, numDeltaSegments := 0, primaryAxis := 3,
        stepsRemaining := d3m, distance := fabs (axis_diff.get 3), moveID := pr.lastMoveID }
    match calculate_move cfg { pl1 with lines := setLine pl1.lines wp l }
        (fun i => axis_diff.get i) pathOptimize with
    | none => none
    | some pl2 =>
      some { pr with
        planner := pl2,
        currentPositionSteps := pr.currentPositionSteps.set 3 (pr.destinationSteps.get 3),
        lastMoveID := wrapByte (pr.lastMoveID + 1) }

/-- The three `int` locals `segment_count`, `num_lines` and `segments_per_line` of
`split_delta_move`. -/
structure SplitCounts where
  segment_count : Int
  num_lines : Int
  segments_per_line : Int
deriving DecidableEq

/-- The lines of `split_delta_move` that derive `num_lines` and `segments_per_line` from
`segment_count`, in `int` arithmetic. -/
def splitLines (dc : DeltaConfig) (segment_count : Int) : SplitCounts :=
  let num_lines := wrapInt (Int.tdiv
    (wrapInt (wrapInt (segment_count + dc.maxDeltaSegmentsPerLine) - 1))
    dc.maxDeltaSegmentsPerLine)
  { segment_count := segment_count, num_lines := num_lines,
    segments_per_line := wrapInt (Int.tdiv segment_count num_lines) }

/-- The block of `split_delta_move` that sets `segment_count`, `num_lines` and
`segments_per_line` from the direction byte, the distance and the deltas of the whole move. -/
def splitCounts (cfg : Config) (dc : DeltaConfig) (save_dir : Nat) (save_distance : ℚ)
    (save_delta : Vec4 Int) : SplitCounts :=
  if (save_dir &&& 48) != 0 then
    -- Compute number of seconds for move and hence number of segments needed
    let seconds : ℚ := 100 * save_distance / (cfg.feedrate * (dc.feedrateMultiply : ℚ))
    let n := wrapInt (truncToLong
      ((if (save_dir &&& 136) == 136 then dc.deltaSegmentsPerSecondPrint
        else dc.deltaSegmentsPerSecondMove) * seconds))
    splitLines dc (if 1 > n then 1 else n)
  else
    -- Optimize pure Z axis move
    splitLines dc (wrapInt (((save_delta.get 2 + 65534) % 4294967296) / 65535))

/-- The state carried around the line loop of `split_delta_move`; `returned` records the early
`return` for a line without motion. -/
structure SplitState where
  printer : DeltaPrinter
  returned : Bool

/-- The array `Printer::destinationSteps` after the first loop of one pass of the line loop of
`split_delta_move`, for line `line_number`. -/
def splitLineDest (c : SplitCounts) (difference start_position : Vec4 Int) (pr : DeltaPrinter)
    (line_number : Int) : Vec4 Int :=
  if c.num_lines = 1 then pr.destinationSteps
  else [0, 1, 2, 3].foldl (fun (d : Vec4 Int) i =>
    d.set i (wrapLong (start_position.get i
      + Int.tdiv (wrapLong (difference.get i * line_number)) c.num_lines)))
    pr.destinationSteps

/-- The local array `fractional_steps` of one pass of the line loop of `split_delta_move`. -/
def splitLineFractional (c : SplitCounts) (difference dest : Vec4 Int) (pr : DeltaPrinter) :
    Vec4 Int :=
  if c.num_lines = 1 then difference
  else ⟨wrapLong (dest.get 0 - pr.currentPositionSteps.get 0),
        wrapLong (dest.get 1 - pr.currentPositionSteps.get 1),
        wrapLong (dest.get 2 - pr.currentPositionSteps.get 2),
        wrapLong (dest.get 3 - pr.currentPositionSteps.get 3)⟩

/-- The local array `axis_diff` of one pass of the line loop of `split_delta_move`. -/
def splitLineAxisDiff (cfg : Config) (c : SplitCounts) (axis_diff0 : Vec4 ℚ)
    (fractional_steps : Vec4 Int) : Vec4 ℚ :=
  if c.num_lines = 1 then axis_diff0
  else ⟨(fractional_steps.get 0 : ℚ) * cfg.inv_axis_steps_per_unit.get 0,
        (fractional_steps.get 1 : ℚ) * cfg.inv_axis_steps_per_unit.get 1,
        (fractional_steps.get 2 : ℚ) * cfg.inv_axis_steps_per_unit.get 2,
        (fractional_steps.get 3 : ℚ) * cfg.inv_axis_steps_per_unit.get 3⟩

/-- The record that one pass of the line loop of `split_delta_move` writes at the write
position before it calls `calculate_delta_segments`. -/
def splitLineRecord (cfg : Config) (check_endstops pathOptimize : Bool) (c : SplitCounts)
    (save_dir : Nat) (save_delta : Vec4 Int) (save_distance : ℚ)
    (fractional_steps : Vec4 Int) (axis_diff : Vec4 ℚ) (pr : DeltaPrinter)
    (line_number : Int) : PrintLine :=
  let l := pr.planner.lines pr.planner.lines_write_pos
  let l1 : PrintLine :=
    if c.num_lines = 1 then
      { l with numDeltaSegments := (c.segment_count % 65536).toNat, dir := save_dir,
               delta := save_delta, distance := save_distance }
    else
      let dd := calculate_dir_delta cfg fractional_steps l.delta
      { l with dir := dd.1, delta := dd.2,
               distance := (calculate_distance cfg axis_diff dd.1 l.distance).2 }
  { l1 with
    joinFlags := ⟨false, false, decide (line_number = c.num_lines) && !pathOptimize⟩,
    moveID := pr.lastMoveID,
    flags := ⟨false, false, check_endstops, false⟩,
    numDeltaSegments := (c.segments_per_line % 65536).toNat }

/-- The part of one pass of the line loop of `split_delta_move` after
`calculate_delta_segments` has returned `max_delta_step`, for the line at cache position
`wp`. -/
def splitLineCommit (cfg : Config) (pathOptimize : Bool) (c : SplitCounts) (wp : Nat)
    (axis_diff : Vec4 ℚ) (fractional_steps : Vec4 Int) (pr2 : DeltaPrinter)
    (max_delta_step : Int) : Option SplitState :=
  let virtual_axis_move := wrapLong (max_delta_step * c.segments_per_line)
  let p := pr2.planner.lines wp
  if virtual_axis_move = 0 ∧ p.delta.get 3 = 0 then
    some { printer := { pr2 with output := if c.num_lines ≠ 1 then pr2.output + 1
                                           else pr2.output },
           returned := true }
  else
    let p1 : PrintLine :=
      if virtual_axis_move > p.delta.get 3 then
        { p with primaryAxis := 4, stepsRemaining := virtual_axis_move,
                 numPrimaryStepPerSegment := max_delta_step }
      else
        let n := Int.tdiv (wrapLong (wrapLong (p.delta.get 3 + c.segments_per_line) - 1))
          c.segments_per_line
        { p with primaryAxis := 4, numPrimaryStepPerSegment := n,
                 stepsRemaining := wrapLong (n * c.segments_per_line) }
    let axis_diff4 : ℚ := (p1.stepsRemaining : ℚ) * cfg.inv_axis_steps_per_unit.get 0
    match calculate_move cfg { pr2.planner with lines := setLine pr2.planner.lines wp p1 }
        (fun i => if i = 4 then axis_diff4 else axis_diff.get i) pathOptimize with
    | none => none
    | some pl =>
      some { printer := { pr2 with
               planner := pl,
               currentPositionSteps :=
                 ⟨wrapLong (pr2.currentPositionSteps.get 0 + fractional_steps.get 0),
                  wrapLong (pr2.currentPositionSteps.get 1 + fractional_steps.get 1),
                  wrapLong (pr2.currentPositionSteps.get 2 + fractional_steps.get 2),
                  wrapLong (pr2.currentPositionSteps.get 3 + fractional_steps.get 3)⟩ },
             returned := false }

/-- One pass of the line loop of `split_delta_move`, for `line_number`: the wait for a free
cache entry (no exit without the stepper interrupt: `none`), the record of the line, the call
of `calculate_delta_segments`, and the commit. -/
def splitLineStep (cfg : Config) (dc : DeltaConfig) (check_endstops pathOptimize softEndstop : Bool)
    (c : SplitCounts) (save_dir : Nat) (save_delta : Vec4 Int) (save_distance : ℚ)
    (difference start_position : Vec4 Int) (axis_diff0 : Vec4 ℚ)
    (pr : DeltaPrinter) (line_number : Int) : Option SplitState :=
  if pr.planner.lines_count ≥ cfg.moveCacheSize then none
  else
    let wp := pr.planner.lines_write_pos
    let dest := splitLineDest c difference start_position pr line_number
    let fractional_steps := splitLineFractional c difference dest pr
    let axis_diff := splitLineAxisDiff cfg c axis_diff0 fractional_steps
    let l2 := splitLineRecord cfg check_endstops pathOptimize c save_dir save_delta
      save_distance fractional_steps axis_diff pr line_number
    let pr1 : DeltaPrinter :=
      { pr with planner := { pr.planner with lines := setLine pr.planner.lines wp l2 },
                destinationSteps := dest }
    match calculate_delta_segments cfg dc pr1 softEndstop with
    | none => none
    | some (pr2, max_delta_step) =>
      splitLineCommit cfg pathOptimize c wp axis_diff fractional_steps pr2 max_delta_step

/-- The line loop of `split_delta_move`: `n` lines to go, the next one being `line_number`. -/
def splitLineLoop (cfg : Config) (dc : DeltaConfig) (check_endstops pathOptimize softEndstop : Bool)
    (c : SplitCounts) (save_dir : Nat) (save_delta : Vec4 Int) (save_distance : ℚ)
    (difference start_position : Vec4 Int) (axis_diff0 : Vec4 ℚ) :
    Nat → Int → DeltaPrinter → Option SplitState
  | 0, _, pr => some { printer := pr, returned := false }
  | n + 1, line_number, pr =>
    match splitLineStep cfg dc check_endstops pathOptimize softEndstop c save_dir save_delta
        save_distance difference start_position axis_diff0 pr line_number with
    | none => none
    | some st =>
      if st.returned then some st
      else splitLineLoop cfg dc check_endstops pathOptimize softEndstop c save_dir save_delta
        save_distance difference start_position axis_diff0 n (line_number + 1) st.printer

/-- The method `PrintLine::split_delta_move(check_endstops, pathOptimize, softEndstop)`.  A wait
that has no exit without the stepper interrupt gives `none`. -/
def split_delta_move (cfg : Config) (dc : DeltaConfig) (pr : DeltaPrinter)
    (check_endstops pathOptimize softEndstop : Bool) : Option DeltaPrinter :=
  let pr0 : DeltaPrinter :=
    if softEndstop ∧ pr.destinationSteps.get 2 < 0 then
      { pr with destinationSteps := pr.destinationSteps.set 2 0 }
    else pr
  let difference : Vec4 Int :=
    ⟨wrapLong (pr0.destinationSteps.get 0 - pr0.currentPositionSteps.get 0),
     wrapLong (pr0.destinationSteps.get 1 - pr0.currentPositionSteps.get 1),
     wrapLong (pr0.destinationSteps.get 2 - pr0.currentPositionSteps.get 2),
     wrapLong (pr0.destinationSteps.get 3 - pr0.currentPositionSteps.get 3)⟩
  let axis_diff : Vec4 ℚ :=
    ⟨(difference.get 0 : ℚ) * cfg.inv_axis_steps_per_unit.get 0,
     (difference.get 1 : ℚ) * cfg.inv_axis_steps_per_unit.get 1,
     (difference.get 2 : ℚ) * cfg.inv_axis_steps_per_unit.get 2,
     (difference.get 3 : ℚ) * cfg.inv_axis_steps_per_unit.get 3⟩
  let pr1 : DeltaPrinter := { pr0 with filamentPrinted := pr0.filamentPrinted + axis_diff.get 3 }
  let save := calculate_dir_delta cfg difference ⟨0, 0, 0, 0⟩
  let dist := calculate_distance cfg axis_diff save.1 0
  if dist.1 = 0 then some pr1
  else if (save.1 &&& 112) == 0 then
    queue_E_move cfg pr1 (difference.get 3) check_endstops pathOptimize
  else
    let c := splitCounts cfg dc save.1 dist.2 save.2
    let start_position := pr1.currentPositionSteps
    if pr1.planner.lines_count ≥ cfg.moveCacheSize then none
    else
      -- Insert dummy moves if necessary
      let extra : Int :=
        if ((cfg.moveCacheSize : Int) - 4) < c.num_lines - 1 then (cfg.moveCacheSize : Int) - 4
        else c.num_lines - 1
      let pl := (check_new_move cfg pr1.planner pathOptimize (extra % 256).toNat).1
      match splitLineLoop cfg dc check_endstops pathOptimize softEndstop c save.1 save.2 dist.2
          difference start_position axis_diff c.num_lines.toNat 1 { pr1 with planner := pl } with
      | none => none
      | some st =>
        if st.returned then some st.printer
        else some { st.printer with lastMoveID := wrapByte (st.printer.lastMoveID + 1) }

/-! ## Queueing a move on a Cartesian or gantry build, with backlash compensation -/

/-- Settings read by `queue_move` that live outside the sources: the build switch
`ENABLE_BACKLASH_COMPENSATION`, the backlash distances `printer.backlashX/Y/Z` in mm, and the
map that `Printer::constrainDestinationCoords()` applies to `Printer::destinationSteps`.  They
are parameters of the embedding. -/
structure MoveSettings where
  enableBacklashCompensation : Bool
  backlashX : ℚ
  backlashY : ℚ
  backlashZ : ℚ
  constrainDestinationCoords : Vec4 Int → Vec4 Int

/-- The state that `queue_move` reads and writes: the move cache, the positions kept in
`Printer`, the filament counter and the byte `printer.backlashDir` (bits 0 to 2: the last
direction of X, Y, Z; bits 3 to 5: the axes with backlash compensation). -/
structure CartesianPrinter where
  planner : Planner
  currentPositionSteps : Vec4 Int
  destinationSteps : Vec4 Int
  filamentPrinted : ℚ
  backlashDir : Nat

/-- The local array `back_diff` of the backlash block of `queue_move`, for the segment
direction byte `dir`. -/
def backlashDiff (ms : MoveSettings) (backlashDir dir : Nat) : Vec4 ℚ :=
  let changed := (dir &&& 7) ^^^ (backlashDir &&& 7)
  ⟨if changed &&& 1 ≠ 0 then (if dir &&& 1 ≠ 0 then ms.backlashX else -ms.backlashX) else 0,
   if changed &&& 2 ≠ 0 then (if dir &&& 2 ≠ 0 then ms.backlashY else -ms.backlashY) else 0,
   if changed &&& 4 ≠ 0 then (if dir &&& 4 ≠ 0 then ms.backlashZ else -ms.backlashZ) else 0,
   0⟩

/-- One pass of the loop of the backlash block for axis `i`:
`float f = back_diff[i]*axis_steps_per_unit[i]; p->delta[i] = abs((long)f);
if(p->delta[i]) p->dir |= 16<<i;` with the Arduino macro `abs(x)`, `((x)>0?(x):-(x))`. -/
def backlashStep (cfg : Config) (back_diff : Vec4 ℚ) (st : Nat × Vec4 Int) (i : Nat) :
    Nat × Vec4 Int :=
  let f : ℚ := back_diff.get i * cfg.axis_steps_per_unit.get i
  let t : Int := truncToLong f
  let d : Int := if t > 0 then t else -t
  (if d ≠ 0 then wrapByte (st.1 ||| (16 <<< i)) else st.1, st.2.set i d)

/-- The backlash block of `queue_move` up to the call of `calculate_move`, on the record `l`
of the new move: the prologue segment that replaces it in the write slot. -/
def backlashPrologue (cfg : Config) (ms : MoveSettings) (backlashDir : Nat) (l : PrintLine) :
    PrintLine :=
  let back_diff := backlashDiff ms backlashDir l.dir
  -- x,y and z are already correct
  let r := [0, 1, 2, 3].foldl (backlashStep cfg back_diff) (l.dir &&& 7, l.delta)
  let primaryAxis : Nat :=
    if r.2.get 1 > r.2.get 0 ∧ r.2.get 1 > r.2.get 2 then 1
    else if r.2.get 0 > r.2.get 2 then 0
    else 2
  let xydist2 : ℚ := back_diff.get 0 * back_diff.get 0 + back_diff.get 1 * back_diff.get 1
  let distance : ℚ :=
    if r.1 &&& 64 ≠ 0 then cfg.fsqrt (xydist2 + back_diff.get 2 * back_diff.get 2)
    else cfg.fsqrt xydist2
  { l with dir := r.1, delta := r.2, primaryAxis := primaryAxis,
           stepsRemaining := r.2.get primaryAxis, distance := distance }

/-- The part of `queue_move` from the warm-up insertion through the direction loop: the state
with the record at `lines_write_pos` written (flags, join flags, `dir`, `delta`), the local
`axis_diff` and the local `newPath`. -/
def queueMoveStart (cfg : Config) (ms : MoveSettings) (pr : CartesianPrinter)
    (check_endstops pathOptimize : Bool) : CartesianPrinter × Vec4 ℚ × Nat :=
  let np := insertWaitMovesIfNeeded cfg pr.planner pathOptimize 0
  let pl1 := np.1
  let wp := pl1.lines_write_pos
  let destinationSteps := ms.constrainDestinationCoords pr.destinationSteps
  -- Find direction
  let dd := queueMoveDirDelta cfg destinationSteps pr.currentPositionSteps
    (pl1.lines wp).delta ⟨0, 0, 0, 0⟩
  let l1 : PrintLine :=
    { pl1.lines wp with
      flags := ⟨false, false, check_endstops, false⟩,
      joinFlags := ⟨false, false, !pathOptimize⟩,
      dir := dd.dir, delta := dd.delta }
  ({ pr with
      planner := { pl1 with lines := setLine pl1.lines wp l1 },
      destinationSteps := destinationSteps,
      currentPositionSteps := dd.currentPositionSteps,
      filamentPrinted :=
        if cfg.driveSystem = 0 ∨ cfg.newXYGantry then pr.filamentPrinted + dd.axis_diff.get 3
        else pr.filamentPrinted },
    dd.axis_diff, np.2)

/-- The backlash block of `queue_move`, entered when backlash has to be compensated: wait for
a second free entry (no exit without the stepper interrupt: `none`), copy the record of the
move to the next slot, turn the record in the write slot into the prologue and queue it with
`p->calculate_move(back_diff,false,pathOptimize)`, whose second argument is never read. -/
def queueMoveBacklash (cfg : Config) (ms : MoveSettings) (pr1 : CartesianPrinter)
    (pathOptimize : Bool) : Option CartesianPrinter :=
  let wp := pr1.planner.lines_write_pos
  if pr1.planner.lines_count + 1 ≥ cfg.moveCacheSize then none
  else
    let wpos2 : Nat := if wrapByte (wp + 1) ≥ cfg.moveCacheSize then 0 else wrapByte (wp + 1)
    -- Move current data to p2
    let lsA := setLine pr1.planner.lines wpos2 (pr1.planner.lines wp)
    let back_diff := backlashDiff ms pr1.backlashDir (lsA wp).dir
    let lsB := setLine lsA wp (backlashPrologue cfg ms pr1.backlashDir (lsA wp))
    let backlashDir := wrapByte ((pr1.backlashDir &&& 56) ||| ((lsB wpos2).dir &&& 7))
    match calculate_move cfg { pr1.planner with lines := lsB } (fun i => back_diff.get i)
        pathOptimize with
    | none => none
    | some pl2 => some { pr1 with planner := pl2, backlashDir := backlashDir }

/-- The end of `queue_move`: primary axis, steps and distance of the move in the write slot,
then `p->calculate_move(axis_diff,check_endstops,pathOptimize)`. -/
def queueMoveFinish (cfg : Config) (pr2 : CartesianPrinter) (axis_diff : Vec4 ℚ)
    (pathOptimize : Bool) : Option CartesianPrinter :=
  let q := pr2.planner.lines_write_pos
  let l2 := setPrimaryAxis (pr2.planner.lines q)
  match queueMoveDistance cfg l2.dir axis_diff with
  | none =>
    -- no steps to take, we are finished
    some { pr2 with planner := { pr2.planner with lines := setLine pr2.planner.lines q l2 } }
  | some distance =>
    match calculate_move cfg
        { pr2.planner with
          lines := setLine pr2.planner.lines q { l2 with distance := distance } }
        (fun i => axis_diff.get i) pathOptimize with
    | none => none
    | some pl3 => some { pr2 with planner := pl3 }

/-- The method `PrintLine::queue_move(check_endstops, pathOptimize)` of the builds with
`DRIVE_SYSTEM != 3`.  The wait for a free cache entry has no exit without the stepper
interrupt: `none`.  `calculate_move` works on the record at `lines_write_pos`, which is the
slot `p` of `queue_move` at both calls for a write position inside the ring. -/
def queue_move (cfg : Config) (ms : MoveSettings) (pr : CartesianPrinter)
    (check_endstops pathOptimize : Bool) : Option CartesianPrinter :=
  if pr.planner.lines_count ≥ cfg.moveCacheSize then none
  else
    let st := queueMoveStart cfg ms pr check_endstops pathOptimize
    let pr1 := st.1
    let dir := (pr1.planner.lines pr1.planner.lines_write_pos).dir
    if dir &&& 240 = 0 then
      -- No steps included
      if st.2.2 ≠ 0 then
        -- need to delete dummy elements, otherwise commands can get locked.
        some { pr1 with
          planner := { pr1.planner with
            lines_count := 0, lines_pos := pr1.planner.lines_write_pos } }
      else some pr1
    else
      let prologue : Option CartesianPrinter :=
        if ms.enableBacklashCompensation ∧ dir &&& 112 ≠ 0
            ∧ ((dir &&& 7) ^^^ (pr1.backlashDir &&& 7)) &&& (pr1.backlashDir >>> 3) ≠ 0 then
          -- We need to compensate backlash, add a move
          queueMoveBacklash cfg ms pr1 pathOptimize
        else some pr1
      match prologue with
      | none => none
      | some pr2 => queueMoveFinish cfg pr2 st.2.1 pathOptimize

/-! ## Sample values

A concrete configuration and a concrete square root, used to run the definitions on explicit
inputs. -/

/-- Integer square root by bisection on the binary digits: with `k` digits to go and the
digits found so far in `r`, the largest `c` between `r` and `r + 2^k - 1` with `c * c ≤ n`. -/
def isqrtAux (n : Nat) : Nat → Nat → Nat
  | 0, r => r
  | k + 1, r => if (r + 2 ^ k) * (r + 2 ^ k) ≤ n then isqrtAux n k (r + 2 ^ k) else isqrtAux n k r

/-- A square root on the rationals with ten binary digits after the point, rounded down; a
stand-in for the float `sqrt`, exact on the squares of such numbers. -/
def fixedPointSqrt (q : ℚ) : ℚ := (isqrtAux (⌊q * 1048576⌋.toNat) 40 0 : ℚ) / 1024

/-- A Cartesian printer with 80 steps per mm on every axis, 16 MHz timer clock, XY jerk
20 mm/s and advance switched off; its `float` conversion and addition do not round (which is
what the `float` operations do on whole numbers below `2^24`). -/
def sampleConfig : Config :=
  { driveSystem := 0, newXYGantry := false, useAdvance := false, quadraticAdvance := false,
    advanceActivated := false, moveCacheSize := 16, moveCacheLow := 10,
    lowTicksPerMove := 250000, maxHalfstepInterval := 1999, fCpu := 16000000, feedrate := 60,
    maxJerk := 20, maxZJerk := 3 / 10, minimumSpeed := 1, extrudeMultiply := 100,
    maxStartFeedrate := 10, max_feedrate := ⟨200, 200, 5, 100⟩,
    axis_steps_per_sqr_second := ⟨5000, 100, 100, 100⟩,
    axis_travel_steps_per_sqr_second := ⟨5000, 100, 100, 100⟩,
    inv_axis_steps_per_unit := ⟨1 / 80, 1 / 80, 1 / 80, 1 / 80⟩,
    axis_steps_per_unit := ⟨80, 80, 80, 80⟩, extruderAdvanceL := 0, extruderAdvanceK := 0,
    fsqrt := fixedPointSqrt, floatOfLong := fun z => (z : ℚ), floatAdd := fun a b => a + b }

/-- A one-step segment entered at 100/59 mm/s and left at 10 mm/s, full speed 60 mm/s,
5120 steps/s peak rate, 80000 steps/s² (values taken from a planned queue). -/
def shortSegment : PrintLine :=
  { PrintLine.zero with
    dir := 45, startSpeed := 100 / 59, endSpeed := 10, fullSpeed := 60, invFullSpeed := 1 / 60,
    vMax := 5120, accelerationPrim := 80000, stepsRemaining := 1,
    delta := ⟨0, 1, 0, 0⟩, primaryAxis := 1 }

/-- Two XY segments meeting in a reversal: `lines 0` runs in +X at 100 mm/s, `lines 1` in -X
at 20 mm/s; neither moves Z or E. -/
def reversalLines : Lines := fun i =>
  if i = 0 then
    { PrintLine.zero with dir := 63, speedX := 100, fullSpeed := 100, invFullSpeed := 1 / 100,
                          delta := ⟨8000, 0, 0, 0⟩, stepsRemaining := 8000 }
  else
    { PrintLine.zero with dir := 62, speedX := -20, fullSpeed := 20, invFullSpeed := 1 / 20,
                          delta := ⟨8000, 0, 0, 0⟩, stepsRemaining := 8000 }

/-- A travel move of 400 steps in +X and 300 steps in +Y (5 mm and 3.75 mm, 6.25 mm long), as
`queue_move` hands it to `calculate_move`. -/
def diagonalMove : PrintLine :=
  { PrintLine.zero with dir := 63, delta := ⟨400, 300, 0, 0⟩, primaryAxis := 0,
                        stepsRemaining := 400, distance := 25 / 4 }

/-- The array `axis_diff` of `diagonalMove`, in mm. -/
def diagonalDiff : Nat → ℚ := fun i => (⟨5, 15 / 4, 0, 0⟩ : Vec4 ℚ).get i

/-- An empty move cache of cleared records, shortly after the last move was queued:
`waitRelax` still holds 70. -/
def relaxingPlanner : Planner :=
  { lines := fun _ => PrintLine.zero, lines_write_pos := 0, lines_count := 0, lines_pos := 0,
    waitRelax := 70 }

/-- An empty move cache of cleared records after a long pause: `waitRelax` has run down to 0. -/
def idlePlanner : Planner :=
  { lines := fun _ => PrintLine.zero, lines_write_pos := 0, lines_count := 0, lines_pos := 0,
    waitRelax := 0 }

/-- A printer whose extruder may start at 30 mm/s, otherwise `sampleConfig`. -/
def fastExtruderConfig : Config := { sampleConfig with maxStartFeedrate := 30 }

/-- A pure retraction: only the extruder moves, backwards, at 40 mm/s. -/
def retraction : PrintLine :=
  { PrintLine.zero with dir := 135, delta := ⟨0, 0, 0, 320⟩, primaryAxis := 3,
                        stepsRemaining := 320, distance := 4, speedE := -40, fullSpeed := 40,
                        invFullSpeed := 1 / 40 }

/-- A printer with 800 steps per mm on every axis, driven at a feedrate of 150 mm/s; otherwise
`sampleConfig` (16 MHz timer clock). -/
def fineStepConfig : Config :=
  { sampleConfig with
    feedrate := 150,
    inv_axis_steps_per_unit := ⟨1 / 800, 1 / 800, 1 / 800, 1 / 800⟩,
    axis_steps_per_unit := ⟨800, 800, 800, 800⟩ }

/-- A travel move of 8000 steps (10 mm) in +X on `fineStepConfig`, as `queue_move` hands it to
`calculate_move`. -/
def fastMove : PrintLine :=
  { PrintLine.zero with dir := 31, delta := ⟨8000, 0, 0, 0⟩, primaryAxis := 0,
                        stepsRemaining := 8000, distance := 10 }

/-- The array `axis_diff` of `fastMove`, in mm. -/
def fastDiff : Nat → ℚ := fun i => (⟨10, 0, 0, 0⟩ : Vec4 ℚ).get i

/-- A segment of 1000 steps started from rest and left at its full speed of 50 mm/s, peak rate
100 steps/s, 3000 steps/s²; parameters not up to date. -/
def standingStart : PrintLine :=
  { PrintLine.zero with
    dir := 31, startSpeed := 0, endSpeed := 50, fullSpeed := 50, invFullSpeed := 1 / 50,
    vMax := 100, accelerationPrim := 3000, stepsRemaining := 1000,
    delta := ⟨1000, 0, 0, 0⟩, primaryAxis := 0 }

/-- A segment of 2 steps entered and left at its full speed of 50 mm/s, peak rate 100 steps/s,
3000 steps/s²; parameters not up to date. -/
def cruiseSegment : PrintLine :=
  { PrintLine.zero with
    dir := 31, startSpeed := 50, endSpeed := 50, fullSpeed := 50, invFullSpeed := 1 / 50,
    vMax := 100, accelerationPrim := 3000, stepsRemaining := 2,
    delta := ⟨2, 0, 0, 0⟩, primaryAxis := 0 }

/-- A delta printer: `sampleConfig` with `DRIVE_SYSTEM` 3 and a feedrate of 30 mm/s. -/
def deltaPrinterConfig : Config := { sampleConfig with driveSystem := 3, feedrate := 30 }

/-- Delta constants: diagonal rods of 20000 steps, towers on a circle of 10000 steps radius
(towers 1 and 2 at the same Y), 64 delta segment cache entries, at most 22 delta segments per
line, 80 segments per second for travel and 180 for printing. -/
def sampleDelta : DeltaConfig :=
  { diagonalRodStepsSquared := 400000000,
    tower1X := -8660, tower1Y := -5000, tower2X := 8660, tower3X := 0, tower3Y := 10000,
    deltaCacheSize := 64, maxDeltaSegmentsPerLine := 22,
    deltaSegmentsPerSecondPrint := 180, deltaSegmentsPerSecondMove := 80,
    feedrateMultiply := 100, maxDeltaPositionSteps := 40000 }

/-- A delta printer at rest in the centre of the bed with empty caches: the effector at
`(0, 0, 0)`, the towers at the matching heights 17320, 17320 and 17320. -/
def deltaAtRest : DeltaPrinter :=
  { planner := idlePlanner,
    segments := fun _ => { dir := 0, deltaSteps := ⟨0, 0, 0, 0⟩ },
    delta_segment_write_pos := 0, delta_segment_count := 0,
    currentPositionSteps := ⟨0, 0, 0, 0⟩, destinationSteps := ⟨0, 0, 0, 0⟩,
    currentDeltaPositionSteps := ⟨17320, 17320, 17320, 0⟩,
    filamentPrinted := 0, lastMoveID := 0, output := 0 }

/-- A delta printer resting at the rim of the reachable area, `(10700, 0, 0)`, and sent 50 mm
further out to `(14700, 0, 0)`: no point of the way beyond 10704 has a tower solution. -/
def atRim : DeltaPrinter :=
  { deltaAtRest with
    currentPositionSteps := ⟨10700, 0, 0, 0⟩, destinationSteps := ⟨14700, 0, 0, 0⟩,
    currentDeltaPositionSteps := ⟨436, 19257, 13620, 0⟩ }

/-- The first of the two lines of a pure Z move of `23 * 65535` steps from rest, as
`split_delta_move` hands it to `calculate_delta_segments`: target `1507305 * 1 / 2`, 11 delta
segments. -/
def pureZLine : DeltaPrinter :=
  { deltaAtRest with
    destinationSteps := ⟨0, 0, 753652, 0⟩,
    planner := { idlePlanner with
      lines := fun _ => { PrintLine.zero with numDeltaSegments := 11 } } }

/-- A configuration whose square root is the integer square root of the integer part. -/
def integerSqrtConfig : Config :=
  { deltaPrinterConfig with fsqrt := fun q => (Nat.sqrt ⌊q⌋.toNat : ℚ) }

/-- The number of binary digits by which a natural number exceeds 24 digits. -/
def floatShift : Nat → Nat → Nat
  | 0, _ => 0
  | fuel + 1, n => if n < 16777216 then 0 else floatShift fuel (n / 2) + 1

/-- The nearest natural number with a significand of 24 binary digits, ties to the even
significand, for a number below `2^56`. -/
def roundToFloat (n : Nat) : Nat :=
  if 2 ^ floatShift 32 n < 2 * (n % 2 ^ floatShift 32 n)
      ∨ (2 ^ floatShift 32 n = 2 * (n % 2 ^ floatShift 32 n)
          ∧ n / 2 ^ floatShift 32 n % 2 = 1) then
    (n / 2 ^ floatShift 32 n + 1) * 2 ^ floatShift 32 n
  else n / 2 ^ floatShift 32 n * 2 ^ floatShift 32 n

/-- The conversion of a `long` to the nearest `float`. -/
def floatOfLongNearest (z : Int) : ℚ :=
  if 0 ≤ z then (roundToFloat z.toNat : ℚ) else -(roundToFloat (-z).toNat : ℚ)

/-- The delta printer with a `long` to `float` conversion that rounds to 24 bits. -/
def roundingDeltaConfig : Config :=
  { deltaPrinterConfig with floatOfLong := floatOfLongNearest }

/-- An idle planner whose write slot holds the travel move `diagonalMove`, ready for
`calculate_move`. -/
def diagonalQueued : Planner := { idlePlanner with lines := fun _ => diagonalMove }

/-- A travel move of 40 steps (0.5 mm) in +X, as `queue_move` hands it to `calculate_move`. -/
def shortMove : PrintLine :=
  { PrintLine.zero with dir := 31, delta := ⟨40, 0, 0, 0⟩, primaryAxis := 0,
                        stepsRemaining := 40, distance := 1 / 2 }

/-- The array `axis_diff` of `shortMove`, in mm. -/
def shortDiff : Nat → ℚ := fun i => (⟨1 / 2, 0, 0, 0⟩ : Vec4 ℚ).get i

/-- An idle planner whose write slot holds `shortMove`. -/
def shortQueued : Planner := { idlePlanner with lines := fun _ => shortMove }

/-- A pure retraction at cache position 0 (end speed 2 mm/s, junction limit 5 mm/s) followed
by an XY move at position 1 (start speed 10 mm/s, end speed 10 mm/s, full speed 100 mm/s,
`acceleration = 300`); no speed is fixed. -/
def retractThenMove : Lines := fun i =>
  if i = 0 then
    { retraction with startSpeed := 2, endSpeed := 2, maxJunctionSpeed := 5 }
  else
    { PrintLine.zero with dir := 63, speedX := 100, fullSpeed := 100, invFullSpeed := 1 / 100,
                          delta := ⟨8000, 0, 0, 0⟩, stepsRemaining := 8000,
                          startSpeed := 10, endSpeed := 10, acceleration := 300 }

/-- A printer with four cache slots, otherwise `sampleConfig`. -/
def smallCacheConfig : Config := { sampleConfig with moveCacheSize := 4 }

/-- An empty four-slot cache at write position 0 whose slot 2 still holds the stale record
`shortSegment`; the other slots are cleared. -/
def staleSlotPlanner : Planner :=
  { lines := fun i => if i = 2 then shortSegment else PrintLine.zero,
    lines_write_pos := 0, lines_count := 0, lines_pos := 0, waitRelax := 0 }

/-- A four-slot cache with one committed line: slot 0 holds a +X move at 100 mm/s that ends at
its safe speed of 10 mm/s with the end speed fixed, slot 1 is the new line, a +X move at
5 mm/s with start and end speed 5 mm/s. -/
def slowAfterFastPlanner : Planner :=
  { lines := fun i =>
      if i = 0 then
        { PrintLine.zero with dir := 17, speedX := 100, fullSpeed := 100,
                              invFullSpeed := 1 / 100, delta := ⟨8000, 0, 0, 0⟩,
                              stepsRemaining := 8000, timeInTicks := 16000000,
                              startSpeed := 10, endSpeed := 10,
                              joinFlags := ⟨false, true, true⟩ }
      else if i = 1 then
        { PrintLine.zero with dir := 17, speedX := 5, fullSpeed := 5, invFullSpeed := 1 / 5,
                              delta := ⟨8000, 0, 0, 0⟩, stepsRemaining := 8000,
                              timeInTicks := 320000000, startSpeed := 5, endSpeed := 5 }
      else PrintLine.zero,
    lines_write_pos := 1, lines_count := 1, lines_pos := 0, waitRelax := 0 }

/-- A four-slot cache with three committed +X moves at 100 mm/s in slots 0 to 2 (each one second
long, start and end speed 10 mm/s, nothing fixed) and the new line, another such move, in
slot 3. -/
def queuedRunPlanner : Planner :=
  { lines := fun _ =>
      { PrintLine.zero with dir := 17, speedX := 100, fullSpeed := 100,
                            invFullSpeed := 1 / 100, delta := ⟨8000, 0, 0, 0⟩,
                            stepsRemaining := 8000, timeInTicks := 16000000,
                            startSpeed := 10, endSpeed := 10, acceleration := 300 },
    lines_write_pos := 3, lines_count := 3, lines_pos := 0, waitRelax := 0 }

/-- Backlash compensation switched on, with 0.05 mm of backlash on X and none on Y and Z; the
destination is not constrained. -/
def backlashSettings : MoveSettings :=
  { enableBacklashCompensation := true, backlashX := 1 / 20, backlashY := 0, backlashZ := 0,
    constrainDestinationCoords := fun d => d }

/-- A printer at the origin with an empty cache (`waitRelax` still 70), asked to go 400 steps
in +X; X is the axis with backlash compensation (bit 3 of `backlashDir`) and its last
direction was negative (bit 0 clear). -/
def reversingPrinter : CartesianPrinter :=
  { planner := relaxingPlanner, currentPositionSteps := ⟨0, 0, 0, 0⟩,
    destinationSteps := ⟨400, 0, 0, 0⟩, filamentPrinted := 0, backlashDir := 8 }

/-- A delta printer with four cache slots, otherwise `deltaPrinterConfig`. -/
def smallDeltaConfig : Config := { deltaPrinterConfig with moveCacheSize := 4 }

/-- A delta printer at rest in the centre of the bed, shortly after its last move
(`waitRelax` still 70, `lastMoveID` 5), sent 1000 steps (12.5 mm) in +X: a travel move of 33
sub-segments, split into two lines of 16. -/
def twoLineMove : DeltaPrinter :=
  { deltaAtRest with destinationSteps := ⟨1000, 0, 0, 0⟩, planner := relaxingPlanner,
                     lastMoveID := 5 }

/-- One pass of a direction loop on the byte `dir`: bit `i` is set when the sign test `s`
holds, bit `4 + i` when the magnitude test `n` holds. -/
def dirBits (i : Nat) (s n : Bool) (dir : Nat) : Nat :=
  let dir1 := if s then wrapByte (dir ||| (1 <<< i)) else dir
  if n then wrapByte (dir1 ||| (16 <<< i)) else dir1

/-- The factor of the junction speed in the words of the specification: the minimum of 1,
`maxJerk / jerkXY` when the XY jerk exceeds `maxJerk`, `maxZJerk / |dvz|` when a Z move is
involved and `|dvz|` exceeds `maxZJerk`, and `maxStartFeedrate / |dve|` when `|dve|` exceeds
`maxStartFeedrate`. -/
def specJunctionFactor (cfg : Config) (previous current : PrintLine) : ℚ :=
  let jerkXY := cfg.fsqrt ((current.speedX - previous.speedX) * (current.speedX - previous.speedX)
    + (current.speedY - previous.speedY) * (current.speedY - previous.speedY))
  let dvz := |current.speedZ - previous.speedZ|
  let dve := |current.speedE - previous.speedE|
  let a : ℚ := if jerkXY > cfg.maxJerk then cfg.maxJerk / jerkXY else 1
  let b : ℚ :=
    if (previous.isZMove = true ∨ current.isZMove = true) ∧ dvz > cfg.maxZJerk then
      cfg.maxZJerk / dvz
    else 1
  let c : ℚ := if dve > cfg.maxStartFeedrate then cfg.maxStartFeedrate / dve else 1
  min 1 (min a (min b c))

/-- The ramp length that `updateStepsParameter` computes before the plateau clamp, for the peak
rate `vMax` and the entry or exit rate `v`:
`((vmax2 - U16SquaredToU32(v)) / (accelerationPrim << 1)) + 1` in `unsigned long` arithmetic,
stored in an `unsigned int`. -/
def rampSteps (vMax v accelerationPrim : Nat) : Nat :=
  wrapU16 (wrapU32 (wrapU32 (U16SquaredToU32 vMax + 4294967296 - U16SquaredToU32 v)
    / wrapU32 (accelerationPrim <<< 1) + 1))

/-- The local `red` of `updateStepsParameter` for the ramp lengths `a` and `d`:
`(accelSteps + decelSteps + 2 - stepsRemaining) >> 1`, stored in an `unsigned int`. -/
def plateauReduction (a d : Nat) (stepsRemaining : Int) : Nat :=
  (((((wrapU16 (wrapU16 (a + d) + 2) : Nat) : Int) - stepsRemaining) / 2) % 65536).toNat

/-- The discriminant of tower `i` (0, 1, 2) at a Cartesian position, as `calculate_delta` forms
it: `L² - (x_i - x)² - (y_i - y)²`, with the Y coordinate of tower 1 also for tower 2. -/
def towerDiscriminant (dc : DeltaConfig) (cartesianPosSteps : Vec4 Int) (i : Nat) : Int :=
  if i = 0 then
    dc.diagonalRodStepsSquared
      - (dc.tower1X - cartesianPosSteps.get 0) * (dc.tower1X - cartesianPosSteps.get 0)
      - (dc.tower1Y - cartesianPosSteps.get 1) * (dc.tower1Y - cartesianPosSteps.get 1)
  else if i = 1 then
    dc.diagonalRodStepsSquared
      - (dc.tower2X - cartesianPosSteps.get 0) * (dc.tower2X - cartesianPosSteps.get 0)
      - (dc.tower1Y - cartesianPosSteps.get 1) * (dc.tower1Y - cartesianPosSteps.get 1)
  else
    dc.diagonalRodStepsSquared
      - (dc.tower3X - cartesianPosSteps.get 0) * (dc.tower3X - cartesianPosSteps.get 0)
      - (dc.tower3Y - cartesianPosSteps.get 1) * (dc.tower3Y - cartesianPosSteps.get 1)

/-- The number of `NEXT_PLANNER_INDEX` steps that lead from cache position `a` to `b`. -/
def ringDistance (cfg : Config) (a b : Nat) : Nat :=
  if a ≤ b then b - a else b + cfg.moveCacheSize - a

/-- The effect of the materialise walk on one visited line: `updateStepsParameter()` followed
by `unblock()`. -/
def materialise (cfg : Config) (l : PrintLine) : PrintLine :=
  (updateStepsParameter cfg l).unblock

/-- The cache of `updateTrapezoids(p)` after its junction stage when the planning window is the
new line alone (`first = p`): the line `p` is blocked, then either `computeMaxJunctionSpeed` runs
on the junction before `p` or the start speed of `p` is fixed. -/
def junctionStage (cfg : Config) (s : Planner) (p : Nat) : Lines :=
  if s.lines_count ≠ 0 ∧ !(upd s.lines p PrintLine.block (previdxOf cfg p)).isWarmUp then
    computeMaxJunctionSpeed cfg (upd s.lines p PrintLine.block) (previdxOf cfg p) p
  else upd (upd s.lines p PrintLine.block) p PrintLine.setStartSpeedFixed

/-- The value that `computeMaxJunctionSpeed` assigns to `previous->maxJunctionSpeed` outside
its warm-up and advance branches: the smaller full speed inside a split delta move, and
otherwise the full speed of `previous` scaled by the jerk factors and capped by the full speed
of `current`. -/
def junctionLimit (cfg : Config) (previous current : PrintLine) : ℚ :=
  if cfg.driveSystem = 3 && previous.moveID = current.moveID then
    if previous.fullSpeed > current.fullSpeed then current.fullSpeed else previous.fullSpeed
  else
    let dx := current.speedX - previous.speedX
    let dy := current.speedY - previous.speedY
    let jerk :=
      if cfg.driveSystem = 3 then
        let dz := current.speedZ - previous.speedZ
        cfg.fsqrt (dx * dx + dy * dy + dz * dz)
      else cfg.fsqrt (dx * dx + dy * dy)
    let factor0 : ℚ := if jerk > cfg.maxJerk then cfg.maxJerk / jerk else 1
    let factor1 : ℚ :=
      if cfg.driveSystem ≠ 3 && ((previous.dir &&& 64) != 0 || (current.dir &&& 64) != 0) then
        let dz := fabs (current.speedZ - previous.speedZ)
        if dz > cfg.maxZJerk then
          let tmp := cfg.maxZJerk / dz
          if tmp < factor0 then tmp else factor0
        else factor0
      else factor0
    let eJerk := fabs (current.speedE - previous.speedE)
    let factor2 : ℚ :=
      if eJerk > cfg.maxStartFeedrate then
        let tmp := cfg.maxStartFeedrate / eJerk
        if tmp < factor1 then tmp else factor1
      else factor1
    let mjs := previous.fullSpeed * factor2
    if mjs > current.fullSpeed then current.fullSpeed else mjs

/-- The test of the advance branch of `computeMaxJunctionSpeed`: advance is active, one of the
two segments moves the extruder and the other does not, and one of them moves X or Y. -/
def advanceSwitch (cfg : Config) (previous current : PrintLine) : Bool :=
  cfg.useAdvance && cfg.advanceActivated
    && ((previous.dir &&& 128) != (current.dir &&& 128))
    && ((previous.dir &&& 48) != 0 || (current.dir &&& 48) != 0)

/-- The record that the junction stage of `updateTrapezoids` leaves in the line before the new
one, from the records `a` before and `b` at the new line. -/
def junctionPrev (cfg : Config) (count : Nat) (a b : PrintLine) : PrintLine :=
  if count ≠ 0 ∧ !a.isWarmUp then
    if advanceSwitch cfg a b then
      { a with joinFlags := { a.joinFlags with endFixed := true, stepParamsComputed := false },
               maxJunctionSpeed := min a.endSpeed b.startSpeed,
               endSpeed := min a.endSpeed b.startSpeed }
    else { a with maxJunctionSpeed := junctionLimit cfg a b }
  else a

/-- The record that the junction stage of `updateTrapezoids` leaves in the new line, from the
records `a` before and `b` at the new line. -/
def junctionCur (cfg : Config) (count : Nat) (a b : PrintLine) : PrintLine :=
  if count ≠ 0 ∧ !a.isWarmUp then
    if advanceSwitch cfg a b then
      { b with joinFlags := { b.joinFlags with startFixed := true, stepParamsComputed := false },
               startSpeed := min a.endSpeed b.startSpeed }
    else b
  else b.setStartSpeedFixed

/-- Two records describe the same motion for the junction computation: they agree in the
warm-up flag, the direction byte, the move number, the full speed and the axis speeds. -/
def samePlan (a b : PrintLine) : Prop :=
  a.isWarmUp = b.isWarmUp ∧ a.dir = b.dir ∧ a.moveID = b.moveID ∧ a.fullSpeed = b.fullSpeed ∧
  a.speedX = b.speedX ∧ a.speedY = b.speedY ∧ a.speedZ = b.speedZ ∧ a.speedE = b.speedE

/-- The number held by the three accumulator bytes. -/
def Acc24.val (x : Acc24) : Nat := x.a0 + 256 * x.b0 + 65536 * x.a1

/-- Every accumulator register holds a byte. -/
def Acc24.bytes (x : Acc24) : Prop := x.a0 < 256 ∧ x.b0 < 256 ∧ x.a1 < 256

/-- The part of a segment record that the path planner leaves alone: the record with the
blocked flag, the join flags, the planned speeds and the materialised ramp values cleared. -/
def PrintLine.staticPart (l : PrintLine) : PrintLine :=
  { l with flags := { l.flags with blocked := false }, joinFlags := ⟨false, false, false⟩,
           startSpeed := 0, endSpeed := 0, maxJunctionSpeed := 0, vStart := 0, vEnd := 0,
           accelSteps := 0, decelSteps := 0, advanceStart := 0, advanceEnd := 0 }

/-- The segment record of `calculate_move` after the assignment
`startSpeed = endSpeed = safeSpeed()`, before the test that sets `FLAG_NOMINAL`. -/
def moveProfile (cfg : Config) (lines_count : Nat) (l : PrintLine) (axis_diff : Nat → ℚ) :
    PrintLine :=
  let tc := moveTime cfg lines_count l.distance
  let l1 : PrintLine := { l with timeInTicks := truncToLong tc.1 }
  let limitInterval := moveLimitInterval cfg lines_count l axis_diff
  let fullInterval : Nat := wrapU32 (if limitInterval > 200 then limitInterval else 200).toNat
  let time_for_move : ℚ := (limitInterval : ℚ) * (l1.stepsRemaining : ℚ)
  let inv_time_s : ℚ := (cfg.fCpu : ℚ) / time_for_move
  let axis_interval := moveAxisIntervals cfg lines_count l axis_diff
  let speedX : ℚ :=
    if l1.isXMove then
      (if (l1.dir &&& 1) == 0 then -(axis_diff 0 * inv_time_s) else axis_diff 0 * inv_time_s)
    else 0
  let speedY : ℚ :=
    if l1.isYMove then
      (if (l1.dir &&& 2) == 0 then -(axis_diff 1 * inv_time_s) else axis_diff 1 * inv_time_s)
    else 0
  let speedZ : ℚ :=
    if l1.isZMove then
      (if (l1.dir &&& 4) == 0 then -(axis_diff 2 * inv_time_s) else axis_diff 2 * inv_time_s)
    else 0
  let speedE : ℚ :=
    if l1.isEMove then
      (if (l1.dir &&& 8) == 0 then -(axis_diff 3 * inv_time_s) else axis_diff 3 * inv_time_s)
    else l1.speedE
  let fullSpeed : ℚ := l1.distance * inv_time_s
  let slowest := moveSlowest cfg lines_count l axis_diff
  let error : Vec4 Int :=
    if cfg.driveSystem ≠ 3 then
      let h := l1.delta.get l1.primaryAxis / 2
      ⟨h, h, h, h⟩
    else { l1.error with e := l1.stepsRemaining / 2 }
  let invFullSpeed : ℚ := 1 / fullSpeed
  let accelerationPrim : Nat := truncToU32 (slowest / (axis_interval l1.primaryAxis : ℚ))
  let facceleration : Nat := truncToU32 (262144 * (accelerationPrim : ℚ) / (cfg.fCpu : ℚ))
  let acceleration : ℚ := 2 * l1.distance * slowest * fullSpeed / (cfg.fCpu : ℚ)
  let l2 : PrintLine :=
    { l1 with fullInterval := fullInterval, speedX := speedX, speedY := speedY,
              speedZ := speedZ, speedE := speedE, fullSpeed := fullSpeed, error := error,
              invFullSpeed := invFullSpeed, accelerationPrim := accelerationPrim,
              facceleration := facceleration, acceleration := acceleration }
  let safe := safeSpeed cfg l2
  let l3 : PrintLine := { l2 with startSpeed := safe, endSpeed := safe }
  l3

/-- The test of `calculate_move` that sets `FLAG_NOMINAL`:
`if (sqrt(startSpeed*startSpeed+acceleration) >= fullSpeed) flags |= FLAG_NOMINAL`. -/
def nominalStep (cfg : Config) (l3 : PrintLine) : PrintLine :=
  if cfg.fsqrt (l3.startSpeed * l3.startSpeed + l3.acceleration) ≥ l3.fullSpeed then
    { l3 with flags := { l3.flags with nominal := true } }
  else l3

/-- The assignment of `vMax` and the advance block of `calculate_move`, on the record `l4`
with the locals `fullInterval` and `accelerationPrim`. -/
def advanceStep (cfg : Config) (l4 : PrintLine) (fullInterval accelerationPrim : Nat) :
    PrintLine :=
  let vMax : Nat := wrapU16 (cfg.fCpu / fullInterval)
  let l5 : PrintLine := { l4 with vMax := vMax }
  if cfg.useAdvance then
    if (l5.dir &&& 112) == 0 || (l5.dir &&& 128) == 0 || (l5.dir &&& 8) == 0 then
      if cfg.quadraticAdvance then { l5 with advanceRate := 0, advanceFull := 0, advanceL := 0 }
      else { l5 with advanceL := 0 }
    else
      let advlin : ℚ :=
        fabs l5.speedE * cfg.extruderAdvanceL * (1 / 1000) * cfg.axis_steps_per_unit.get 3
      let l5a : PrintLine := { l5 with advanceL := truncToU16 ((65536 * advlin) / (vMax : ℚ)) }
      if cfg.quadraticAdvance then
        let advanceFull : Int :=
          truncToLong (65536 * cfg.extruderAdvanceK * l5.speedE * l5.speedE)
        let steps : Int :=
          ((U16SquaredToU32 vMax / wrapU32 (accelerationPrim <<< 1) : Nat) : Int)
        { l5a with advanceFull := advanceFull, advanceRate := Int.tdiv advanceFull steps }
      else l5a
  else l5

/-- The halfstep block at the end of `calculate_move`, on the record `l` that the path planner
returns for the new line. -/
def halfstepStep (cfg : Config) (critical : Bool) (l : PrintLine) : PrintLine :=
  if l.fullInterval < cfg.maxHalfstepInterval ∨ critical then { l with halfstep := 0 }
  else if cfg.driveSystem = 3 then
    { l with halfstep := 1, error := { l.error with e := l.stepsRemaining } }
  else
    let d := l.delta.get l.primaryAxis
    { l with halfstep := 1, error := ⟨d, d, d, d⟩ }

/-- The cache of `updateTrapezoids(p)` on which `backwardPlanner(p, first)` is called: the line
`first` is blocked, then either `computeMaxJunctionSpeed` has run on the junction before `p` or
the start speed of `p` is fixed. -/
def junctionCache (cfg : Config) (s : Planner) (p first : Nat) : Lines :=
  if s.lines_count ≠ 0 ∧ !(upd s.lines first PrintLine.block (previdxOf cfg p)).isWarmUp then
    computeMaxJunctionSpeed cfg (upd s.lines first PrintLine.block) (previdxOf cfg p) p
  else upd (upd s.lines first PrintLine.block) p PrintLine.setStartSpeedFixed

/-- The intermediate target of line `line_number` of a split delta move, without overflow:
`start_position[i] + difference[i] * line_number / num_lines` in C arithmetic. -/
def lineTarget (start_position difference : Vec4 Int) (num_lines line_number : Int) : Vec4 Int :=
  ⟨start_position.get 0 + Int.tdiv (difference.get 0 * line_number) num_lines,
   start_position.get 1 + Int.tdiv (difference.get 1 * line_number) num_lines,
   start_position.get 2 + Int.tdiv (difference.get 2 * line_number) num_lines,
   start_position.get 3 + Int.tdiv (difference.get 3 * line_number) num_lines⟩

/-- The coordinates and differences of a move are small enough for the `long` arithmetic of
`split_delta_move`: magnitudes below `2^29`, and `|difference[i]| * num_lines` below `2^31`. -/
def splitInRange (start_position difference : Vec4 Int) (num_lines : Int) : Prop :=
  ∀ i, i < 4 → (start_position.get i).natAbs < 536870912 ∧
    (difference.get i).natAbs < 536870912 ∧
    (difference.get i).natAbs * num_lines.natAbs < 2147483648

/-- The printer state of `split_delta_move` after its first line: a negative Z target is
replaced by 0 when `softEndstop` is set. -/
def splitClamp (pr : DeltaPrinter) (softEndstop : Bool) : DeltaPrinter :=
  if softEndstop ∧ pr.destinationSteps.get 2 < 0 then
    { pr with destinationSteps := pr.destinationSteps.set 2 0 }
  else pr

/-- The local array `difference` of `split_delta_move`. -/
def splitDifference (pr : DeltaPrinter) (softEndstop : Bool) : Vec4 Int :=
  ⟨wrapLong ((splitClamp pr softEndstop).destinationSteps.get 0
      - (splitClamp pr softEndstop).currentPositionSteps.get 0),
   wrapLong ((splitClamp pr softEndstop).destinationSteps.get 1
      - (splitClamp pr softEndstop).currentPositionSteps.get 1),
   wrapLong ((splitClamp pr softEndstop).destinationSteps.get 2
      - (splitClamp pr softEndstop).currentPositionSteps.get 2),
   wrapLong ((splitClamp pr softEndstop).destinationSteps.get 3
      - (splitClamp pr softEndstop).currentPositionSteps.get 3)⟩

/-- The local array `axis_diff` of `split_delta_move` before the line loop. -/
def splitAxisDiff (cfg : Config) (pr : DeltaPrinter) (softEndstop : Bool) : Vec4 ℚ :=
  ⟨((splitDifference pr softEndstop).get 0 : ℚ) * cfg.inv_axis_steps_per_unit.get 0,
   ((splitDifference pr softEndstop).get 1 : ℚ) * cfg.inv_axis_steps_per_unit.get 1,
   ((splitDifference pr softEndstop).get 2 : ℚ) * cfg.inv_axis_steps_per_unit.get 2,
   ((splitDifference pr softEndstop).get 3 : ℚ) * cfg.inv_axis_steps_per_unit.get 3⟩

/-- The locals `save_dir` and `save_delta` of `split_delta_move`. -/
def splitSave (cfg : Config) (pr : DeltaPrinter) (softEndstop : Bool) : Nat × Vec4 Int :=
  calculate_dir_delta cfg (splitDifference pr softEndstop) ⟨0, 0, 0, 0⟩

/-- The result of `calculate_distance` in `split_delta_move`: the returned byte and
`save_distance`. -/
def splitDistance (cfg : Config) (pr : DeltaPrinter) (softEndstop : Bool) : Nat × ℚ :=
  calculate_distance cfg (splitAxisDiff cfg pr softEndstop) (splitSave cfg pr softEndstop).1 0

/-- The locals `segment_count`, `num_lines` and `segments_per_line` of `split_delta_move` for
the move of the printer state `pr`. -/
def splitPlan (cfg : Config) (dc : DeltaConfig) (pr : DeltaPrinter) (softEndstop : Bool) :
    SplitCounts :=
  splitCounts cfg dc (splitSave cfg pr softEndstop).1 (splitDistance cfg pr softEndstop).2
    (splitSave cfg pr softEndstop).2

/-- The printer state on entry to the line loop of `split_delta_move`: the filament counter
is updated and the warm-up moves are inserted. -/
def splitStart (cfg : Config) (dc : DeltaConfig) (pr : DeltaPrinter)
    (pathOptimize softEndstop : Bool) : DeltaPrinter :=
  { splitClamp pr softEndstop with
    filamentPrinted := (splitClamp pr softEndstop).filamentPrinted
      + (splitAxisDiff cfg pr softEndstop).get 3,
    planner := (check_new_move cfg (splitClamp pr softEndstop).planner pathOptimize
      ((if ((cfg.moveCacheSize : Int) - 4) < (splitPlan cfg dc pr softEndstop).num_lines - 1
        then (cfg.moveCacheSize : Int) - 4
        else (splitPlan cfg dc pr softEndstop).num_lines - 1) % 256).toNat).1 }

/-- The line loop of `split_delta_move` as the function runs it for the move of `pr`. -/
def splitLoopResult (cfg : Config) (dc : DeltaConfig) (pr : DeltaPrinter)
    (check_endstops pathOptimize softEndstop : Bool) : Option SplitState :=
  splitLineLoop cfg dc check_endstops pathOptimize softEndstop (splitPlan cfg dc pr softEndstop)
    (splitSave cfg pr softEndstop).1 (splitSave cfg pr softEndstop).2
    (splitDistance cfg pr softEndstop).2 (splitDifference pr softEndstop)
    (splitClamp pr softEndstop).currentPositionSteps (splitAxisDiff cfg pr softEndstop)
    (splitPlan cfg dc pr softEndstop).num_lines.toNat 1
    (splitStart cfg dc pr pathOptimize softEndstop)

/-- The positions of the move of `pr` are small enough for the `long` arithmetic of
`split_delta_move`: current and target coordinates below `2^28` in magnitude, and the
coordinate differences times `num_lines` below `2^31`. -/
def splitFits (pr : DeltaPrinter) (num_lines : Int) : Prop :=
  ∀ i, i < 4 → (pr.currentPositionSteps.get i).natAbs < 268435456 ∧
    (pr.destinationSteps.get i).natAbs < 268435456 ∧
    (pr.destinationSteps.get i - pr.currentPositionSteps.get i).natAbs * num_lines.natAbs
      < 2147483648

/-- The number of passes of the sub-segment loop of `calculate_delta_segments` for one line of
a split move: the field `numDeltaSegments`, set from `segments_per_line`, read as an `int`. -/
def splitSegments (c : SplitCounts) : Nat :=
  (wrapInt (((c.segments_per_line % 65536).toNat : Nat) : Int)).toNat

/-! # Theorems -/

/-! ## Trapezoid materialiser (C1) -/

/-- C1, evaluated on the code: `shortSegment` is neither a warmup segment nor up to date, has
`accelerationPrim > 0`, `stepsRemaining = 1 ≥ 0` and gets `vStart = 144`, `vEnd = 853`, both
below `vMax = 5120`; yet `updateStepsParameter` leaves `accelSteps = 2` and `decelSteps = 0`,
so `accelSteps + decelSteps = 2` exceeds `stepsRemaining = 1`.  The reduction `red = 162`
is at least the unclamped `decelSteps = 160`, which is clamped to zero, and the remainder of
the excess stays in `accelSteps`. -/
theorem updateStepsParameter_exceeds_stepsRemaining :
    shortSegment.isWarmUp = false ∧ shortSegment.areParameterUpToDate = false ∧
    0 < shortSegment.accelerationPrim ∧ 0 ≤ shortSegment.stepsRemaining ∧
    (updateStepsParameter sampleConfig shortSegment).vStart = 144 ∧
    (updateStepsParameter sampleConfig shortSegment).vEnd = 853 ∧
    (updateStepsParameter sampleConfig shortSegment).vMax = 5120 ∧
    (updateStepsParameter sampleConfig shortSegment).accelSteps = 2 ∧
    (updateStepsParameter sampleConfig shortSegment).decelSteps = 0 ∧
    (updateStepsParameter sampleConfig shortSegment).stepsRemaining = 1 := by
  decide!

/-! ## Junction speed and jerk (C4) -/

/-- C4, evaluated on the code: for the reversal from 100 mm/s in +X to 20 mm/s in -X with
`maxJerk = 20`, `computeMaxJunctionSpeed` stores the junction speed `50/3`; both segments
scaled to that speed run at `+50/3` and `-50/3` in X, a velocity change of `100/3 > 20`. -/
theorem computeMaxJunctionSpeed_reversal_exceeds_maxJerk :
    (reversalLines 0).speedX * (reversalLines 0).speedX
        + (reversalLines 0).speedY * (reversalLines 0).speedY
      = (reversalLines 0).fullSpeed * (reversalLines 0).fullSpeed ∧
    (reversalLines 1).speedX * (reversalLines 1).speedX
        + (reversalLines 1).speedY * (reversalLines 1).speedY
      = (reversalLines 1).fullSpeed * (reversalLines 1).fullSpeed ∧
    (computeMaxJunctionSpeed sampleConfig reversalLines 0 1 0).maxJunctionSpeed = 50 / 3 ∧
    (reversalLines 1).speedX * (50 / 3) / (reversalLines 1).fullSpeed
        - (reversalLines 0).speedX * (50 / 3) / (reversalLines 0).fullSpeed = -(100 / 3) ∧
    (reversalLines 1).speedY * (50 / 3) / (reversalLines 1).fullSpeed
        - (reversalLines 0).speedY * (50 / 3) / (reversalLines 0).fullSpeed = 0 ∧
    sampleConfig.maxJerk * sampleConfig.maxJerk < (100 / 3 : ℚ) * (100 / 3) + 0 * 0 := by
  decide!

/-! ## Primary axis (C8) -/

/-- C8: for every four deltas the comparison chain of `queue_move` selects an axis whose delta
is the maximum of the four, and `stepsRemaining` is set to that delta. -/
theorem primaryAxis_is_max_delta (l : PrintLine) :
    (setPrimaryAxis l).primaryAxis < 4 ∧
    l.delta.get (setPrimaryAxis l).primaryAxis
      = max (max (l.delta.get 0) (l.delta.get 1)) (max (l.delta.get 2) (l.delta.get 3)) ∧
    (setPrimaryAxis l).stepsRemaining = (setPrimaryAxis l).delta.get (setPrimaryAxis l).primaryAxis ∧
    (setPrimaryAxis l).delta = l.delta := by
  simp only [setPrimaryAxis, primaryAxisOf]
  refine ⟨?_, ?_, trivial, trivial⟩
  · split_ifs <;> omega
  · split_ifs <;> simp only [Vec4.get] at * <;> omega

/-! ## Delta direction bits and the extrusion multiplier (C10) -/

/-- C10, evaluated on the code: with `extrudeMultiply = 50` and a difference of one extruder
step, `calculate_dir_delta` returns `delta[3] = 0` while the moving bit 128 of the extruder is
set in `dir`.  The moving bits are written inside the loop, before the multiplier is applied. -/
theorem calculate_dir_delta_moving_bit_without_steps :
    (calculate_dir_delta { sampleConfig with extrudeMultiply := 50 } ⟨0, 0, 0, 1⟩ ⟨0, 0, 0, 0⟩).2.get 3
      = 0 ∧
    (calculate_dir_delta { sampleConfig with extrudeMultiply := 50 } ⟨0, 0, 0, 1⟩ ⟨0, 0, 0, 0⟩).1
      &&& (16 <<< 3) = 128 := by
  decide!

/-! ## Direction bits and deltas of a Cartesian move (C9) -/

/-- A value in the range of `long` is not changed by the wrap. -/
theorem wrapLong_of_range (z : Int) (h1 : -2147483648 ≤ z) (h2 : z < 2147483648) :
    wrapLong z = z := by
  unfold wrapLong; omega

/-- The magnitude computed by the direction loops is the absolute value. -/
theorem magnitude_eq_abs (z : Int) (h1 : -2147483648 < z) (h2 : z < 2147483648) :
    (if wrapLong z ≥ 0 then wrapLong z else wrapLong (-wrapLong z)) = |z| := by
  rw [wrapLong_of_range z (by omega) h2]
  split_ifs with h
  · exact (abs_of_nonneg h).symm
  · rw [wrapLong_of_range (-z) (by omega) (by omega)]
    exact (abs_of_neg (by omega)).symm

/-- Four passes of a direction loop started at zero: each of the eight bits of the result
repeats the test that sets it. -/
theorem dirBits_chain : ∀ s0 s1 s2 s3 n0 n1 n2 n3 : Bool,
    ((dirBits 3 s3 n3 (dirBits 2 s2 n2 (dirBits 1 s1 n1 (dirBits 0 s0 n0 0))) &&& (1 <<< 0) ≠ 0) ↔ s0 = true) ∧
    ((dirBits 3 s3 n3 (dirBits 2 s2 n2 (dirBits 1 s1 n1 (dirBits 0 s0 n0 0))) &&& (1 <<< 1) ≠ 0) ↔ s1 = true) ∧
    ((dirBits 3 s3 n3 (dirBits 2 s2 n2 (dirBits 1 s1 n1 (dirBits 0 s0 n0 0))) &&& (1 <<< 2) ≠ 0) ↔ s2 = true) ∧
    ((dirBits 3 s3 n3 (dirBits 2 s2 n2 (dirBits 1 s1 n1 (dirBits 0 s0 n0 0))) &&& (1 <<< 3) ≠ 0) ↔ s3 = true) ∧
    ((dirBits 3 s3 n3 (dirBits 2 s2 n2 (dirBits 1 s1 n1 (dirBits 0 s0 n0 0))) &&& (16 <<< 0) ≠ 0) ↔ n0 = true) ∧
    ((dirBits 3 s3 n3 (dirBits 2 s2 n2 (dirBits 1 s1 n1 (dirBits 0 s0 n0 0))) &&& (16 <<< 1) ≠ 0) ↔ n1 = true) ∧
    ((dirBits 3 s3 n3 (dirBits 2 s2 n2 (dirBits 1 s1 n1 (dirBits 0 s0 n0 0))) &&& (16 <<< 2) ≠ 0) ↔ n2 = true) ∧
    ((dirBits 3 s3 n3 (dirBits 2 s2 n2 (dirBits 1 s1 n1 (dirBits 0 s0 n0 0))) &&& (16 <<< 3) ≠ 0) ↔ n3 = true) := by
  decide

/-- One pass of the Cartesian direction loop of `queue_move` when the multiplier is 100 percent
and the difference fits a `long`. -/
theorem cartesianDirStep_eq (cfg : Config) (destinationSteps : Vec4 Int) (st : DirDelta) (i : Nat)
    (hmul : cfg.extrudeMultiply = 100)
    (h1 : -2147483648 < destinationSteps.get i - st.currentPositionSteps.get i)
    (h2 : destinationSteps.get i - st.currentPositionSteps.get i < 2147483648) :
    cartesianDirStep cfg destinationSteps st i =
      { delta := st.delta.set i |destinationSteps.get i - st.currentPositionSteps.get i|,
        dir := dirBits i (decide (0 ≤ destinationSteps.get i - st.currentPositionSteps.get i))
          (decide (destinationSteps.get i - st.currentPositionSteps.get i ≠ 0)) st.dir,
        axis_diff := st.axis_diff.set i
          (((|destinationSteps.get i - st.currentPositionSteps.get i| : Int) : ℚ)
            * cfg.inv_axis_steps_per_unit.get i),
        currentPositionSteps := st.currentPositionSteps.set i (destinationSteps.get i) } := by
  have hn := wrapLong_of_range _ (le_of_lt h1) h2
  simp only [cartesianDirStep, hmul, ne_eq, not_true_eq_false, and_false, if_false, dirBits, hn]
  generalize destinationSteps.get i - st.currentPositionSteps.get i = z at h1 h2 hn
  by_cases hz : 0 ≤ z
  · have ha : |z| = z := abs_of_nonneg hz
    simp only [ge_iff_le, hz, if_true, ha, decide_True, decide_not, Bool.not_eq_true',
      decide_eq_false_iff_not]
  · have hneg : wrapLong (-z) = -z := wrapLong_of_range _ (by omega) (by omega)
    have ha : |z| = -z := abs_of_neg (by omega)
    have hz0 : ¬ z = 0 := by omega
    have hz1 : ¬ -z = 0 := by omega
    simp only [ge_iff_le, hz, if_false, ha, hneg, decide_False, decide_not, Bool.not_eq_true',
      decide_eq_false_iff_not, hz0, hz1, not_false_eq_true, if_true, decide_True,
      Bool.false_eq_true]

/-- C9: on a Cartesian build with `extrudeMultiply = 100` and differences that fit a `long`,
the direction block of `queue_move` stores `delta[i] = |destinationSteps[i] -
currentPositionSteps[i]|`, sets the direction bit `1 << i` iff the signed difference is
non-negative, sets the moving bit `16 << i` iff `delta[i]` is non-zero, and leaves
`currentPositionSteps[i] = destinationSteps[i]`. -/
theorem cartesian_queue_move_direction_and_deltas (cfg : Config)
    (destinationSteps currentPositionSteps delta0 : Vec4 Int) (diff0 : Vec4 ℚ)
    (hbuild : cfg.driveSystem = 0 ∨ cfg.newXYGantry = true)
    (hmul : cfg.extrudeMultiply = 100)
    (hrange : ∀ k, k < 4 →
      -2147483648 < destinationSteps.get k - currentPositionSteps.get k ∧
      destinationSteps.get k - currentPositionSteps.get k < 2147483648)
    (i : Nat) (hi : i < 4) :
    (queueMoveDirDelta cfg destinationSteps currentPositionSteps delta0 diff0).delta.get i
      = |destinationSteps.get i - currentPositionSteps.get i| ∧
    ((queueMoveDirDelta cfg destinationSteps currentPositionSteps delta0 diff0).dir
        &&& (1 <<< i) ≠ 0 ↔ 0 ≤ destinationSteps.get i - currentPositionSteps.get i) ∧
    ((queueMoveDirDelta cfg destinationSteps currentPositionSteps delta0 diff0).dir
        &&& (16 <<< i) ≠ 0 ↔
      (queueMoveDirDelta cfg destinationSteps currentPositionSteps delta0 diff0).delta.get i ≠ 0) ∧
    (queueMoveDirDelta cfg destinationSteps currentPositionSteps delta0 diff0).currentPositionSteps.get i
      = destinationSteps.get i := by
  obtain ⟨dx, dy, dz, de⟩ := destinationSteps
  obtain ⟨cx, cy, cz, ce⟩ := currentPositionSteps
  have h0 := hrange 0 (by norm_num)
  have h1 := hrange 1 (by norm_num)
  have h2 := hrange 2 (by norm_num)
  have h3 := hrange 3 (by norm_num)
  simp only [Vec4.get] at h0 h1 h2 h3
  have hq : queueMoveDirDelta cfg ⟨dx, dy, dz, de⟩ ⟨cx, cy, cz, ce⟩ delta0 diff0
      = cartesianDirDelta cfg ⟨dx, dy, dz, de⟩ ⟨cx, cy, cz, ce⟩ delta0 diff0 := by
    unfold queueMoveDirDelta
    rw [if_pos hbuild]
  rw [hq]
  simp only [cartesianDirDelta, List.foldl, cartesianDirStep_eq, hmul, Vec4.get, Vec4.set,
    h0.1, h0.2, h1.1, h1.2, h2.1, h2.2, h3.1, h3.2]
  have hc := dirBits_chain (decide (0 ≤ dx - cx)) (decide (0 ≤ dy - cy)) (decide (0 ≤ dz - cz))
    (decide (0 ≤ de - ce)) (decide (dx - cx ≠ 0)) (decide (dy - cy ≠ 0)) (decide (dz - cz ≠ 0))
    (decide (de - ce ≠ 0))
  simp only [decide_eq_true_eq] at hc
  obtain ⟨c0, c1, c2, c3, c4, c5, c6, c7⟩ := hc
  interval_cases i
  · simp only [Vec4.get, Vec4.set]
    exact ⟨trivial, c0, by rw [c4]; simp, trivial⟩
  · simp only [Vec4.get, Vec4.set]
    exact ⟨trivial, c1, by rw [c5]; simp, trivial⟩
  · simp only [Vec4.get, Vec4.set]
    exact ⟨trivial, c2, by rw [c6]; simp, trivial⟩
  · simp only [Vec4.get, Vec4.set]
    exact ⟨trivial, c3, by rw [c7]; simp, trivial⟩

/-- C9 at a concrete move: 800 steps in +X, 160 steps in -Y, 40 steps in +Z, read for the
Y axis. -/
theorem cartesian_queue_move_direction_and_deltas_witness :
    (queueMoveDirDelta sampleConfig ⟨800, -160, 40, 0⟩ ⟨0, 0, 0, 0⟩ ⟨0, 0, 0, 0⟩ ⟨0, 0, 0, 0⟩).delta.get 1
      = |(⟨800, -160, 40, 0⟩ : Vec4 Int).get 1 - (⟨0, 0, 0, 0⟩ : Vec4 Int).get 1| ∧
    ((queueMoveDirDelta sampleConfig ⟨800, -160, 40, 0⟩ ⟨0, 0, 0, 0⟩ ⟨0, 0, 0, 0⟩ ⟨0, 0, 0, 0⟩).dir
        &&& (1 <<< 1) ≠ 0 ↔
      0 ≤ (⟨800, -160, 40, 0⟩ : Vec4 Int).get 1 - (⟨0, 0, 0, 0⟩ : Vec4 Int).get 1) ∧
    ((queueMoveDirDelta sampleConfig ⟨800, -160, 40, 0⟩ ⟨0, 0, 0, 0⟩ ⟨0, 0, 0, 0⟩ ⟨0, 0, 0, 0⟩).dir
        &&& (16 <<< 1) ≠ 0 ↔
      (queueMoveDirDelta sampleConfig ⟨800, -160, 40, 0⟩ ⟨0, 0, 0, 0⟩ ⟨0, 0, 0, 0⟩ ⟨0, 0, 0, 0⟩).delta.get 1
        ≠ 0) ∧
    (queueMoveDirDelta sampleConfig ⟨800, -160, 40, 0⟩ ⟨0, 0, 0, 0⟩ ⟨0, 0, 0, 0⟩
        ⟨0, 0, 0, 0⟩).currentPositionSteps.get 1
      = (⟨800, -160, 40, 0⟩ : Vec4 Int).get 1 :=
  cartesian_queue_move_direction_and_deltas sampleConfig ⟨800, -160, 40, 0⟩ ⟨0, 0, 0, 0⟩
    ⟨0, 0, 0, 0⟩ ⟨0, 0, 0, 0⟩ (Or.inl rfl) rfl
    (by intro k hk; interval_cases k <;> simp [Vec4.get]) 1 (by decide)

/-! ## H-Bot/CoreXY tower deltas (C7) -/

/-- C7: on an H-Bot/CoreXY build (`DRIVE_SYSTEM` 1 or 2 without `NEW_XY_GANTRY`) with step
differences below `2^30` in magnitude, `queue_move` computes the tower deltas `dx + dy`,
`dx - dy` (`DRIVE_SYSTEM` 1) or `dy + dx`, `dy - dx` (`DRIVE_SYSTEM` 2) and passes the Z
and E differences through; when X and Y share the steps per unit, the displacement recovered
for the distance computation is the original `(dx, dy)` in mm. -/
theorem gantry_tower_deltas_round_trip (cfg : Config)
    (destinationSteps currentPositionSteps delta0 : Vec4 Int) (diff0 : Vec4 ℚ)
    (hdrive : cfg.driveSystem = 1 ∨ cfg.driveSystem = 2)
    (hgantry : cfg.newXYGantry = false)
    (hunit : cfg.inv_axis_steps_per_unit.get 0 = cfg.inv_axis_steps_per_unit.get 1)
    (hrange : ∀ k, k < 4 →
      -1073741824 < destinationSteps.get k - currentPositionSteps.get k ∧
      destinationSteps.get k - currentPositionSteps.get k < 1073741824) :
    gantryTowerDelta cfg destinationSteps currentPositionSteps
      = (if cfg.driveSystem = 1 then
          ⟨(destinationSteps.get 0 - currentPositionSteps.get 0)
              + (destinationSteps.get 1 - currentPositionSteps.get 1),
            (destinationSteps.get 0 - currentPositionSteps.get 0)
              - (destinationSteps.get 1 - currentPositionSteps.get 1),
            destinationSteps.get 2 - currentPositionSteps.get 2,
            destinationSteps.get 3 - currentPositionSteps.get 3⟩
        else
          ⟨(destinationSteps.get 1 - currentPositionSteps.get 1)
              + (destinationSteps.get 0 - currentPositionSteps.get 0),
            (destinationSteps.get 1 - currentPositionSteps.get 1)
              - (destinationSteps.get 0 - currentPositionSteps.get 0),
            destinationSteps.get 2 - currentPositionSteps.get 2,
            destinationSteps.get 3 - currentPositionSteps.get 3⟩) ∧
    xyDisplacement cfg
        (queueMoveDirDelta cfg destinationSteps currentPositionSteps delta0 diff0).axis_diff
      = (((destinationSteps.get 0 - currentPositionSteps.get 0 : Int) : ℚ)
            * cfg.inv_axis_steps_per_unit.get 0,
         ((destinationSteps.get 1 - currentPositionSteps.get 1 : Int) : ℚ)
            * cfg.inv_axis_steps_per_unit.get 1) := by
  obtain ⟨dx, dy, dz, de⟩ := destinationSteps
  obtain ⟨cx, cy, cz, ce⟩ := currentPositionSteps
  have h0 := hrange 0 (by norm_num)
  have h1 := hrange 1 (by norm_num)
  have h2 := hrange 2 (by norm_num)
  have h3 := hrange 3 (by norm_num)
  simp only [Vec4.get] at h0 h1 h2 h3 hunit ⊢
  have e0 : wrapLong (dx - cx) = dx - cx := wrapLong_of_range _ (by omega) (by omega)
  have e1 : wrapLong (dy - cy) = dy - cy := wrapLong_of_range _ (by omega) (by omega)
  have e2 : wrapLong (dz - cz) = dz - cz := wrapLong_of_range _ (by omega) (by omega)
  have e3 : wrapLong (de - ce) = de - ce := wrapLong_of_range _ (by omega) (by omega)
  have s1 : wrapLong (dx - cx + (dy - cy)) = dx - cx + (dy - cy) :=
    wrapLong_of_range _ (by omega) (by omega)
  have s2 : wrapLong (dx - cx - (dy - cy)) = dx - cx - (dy - cy) :=
    wrapLong_of_range _ (by omega) (by omega)
  have s3 : wrapLong (dy - cy + (dx - cx)) = dy - cy + (dx - cx) :=
    wrapLong_of_range _ (by omega) (by omega)
  have s4 : wrapLong (dy - cy - (dx - cx)) = dy - cy - (dx - cx) :=
    wrapLong_of_range _ (by omega) (by omega)
  have hnot : ¬ (cfg.driveSystem = 0 ∨ cfg.newXYGantry = true) := by
    rw [hgantry]; rcases hdrive with h | h <;> simp [h]
  have ht : gantryTowerDelta cfg ⟨dx, dy, dz, de⟩ ⟨cx, cy, cz, ce⟩
      = (if cfg.driveSystem = 1 then
          ⟨dx - cx + (dy - cy), dx - cx - (dy - cy), dz - cz, de - ce⟩
        else ⟨dy - cy + (dx - cx), dy - cy - (dx - cx), dz - cz, de - ce⟩) := by
    simp only [gantryTowerDelta, Vec4.get, e0, e1, e2, e3, s1, s2, s3, s4]
  refine ⟨ht, ?_⟩
  simp only [queueMoveDirDelta, if_neg hnot, gantryDirDelta, List.foldl, gantryDirStep, ht,
    xyDisplacement]
  rcases hdrive with h | h
  · simp only [h, if_true, Vec4.get, Vec4.set, hunit]
    simp
    constructor <;> ring
  · simp only [h, Vec4.get, Vec4.set, hunit]
    simp
    constructor <;> ring

/-- C7 at a concrete move on a `DRIVE_SYSTEM` 1 build: 800 steps in X and -160 steps in Y give
the tower deltas 640 and 960, and the distance computation recovers 10 mm and -2 mm. -/
theorem gantry_tower_deltas_round_trip_witness :
    gantryTowerDelta { sampleConfig with driveSystem := 1 } ⟨800, -160, 40, 8⟩ ⟨0, 0, 0, 0⟩
      = ⟨640, 960, 40, 8⟩ ∧
    xyDisplacement { sampleConfig with driveSystem := 1 }
        (queueMoveDirDelta { sampleConfig with driveSystem := 1 } ⟨800, -160, 40, 8⟩ ⟨0, 0, 0, 0⟩
          ⟨0, 0, 0, 0⟩ ⟨0, 0, 0, 0⟩).axis_diff
      = (10, -2) := by
  have h := gantry_tower_deltas_round_trip { sampleConfig with driveSystem := 1 }
    ⟨800, -160, 40, 8⟩ ⟨0, 0, 0, 0⟩ ⟨0, 0, 0, 0⟩ ⟨0, 0, 0, 0⟩ (Or.inl rfl) rfl rfl
    (by intro k hk; interval_cases k <;> simp [Vec4.get])
  refine ⟨h.1.trans (by decide), h.2.trans (by decide!)⟩

/-! ## Acceleration of the primary axis (C5) -/

/-- The plateau loop never raises the running minimum. -/
theorem slowestAxisPlateau_le_init (cfg : Config) (dir : Nat) (is_print_move : Bool)
    (axis_interval : Nat → Int) (n : Nat) (s : ℚ) :
    slowestAxisPlateau cfg dir is_print_move axis_interval n s ≤ s := by
  induction n generalizing s with
  | zero => exact le_refl s
  | succ n ih =>
    simp only [slowestAxisPlateau]
    refine le_trans (ih _) ?_
    by_cases hb : ((dir &&& (16 <<< (3 - n))) != 0) = true
    · rw [if_pos hb]
      exact min_le_left _ _
    · rw [if_neg hb]

/-- The plateau loop over `n` axes ends below `axis_interval[i] * limit_i` for every moving
axis `i` it visits. -/
theorem slowestAxisPlateau_le_axis (cfg : Config) (dir : Nat) (is_print_move : Bool)
    (axis_interval : Nat → Int) (n : Nat) (s : ℚ) (i : Nat) (hi : i ≤ 3) (hn : 4 ≤ i + n)
    (hmove : (dir &&& (16 <<< i)) ≠ 0) :
    slowestAxisPlateau cfg dir is_print_move axis_interval n s
      ≤ (axis_interval i : ℚ)
          * ((if is_print_move then cfg.axis_steps_per_sqr_second.get i
              else cfg.axis_travel_steps_per_sqr_second.get i : Nat) : ℚ) := by
  induction n generalizing s with
  | zero => omega
  | succ n ih =>
    simp only [slowestAxisPlateau]
    by_cases hv : i = 3 - n
    · subst hv
      refine le_trans (slowestAxisPlateau_le_init _ _ _ _ _ _) ?_
      have hb : ((dir &&& (16 <<< (3 - n))) != 0) = true := by simpa using hmove
      rw [if_pos hb]
      exact min_le_right _ _
    · exact ih _ (by omega)

/-- The value of `slowest_axis_plateau_time_repro` in `calculate_move` is at most
`axis_interval[i] * limit_i` for every moving axis `i`. -/
theorem moveSlowest_le_axis (cfg : Config) (lines_count : Nat) (l : PrintLine)
    (axis_diff : Nat → ℚ) (i : Nat) (hi : i < 4) (hmove : (l.dir &&& (16 <<< i)) ≠ 0) :
    moveSlowest cfg lines_count l axis_diff
      ≤ (moveAxisIntervals cfg lines_count l axis_diff i : ℚ) * (axisAccelLimit cfg l i : ℚ) := by
  unfold moveSlowest axisAccelLimit
  exact slowestAxisPlateau_le_axis cfg l.dir l.isEPositiveMove _ 4 _ i (by omega) (by omega) hmove

/-- A field of a conditional record that has the same value in both branches. -/
theorem ite_field_eq {α : Type} (f : PrintLine → α) (c : Prop) [Decidable c] (a b : PrintLine)
    (x : α) (ha : f a = x) (hb : f b = x) : f (if c then a else b) = x := by
  split_ifs <;> assumption

/-- The field `accelerationPrim` written by `calculate_move`. -/
theorem calculateMoveLine_accelerationPrim (cfg : Config) (lines_count : Nat) (l : PrintLine)
    (axis_diff : Nat → ℚ) :
    (calculateMoveLine cfg lines_count l axis_diff).1.accelerationPrim
      = truncToU32 (moveSlowest cfg lines_count l axis_diff
          / (moveAxisIntervals cfg lines_count l axis_diff l.primaryAxis : ℚ)) := by
  repeat (first | rfl | apply ite_field_eq PrintLine.accelerationPrim)

/-- A float below a natural number converts to an `unsigned long` below that number. -/
theorem truncToU32_le_of_le (q : ℚ) (n : Nat) (h : q ≤ n) : truncToU32 q ≤ n := by
  unfold truncToU32 wrapU32
  refine le_trans (Nat.mod_le _ _) ?_
  unfold truncToLong
  split_ifs with h0
  · have : ⌊q⌋ ≤ (n : Int) := by
      have h1 : (⌊q⌋ : ℚ) ≤ q := Int.floor_le q
      have h2 : ((⌊q⌋ : Int) : ℚ) ≤ ((n : Int) : ℚ) := by push_cast; linarith
      exact_mod_cast h2
    omega
  · have : 0 ≤ ⌊-q⌋ := Int.floor_nonneg.mpr (by linarith)
    omega

/-- C5, evaluated on the code: for the travel move of 400 steps in X and 300 steps in Y, with
acceleration limits 5000 steps/s² on X and 100 steps/s² on Y, `calculate_move` stores
`accelerationPrim = 133`, above the limit 100 of the moving axis Y. -/
theorem accelerationPrim_exceeds_slow_axis_limit :
    (queueMoveDirDelta sampleConfig ⟨400, 300, 0, 0⟩ ⟨0, 0, 0, 0⟩ ⟨0, 0, 0, 0⟩ ⟨0, 0, 0, 0⟩).dir
      = diagonalMove.dir ∧
    (queueMoveDirDelta sampleConfig ⟨400, 300, 0, 0⟩ ⟨0, 0, 0, 0⟩ ⟨0, 0, 0, 0⟩ ⟨0, 0, 0, 0⟩).delta
      = diagonalMove.delta ∧
    queueMoveDistance sampleConfig diagonalMove.dir ⟨5, 15 / 4, 0, 0⟩ = some diagonalMove.distance ∧
    setPrimaryAxis diagonalMove = diagonalMove ∧
    diagonalMove.isYMove = true ∧
    axisAccelLimit sampleConfig diagonalMove 1 = 100 ∧
    (calculateMoveLine sampleConfig 12 diagonalMove diagonalDiff).1.accelerationPrim = 133 := by
  decide!

/-- C5, amended: the `accelerationPrim` that `calculate_move` stores is at most the configured
acceleration limit of the primary axis (the print limit for a printing move, the travel limit
otherwise), whenever the primary axis is one of the four motor axes, its moving bit is set and
its step interval is positive. -/
theorem accelerationPrim_le_primary_axis_limit (cfg : Config) (lines_count : Nat)
    (l : PrintLine) (axis_diff : Nat → ℚ)
    (hp : l.primaryAxis < 4)
    (hmove : (l.dir &&& (16 <<< l.primaryAxis)) ≠ 0)
    (hint : 0 < moveAxisIntervals cfg lines_count l axis_diff l.primaryAxis) :
    (calculateMoveLine cfg lines_count l axis_diff).1.accelerationPrim
      ≤ axisAccelLimit cfg l l.primaryAxis := by
  rw [calculateMoveLine_accelerationPrim]
  apply truncToU32_le_of_le
  have h := moveSlowest_le_axis cfg lines_count l axis_diff l.primaryAxis hp hmove
  have hpos : (0 : ℚ) < (moveAxisIntervals cfg lines_count l axis_diff l.primaryAxis : ℚ) := by
    exact_mod_cast hint
  rw [div_le_iff₀ hpos]
  linarith

/-- C5, amended, at the move of 400 steps in X and 300 steps in Y: `accelerationPrim` is at
most the X limit 5000. -/
theorem accelerationPrim_le_primary_axis_limit_witness :
    (calculateMoveLine sampleConfig 12 diagonalMove diagonalDiff).1.accelerationPrim
      ≤ axisAccelLimit sampleConfig diagonalMove diagonalMove.primaryAxis :=
  accelerationPrim_le_primary_axis_limit sampleConfig 12 diagonalMove diagonalDiff
    (by decide) (by decide) (by decide!)

/-! ## Warm-up insertion (C11) -/

/-- C11, evaluated on the code: with an empty queue and `pathOptimize` set, but `waitRelax`
still at 70, `insertWaitMovesIfNeeded` returns 0 and queues nothing. -/
theorem insertWaitMovesIfNeeded_skips_while_relaxing :
    relaxingPlanner.lines_count = 0 ∧
    (insertWaitMovesIfNeeded sampleConfig relaxingPlanner true 0).2 = 0 ∧
    (insertWaitMovesIfNeeded sampleConfig relaxingPlanner true 0).1.lines_count = 0 ∧
    (insertWaitMovesIfNeeded sampleConfig relaxingPlanner true 0).1.lines_write_pos
      = relaxingPlanner.lines_write_pos := by
  decide

/-- C11, amended: when the queue is empty, `waitRelax` is 0 and `pathOptimize` is set,
`insertWaitMovesIfNeeded` returns 1, `lines_count` becomes 3, the write position advances by
three slots, and the three slots written hold warm-up segments (`flags == FLAG_WARMUP`,
`dir == 0`, start and end speed fixed, parameters marked computed) with `timeInTicks` 30000,
20000 and 10000 in queue order, every other slot being unchanged; in every other case it
returns 0 and leaves the planner state unchanged. -/
theorem insertWaitMovesIfNeeded_warmup (cfg : Config) (s : Planner) (pathOptimize : Bool)
    (waitExtraLines : Nat)
    (hsize : 3 ≤ cfg.moveCacheSize) :
    (s.lines_count = 0 ∧ s.waitRelax = 0 ∧ pathOptimize = true →
      (insertWaitMovesIfNeeded cfg s pathOptimize waitExtraLines).2 = 1 ∧
      (insertWaitMovesIfNeeded cfg s pathOptimize waitExtraLines).1.lines_count = 3 ∧
      (insertWaitMovesIfNeeded cfg s pathOptimize waitExtraLines).1.lines_write_pos
        = nextPlannerIndex cfg (nextPlannerIndex cfg (nextPlannerIndex cfg s.lines_write_pos)) ∧
      (insertWaitMovesIfNeeded cfg s pathOptimize waitExtraLines).1.lines_pos = s.lines_pos ∧
      (insertWaitMovesIfNeeded cfg s pathOptimize waitExtraLines).1.waitRelax = s.waitRelax ∧
      (∀ k, k < 3 →
        ((insertWaitMovesIfNeeded cfg s pathOptimize waitExtraLines).1.lines
            ((nextPlannerIndex cfg)^[k] s.lines_write_pos)).flags = ⟨true, false, false, false⟩ ∧
        ((insertWaitMovesIfNeeded cfg s pathOptimize waitExtraLines).1.lines
            ((nextPlannerIndex cfg)^[k] s.lines_write_pos)).dir = 0 ∧
        ((insertWaitMovesIfNeeded cfg s pathOptimize waitExtraLines).1.lines
            ((nextPlannerIndex cfg)^[k] s.lines_write_pos)).joinFlags = ⟨true, true, true⟩ ∧
        ((insertWaitMovesIfNeeded cfg s pathOptimize waitExtraLines).1.lines
            ((nextPlannerIndex cfg)^[k] s.lines_write_pos)).timeInTicks
          = 10000 * (3 - (k : Int))) ∧
      (∀ j, (∀ k, k < 3 → j ≠ (nextPlannerIndex cfg)^[k] s.lines_write_pos) →
        (insertWaitMovesIfNeeded cfg s pathOptimize waitExtraLines).1.lines j = s.lines j)) ∧
    (¬ (s.lines_count = 0 ∧ s.waitRelax = 0 ∧ pathOptimize = true) →
      insertWaitMovesIfNeeded cfg s pathOptimize waitExtraLines = (s, 0)) := by
  constructor
  · intro hc
    have h01 : nextPlannerIndex cfg s.lines_write_pos ≠ s.lines_write_pos := by
      unfold nextPlannerIndex; split_ifs <;> omega
    have h12 : nextPlannerIndex cfg (nextPlannerIndex cfg s.lines_write_pos)
        ≠ nextPlannerIndex cfg s.lines_write_pos := by
      unfold nextPlannerIndex; split_ifs <;> omega
    have h02 : nextPlannerIndex cfg (nextPlannerIndex cfg s.lines_write_pos)
        ≠ s.lines_write_pos := by
      unfold nextPlannerIndex; split_ifs <;> omega
    unfold insertWaitMovesIfNeeded
    rw [if_pos hc]
    simp only [insertWaitLoop, pushLine, getNextWriteLine, PrintLine.setWaitTicks]
    refine ⟨trivial, by rw [hc.1]; decide, trivial, trivial, trivial, ?_, ?_⟩
    · intro k hk
      interval_cases k
      · simp only [Function.iterate_zero, id, setLine, if_neg h01.symm, if_neg h02.symm, if_true]
        refine ⟨trivial, trivial, trivial, by decide⟩
      · simp only [Function.iterate_succ, Function.iterate_zero, Function.comp, id, setLine,
          if_neg h12.symm, if_true]
        refine ⟨trivial, trivial, trivial, by decide⟩
      · simp only [Function.iterate_succ, Function.iterate_zero, Function.comp, id, setLine,
          if_true]
        refine ⟨trivial, trivial, trivial, by decide⟩
    · intro j hj
      have j0 := hj 0 (by norm_num)
      have j1 := hj 1 (by norm_num)
      have j2 := hj 2 (by norm_num)
      simp only [Function.iterate_succ, Function.iterate_zero, Function.comp, id] at j0 j1 j2
      simp only [setLine, if_neg j0, if_neg j1, if_neg j2]
  · intro hc
    unfold insertWaitMovesIfNeeded
    rw [if_neg hc]

/-- C11, amended, on the idle planner with 16 cache slots: three warm-up segments are queued
and 1 is returned. -/
theorem insertWaitMovesIfNeeded_warmup_witness :
    (insertWaitMovesIfNeeded sampleConfig idlePlanner true 0).2 = 1 ∧
    (insertWaitMovesIfNeeded sampleConfig idlePlanner true 0).1.lines_count = 3 :=
  ⟨((insertWaitMovesIfNeeded_warmup sampleConfig idlePlanner true 0 (by decide)).1
      ⟨rfl, rfl, rfl⟩).1,
   ((insertWaitMovesIfNeeded_warmup sampleConfig idlePlanner true 0 (by decide)).1
      ⟨rfl, rfl, rfl⟩).2.1⟩

/-! ## Junction speed formula (C12) -/

/-- The C library `fabs` is the absolute value. -/
theorem fabs_eq_abs (q : ℚ) : fabs q = |q| := by
  unfold fabs
  split_ifs with h
  · exact (abs_of_neg h).symm
  · exact (abs_of_nonneg (not_lt.mp h)).symm

/-- The C idiom `a < b ? a : b` is the minimum. -/
theorem ite_lt_eq_min (a b : ℚ) : (if a < b then a else b) = min a b := by
  simp only [min_def]
  split_ifs <;> first | rfl | linarith

/-- The C idiom `a > b ? b : a` is the minimum. -/
theorem ite_gt_eq_min (a b : ℚ) : (if a > b then b else a) = min a b := by
  simp only [min_def]
  split_ifs <;> first | rfl | linarith

/-- The factor that `computeMaxJunctionSpeed` computes step by step is the minimum of the
specification; `J`, `Z`, `E` are the XY jerk and the Z and E speed changes, `z1`, `z2` the Z
moving bits of the two segments. -/
theorem junctionFactor_eq (J Z E mj mz me : ℚ) (z1 z2 : Bool) (hjerk : 0 ≤ mj) :
    (if E > me then
        if me / E <
            (if (z1 || z2) = true then
              if Z > mz then
                if mz / Z < (if J > mj then mj / J else 1) then mz / Z
                else (if J > mj then mj / J else 1)
              else (if J > mj then mj / J else 1)
            else (if J > mj then mj / J else 1)) then me / E
        else
          (if (z1 || z2) = true then
            if Z > mz then
              if mz / Z < (if J > mj then mj / J else 1) then mz / Z
              else (if J > mj then mj / J else 1)
            else (if J > mj then mj / J else 1)
          else (if J > mj then mj / J else 1))
      else
        (if (z1 || z2) = true then
          if Z > mz then
            if mz / Z < (if J > mj then mj / J else 1) then mz / Z
            else (if J > mj then mj / J else 1)
          else (if J > mj then mj / J else 1)
        else (if J > mj then mj / J else 1)))
      = min 1 (min (if J > mj then mj / J else 1)
          (min (if (z1 = true ∨ z2 = true) ∧ Z > mz then mz / Z else 1)
            (if E > me then me / E else 1))) := by
  have ha : (if J > mj then mj / J else 1) ≤ 1 := by
    split_ifs with h
    · exact div_le_one_of_le₀ (le_of_lt h) (le_trans hjerk (le_of_lt h))
    · exact le_refl _
  generalize (if J > mj then mj / J else 1) = a at ha ⊢
  have hF1 : (if (z1 || z2) = true then
        if Z > mz then (if mz / Z < a then mz / Z else a) else a
      else a) = min a (if (z1 = true ∨ z2 = true) ∧ Z > mz then mz / Z else 1) := by
    by_cases hz : (z1 = true ∨ z2 = true)
    · have hz2 : (z1 || z2) = true := by simpa using hz
      by_cases h2 : Z > mz
      · simp only [hz2, h2, hz, if_true, and_self, ite_lt_eq_min]
        exact min_comm _ _
      · simp only [hz2, h2, hz, if_true, if_false, and_false]
        exact (min_eq_left ha).symm
    · have hz2 : ¬ (z1 || z2) = true := by simpa using hz
      simp only [hz2, hz, if_false, false_and]
      exact (min_eq_left ha).symm
  rw [hF1]
  generalize (if (z1 = true ∨ z2 = true) ∧ Z > mz then mz / Z else 1) = b
  have hab : min a b ≤ 1 := le_trans (min_le_left _ _) ha
  have hc : (if E > me then (if me / E < min a b then me / E else min a b) else min a b)
      = min (min a b) (if E > me then me / E else 1) := by
    by_cases h3 : E > me
    · simp only [h3, if_true, ite_lt_eq_min]
      exact min_comm _ _
    · simp only [h3, if_false]
      exact (min_eq_left hab).symm
  rw [hc, min_assoc]
  exact (min_eq_right (le_trans (min_le_left _ _) ha)).symm

/-- C12: on a non-delta build with advance off and a predecessor that is not a warm-up segment,
`computeMaxJunctionSpeed` stores `min(previous.fullSpeed * factor, current.fullSpeed)` in
`previous.maxJunctionSpeed`, with the factor of the specification (`maxJerk` not negative);
the stored value is at most both full speeds when `previous.fullSpeed` is not negative, and it
equals their minimum when both segments have identical axis speeds (settings not negative and
`sqrt 0 = 0`). -/
theorem computeMaxJunctionSpeed_formula (cfg : Config) (ls : Lines) (pv cu : Nat)
    (hdrive : cfg.driveSystem ≠ 3)
    (hadv : cfg.useAdvance = false ∨ cfg.advanceActivated = false)
    (hwarm : (ls pv).isWarmUp = false)
    (hjerk : 0 ≤ cfg.maxJerk) :
    (computeMaxJunctionSpeed cfg ls pv cu pv).maxJunctionSpeed
      = min ((ls pv).fullSpeed * specJunctionFactor cfg (ls pv) (ls cu)) (ls cu).fullSpeed ∧
    (0 ≤ (ls pv).fullSpeed →
      (computeMaxJunctionSpeed cfg ls pv cu pv).maxJunctionSpeed
        ≤ min (ls pv).fullSpeed (ls cu).fullSpeed) ∧
    (0 ≤ cfg.maxZJerk → 0 ≤ cfg.maxStartFeedrate → cfg.fsqrt 0 = 0 →
      (ls cu).speedX = (ls pv).speedX → (ls cu).speedY = (ls pv).speedY →
      (ls cu).speedZ = (ls pv).speedZ → (ls cu).speedE = (ls pv).speedE →
      (computeMaxJunctionSpeed cfg ls pv cu pv).maxJunctionSpeed
        = min (ls pv).fullSpeed (ls cu).fullSpeed) := by
  have hA : (cfg.useAdvance && cfg.advanceActivated
      && (((ls pv).dir &&& 128) != ((ls cu).dir &&& 128))
      && (((ls pv).dir &&& 48) != 0 || ((ls cu).dir &&& 48) != 0)) = false := by
    rcases hadv with h | h <;> simp [h]
  have hD : (cfg.driveSystem = 3 && (ls pv).moveID = (ls cu).moveID) = false := by
    simp [hdrive]
  have hD2 : ¬ cfg.driveSystem = 3 := hdrive
  have hF : specJunctionFactor cfg (ls pv) (ls cu) ≤ 1 := min_le_left _ _
  have key : (computeMaxJunctionSpeed cfg ls pv cu pv).maxJunctionSpeed
      = min ((ls pv).fullSpeed * specJunctionFactor cfg (ls pv) (ls cu)) (ls cu).fullSpeed := by
    unfold computeMaxJunctionSpeed
    rw [hwarm, hA, hD]
    simp only [Bool.false_eq_true, if_false, upd, setLine, if_true, hD2, ne_eq, not_false_eq_true,
      decide_True, Bool.true_and, fabs_eq_abs]
    rw [ite_gt_eq_min]
    congr 2
    unfold specJunctionFactor PrintLine.isZMove
    simp only []
    exact junctionFactor_eq _ _ _ _ _ _ _ _ hjerk
  refine ⟨key, ?_, ?_⟩
  · intro hfull
    rw [key]
    refine min_le_min ?_ (le_refl _)
    calc (ls pv).fullSpeed * specJunctionFactor cfg (ls pv) (ls cu)
        ≤ (ls pv).fullSpeed * 1 := mul_le_mul_of_nonneg_left hF hfull
      _ = (ls pv).fullSpeed := mul_one _
  · intro hz he hs0 ex ey ez ee
    rw [key]
    have hf1 : specJunctionFactor cfg (ls pv) (ls cu) = 1 := by
      unfold specJunctionFactor
      have n1 : ¬ (0 : ℚ) > cfg.maxJerk := not_lt.mpr hjerk
      have n2 : ¬ (0 : ℚ) > cfg.maxZJerk := not_lt.mpr hz
      have n3 : ¬ (0 : ℚ) > cfg.maxStartFeedrate := not_lt.mpr he
      simp only [ex, ey, ez, ee, sub_self, mul_zero, add_zero, hs0, abs_zero, n1, n2, n3, if_false,
        and_false, min_self]
    rw [hf1, mul_one]

/-- C12 at the reversal from 100 mm/s in +X to 20 mm/s in -X on `sampleConfig`. -/
theorem computeMaxJunctionSpeed_formula_witness :
    (computeMaxJunctionSpeed sampleConfig reversalLines 0 1 0).maxJunctionSpeed
      = min ((reversalLines 0).fullSpeed
          * specJunctionFactor sampleConfig (reversalLines 0) (reversalLines 1))
        (reversalLines 1).fullSpeed :=
  (computeMaxJunctionSpeed_formula sampleConfig reversalLines 0 1 (by decide) (Or.inl rfl) rfl
    (by decide!)).1

/-! ## Safe speed (C13, C14) -/

/-- C13: for a segment that moves neither Z nor E, `safeSpeed` is
`min(fullSpeed, max(minimumSpeed, maxJerk/2))`; and for every segment `safeSpeed` is at most
`fullSpeed`. -/
theorem safeSpeed_plain_xy_move (cfg : Config) (l : PrintLine) :
    (l.isZMove = false → l.isEMove = false →
      safeSpeed cfg l = min l.fullSpeed (max cfg.minimumSpeed (cfg.maxJerk / 2))) ∧
    safeSpeed cfg l ≤ l.fullSpeed := by
  constructor
  · intro hz he
    unfold safeSpeed
    simp only [hz, he, Bool.and_false, Bool.false_and, Bool.false_eq_true, if_false]
    have h2 : cfg.maxJerk * (1 / 2) = cfg.maxJerk / 2 := by ring
    rw [h2, ite_lt_eq_min]
    exact min_eq_left (min_le_left _ _)
  · unfold safeSpeed
    simp only [ite_lt_eq_min]
    exact min_le_right _ _

/-- C13 at a plain X move on `sampleConfig`: the safe speed of the 100 mm/s segment is
`min(100, max(1, 10))`. -/
theorem safeSpeed_plain_xy_move_witness :
    safeSpeed sampleConfig (reversalLines 0)
      = min (reversalLines 0).fullSpeed
          (max sampleConfig.minimumSpeed (sampleConfig.maxJerk / 2)) :=
  (safeSpeed_plain_xy_move sampleConfig (reversalLines 0)).1 (by decide) (by decide)

/-- C14, evaluated on the code: for the pure retraction at 40 mm/s on a printer with
`maxJerk = 20`, `minimumSpeed = 1` and `maxStartFeedrate = 30`, `safeSpeed` returns 15, while
the minimum of `fullSpeed = 40`, `max(minimumSpeed, maxJerk/2) = 10` and
`maxStartFeedrate/2 = 15` is 10. -/
theorem safeSpeed_retraction_ignores_jerk :
    retraction.isEMove = true ∧ retraction.dir &&& 112 = 0 ∧
    safeSpeed fastExtruderConfig retraction = 15 ∧
    min retraction.fullSpeed
      (min (max fastExtruderConfig.minimumSpeed (fastExtruderConfig.maxJerk / 2))
        (fastExtruderConfig.maxStartFeedrate / 2)) = 10 := by
  decide!

/-- C14, amended: for a segment whose only moving axis is E, `safeSpeed` is
`min(fullSpeed, maxStartFeedrate/2)`. -/
theorem safeSpeed_extruder_only (cfg : Config) (l : PrintLine)
    (he : l.isEMove = true) (hxyz : l.dir &&& 112 = 0) :
    safeSpeed cfg l = min l.fullSpeed (cfg.maxStartFeedrate / 2) := by
  unfold safeSpeed
  have h1 : ((l.dir &&& 112) != 0) = false := by simp [hxyz]
  simp only [he, h1, if_true, Bool.false_eq_true, if_false]
  have h2 : (1 / 2 : ℚ) * cfg.maxStartFeedrate = cfg.maxStartFeedrate / 2 := by ring
  rw [h2, ite_lt_eq_min]
  exact min_comm _ _

/-- C14, amended, at the pure retraction: the safe speed is `min(40, 15)`. -/
theorem safeSpeed_extruder_only_witness :
    safeSpeed fastExtruderConfig retraction
      = min retraction.fullSpeed (fastExtruderConfig.maxStartFeedrate / 2) :=
  safeSpeed_extruder_only fastExtruderConfig retraction (by decide) (by decide)

/-! ## Step interval floor and peak rate (C15, C16) -/

/-- The field `fullInterval` written by `calculate_move`. -/
theorem calculateMoveLine_fullInterval (cfg : Config) (lines_count : Nat) (l : PrintLine)
    (axis_diff : Nat → ℚ) :
    (calculateMoveLine cfg lines_count l axis_diff).1.fullInterval
      = wrapU32 (if moveLimitInterval cfg lines_count l axis_diff > 200 then
          moveLimitInterval cfg lines_count l axis_diff else 200).toNat := by
  repeat (first | rfl | apply ite_field_eq PrintLine.fullInterval)

/-- The field `vMax` written by `calculate_move`. -/
theorem calculateMoveLine_vMax (cfg : Config) (lines_count : Nat) (l : PrintLine)
    (axis_diff : Nat → ℚ) :
    (calculateMoveLine cfg lines_count l axis_diff).1.vMax
      = wrapU16 (cfg.fCpu / (calculateMoveLine cfg lines_count l axis_diff).1.fullInterval) := by
  rw [calculateMoveLine_fullInterval]
  repeat (first | rfl | apply ite_field_eq PrintLine.vMax)

/-- The C idiom `if (a > b) b = a;` leaves the maximum in `b`. -/
theorem int_ite_gt_eq_max (a b : Int) : (if a > b then a else b) = max b a := by
  simp only [max_def]
  split_ifs <;> omega

/-- C15, evaluated on the code: for the 10 mm move at 150 mm/s with 800 steps per mm on a
16 MHz clock, `limitInterval` is 133, `fullInterval` is 200, and the 16 bit field `vMax`
holds 14464, not `F_CPU / fullInterval = 80000`. -/
theorem calculate_move_vMax_wraps :
    (queueMoveDirDelta fineStepConfig ⟨8000, 0, 0, 0⟩ ⟨0, 0, 0, 0⟩ ⟨0, 0, 0, 0⟩ ⟨0, 0, 0, 0⟩).dir
      = fastMove.dir ∧
    queueMoveDistance fineStepConfig fastMove.dir ⟨10, 0, 0, 0⟩ = some fastMove.distance ∧
    moveLimitInterval fineStepConfig 12 fastMove fastDiff = 133 ∧
    (calculateMoveLine fineStepConfig 12 fastMove fastDiff).1.fullInterval = 200 ∧
    (calculateMoveLine fineStepConfig 12 fastMove fastDiff).1.vMax = 14464 ∧
    fineStepConfig.fCpu / (calculateMoveLine fineStepConfig 12 fastMove fastDiff).1.fullInterval
      = 80000 := by
  decide!

/-- The step-interval floor of C15: when `limitInterval` is below `2^32`, `calculate_move` sets
`fullInterval = max(limitInterval, 200)`, where `limitInterval` is the maximum of
`time_for_move / stepsRemaining` and the feedrate-limit intervals of X, Y, E and, on a Z move,
of Z; hence `fullInterval >= 200`; `vMax` is `F_CPU / fullInterval` reduced modulo `2^16`, at
most `F_CPU / 200`, and equal to `F_CPU / fullInterval` when `F_CPU / 200 < 65536`. -/
theorem calculate_move_fullInterval_floor (cfg : Config) (lines_count : Nat) (l : PrintLine)
    (axis_diff : Nat → ℚ)
    (hrange : moveLimitInterval cfg lines_count l axis_diff < 4294967296) :
    ((calculateMoveLine cfg lines_count l axis_diff).1.fullInterval : Int)
      = max (moveLimitInterval cfg lines_count l axis_diff) 200 ∧
    moveLimitInterval cfg lines_count l axis_diff
      = max (if l.isZMove then
              max (max (max (truncToLong ((moveTime cfg lines_count l.distance).1
                      / (l.stepsRemaining : ℚ)))
                    (feedrateIntervals cfg l axis_diff 0))
                  (feedrateIntervals cfg l axis_diff 1))
                (feedrateIntervals cfg l axis_diff 2)
            else
              max (max (truncToLong ((moveTime cfg lines_count l.distance).1
                      / (l.stepsRemaining : ℚ)))
                    (feedrateIntervals cfg l axis_diff 0))
                (feedrateIntervals cfg l axis_diff 1))
          (feedrateIntervals cfg l axis_diff 3) ∧
    200 ≤ (calculateMoveLine cfg lines_count l axis_diff).1.fullInterval ∧
    (calculateMoveLine cfg lines_count l axis_diff).1.vMax
      = (cfg.fCpu / (calculateMoveLine cfg lines_count l axis_diff).1.fullInterval) % 65536 ∧
    (calculateMoveLine cfg lines_count l axis_diff).1.vMax ≤ cfg.fCpu / 200 ∧
    (cfg.fCpu / 200 < 65536 →
      (calculateMoveLine cfg lines_count l axis_diff).1.vMax
        = cfg.fCpu / (calculateMoveLine cfg lines_count l axis_diff).1.fullInterval) := by
  have hfi : ((calculateMoveLine cfg lines_count l axis_diff).1.fullInterval : Int)
      = max (moveLimitInterval cfg lines_count l axis_diff) 200 := by
    rw [calculateMoveLine_fullInterval]
    unfold wrapU32
    generalize moveLimitInterval cfg lines_count l axis_diff = li at hrange ⊢
    simp only [max_def]
    split_ifs <;> omega
  have h200 : 200 ≤ (calculateMoveLine cfg lines_count l axis_diff).1.fullInterval := by
    have : (200 : Int) ≤ max (moveLimitInterval cfg lines_count l axis_diff) 200 :=
      le_max_right _ _
    omega
  have hdiv : cfg.fCpu / (calculateMoveLine cfg lines_count l axis_diff).1.fullInterval
      ≤ cfg.fCpu / 200 := Nat.div_le_div_left h200 (by norm_num)
  have hv := calculateMoveLine_vMax cfg lines_count l axis_diff
  refine ⟨hfi, ?_, h200, ?_, ?_, ?_⟩
  · unfold moveLimitInterval limitIntervalOf
    simp only [int_ite_gt_eq_max]
  · rw [hv]; rfl
  · rw [hv]; unfold wrapU16
    exact le_trans (Nat.mod_le _ _) hdiv
  · intro hsmall
    rw [hv]; unfold wrapU16
    exact Nat.mod_eq_of_lt (lt_of_le_of_lt hdiv hsmall)

/-- The step-interval floor at the 10 mm move with 800 steps per mm: `fullInterval` is
`max(limitInterval, 200)`. -/
theorem calculate_move_fullInterval_floor_witness :
    ((calculateMoveLine fineStepConfig 12 fastMove fastDiff).1.fullInterval : Int)
      = max (moveLimitInterval fineStepConfig 12 fastMove fastDiff) 200 :=
  (calculate_move_fullInterval_floor fineStepConfig 12 fastMove fastDiff (by decide!)).1

/-- C16, evaluated on the code: for the 10 mm move at 150 mm/s with 800 steps per mm the floor
applies (`limitInterval = 133`, `fullInterval = 200`), the speeds are computed from
`time_for_move = limitInterval * stepsRemaining`, and
`fullSpeed * fullInterval * stepsRemaining = 32000000000/133` differs from
`distance * F_CPU = 160000000`. -/
theorem calculate_move_speed_ignores_interval_floor :
    moveLimitInterval fineStepConfig 12 fastMove fastDiff = 133 ∧
    (calculateMoveLine fineStepConfig 12 fastMove fastDiff).1.fullInterval = 200 ∧
    (calculateMoveLine fineStepConfig 12 fastMove fastDiff).1.stepsRemaining = 8000 ∧
    (calculateMoveLine fineStepConfig 12 fastMove fastDiff).1.fullSpeed = 20000 / 133 ∧
    (calculateMoveLine fineStepConfig 12 fastMove fastDiff).1.fullSpeed
        * ((calculateMoveLine fineStepConfig 12 fastMove fastDiff).1.fullInterval : ℚ)
        * ((calculateMoveLine fineStepConfig 12 fastMove fastDiff).1.stepsRemaining : ℚ)
      = 32000000000 / 133 ∧
    (calculateMoveLine fineStepConfig 12 fastMove fastDiff).1.distance
        * (fineStepConfig.fCpu : ℚ) = 160000000 := by
  decide!

/-! ## Trapezoid materialiser: skip, ramp lengths, plateau clamp (C24, C25, C26) -/

/-- C24: `updateStepsParameter` returns a warm-up segment and a segment whose parameters are up
to date unchanged; on every other segment it sets the parameters-up-to-date flag; and a second
call right after the first changes nothing. -/
theorem updateStepsParameter_skip_and_idempotent (cfg : Config) (l : PrintLine) :
    (l.isWarmUp = true ∨ l.areParameterUpToDate = true → updateStepsParameter cfg l = l) ∧
    (¬ (l.isWarmUp = true ∨ l.areParameterUpToDate = true) →
      (updateStepsParameter cfg l).areParameterUpToDate = true) ∧
    updateStepsParameter cfg (updateStepsParameter cfg l) = updateStepsParameter cfg l := by
  have h1 : l.isWarmUp = true ∨ l.areParameterUpToDate = true → updateStepsParameter cfg l = l := by
    intro h
    unfold updateStepsParameter
    have hb : (l.isWarmUp || l.areParameterUpToDate) = true := by simpa using h
    rw [if_pos hb]
  have h2 : ¬ (l.isWarmUp = true ∨ l.areParameterUpToDate = true) →
      (updateStepsParameter cfg l).areParameterUpToDate = true := by
    intro h
    unfold updateStepsParameter
    have hb : ¬ (l.isWarmUp || l.areParameterUpToDate) = true := by simpa using h
    rw [if_neg hb]
    rfl
  refine ⟨h1, h2, ?_⟩
  by_cases h : l.isWarmUp = true ∨ l.areParameterUpToDate = true
  · rw [h1 h]; exact h1 h
  · have h3 := h2 h
    generalize updateStepsParameter cfg l = m at h3
    unfold updateStepsParameter
    have hb : (m.isWarmUp || m.areParameterUpToDate) = true := by simp [h3]
    rw [if_pos hb]

/-- C24 on `shortSegment`: a second call of `updateStepsParameter` changes nothing. -/
theorem updateStepsParameter_skip_and_idempotent_witness :
    updateStepsParameter sampleConfig (updateStepsParameter sampleConfig shortSegment)
      = updateStepsParameter sampleConfig shortSegment :=
  (updateStepsParameter_skip_and_idempotent sampleConfig shortSegment).2.2

/-- The 16 bit square kernel returns the square of a 16 bit value. -/
theorem U16SquaredToU32_eq_sq (val : Nat) (h : val < 65536) : U16SquaredToU32 val = val * val := by
  unfold U16SquaredToU32 adc8
  simp only []
  have ha : val % 256 < 256 := Nat.mod_lt _ (by norm_num)
  have hb : val / 256 % 256 = val / 256 := Nat.mod_eq_of_lt (by omega)
  have hb2 : val / 256 < 256 := by omega
  have hv : val = val % 256 + 256 * (val / 256) := by omega
  rw [hb]
  generalize val % 256 = a at ha hv
  generalize val / 256 = b at hb2 hv
  subst hv
  have p0 : a * a ≤ 255 * 255 := Nat.mul_le_mul (by omega) (by omega)
  have p1 : b * b ≤ 255 * 255 := Nat.mul_le_mul (by omega) (by omega)
  have p2 : a * b ≤ 255 * 255 := Nat.mul_le_mul (by omega) (by omega)
  have e : (a + 256 * b) * (a + 256 * b) = a * a + 512 * (a * b) + 65536 * (b * b) := by ring
  rw [e]
  generalize a * a = x at p0
  generalize b * b = y at p1
  generalize a * b = z at p2
  omega

/-- The counts and rates that `updateStepsParameter` stores for a segment that is neither a
warm-up segment nor up to date, in terms of the ramp lengths before the clamp. -/
theorem updateStepsParameter_counts (cfg : Config) (l : PrintLine)
    (hw : l.isWarmUp = false) (hu : l.areParameterUpToDate = false) :
    (updateStepsParameter cfg l).vStart
      = truncToU16 ((l.vMax : ℚ) * (l.startSpeed * l.invFullSpeed)) ∧
    (updateStepsParameter cfg l).vEnd
      = truncToU16 ((l.vMax : ℚ) * (l.endSpeed * l.invFullSpeed)) ∧
    (updateStepsParameter cfg l).accelSteps
      = (if (wrapU16 (rampSteps l.vMax (updateStepsParameter cfg l).vStart l.accelerationPrim
              + rampSteps l.vMax (updateStepsParameter cfg l).vEnd l.accelerationPrim) : Int)
            ≥ l.stepsRemaining then
          (if plateauReduction
                (rampSteps l.vMax (updateStepsParameter cfg l).vStart l.accelerationPrim)
                (rampSteps l.vMax (updateStepsParameter cfg l).vEnd l.accelerationPrim)
                l.stepsRemaining
              < rampSteps l.vMax (updateStepsParameter cfg l).vStart l.accelerationPrim then
            rampSteps l.vMax (updateStepsParameter cfg l).vStart l.accelerationPrim
              - plateauReduction
                  (rampSteps l.vMax (updateStepsParameter cfg l).vStart l.accelerationPrim)
                  (rampSteps l.vMax (updateStepsParameter cfg l).vEnd l.accelerationPrim)
                  l.stepsRemaining
          else 0)
        else rampSteps l.vMax (updateStepsParameter cfg l).vStart l.accelerationPrim) ∧
    (updateStepsParameter cfg l).decelSteps
      = (if (wrapU16 (rampSteps l.vMax (updateStepsParameter cfg l).vStart l.accelerationPrim
              + rampSteps l.vMax (updateStepsParameter cfg l).vEnd l.accelerationPrim) : Int)
            ≥ l.stepsRemaining then
          (if plateauReduction
                (rampSteps l.vMax (updateStepsParameter cfg l).vStart l.accelerationPrim)
                (rampSteps l.vMax (updateStepsParameter cfg l).vEnd l.accelerationPrim)
                l.stepsRemaining
              < rampSteps l.vMax (updateStepsParameter cfg l).vEnd l.accelerationPrim then
            rampSteps l.vMax (updateStepsParameter cfg l).vEnd l.accelerationPrim
              - plateauReduction
                  (rampSteps l.vMax (updateStepsParameter cfg l).vStart l.accelerationPrim)
                  (rampSteps l.vMax (updateStepsParameter cfg l).vEnd l.accelerationPrim)
                  l.stepsRemaining
          else 0)
        else rampSteps l.vMax (updateStepsParameter cfg l).vEnd l.accelerationPrim) := by
  have hb : ¬ (l.isWarmUp || l.areParameterUpToDate) = true := by simp [hw, hu]
  have hs : (updateStepsParameter cfg l).vStart
      = truncToU16 ((l.vMax : ℚ) * (l.startSpeed * l.invFullSpeed)) := by
    unfold updateStepsParameter
    rw [if_neg hb]
    simp only []
    split_ifs <;> rfl
  have he : (updateStepsParameter cfg l).vEnd
      = truncToU16 ((l.vMax : ℚ) * (l.endSpeed * l.invFullSpeed)) := by
    unfold updateStepsParameter
    rw [if_neg hb]
    simp only []
    split_ifs <;> rfl
  refine ⟨hs, he, ?_, ?_⟩
  · rw [hs, he]
    unfold updateStepsParameter rampSteps plateauReduction
    rw [if_neg hb]
    simp only []
    split_ifs <;> rfl
  · rw [hs, he]
    unfold updateStepsParameter rampSteps plateauReduction
    rw [if_neg hb]
    simp only []
    split_ifs <;> rfl

/-- The ramp length before the clamp is the floor of `(vMax² - v²) / (2 a)` plus one, as long
as that fits 16 bits. -/
theorem rampSteps_eq_floor (vMax v a : Nat) (hv : v ≤ vMax) (hm : vMax < 65536) (ha : 0 < a)
    (ha2 : a < 2147483648) (hfit : (vMax * vMax - v * v) / (2 * a) + 1 < 65536) :
    rampSteps vMax v a = (vMax * vMax - v * v) / (2 * a) + 1 := by
  unfold rampSteps
  rw [U16SquaredToU32_eq_sq vMax hm, U16SquaredToU32_eq_sq v (by omega)]
  have hsq : v * v ≤ vMax * vMax := Nat.mul_le_mul hv hv
  have hsq2 : vMax * vMax ≤ 65535 * 65535 := Nat.mul_le_mul (by omega) (by omega)
  have h1 : wrapU32 (vMax * vMax + 4294967296 - v * v) = vMax * vMax - v * v := by
    unfold wrapU32; omega
  have h2 : wrapU32 (a <<< 1) = 2 * a := by
    unfold wrapU32; rw [Nat.shiftLeft_eq]; omega
  rw [h1, h2]
  generalize (vMax * vMax - v * v) / (2 * a) = q at hfit
  unfold wrapU32 wrapU16
  omega

/-- C25, evaluated on the code: for the segment started from rest with `vMax = 100` and
`accelerationPrim = 3000` no clamp applies (3 ramp steps against 1000 steps), and
`updateStepsParameter` stores `accelSteps = 2`, while
`ceil((vMax² - vStart²) / (2 * accelerationPrim)) + 1 = ceil(10000/6000) + 1 = 3`. -/
theorem updateStepsParameter_accelSteps_not_ceil :
    (updateStepsParameter sampleConfig standingStart).vStart = 0 ∧
    (updateStepsParameter sampleConfig standingStart).vMax = 100 ∧
    (updateStepsParameter sampleConfig standingStart).accelerationPrim = 3000 ∧
    rampSteps 100 0 3000 = 2 ∧
    (updateStepsParameter sampleConfig standingStart).accelSteps = 2 ∧
    (updateStepsParameter sampleConfig standingStart).decelSteps = 1 ∧
    (updateStepsParameter sampleConfig standingStart).stepsRemaining = 1000 ∧
    ⌈((100 * 100 - 0 * 0 : Int) : ℚ) / (2 * 3000)⌉ + 1 = 3 := by
  decide!

/-- C25, amended: for a segment that is neither a warm-up segment nor up to date, with a 16 bit
`vMax` not below `vStart` and `vEnd`, `0 < accelerationPrim < 2^31` and ramp lengths that fit
16 bits, the ramp lengths before the plateau clamp are
`floor((vMax² - vStart²) / (2 * accelerationPrim)) + 1` and
`floor((vMax² - vEnd²) / (2 * accelerationPrim)) + 1`; they are the stored `accelSteps` and
`decelSteps` when their sum is below `stepsRemaining`. -/
theorem updateStepsParameter_ramp_lengths (cfg : Config) (l : PrintLine)
    (hw : l.isWarmUp = false) (hu : l.areParameterUpToDate = false)
    (hm : l.vMax < 65536)
    (hs : (updateStepsParameter cfg l).vStart ≤ l.vMax)
    (he : (updateStepsParameter cfg l).vEnd ≤ l.vMax)
    (ha : 0 < l.accelerationPrim) (ha2 : l.accelerationPrim < 2147483648)
    (hfit : (l.vMax * l.vMax - (updateStepsParameter cfg l).vStart
              * (updateStepsParameter cfg l).vStart) / (2 * l.accelerationPrim) + 1
          + ((l.vMax * l.vMax - (updateStepsParameter cfg l).vEnd
              * (updateStepsParameter cfg l).vEnd) / (2 * l.accelerationPrim) + 1) < 65536) :
    rampSteps l.vMax (updateStepsParameter cfg l).vStart l.accelerationPrim
      = (l.vMax * l.vMax - (updateStepsParameter cfg l).vStart
          * (updateStepsParameter cfg l).vStart) / (2 * l.accelerationPrim) + 1 ∧
    rampSteps l.vMax (updateStepsParameter cfg l).vEnd l.accelerationPrim
      = (l.vMax * l.vMax - (updateStepsParameter cfg l).vEnd
          * (updateStepsParameter cfg l).vEnd) / (2 * l.accelerationPrim) + 1 ∧
    ((((l.vMax * l.vMax - (updateStepsParameter cfg l).vStart
              * (updateStepsParameter cfg l).vStart) / (2 * l.accelerationPrim) + 1
          + ((l.vMax * l.vMax - (updateStepsParameter cfg l).vEnd
              * (updateStepsParameter cfg l).vEnd) / (2 * l.accelerationPrim) + 1) : Nat) : Int)
        < l.stepsRemaining →
      (updateStepsParameter cfg l).accelSteps
        = (l.vMax * l.vMax - (updateStepsParameter cfg l).vStart
            * (updateStepsParameter cfg l).vStart) / (2 * l.accelerationPrim) + 1 ∧
      (updateStepsParameter cfg l).decelSteps
        = (l.vMax * l.vMax - (updateStepsParameter cfg l).vEnd
            * (updateStepsParameter cfg l).vEnd) / (2 * l.accelerationPrim) + 1) := by
  have hA := rampSteps_eq_floor l.vMax (updateStepsParameter cfg l).vStart l.accelerationPrim
    hs hm ha ha2 (lt_of_le_of_lt (Nat.le_add_right _ _) hfit)
  have hD := rampSteps_eq_floor l.vMax (updateStepsParameter cfg l).vEnd l.accelerationPrim
    he hm ha ha2 (lt_of_le_of_lt (Nat.le_add_left _ _) hfit)
  refine ⟨hA, hD, ?_⟩
  intro hlt
  obtain ⟨_, _, c3, c4⟩ := updateStepsParameter_counts cfg l hw hu
  rw [hA, hD] at c3 c4
  have hwrap : wrapU16 ((l.vMax * l.vMax - (updateStepsParameter cfg l).vStart
              * (updateStepsParameter cfg l).vStart) / (2 * l.accelerationPrim) + 1
          + ((l.vMax * l.vMax - (updateStepsParameter cfg l).vEnd
              * (updateStepsParameter cfg l).vEnd) / (2 * l.accelerationPrim) + 1))
      = (l.vMax * l.vMax - (updateStepsParameter cfg l).vStart
              * (updateStepsParameter cfg l).vStart) / (2 * l.accelerationPrim) + 1
          + ((l.vMax * l.vMax - (updateStepsParameter cfg l).vEnd
              * (updateStepsParameter cfg l).vEnd) / (2 * l.accelerationPrim) + 1) :=
    Nat.mod_eq_of_lt hfit
  rw [hwrap, if_neg (not_le.mpr hlt)] at c3 c4
  exact ⟨c3, c4⟩

/-- C25, amended, on the segment started from rest: the ramp lengths before the clamp are
`10000 / 6000 + 1 = 2` and `0 / 6000 + 1 = 1`. -/
theorem updateStepsParameter_ramp_lengths_witness :
    rampSteps standingStart.vMax (updateStepsParameter sampleConfig standingStart).vStart
        standingStart.accelerationPrim
      = (standingStart.vMax * standingStart.vMax
          - (updateStepsParameter sampleConfig standingStart).vStart
            * (updateStepsParameter sampleConfig standingStart).vStart)
        / (2 * standingStart.accelerationPrim) + 1 :=
  (updateStepsParameter_ramp_lengths sampleConfig standingStart (by decide) (by decide)
    (by decide) (by decide!) (by decide!) (by decide) (by decide) (by decide!)).1

/-- C26, evaluated on the code: for the two-step segment entered and left at full speed the
ramp lengths before the clamp are 1 and 1, their sum equals `stepsRemaining = 2`, and
`updateStepsParameter` still reduces both counts to 0. -/
theorem updateStepsParameter_clamps_at_equality :
    rampSteps cruiseSegment.vMax (updateStepsParameter sampleConfig cruiseSegment).vStart
      cruiseSegment.accelerationPrim = 1 ∧
    rampSteps cruiseSegment.vMax (updateStepsParameter sampleConfig cruiseSegment).vEnd
      cruiseSegment.accelerationPrim = 1 ∧
    cruiseSegment.stepsRemaining = 2 ∧
    (updateStepsParameter sampleConfig cruiseSegment).accelSteps = 0 ∧
    (updateStepsParameter sampleConfig cruiseSegment).decelSteps = 0 := by
  decide!

/-- C26, amended: for a segment that is neither a warm-up segment nor up to date, with
`stepsRemaining >= 0` and ramp lengths `a`, `d` before the clamp whose sum plus 2 fits 16 bits:
when `a + d >= stepsRemaining`, both counts are reduced by
`floor((a + d - stepsRemaining) / 2) + 1` and clamped at zero; when `a + d < stepsRemaining`,
both are stored as computed. -/
theorem updateStepsParameter_plateau_clamp (cfg : Config) (l : PrintLine)
    (hw : l.isWarmUp = false) (hu : l.areParameterUpToDate = false)
    (hsteps : 0 ≤ l.stepsRemaining)
    (hfit : rampSteps l.vMax (updateStepsParameter cfg l).vStart l.accelerationPrim
        + rampSteps l.vMax (updateStepsParameter cfg l).vEnd l.accelerationPrim + 2 < 65536) :
    (((rampSteps l.vMax (updateStepsParameter cfg l).vStart l.accelerationPrim
          + rampSteps l.vMax (updateStepsParameter cfg l).vEnd l.accelerationPrim : Nat) : Int)
        ≥ l.stepsRemaining →
      (updateStepsParameter cfg l).accelSteps
        = rampSteps l.vMax (updateStepsParameter cfg l).vStart l.accelerationPrim
          - ((((rampSteps l.vMax (updateStepsParameter cfg l).vStart l.accelerationPrim
                + rampSteps l.vMax (updateStepsParameter cfg l).vEnd l.accelerationPrim : Nat)
                : Int) - l.stepsRemaining) / 2 + 1).toNat ∧
      (updateStepsParameter cfg l).decelSteps
        = rampSteps l.vMax (updateStepsParameter cfg l).vEnd l.accelerationPrim
          - ((((rampSteps l.vMax (updateStepsParameter cfg l).vStart l.accelerationPrim
                + rampSteps l.vMax (updateStepsParameter cfg l).vEnd l.accelerationPrim : Nat)
                : Int) - l.stepsRemaining) / 2 + 1).toNat) ∧
    (((rampSteps l.vMax (updateStepsParameter cfg l).vStart l.accelerationPrim
          + rampSteps l.vMax (updateStepsParameter cfg l).vEnd l.accelerationPrim : Nat) : Int)
        < l.stepsRemaining →
      (updateStepsParameter cfg l).accelSteps
        = rampSteps l.vMax (updateStepsParameter cfg l).vStart l.accelerationPrim ∧
      (updateStepsParameter cfg l).decelSteps
        = rampSteps l.vMax (updateStepsParameter cfg l).vEnd l.accelerationPrim) := by
  obtain ⟨_, _, c3, c4⟩ := updateStepsParameter_counts cfg l hw hu
  generalize rampSteps l.vMax (updateStepsParameter cfg l).vStart l.accelerationPrim = a
    at c3 c4 hfit ⊢
  generalize rampSteps l.vMax (updateStepsParameter cfg l).vEnd l.accelerationPrim = d
    at c3 c4 hfit ⊢
  generalize (updateStepsParameter cfg l).accelSteps = x at c3 ⊢
  generalize (updateStepsParameter cfg l).decelSteps = y at c4 ⊢
  generalize l.stepsRemaining = n at c3 c4 hsteps ⊢
  have hwrap : wrapU16 (a + d) = a + d := Nat.mod_eq_of_lt (by omega)
  rw [hwrap] at c3 c4
  constructor
  · intro hge
    have hred : plateauReduction a d n = ((((a + d : Nat) : Int) - n) / 2 + 1).toNat := by
      unfold plateauReduction
      rw [hwrap]
      unfold wrapU16
      omega
    rw [if_pos hge, hred] at c3 c4
    constructor
    · rw [c3]; split_ifs <;> omega
    · rw [c4]; split_ifs <;> omega
  · intro hlt
    rw [if_neg (not_le.mpr hlt)] at c3 c4
    exact ⟨c3, c4⟩

/-- C26, amended, on the two-step segment: both counts are reduced by `(2 - 2) / 2 + 1 = 1`. -/
theorem updateStepsParameter_plateau_clamp_witness :
    (updateStepsParameter sampleConfig cruiseSegment).accelSteps
      = rampSteps cruiseSegment.vMax (updateStepsParameter sampleConfig cruiseSegment).vStart
          cruiseSegment.accelerationPrim
        - ((((rampSteps cruiseSegment.vMax (updateStepsParameter sampleConfig cruiseSegment).vStart
                cruiseSegment.accelerationPrim
              + rampSteps cruiseSegment.vMax
                  (updateStepsParameter sampleConfig cruiseSegment).vEnd
                  cruiseSegment.accelerationPrim : Nat) : Int)
            - cruiseSegment.stepsRemaining) / 2 + 1).toNat :=
  ((updateStepsParameter_plateau_clamp sampleConfig cruiseSegment (by decide) (by decide)
    (by decide) (by decide!)).1 (by decide!)).1

/-! ## Unreachable delta target (C19) -/

/-- C19, evaluated on the code: from the rim position `(10700, 0, 0)` with target
`(14700, 0, 0)` every sub-segment target is unreachable.  `split_delta_move` queues no line
and leaves `currentPositionSteps` and `lastMoveID` alone, but it writes 20 lines to the output
(19 times the invalid coordinate message and the no-move error), leaves 19 entries in the
delta segment cache (`delta_segment_count` and `delta_segment_write_pos` go from 0 to 19) and
leaves `destinationSteps[0]` at 11271, the target of the first of the 7 lines. -/
theorem split_delta_move_unreachable_leaves_traces :
    (calculate_delta deltaPrinterConfig sampleDelta atRim.currentPositionSteps ⟨0, 0, 0, 0⟩).1 = 1 ∧
    (calculate_delta deltaPrinterConfig sampleDelta ⟨10705, 0, 0, 0⟩ ⟨0, 0, 0, 0⟩).1 = 0 ∧
    (calculate_delta deltaPrinterConfig sampleDelta atRim.destinationSteps ⟨0, 0, 0, 0⟩).1 = 0 ∧
    (split_delta_move deltaPrinterConfig sampleDelta atRim false false true).map
        (fun r => (r.planner.lines_count, r.planner.lines_write_pos, r.currentPositionSteps,
          r.lastMoveID))
      = some (atRim.planner.lines_count, atRim.planner.lines_write_pos,
          atRim.currentPositionSteps, atRim.lastMoveID) ∧
    atRim.output = 0 ∧ atRim.delta_segment_count = 0 ∧ atRim.delta_segment_write_pos = 0 ∧
    (split_delta_move deltaPrinterConfig sampleDelta atRim false false true).map
        (fun r => (r.output, r.delta_segment_count, r.delta_segment_write_pos,
          r.destinationSteps))
      = some (20, 19, 19, ⟨11271, 0, 0, 0⟩) := by
  decide!

/-! ## Delta kinematics (C20) -/

/-- C20, evaluated on the code: at the Cartesian position `(0, -9900, -2000)` all three
discriminants are non-negative and `calculate_delta` returns 1; for tower 3 the discriminant is
`3990000` and the output is `-2`, so `t = deltaPosSteps[2] - z = 1998` with
`t * t = 3992004`, above the discriminant. -/
theorem calculate_delta_rounds_up_below_zero :
    (calculate_delta deltaPrinterConfig sampleDelta ⟨0, -9900, -2000, 0⟩ ⟨0, 0, 0, 0⟩).1 = 1 ∧
    sampleDelta.diagonalRodStepsSquared - (sampleDelta.tower3X - 0) * (sampleDelta.tower3X - 0)
      - (sampleDelta.tower3Y - -9900) * (sampleDelta.tower3Y - -9900) = 3990000 ∧
    (calculate_delta deltaPrinterConfig sampleDelta ⟨0, -9900, -2000, 0⟩ ⟨0, 0, 0, 0⟩).2.get 2
      = -2 ∧
    ((calculate_delta deltaPrinterConfig sampleDelta ⟨0, -9900, -2000, 0⟩ ⟨0, 0, 0, 0⟩).2.get 2
        - -2000)
      * ((calculate_delta deltaPrinterConfig sampleDelta ⟨0, -9900, -2000, 0⟩ ⟨0, 0, 0, 0⟩).2.get 2
        - -2000) = 3992004 := by
  decide!

/-- A square of a 16 bit difference fits a `long`. -/
theorem sq_of_small (a : Int) (h1 : -32767 ≤ a) (h2 : a ≤ 32767) :
    sq (wrapLong a) = a * a ∧ 0 ≤ a * a ∧ a * a ≤ 1073676289 := by
  have hw : wrapLong a = a := wrapLong_of_range a (by omega) (by omega)
  have h0 : 0 ≤ a * a := mul_self_nonneg a
  have h3 : a * a ≤ 1073676289 := by nlinarith
  refine ⟨?_, h0, h3⟩
  unfold sq
  rw [hw]
  exact wrapLong_of_range _ (by omega) (by omega)

/-- The float conversion of the discriminant rounds the tower height up even for `z = 0`: at
the Cartesian position `(0, 9999, 0)` the discriminant of tower 3 is `399999999`, the nearest
`float` is `400000000`, and with a `long` to `float` conversion that rounds to 24 bits
`calculate_delta` returns 1 and stores `20000` for tower 3, whose square is above the
discriminant; the conversion that does not round gives `19999`. -/
theorem calculate_delta_rounds_up_through_float :
    towerDiscriminant sampleDelta ⟨0, 9999, 0, 0⟩ 2 = 399999999 ∧
    roundingDeltaConfig.floatOfLong 399999999 = 400000000 ∧
    (calculate_delta roundingDeltaConfig sampleDelta ⟨0, 9999, 0, 0⟩ ⟨0, 0, 0, 0⟩).1 = 1 ∧
    (calculate_delta roundingDeltaConfig sampleDelta ⟨0, 9999, 0, 0⟩ ⟨0, 0, 0, 0⟩).2.get 2
      = 20000 ∧
    (calculate_delta deltaPrinterConfig sampleDelta ⟨0, 9999, 0, 0⟩ ⟨0, 0, 0, 0⟩).2.get 2
      = 19999 := by
  decide!

/-- The tower height that `calculate_delta` stores for a non-negative discriminant `d` and a
non-negative `z`, when the float square root of the converted discriminant is within half a
step below and five quarters above the integer square root and the float sum is within a
quarter step of the exact sum: it is within one step of the integer square root plus `z`. -/
theorem tower_height (cfg : Config) (d z : Int) (hd : 0 ≤ d) (hd2 : d < 2147483648)
    (hz : 0 ≤ z)
    (hsqrt : ∀ n : Nat, n < 2147483648 →
      0 ≤ cfg.fsqrt (cfg.floatOfLong n) ∧
      (Nat.sqrt n : ℚ) - 1 / 2 ≤ cfg.fsqrt (cfg.floatOfLong n) ∧
      cfg.fsqrt (cfg.floatOfLong n) ≤ (Nat.sqrt n : ℚ) + 5 / 4)
    (hadd : ∀ r : ℚ, 0 ≤ r → r ≤ 46342 →
      r + (z : ℚ) - 1 / 4 ≤ cfg.floatAdd r (cfg.floatOfLong z) ∧
      cfg.floatAdd r (cfg.floatOfLong z) ≤ r + (z : ℚ) + 1 / 4) :
    (Nat.sqrt d.toNat : Int) - 1
        ≤ truncToLong (cfg.floatAdd (cfg.fsqrt (cfg.floatOfLong d)) (cfg.floatOfLong z)) - z ∧
    truncToLong (cfg.floatAdd (cfg.fsqrt (cfg.floatOfLong d)) (cfg.floatOfLong z)) - z
        ≤ (Nat.sqrt d.toNat : Int) + 1 := by
  obtain ⟨n, rfl⟩ := Int.eq_ofNat_of_zero_le hd
  have hn : n < 2147483648 := by omega
  obtain ⟨h0, h1, h2⟩ := hsqrt n hn
  have hs : Nat.sqrt n < 46341 := by
    rw [Nat.sqrt_lt']
    omega
  have hsq : ((Nat.sqrt n : Nat) : ℚ) ≤ 46340 := by
    have : Nat.sqrt n ≤ 46340 := by omega
    exact_mod_cast this
  obtain ⟨a1, a2⟩ := hadd (cfg.fsqrt (cfg.floatOfLong (n : Int))) h0 (by linarith)
  rw [Int.toNat_natCast]
  generalize cfg.floatAdd (cfg.fsqrt (cfg.floatOfLong (n : Int))) (cfg.floatOfLong z) = x
    at a1 a2 ⊢
  generalize cfg.fsqrt (cfg.floatOfLong (n : Int)) = r at h0 h1 h2 a1 a2
  have hz' : (0 : ℚ) ≤ (z : ℚ) := by exact_mod_cast hz
  have hs0 : (0 : ℚ) ≤ (Nat.sqrt n : ℚ) := Nat.cast_nonneg _
  unfold truncToLong
  by_cases hx : 0 ≤ x
  · rw [if_pos hx]
    have l1 : (Nat.sqrt n : Int) + z - 1 ≤ ⌊x⌋ := by
      rw [Int.le_floor]
      push_cast
      linarith
    have l2 : ⌊x⌋ < (Nat.sqrt n : Int) + z + 2 := by
      rw [Int.floor_lt]
      push_cast
      linarith
    omega
  · rw [if_neg hx]
    have hx' : x < 0 := lt_of_not_le hx
    have hsz : ((Nat.sqrt n : Int) + z : ℚ) < 1 := by
      push_cast
      linarith
    have hsz' : (Nat.sqrt n : Int) + z < 1 := by exact_mod_cast hsz
    have hfl : ⌊-x⌋ = 0 := by
      rw [Int.floor_eq_iff]
      push_cast
      constructor <;> linarith
    rw [hfl]
    omega

/-- C20, amended: when the coordinate differences to the towers fit 16 bits, the squared rod
length fits a `long`, `z` is not negative, the float square root of a converted `long` is
within half a step below and five quarters of a step above the integer square root, and the
float sum with `z` is within a quarter of a step of the exact sum, `calculate_delta` returns 1
iff the three discriminants are non-negative, tower 2 being taken at the Y coordinate of
tower 1 (the code reads no other), and returns 0 otherwise; when it returns 1, each
`t_i = deltaPosSteps[i] - z` is within one step of the integer square root of `D_i`. -/
theorem calculate_delta_within_one_step (cfg : Config) (dc : DeltaConfig)
    (cartesianPosSteps deltaPosSteps : Vec4 Int)
    (hsqrt : ∀ n : Nat, n < 2147483648 →
      0 ≤ cfg.fsqrt (cfg.floatOfLong n) ∧
      (Nat.sqrt n : ℚ) - 1 / 2 ≤ cfg.fsqrt (cfg.floatOfLong n) ∧
      cfg.fsqrt (cfg.floatOfLong n) ≤ (Nat.sqrt n : ℚ) + 5 / 4)
    (hadd : ∀ r : ℚ, 0 ≤ r → r ≤ 46342 →
      r + (cartesianPosSteps.get 2 : ℚ) - 1 / 4
        ≤ cfg.floatAdd r (cfg.floatOfLong (cartesianPosSteps.get 2)) ∧
      cfg.floatAdd r (cfg.floatOfLong (cartesianPosSteps.get 2))
        ≤ r + (cartesianPosSteps.get 2 : ℚ) + 1 / 4)
    (hz : 0 ≤ cartesianPosSteps.get 2)
    (hL : 0 ≤ dc.diagonalRodStepsSquared ∧ dc.diagonalRodStepsSquared < 2147483648)
    (h1x : -32767 ≤ dc.tower1X - cartesianPosSteps.get 0 ∧
      dc.tower1X - cartesianPosSteps.get 0 ≤ 32767)
    (h1y : -32767 ≤ dc.tower1Y - cartesianPosSteps.get 1 ∧
      dc.tower1Y - cartesianPosSteps.get 1 ≤ 32767)
    (h2x : -32767 ≤ dc.tower2X - cartesianPosSteps.get 0 ∧
      dc.tower2X - cartesianPosSteps.get 0 ≤ 32767)
    (h3x : -32767 ≤ dc.tower3X - cartesianPosSteps.get 0 ∧
      dc.tower3X - cartesianPosSteps.get 0 ≤ 32767)
    (h3y : -32767 ≤ dc.tower3Y - cartesianPosSteps.get 1 ∧
      dc.tower3Y - cartesianPosSteps.get 1 ≤ 32767) :
    ((calculate_delta cfg dc cartesianPosSteps deltaPosSteps).1 = 1 ↔
      (0 ≤ towerDiscriminant dc cartesianPosSteps 0 ∧
       0 ≤ towerDiscriminant dc cartesianPosSteps 1 ∧
       0 ≤ towerDiscriminant dc cartesianPosSteps 2)) ∧
    ((calculate_delta cfg dc cartesianPosSteps deltaPosSteps).1 ≠ 1 →
      (calculate_delta cfg dc cartesianPosSteps deltaPosSteps).1 = 0) ∧
    ((calculate_delta cfg dc cartesianPosSteps deltaPosSteps).1 = 1 →
      ∀ i, i < 3 →
        (Nat.sqrt (towerDiscriminant dc cartesianPosSteps i).toNat : Int) - 1
          ≤ (calculate_delta cfg dc cartesianPosSteps deltaPosSteps).2.get i
            - cartesianPosSteps.get 2 ∧
        (calculate_delta cfg dc cartesianPosSteps deltaPosSteps).2.get i
            - cartesianPosSteps.get 2
          ≤ (Nat.sqrt (towerDiscriminant dc cartesianPosSteps i).toNat : Int) + 1) := by
  obtain ⟨a1, p1, q1⟩ := sq_of_small _ h1x.1 h1x.2
  obtain ⟨a2, p2, q2⟩ := sq_of_small _ h1y.1 h1y.2
  obtain ⟨a3, p3, q3⟩ := sq_of_small _ h2x.1 h2x.2
  obtain ⟨a4, p4, q4⟩ := sq_of_small _ h3x.1 h3x.2
  obtain ⟨a5, p5, q5⟩ := sq_of_small _ h3y.1 h3y.2
  have eopt : wrapLong (dc.diagonalRodStepsSquared
      - (dc.tower1Y - cartesianPosSteps.get 1) * (dc.tower1Y - cartesianPosSteps.get 1))
      = dc.diagonalRodStepsSquared
        - (dc.tower1Y - cartesianPosSteps.get 1) * (dc.tower1Y - cartesianPosSteps.get 1) :=
    wrapLong_of_range _ (by omega) (by omega)
  have d1 : towerDiscriminant dc cartesianPosSteps 0 = dc.diagonalRodStepsSquared
      - (dc.tower1X - cartesianPosSteps.get 0) * (dc.tower1X - cartesianPosSteps.get 0)
      - (dc.tower1Y - cartesianPosSteps.get 1) * (dc.tower1Y - cartesianPosSteps.get 1) := rfl
  have d2 : towerDiscriminant dc cartesianPosSteps 1 = dc.diagonalRodStepsSquared
      - (dc.tower2X - cartesianPosSteps.get 0) * (dc.tower2X - cartesianPosSteps.get 0)
      - (dc.tower1Y - cartesianPosSteps.get 1) * (dc.tower1Y - cartesianPosSteps.get 1) := rfl
  have d3 : towerDiscriminant dc cartesianPosSteps 2 = dc.diagonalRodStepsSquared
      - (dc.tower3X - cartesianPosSteps.get 0) * (dc.tower3X - cartesianPosSteps.get 0)
      - (dc.tower3Y - cartesianPosSteps.get 1) * (dc.tower3Y - cartesianPosSteps.get 1) := rfl
  have e1 : wrapLong (dc.diagonalRodStepsSquared
      - (dc.tower1Y - cartesianPosSteps.get 1) * (dc.tower1Y - cartesianPosSteps.get 1)
      - (dc.tower1X - cartesianPosSteps.get 0) * (dc.tower1X - cartesianPosSteps.get 0))
      = towerDiscriminant dc cartesianPosSteps 0 := by
    rw [wrapLong_of_range _ (by omega) (by omega), d1]
    ring
  have e2 : wrapLong (dc.diagonalRodStepsSquared
      - (dc.tower1Y - cartesianPosSteps.get 1) * (dc.tower1Y - cartesianPosSteps.get 1)
      - (dc.tower2X - cartesianPosSteps.get 0) * (dc.tower2X - cartesianPosSteps.get 0))
      = towerDiscriminant dc cartesianPosSteps 1 := by
    rw [wrapLong_of_range _ (by omega) (by omega), d2]
    ring
  have e3a : wrapLong (dc.diagonalRodStepsSquared
      - (dc.tower3X - cartesianPosSteps.get 0) * (dc.tower3X - cartesianPosSteps.get 0))
      = dc.diagonalRodStepsSquared
        - (dc.tower3X - cartesianPosSteps.get 0) * (dc.tower3X - cartesianPosSteps.get 0) :=
    wrapLong_of_range _ (by omega) (by omega)
  have e3 : wrapLong (dc.diagonalRodStepsSquared
      - (dc.tower3X - cartesianPosSteps.get 0) * (dc.tower3X - cartesianPosSteps.get 0)
      - (dc.tower3Y - cartesianPosSteps.get 1) * (dc.tower3Y - cartesianPosSteps.get 1))
      = towerDiscriminant dc cartesianPosSteps 2 := by
    rw [wrapLong_of_range _ (by omega) (by omega)]
    rfl
  have u1 : towerDiscriminant dc cartesianPosSteps 0 < 2147483648 := by rw [d1]; omega
  have u2 : towerDiscriminant dc cartesianPosSteps 1 < 2147483648 := by rw [d2]; omega
  have u3 : towerDiscriminant dc cartesianPosSteps 2 < 2147483648 := by rw [d3]; omega
  unfold calculate_delta
  simp only [a1, a2, a3, a4, a5, eopt, e1, e2, e3a, e3]
  have t1 := fun h => tower_height cfg (towerDiscriminant dc cartesianPosSteps 0)
    (cartesianPosSteps.get 2) h u1 hz hsqrt hadd
  have t2 := fun h => tower_height cfg (towerDiscriminant dc cartesianPosSteps 1)
    (cartesianPosSteps.get 2) h u2 hz hsqrt hadd
  have t3 := fun h => tower_height cfg (towerDiscriminant dc cartesianPosSteps 2)
    (cartesianPosSteps.get 2) h u3 hz hsqrt hadd
  by_cases c1 : towerDiscriminant dc cartesianPosSteps 0 ≥ 0
  · by_cases c2 : towerDiscriminant dc cartesianPosSteps 1 ≥ 0
    · by_cases c3 : towerDiscriminant dc cartesianPosSteps 2 ≥ 0
      · rw [if_pos c1, if_pos c2, if_pos c3]
        refine ⟨⟨fun _ => ⟨c1, c2, c3⟩, fun _ => rfl⟩, fun h => absurd rfl h, fun _ i hi => ?_⟩
        interval_cases i
        · exact t1 c1
        · exact t2 c2
        · exact t3 c3
      · rw [if_pos c1, if_pos c2, if_neg c3]
        exact ⟨⟨fun h => absurd h Nat.zero_ne_one, fun h => absurd h.2.2 c3⟩, fun _ => rfl,
          fun h => absurd h Nat.zero_ne_one⟩
    · rw [if_pos c1, if_neg c2]
      exact ⟨⟨fun h => absurd h Nat.zero_ne_one, fun h => absurd h.2.1 c2⟩, fun _ => rfl,
        fun h => absurd h Nat.zero_ne_one⟩
  · rw [if_neg c1]
    exact ⟨⟨fun h => absurd h Nat.zero_ne_one, fun h => absurd h.1 c1⟩, fun _ => rfl,
      fun h => absurd h Nat.zero_ne_one⟩

/-- The integer square root of the integer part, taken of a `long` converted without
rounding, is the integer square root. -/
theorem integerSqrt_accurate (n : Nat) (_h : n < 2147483648) :
    0 ≤ integerSqrtConfig.fsqrt (integerSqrtConfig.floatOfLong n) ∧
    (Nat.sqrt n : ℚ) - 1 / 2 ≤ integerSqrtConfig.fsqrt (integerSqrtConfig.floatOfLong n) ∧
    integerSqrtConfig.fsqrt (integerSqrtConfig.floatOfLong n) ≤ (Nat.sqrt n : ℚ) + 5 / 4 := by
  have h : integerSqrtConfig.fsqrt (integerSqrtConfig.floatOfLong n) = (Nat.sqrt n : ℚ) := by
    show ((Nat.sqrt ⌊(((n : Int) : ℚ))⌋.toNat : Nat) : ℚ) = (Nat.sqrt n : ℚ)
    rw [Int.floor_intCast, Int.toNat_natCast]
  rw [h]
  have h0 : (0 : ℚ) ≤ (Nat.sqrt n : ℚ) := Nat.cast_nonneg _
  exact ⟨h0, by linarith, by linarith⟩

/-- The sum that does not round is within a quarter of the exact sum. -/
theorem exactSum_accurate (z : Int) (r : ℚ) (_h0 : 0 ≤ r) (_h1 : r ≤ 46342) :
    r + (z : ℚ) - 1 / 4 ≤ integerSqrtConfig.floatAdd r (integerSqrtConfig.floatOfLong z) ∧
    integerSqrtConfig.floatAdd r (integerSqrtConfig.floatOfLong z) ≤ r + (z : ℚ) + 1 / 4 := by
  have h : integerSqrtConfig.floatAdd r (integerSqrtConfig.floatOfLong z) = r + (z : ℚ) := rfl
  rw [h]
  constructor <;> linarith

/-- C20, amended, at `(0, 9999, 100)` with the integer square root: `calculate_delta` returns
1 and the three tower heights above `z` are within one step of the integer square roots
of the discriminants (17320, 17320 and 19999). -/
theorem calculate_delta_within_one_step_witness :
    (calculate_delta integerSqrtConfig sampleDelta ⟨0, 9999, 100, 0⟩ ⟨0, 0, 0, 0⟩).1 = 1 ∧
    ∀ i, i < 3 →
      (Nat.sqrt (towerDiscriminant sampleDelta ⟨0, 9999, 100, 0⟩ i).toNat : Int) - 1
        ≤ (calculate_delta integerSqrtConfig sampleDelta ⟨0, 9999, 100, 0⟩ ⟨0, 0, 0, 0⟩).2.get i
          - 100 ∧
      (calculate_delta integerSqrtConfig sampleDelta ⟨0, 9999, 100, 0⟩ ⟨0, 0, 0, 0⟩).2.get i
          - 100
        ≤ (Nat.sqrt (towerDiscriminant sampleDelta ⟨0, 9999, 100, 0⟩ i).toNat : Int) + 1 :=
  have h := calculate_delta_within_one_step integerSqrtConfig sampleDelta ⟨0, 9999, 100, 0⟩
    ⟨0, 0, 0, 0⟩ integerSqrt_accurate (exactSum_accurate 100) (by decide) (by decide)
    (by decide) (by decide) (by decide) (by decide) (by decide)
  ⟨h.1.2 (by decide), h.2.2 (h.1.2 (by decide))⟩

/-! ## Delta split counts (C22, C23) -/

/-- A value in the range of `int` is not changed by the wrap. -/
theorem wrapInt_of_range (z : Int) (h1 : -32768 ≤ z) (h2 : z < 32768) : wrapInt z = z := by
  unfold wrapInt; omega

/-- C22: for `segment_count >= 1` and `MAX_DELTA_SEGMENTS_PER_LINE >= 1` whose sum fits an
`int`, `split_delta_move` computes `num_lines = ceil(segment_count / MAX)` and
`segments_per_line = floor(segment_count / num_lines)`, with
`1 <= segments_per_line <= MAX` and `num_lines * segments_per_line <= segment_count`. -/
theorem splitLines_bounds (dc : DeltaConfig) (segment_count : Int)
    (hsc : 1 ≤ segment_count) (hM : 1 ≤ dc.maxDeltaSegmentsPerLine)
    (hfit : segment_count + dc.maxDeltaSegmentsPerLine ≤ 32767) :
    (splitLines dc segment_count).num_lines = ⌈(segment_count : ℚ) / dc.maxDeltaSegmentsPerLine⌉ ∧
    (splitLines dc segment_count).segments_per_line
      = ⌊(segment_count : ℚ) / (splitLines dc segment_count).num_lines⌋ ∧
    1 ≤ (splitLines dc segment_count).segments_per_line ∧
    (splitLines dc segment_count).segments_per_line ≤ dc.maxDeltaSegmentsPerLine ∧
    (splitLines dc segment_count).num_lines * (splitLines dc segment_count).segments_per_line
      ≤ segment_count := by
  simp only [splitLines]
  generalize dc.maxDeltaSegmentsPerLine = M at hM hfit ⊢
  have hMpos : 0 < M := by omega
  have e1 : wrapInt (wrapInt (segment_count + M) - 1) = segment_count + M - 1 := by
    rw [wrapInt_of_range (segment_count + M) (by omega) (by omega)]
    exact wrapInt_of_range _ (by omega) (by omega)
  have hq1 : M * ((segment_count + M - 1) / M) ≤ segment_count + M - 1 :=
    Int.mul_ediv_self_le (by omega)
  have hq2 : segment_count + M - 1 < M * ((segment_count + M - 1) / M) + M :=
    Int.lt_mul_ediv_self_add hMpos
  have htdiv : Int.tdiv (segment_count + M - 1) M = (segment_count + M - 1) / M :=
    Int.tdiv_eq_ediv (by omega) (by omega)
  rw [e1, htdiv]
  have hceil : ⌈(segment_count : ℚ) / M⌉ = (segment_count + M - 1) / M := by
    rw [Int.ceil_eq_iff]
    have hMq : (0 : ℚ) < (M : ℚ) := by exact_mod_cast hMpos
    constructor
    · rw [lt_div_iff₀ hMq]
      have : ((segment_count + M - 1) / M - 1) * M < segment_count := by nlinarith
      exact_mod_cast this
    · rw [div_le_iff₀ hMq]
      have : segment_count ≤ (segment_count + M - 1) / M * M := by nlinarith
      exact_mod_cast this
  rw [hceil]
  generalize (segment_count + M - 1) / M = q at hq1 hq2
  have hq_pos : 1 ≤ q := by
    by_contra hc
    have : q ≤ 0 := by omega
    nlinarith
  have hq_le : q ≤ segment_count := by
    by_contra hc
    have : segment_count + 1 ≤ q := by omega
    nlinarith
  have e2 : wrapInt q = q := wrapInt_of_range q (by omega) (by omega)
  have hs1 : q * (segment_count / q) ≤ segment_count := Int.mul_ediv_self_le (by omega)
  have hs2 : segment_count < q * (segment_count / q) + q := Int.lt_mul_ediv_self_add (by omega)
  have htdiv2 : Int.tdiv segment_count q = segment_count / q :=
    Int.tdiv_eq_ediv (by omega) (by omega)
  rw [e2, htdiv2]
  have hfloor : ⌊(segment_count : ℚ) / q⌋ = segment_count / q := by
    rw [Int.floor_eq_iff]
    have hqq : (0 : ℚ) < (q : ℚ) := by exact_mod_cast (show (0 : Int) < q by omega)
    constructor
    · rw [le_div_iff₀ hqq]
      have : segment_count / q * q ≤ segment_count := by nlinarith
      exact_mod_cast this
    · rw [div_lt_iff₀ hqq]
      have : segment_count < (segment_count / q + 1) * q := by nlinarith
      exact_mod_cast this
  rw [hfloor]
  generalize segment_count / q = p at hs1 hs2
  have hp_pos : 1 ≤ p := by
    by_contra hc
    have : p ≤ 0 := by omega
    nlinarith
  have hp_le : p ≤ M := by
    by_contra hc
    have : M + 1 ≤ p := by omega
    nlinarith
  have hp_le2 : p ≤ segment_count := by nlinarith
  have e3 : wrapInt p = p := wrapInt_of_range p (by omega) (by omega)
  rw [e3]
  exact ⟨rfl, rfl, hp_pos, hp_le, hs1⟩

/-- C22 at 133 delta segments with at most 22 per line: 7 lines of 19 segments. -/
theorem splitLines_bounds_witness :
    1 ≤ (splitLines sampleDelta 133).segments_per_line ∧
    (splitLines sampleDelta 133).segments_per_line ≤ sampleDelta.maxDeltaSegmentsPerLine ∧
    (splitLines sampleDelta 133).num_lines * (splitLines sampleDelta 133).segments_per_line
      ≤ 133 :=
  (splitLines_bounds sampleDelta 133 (by decide) (by decide) (by decide)).2.2

/-- C23, evaluated on the code: for an XY travel move of 50 mm at 30 mm/s with 80 delta
segments per second, `split_delta_move` uses `segment_count = 133`, `num_lines = 7` and
`segments_per_line = 19`, while `ceil(80 * (50/30)) = 134`. -/
theorem splitCounts_truncates :
    splitCounts deltaPrinterConfig sampleDelta 31 50 ⟨4000, 0, 0, 0⟩
      = { segment_count := 133, num_lines := 7, segments_per_line := 19 } ∧
    (100 * 50 / (deltaPrinterConfig.feedrate * (sampleDelta.feedrateMultiply : ℚ)) : ℚ)
      = 50 / 30 ∧
    ⌈sampleDelta.deltaSegmentsPerSecondMove * (50 / 30 : ℚ)⌉ = 134 := by
  decide!

/-- C23, amended: for a delta move with X or Y motion that lasts
`seconds = 100 * distance / (feedrate * feedrateMultiply)` at the applicable rate `r` of delta
segments per second (the print rate when the extruder moves forward, the travel rate
otherwise), with `0 <= r * seconds < 32768`, `split_delta_move` uses
`segment_count = max(1, floor(r * seconds))`. -/
theorem splitCounts_segment_count (cfg : Config) (dc : DeltaConfig) (save_dir : Nat)
    (save_distance : ℚ) (save_delta : Vec4 Int)
    (hxy : save_dir &&& 48 ≠ 0)
    (hpos : 0 ≤ (if (save_dir &&& 136) = 136 then dc.deltaSegmentsPerSecondPrint
        else dc.deltaSegmentsPerSecondMove)
      * (100 * save_distance / (cfg.feedrate * (dc.feedrateMultiply : ℚ))))
    (hfit : (if (save_dir &&& 136) = 136 then dc.deltaSegmentsPerSecondPrint
        else dc.deltaSegmentsPerSecondMove)
      * (100 * save_distance / (cfg.feedrate * (dc.feedrateMultiply : ℚ))) < 32768) :
    (splitCounts cfg dc save_dir save_distance save_delta).segment_count
      = max 1 ⌊(if (save_dir &&& 136) = 136 then dc.deltaSegmentsPerSecondPrint
          else dc.deltaSegmentsPerSecondMove)
        * (100 * save_distance / (cfg.feedrate * (dc.feedrateMultiply : ℚ)))⌋ := by
  have hb : ((save_dir &&& 48) != 0) = true := by simpa using hxy
  unfold splitCounts
  rw [if_pos hb]
  simp only [splitLines, beq_iff_eq]
  generalize (if (save_dir &&& 136) = 136 then dc.deltaSegmentsPerSecondPrint
        else dc.deltaSegmentsPerSecondMove)
      * (100 * save_distance / (cfg.feedrate * (dc.feedrateMultiply : ℚ))) = x at hpos hfit
  have hfl0 : 0 ≤ ⌊x⌋ := Int.floor_nonneg.mpr hpos
  have hfl1 : ⌊x⌋ < 32768 := Int.floor_lt.mpr (by exact_mod_cast hfit)
  have ht : truncToLong x = ⌊x⌋ := by unfold truncToLong; rw [if_pos hpos]
  rw [ht, wrapInt_of_range _ (by omega) (by omega)]
  simp only [max_def]
  split_ifs <;> omega

/-- C23, amended, at the XY travel move of 50 mm at 30 mm/s: `segment_count` is
`max(1, floor(80 * (50/30)))`. -/
theorem splitCounts_segment_count_witness :
    (splitCounts deltaPrinterConfig sampleDelta 31 50 ⟨4000, 0, 0, 0⟩).segment_count
      = max 1 ⌊(if (31 &&& 136) = 136 then sampleDelta.deltaSegmentsPerSecondPrint
          else sampleDelta.deltaSegmentsPerSecondMove)
        * (100 * 50 / (deltaPrinterConfig.feedrate * (sampleDelta.feedrateMultiply : ℚ)))⌋ :=
  splitCounts_segment_count deltaPrinterConfig sampleDelta 31 50 ⟨4000, 0, 0, 0⟩ (by decide)
    (by decide!) (by decide!)

/-! ## The planner loops return -/

/-- The next cache position is a cache position. -/
theorem nextPlannerIndex_lt (cfg : Config) (i : Nat) (hi : i < cfg.moveCacheSize) :
    nextPlannerIndex cfg i < cfg.moveCacheSize := by
  unfold nextPlannerIndex; split_ifs <;> omega

/-- The previous cache position is a cache position. -/
theorem previousPlannerIndex_lt (cfg : Config) (i : Nat) (hi : i < cfg.moveCacheSize) :
    previousPlannerIndex cfg i < cfg.moveCacheSize := by
  unfold previousPlannerIndex; split_ifs <;> omega

/-- One step forward shortens the way to a different position by one. -/
theorem ringDistance_next (cfg : Config) (a b : Nat) (ha : a < cfg.moveCacheSize)
    (hb : b < cfg.moveCacheSize) (hab : a ≠ b) :
    ringDistance cfg (nextPlannerIndex cfg a) b + 1 = ringDistance cfg a b := by
  unfold ringDistance nextPlannerIndex; split_ifs <;> omega

/-- One step backward shortens the way from a different position by one. -/
theorem ringDistance_previous (cfg : Config) (a b : Nat) (ha : a < cfg.moveCacheSize)
    (hb : b < cfg.moveCacheSize) (hab : a ≠ b) :
    ringDistance cfg a (previousPlannerIndex cfg b) + 1 = ringDistance cfg a b := by
  unfold ringDistance previousPlannerIndex; split_ifs <;> omega

/-- Two cache positions are less than the cache size apart. -/
theorem ringDistance_lt (cfg : Config) (a b : Nat) (ha : a < cfg.moveCacheSize)
    (hb : b < cfg.moveCacheSize) : ringDistance cfg a b < cfg.moveCacheSize := by
  unfold ringDistance; split_ifs <;> omega

/-- The first horizon loop returns a cache position when the fuel covers the way to `p`. -/
theorem horizonLoop_returns (cfg : Config) (ls : Lines) (p : Nat) (hp : p < cfg.moveCacheSize)
    (fuel : Nat) : ∀ (timeleft : Int) (maxfirst : Nat), maxfirst < cfg.moveCacheSize →
      ringDistance cfg maxfirst p ≤ fuel →
      ∃ r, horizonLoop cfg ls p fuel timeleft maxfirst = some r ∧ r < cfg.moveCacheSize := by
  induction fuel with
  | zero =>
    intro timeleft maxfirst hm hd
    have he : maxfirst = p := by
      unfold ringDistance at hd; split_ifs at hd <;> omega
    refine ⟨maxfirst, ?_, hm⟩
    unfold horizonLoop
    rw [if_neg (fun h => h.2 he)]
  | succ fuel ih =>
    intro timeleft maxfirst hm hd
    unfold horizonLoop
    by_cases hc : timeleft < 4500 * (cfg.moveCacheSize : Int) ∧ maxfirst ≠ p
    · rw [if_pos hc]
      have := ringDistance_next cfg maxfirst p hm hp hc.2
      exact ih _ _ (nextPlannerIndex_lt cfg _ hm) (by omega)
    · rw [if_neg hc]
      exact ⟨maxfirst, rfl, hm⟩

/-- The second horizon loop returns a cache position when the fuel covers the way back to
`maxfirst`. -/
theorem firstLoop_returns (cfg : Config) (ls : Lines) (maxfirst : Nat)
    (hm : maxfirst < cfg.moveCacheSize) (fuel : Nat) :
    ∀ first, first < cfg.moveCacheSize → ringDistance cfg maxfirst first ≤ fuel →
      ∃ r, firstLoop cfg ls maxfirst fuel first = some r ∧ r < cfg.moveCacheSize := by
  induction fuel with
  | zero =>
    intro first hf hd
    have he : first = maxfirst := by
      unfold ringDistance at hd; split_ifs at hd <;> omega
    refine ⟨first, ?_, hf⟩
    unfold firstLoop
    rw [if_neg (fun h => h.1 he)]
  | succ fuel ih =>
    intro first hf hd
    unfold firstLoop
    by_cases hc : first ≠ maxfirst ∧ (!(ls first).isEndSpeedFixed) = true
    · rw [if_pos hc]
      have := ringDistance_previous cfg maxfirst first hm hf (fun h => hc.1 h.symm)
      exact ih _ (previousPlannerIndex_lt cfg _ hf) (by omega)
    · rw [if_neg hc]
      exact ⟨first, rfl, hf⟩

/-- The horizon selection of `updateTrapezoids` returns a cache position. -/
theorem planningStart_returns (cfg : Config) (s : Planner) (p : Nat)
    (hp : p < cfg.moveCacheSize) (hpos : s.lines_pos < cfg.moveCacheSize) :
    ∃ first, planningStart cfg s p = some first ∧ first < cfg.moveCacheSize := by
  unfold planningStart
  have hm1 : (if s.lines_pos ≠ p then nextPlannerIndex cfg s.lines_pos else s.lines_pos)
      < cfg.moveCacheSize := by
    split_ifs
    · exact nextPlannerIndex_lt cfg _ hpos
    · exact hpos
  obtain ⟨m, hm, hml⟩ := horizonLoop_returns cfg s.lines p hp cfg.moveCacheSize 0 _ hm1
    (le_of_lt (ringDistance_lt cfg _ _ hm1 hp))
  obtain ⟨f, hf, hfl⟩ := firstLoop_returns cfg s.lines m hml cfg.moveCacheSize p hp
    (le_of_lt (ringDistance_lt cfg _ _ hml hp))
  simp only [hm, hf]
  split_ifs
  · exact ⟨_, rfl, nextPlannerIndex_lt cfg _ hfl⟩
  · exact ⟨_, rfl, hfl⟩

/-- The backward loop returns when the fuel covers the way back to `last`. -/
theorem backwardLoop_returns (cfg : Config) (last : Nat) (hl : last < cfg.moveCacheSize)
    (fuel : Nat) : ∀ (ls : Lines) (p : Nat) (lj : ℚ), p < cfg.moveCacheSize →
      ringDistance cfg last p ≤ fuel → ∃ r, backwardLoop cfg last fuel ls p lj = some r := by
  induction fuel with
  | zero =>
    intro ls p lj hp hd
    have he : p = last := by
      unfold ringDistance at hd; split_ifs at hd <;> omega
    exact ⟨ls, by unfold backwardLoop; rw [if_pos he]⟩
  | succ fuel ih =>
    intro ls p lj hp hd
    unfold backwardLoop
    by_cases hc : p = last
    · rw [if_pos hc]; exact ⟨ls, rfl⟩
    · rw [if_neg hc]
      have := ringDistance_previous cfg last p hl hp (fun h => hc h.symm)
      rcases hs : backwardStep cfg ls p lj with ⟨ls1, _ | lj1⟩
      · exact ⟨ls1, rfl⟩
      · exact ih ls1 _ lj1 (previousPlannerIndex_lt cfg _ hp) (by omega)

/-- The forward loop returns when the fuel covers the way to `last`. -/
theorem forwardLoop_returns (cfg : Config) (last : Nat) (hl : last < cfg.moveCacheSize)
    (fuel : Nat) : ∀ (ls : Lines) (p : Nat) (left : ℚ), p < cfg.moveCacheSize →
      ringDistance cfg p last ≤ fuel → ∃ r, forwardLoop cfg last fuel ls p left = some r := by
  induction fuel with
  | zero =>
    intro ls p left hp hd
    have he : p = last := by
      unfold ringDistance at hd; split_ifs at hd <;> omega
    exact ⟨(ls, left), by unfold forwardLoop; rw [if_pos he]⟩
  | succ fuel ih =>
    intro ls p left hp hd
    unfold forwardLoop
    by_cases hc : p = last
    · rw [if_pos hc]; exact ⟨_, rfl⟩
    · rw [if_neg hc]
      have := ringDistance_next cfg p last hp hl hc
      exact ih _ _ _ (nextPlannerIndex_lt cfg _ hp) (by omega)

/-- The materialise loop returns when the fuel covers the walk from `first` round to `wp`. -/
theorem materialiseLoop_returns (cfg : Config) (wp : Nat) (hw : wp < cfg.moveCacheSize)
    (fuel : Nat) : ∀ (ls : Lines) (first : Nat), first < cfg.moveCacheSize →
      ringDistance cfg (nextPlannerIndex cfg first) wp + 1 ≤ fuel →
      ∃ r, materialiseLoop cfg wp fuel ls first = some r := by
  induction fuel with
  | zero => intro ls first hf hd; omega
  | succ fuel ih =>
    intro ls first hf hd
    unfold materialiseLoop
    simp only []
    by_cases hc : nextPlannerIndex cfg first ≠ wp
    · rw [if_pos hc]
      have := ringDistance_next cfg _ wp (nextPlannerIndex_lt cfg _ hf) hw hc
      exact ih _ _ (nextPlannerIndex_lt cfg _ hf) (by omega)
    · rw [if_neg hc]
      exact ⟨_, rfl⟩

/-- The backward pass returns. -/
theorem backwardPlanner_returns (cfg : Config) (ls : Lines) (p last : Nat)
    (hp : p < cfg.moveCacheSize) (hl : last < cfg.moveCacheSize) :
    ∃ r, backwardPlanner cfg ls p last = some r := by
  unfold backwardPlanner
  split_ifs
  · exact ⟨_, rfl⟩
  · exact backwardLoop_returns cfg last hl _ _ _ _ hp (le_of_lt (ringDistance_lt cfg _ _ hl hp))

/-- The forward pass returns. -/
theorem forwardPlanner_returns (cfg : Config) (ls : Lines) (wp p : Nat)
    (hp : p < cfg.moveCacheSize) (hw : wp < cfg.moveCacheSize) :
    ∃ r, forwardPlanner cfg ls wp p = some r := by
  unfold forwardPlanner
  split_ifs
  · exact ⟨_, rfl⟩
  · obtain ⟨r, hr⟩ := forwardLoop_returns cfg wp hw cfg.moveCacheSize ls p (ls p).startSpeed hp
      (le_of_lt (ringDistance_lt cfg _ _ hp hw))
    rw [hr]
    exact ⟨_, rfl⟩

/-- The path planner returns: `updateTrapezoids(p)` yields a planner state for every cache
whose positions lie inside the ring, and it changes nothing but the lines. -/
theorem updateTrapezoids_returns (cfg : Config) (s : Planner) (p : Nat)
    (hp : p < cfg.moveCacheSize) (hpos : s.lines_pos < cfg.moveCacheSize)
    (hwp : s.lines_write_pos < cfg.moveCacheSize) :
    ∃ s1, updateTrapezoids cfg s p = some s1 ∧ s1.lines_write_pos = s.lines_write_pos ∧
      s1.lines_count = s.lines_count ∧ s1.lines_pos = s.lines_pos ∧
      s1.waitRelax = s.waitRelax := by
  obtain ⟨first, hfirst, hfl⟩ := planningStart_returns cfg s p hp hpos
  unfold updateTrapezoids
  rw [hfirst]
  simp only []
  obtain ⟨ls2, h2⟩ := backwardPlanner_returns cfg
      (if s.lines_count ≠ 0 ∧
          (!(upd s.lines first PrintLine.block (previdxOf cfg p)).isWarmUp) = true then
        computeMaxJunctionSpeed cfg (upd s.lines first PrintLine.block) (previdxOf cfg p) p
      else upd (upd s.lines first PrintLine.block) p PrintLine.setStartSpeedFixed) p first
      hp hfl
  rw [h2]
  simp only []
  obtain ⟨ls3, h3⟩ := forwardPlanner_returns cfg ls2 s.lines_write_pos first hfl hwp
  rw [h3]
  simp only []
  obtain ⟨ls4, h4⟩ := materialiseLoop_returns cfg s.lines_write_pos hwp cfg.moveCacheSize ls3
    first hfl (by
      have := ringDistance_lt cfg _ _ (nextPlannerIndex_lt cfg _ hfl) hwp
      omega)
  rw [h4]
  exact ⟨_, rfl, rfl, rfl, rfl, rfl⟩

/-- The method `calculate_move` returns for every cache whose positions lie inside the ring,
and its commit advances the write position by one slot, counts the line in the byte
`lines_count`, and sets `waitRelax` to 70 when `pathOptimize` is set. -/
theorem calculate_move_returns (cfg : Config) (s : Planner) (axis_diff : Nat → ℚ)
    (pathOptimize : Bool) (hpos : s.lines_pos < cfg.moveCacheSize)
    (hwp : s.lines_write_pos < cfg.moveCacheSize) :
    ∃ s1, calculate_move cfg s axis_diff pathOptimize = some s1 ∧
      s1.lines_write_pos = nextPlannerIndex cfg s.lines_write_pos ∧
      s1.lines_count = wrapByte (s.lines_count + 1) ∧
      s1.lines_pos = s.lines_pos ∧
      s1.waitRelax = (if pathOptimize then 70 else s.waitRelax) ∧
      ((moveTime cfg s.lines_count (s.lines s.lines_write_pos).distance).2 = true →
        (s1.lines s.lines_write_pos).halfstep = 0) := by
  unfold calculate_move
  simp only []
  obtain ⟨s2, h2, e1, e2, e3, e4⟩ := updateTrapezoids_returns cfg
    { s with lines := (setLine s.lines s.lines_write_pos
        (calculateMoveLine cfg s.lines_count (s.lines s.lines_write_pos) axis_diff).1) }
    s.lines_write_pos hwp hpos hwp
  rw [h2]
  simp only [] at e1 e2 e3 e4 ⊢
  refine ⟨_, rfl, rfl, by rw [e2], e3, by rw [e4], ?_⟩
  intro hcrit
  have hc : (calculateMoveLine cfg s.lines_count (s.lines s.lines_write_pos) axis_diff).2
      = true := hcrit
  simp only [setLine, if_true, hc, or_true]

/-! ## Queue starvation slowdown and commit (C17, C18) -/

/-- C17: when `lines_count < MOVE_CACHE_LOW` and the computed `time_for_move` is below
`LOW_TICKS_PER_MOVE`, `calculate_move` adds
`3 * (LOW_TICKS_PER_MOVE - time_for_move) / (lines_count + 1)` to `time_for_move`, which makes
it strictly larger, the move is critical, and `calculate_move` returns with `halfstep = 0` in
the new line; otherwise `time_for_move` is unchanged and the move is not critical. -/
theorem calculate_move_starvation_slowdown (cfg : Config) (s : Planner) (axis_diff : Nat → ℚ)
    (pathOptimize : Bool) (hpos : s.lines_pos < cfg.moveCacheSize)
    (hwp : s.lines_write_pos < cfg.moveCacheSize) :
    (s.lines_count < cfg.moveCacheLow ∧
        (cfg.fCpu : ℚ) * (s.lines s.lines_write_pos).distance / cfg.feedrate
          < cfg.lowTicksPerMove →
      (moveTime cfg s.lines_count (s.lines s.lines_write_pos).distance).1
        = (cfg.fCpu : ℚ) * (s.lines s.lines_write_pos).distance / cfg.feedrate
          + 3 * (cfg.lowTicksPerMove
              - (cfg.fCpu : ℚ) * (s.lines s.lines_write_pos).distance / cfg.feedrate)
            / ((s.lines_count : ℚ) + 1) ∧
      (cfg.fCpu : ℚ) * (s.lines s.lines_write_pos).distance / cfg.feedrate
        < (moveTime cfg s.lines_count (s.lines s.lines_write_pos).distance).1 ∧
      (moveTime cfg s.lines_count (s.lines s.lines_write_pos).distance).2 = true ∧
      ∃ s1, calculate_move cfg s axis_diff pathOptimize = some s1 ∧
        (s1.lines s.lines_write_pos).halfstep = 0) ∧
    (¬ (s.lines_count < cfg.moveCacheLow ∧
        (cfg.fCpu : ℚ) * (s.lines s.lines_write_pos).distance / cfg.feedrate
          < cfg.lowTicksPerMove) →
      moveTime cfg s.lines_count (s.lines s.lines_write_pos).distance
        = ((cfg.fCpu : ℚ) * (s.lines s.lines_write_pos).distance / cfg.feedrate, false)) ∧
    (calculateMoveLine cfg s.lines_count (s.lines s.lines_write_pos) axis_diff).1.timeInTicks
      = truncToLong (moveTime cfg s.lines_count (s.lines s.lines_write_pos).distance).1 := by
  refine ⟨?_, ?_, ?_⟩
  · intro hc
    have hm : moveTime cfg s.lines_count (s.lines s.lines_write_pos).distance
        = ((cfg.fCpu : ℚ) * (s.lines s.lines_write_pos).distance / cfg.feedrate
          + 3 * (cfg.lowTicksPerMove
              - (cfg.fCpu : ℚ) * (s.lines s.lines_write_pos).distance / cfg.feedrate)
            / ((s.lines_count : ℚ) + 1), true) := by
      unfold moveTime
      simp only []
      rw [if_pos hc]
    obtain ⟨s1, h1, _, _, _, _, h6⟩ := calculate_move_returns cfg s axis_diff pathOptimize hpos hwp
    rw [hm] at h6 ⊢
    refine ⟨rfl, ?_, rfl, s1, h1, h6 rfl⟩
    have hpos1 : (0 : ℚ) < (s.lines_count : ℚ) + 1 := by positivity
    have hpos2 : (0 : ℚ) < 3 * (cfg.lowTicksPerMove
        - (cfg.fCpu : ℚ) * (s.lines s.lines_write_pos).distance / cfg.feedrate) := by
      linarith [hc.2]
    have := div_pos hpos2 hpos1
    simp only []
    linarith
  · intro hc
    unfold moveTime
    simp only []
    rw [if_neg hc]
  · repeat (first | rfl | apply ite_field_eq PrintLine.timeInTicks)

/-- C17 on `shortQueued` with an empty queue: the move of 0.5 mm at 60 mm/s takes 133333 ticks,
less than `LOW_TICKS_PER_MOVE = 250000`, and `calculate_move` returns with `halfstep = 0`. -/
theorem calculate_move_starvation_slowdown_witness :
    ∃ s1, calculate_move sampleConfig shortQueued shortDiff true = some s1 ∧
      (s1.lines shortQueued.lines_write_pos).halfstep = 0 :=
  ((calculate_move_starvation_slowdown sampleConfig shortQueued shortDiff true
    (by decide) (by decide)).1 (by decide!)).2.2.2

/-- C18, evaluated on the code: called with `pathOptimize` clear on a planner whose
`waitRelax` is 0, `calculate_move` returns and `waitRelax` is still 0, not 70. -/
theorem calculate_move_keeps_waitRelax_without_pathOptimize :
    diagonalQueued.waitRelax = 0 ∧
    ∃ s1, calculate_move sampleConfig diagonalQueued diagonalDiff false = some s1 ∧
      s1.waitRelax = 0 := by
  obtain ⟨s1, h1, _, _, _, h5, _⟩ :=
    calculate_move_returns sampleConfig diagonalQueued diagonalDiff false (by decide) (by decide)
  exact ⟨rfl, s1, h1, h5⟩

/-- C18, amended: for a cache whose positions lie inside the ring, `calculate_move` returns,
`lines_write_pos` has advanced by one slot modulo `MOVE_CACHE_SIZE`, the byte `lines_count`
has grown by one (for a count below 255), and `waitRelax` is 70 when `pathOptimize` is set and
unchanged otherwise. -/
theorem calculate_move_commit (cfg : Config) (s : Planner) (axis_diff : Nat → ℚ)
    (pathOptimize : Bool) (hpos : s.lines_pos < cfg.moveCacheSize)
    (hwp : s.lines_write_pos < cfg.moveCacheSize) :
    ∃ s1, calculate_move cfg s axis_diff pathOptimize = some s1 ∧
      s1.lines_write_pos = (s.lines_write_pos + 1) % cfg.moveCacheSize ∧
      (s.lines_count < 255 → s1.lines_count = s.lines_count + 1) ∧
      (pathOptimize = true → s1.waitRelax = 70) ∧
      (pathOptimize = false → s1.waitRelax = s.waitRelax) := by
  obtain ⟨s1, h1, h2, h3, _, h5, _⟩ := calculate_move_returns cfg s axis_diff pathOptimize hpos hwp
  refine ⟨s1, h1, ?_, ?_, ?_, ?_⟩
  · rw [h2]
    unfold nextPlannerIndex
    split_ifs with h
    · rw [h, Nat.mod_self]
    · exact (Nat.mod_eq_of_lt (by omega)).symm
  · intro h
    rw [h3]
    unfold wrapByte
    omega
  · intro h
    rw [h5, h]
    rfl
  · intro h
    rw [h5, h]
    rfl

/-- C18, amended, on `diagonalQueued`: `calculate_move` returns with the write position
advanced by one slot. -/
theorem calculate_move_commit_witness :
    ∃ s1, calculate_move sampleConfig diagonalQueued diagonalDiff true = some s1 ∧
      s1.lines_write_pos
        = (diagonalQueued.lines_write_pos + 1) % sampleConfig.moveCacheSize ∧
      s1.waitRelax = 70 := by
  obtain ⟨s1, h1, h2, _, h4, _⟩ :=
    calculate_move_commit sampleConfig diagonalQueued diagonalDiff true (by decide) (by decide)
  exact ⟨s1, h1, h2, h4 rfl⟩

/-! ## Steps of the backward and forward pass (C27, C28, C29) -/

/-- Reading the line that was just written. -/
theorem upd_same (ls : Lines) (i : Nat) (f : PrintLine → PrintLine) : upd ls i f i = f (ls i) := by
  simp only [upd, setLine, if_true]

/-- Reading another line than the one that was written. -/
theorem upd_other (ls : Lines) (i j : Nat) (f : PrintLine → PrintLine) (h : j ≠ i) :
    upd ls i f j = ls j := by
  simp only [upd, setLine, if_neg h]

/-- C27: one pass of the backward loop over a predecessor `prev` whose end speed is not fixed
and that does not meet the move/extruder-only switch, with
`v = act.fullSpeed` if `act` is nominal and `sqrt(vLast² + act.acceleration)` otherwise: if
`v >= prev.maxJunctionSpeed` then `prev.endSpeed` and `act.startSpeed` both become
`prev.maxJunctionSpeed`; otherwise both become `v` and both segments are marked stale; in both
cases the junction speed is at most `prev.maxJunctionSpeed`, and the loop goes on. -/
theorem backwardStep_junction (cfg : Config) (ls : Lines) (p : Nat) (lastJunctionSpeed : ℚ)
    (hdist : previousPlannerIndex cfg p ≠ p)
    (hfree : (ls (previousPlannerIndex cfg p)).isEndSpeedFixed = false)
    (hswitch : ¬ (((ls (previousPlannerIndex cfg p)).dir &&& 240) ≠ 128 ∧
      ((ls p).dir &&& 240) = 128)) :
    ((if (ls p).flags.nominal then (ls p).fullSpeed
        else cfg.fsqrt (lastJunctionSpeed * lastJunctionSpeed + (ls p).acceleration))
          ≥ (ls (previousPlannerIndex cfg p)).maxJunctionSpeed →
      ((backwardStep cfg ls p lastJunctionSpeed).1 (previousPlannerIndex cfg p)).endSpeed
        = (ls (previousPlannerIndex cfg p)).maxJunctionSpeed ∧
      ((backwardStep cfg ls p lastJunctionSpeed).1 p).startSpeed
        = (ls (previousPlannerIndex cfg p)).maxJunctionSpeed ∧
      (backwardStep cfg ls p lastJunctionSpeed).2
        = some (ls (previousPlannerIndex cfg p)).maxJunctionSpeed) ∧
    ((if (ls p).flags.nominal then (ls p).fullSpeed
        else cfg.fsqrt (lastJunctionSpeed * lastJunctionSpeed + (ls p).acceleration))
          < (ls (previousPlannerIndex cfg p)).maxJunctionSpeed →
      ((backwardStep cfg ls p lastJunctionSpeed).1 (previousPlannerIndex cfg p)).endSpeed
        = (if (ls p).flags.nominal then (ls p).fullSpeed
            else cfg.fsqrt (lastJunctionSpeed * lastJunctionSpeed + (ls p).acceleration)) ∧
      ((backwardStep cfg ls p lastJunctionSpeed).1 p).startSpeed
        = (if (ls p).flags.nominal then (ls p).fullSpeed
            else cfg.fsqrt (lastJunctionSpeed * lastJunctionSpeed + (ls p).acceleration)) ∧
      ((backwardStep cfg ls p lastJunctionSpeed).1
          (previousPlannerIndex cfg p)).areParameterUpToDate = false ∧
      ((backwardStep cfg ls p lastJunctionSpeed).1 p).areParameterUpToDate = false ∧
      (backwardStep cfg ls p lastJunctionSpeed).2
        = some (if (ls p).flags.nominal then (ls p).fullSpeed
            else cfg.fsqrt (lastJunctionSpeed * lastJunctionSpeed + (ls p).acceleration))) ∧
    ((backwardStep cfg ls p lastJunctionSpeed).1 (previousPlannerIndex cfg p)).endSpeed
      ≤ (ls (previousPlannerIndex cfg p)).maxJunctionSpeed ∧
    ((backwardStep cfg ls p lastJunctionSpeed).1 (previousPlannerIndex cfg p)).endSpeed
      = ((backwardStep cfg ls p lastJunctionSpeed).1 p).startSpeed := by
  generalize hq : previousPlannerIndex cfg p = q at hdist hfree hswitch ⊢
  have hpq : p ≠ q := fun h => hdist h.symm
  unfold backwardStep
  rw [hq]
  simp only []
  generalize hL : (if (decide (cfg.driveSystem = 3) && decide ((ls q).moveID = (ls p).moveID)
        && decide (lastJunctionSpeed = (ls q).maxJunctionSpeed)) = true then
      upd (upd (upd (upd ls q fun l => { l with endSpeed := lastJunctionSpeed }) p fun l =>
        { l with startSpeed := lastJunctionSpeed }) q PrintLine.invalidateParameter) p
        PrintLine.invalidateParameter
    else ls) = L
  have fq : (L q).dir = (ls q).dir ∧ (L q).isEndSpeedFixed = (ls q).isEndSpeedFixed ∧
      (L q).maxJunctionSpeed = (ls q).maxJunctionSpeed := by
    rw [← hL]
    split_ifs
    · simp only [upd, setLine, if_neg hdist, if_neg hpq, if_true, PrintLine.invalidateParameter,
        PrintLine.isEndSpeedFixed, and_self]
    · exact ⟨rfl, rfl, rfl⟩
  have fp : (L p).dir = (ls p).dir ∧ (L p).flags = (ls p).flags ∧
      (L p).fullSpeed = (ls p).fullSpeed ∧ (L p).acceleration = (ls p).acceleration := by
    rw [← hL]
    split_ifs
    · simp only [upd, setLine, if_neg hdist, if_neg hpq, if_true, PrintLine.invalidateParameter,
        and_self]
    · exact ⟨rfl, rfl, rfl, rfl⟩
  have hsw : ¬ ((((L q).dir &&& 240) != 128 && ((L p).dir &&& 240) == 128) = true) := by
    rw [fq.1, fp.1]
    simpa using hswitch
  rw [if_neg hsw, fq.2.1, hfree]
  simp only [Bool.false_eq_true, if_false]
  rw [fp.2.1, fp.2.2.1, fp.2.2.2, fq.2.2]
  generalize (if (ls p).flags.nominal = true then (ls p).fullSpeed
    else cfg.fsqrt (lastJunctionSpeed * lastJunctionSpeed + (ls p).acceleration)) = v
  have hmj := fq.2.2
  generalize (ls q).maxJunctionSpeed = m at hmj ⊢
  by_cases hv : v ≥ m
  · rw [if_pos hv]
    have hnv : ¬ v < m := not_lt.mpr hv
    clear hL
    by_cases h1 : (L q).endSpeed = m <;> by_cases h2 : (L p).startSpeed = m <;>
      simp [upd, setLine, hdist, hpq, hv, hnv, h1, h2, hmj, PrintLine.invalidateParameter]
  · rw [if_neg hv]
    clear hL
    have hlt : v < m := not_le.mp hv
    simp [upd, setLine, hdist, hpq, hv, hlt, PrintLine.invalidateParameter,
      PrintLine.areParameterUpToDate, le_of_lt hlt]

/-- C27 at the reversal junction of `reversalLines`: after one pass of the backward loop the
end speed of line 0 equals the start speed of line 1. -/
theorem backwardStep_junction_witness :
    ((backwardStep sampleConfig reversalLines 1 0).1 (previousPlannerIndex sampleConfig 1)).endSpeed
      = ((backwardStep sampleConfig reversalLines 1 0).1 1).startSpeed :=
  (backwardStep_junction sampleConfig reversalLines 1 0 (by decide) (by decide) (by decide)).2.2.2

/-- C28, evaluated on the code: for an extruder-only move followed by a normal move
(`lines[0]` pure retraction, `lines[1]` XY move) the backward pass does not take the switch
branch: neither the end speed of `lines[0]` nor the start speed of `lines[1]` is marked fixed,
and both speeds are changed (2 -> 5 and 10 -> 5). -/
theorem backwardPlanner_misses_retract_then_move :
    (retractThenMove 0).dir &&& 240 = 128 ∧ (retractThenMove 1).dir &&& 240 ≠ 128 ∧
    (retractThenMove 0).endSpeed = 2 ∧ (retractThenMove 1).startSpeed = 10 ∧
    (backwardPlanner sampleConfig retractThenMove 1 0).map
        (fun ls => ((ls 0).isEndSpeedFixed, (ls 1).isStartSpeedFixed, (ls 0).endSpeed,
          (ls 1).startSpeed))
      = some (false, false, 5, 5) := by
  decide!

/-- C29: one pass of the forward loop on a non-delta build.  For a segment `act` whose end
speed is not fixed, with `vRight = act.fullSpeed` if `act` is nominal and
`sqrt(vLeft² + act.acceleration)` otherwise, the end speed becomes
`min(act.endSpeed, vRight)`, which is at most the old end speed and at most `vRight`, and the
start speed becomes `vLeft`; if the end speed was lowered, the end of `act` and the start of
`next` are fixed and `next.startSpeed` equals the new `act.endSpeed`; the carried speed is the
new end speed.  A segment whose end speed is fixed leaves the cache unchanged and passes its end
speed on. -/
theorem forwardStep_end_speed (cfg : Config) (ls : Lines) (p : Nat) (leftspeed : ℚ)
    (hdrive : cfg.driveSystem ≠ 3) (hdist : nextPlannerIndex cfg p ≠ p) :
    ((ls p).isEndSpeedFixed = false →
      ((forwardStep cfg ls p leftspeed).1 p).endSpeed
        = min (ls p).endSpeed
            (if (ls p).flags.nominal then (ls p).fullSpeed
              else cfg.fsqrt (leftspeed * leftspeed + (ls p).acceleration)) ∧
      ((forwardStep cfg ls p leftspeed).1 p).endSpeed ≤ (ls p).endSpeed ∧
      ((forwardStep cfg ls p leftspeed).1 p).endSpeed
        ≤ (if (ls p).flags.nominal then (ls p).fullSpeed
            else cfg.fsqrt (leftspeed * leftspeed + (ls p).acceleration)) ∧
      ((forwardStep cfg ls p leftspeed).1 p).startSpeed = leftspeed ∧
      (((forwardStep cfg ls p leftspeed).1 p).endSpeed < (ls p).endSpeed →
        ((forwardStep cfg ls p leftspeed).1 p).isEndSpeedFixed = true ∧
        ((forwardStep cfg ls p leftspeed).1 (nextPlannerIndex cfg p)).isStartSpeedFixed = true ∧
        ((forwardStep cfg ls p leftspeed).1 (nextPlannerIndex cfg p)).startSpeed
          = ((forwardStep cfg ls p leftspeed).1 p).endSpeed)) ∧
    ((ls p).isEndSpeedFixed = true →
      (forwardStep cfg ls p leftspeed).1 = ls ∧
      (forwardStep cfg ls p leftspeed).2 = (ls p).endSpeed) ∧
    (forwardStep cfg ls p leftspeed).2 = ((forwardStep cfg ls p leftspeed).1 p).endSpeed := by
  generalize hq : nextPlannerIndex cfg p = q at hdist ⊢
  have hpq : p ≠ q := fun h => hdist h.symm
  have hD : (decide (cfg.driveSystem = 3) && decide ((ls p).moveID = (ls q).moveID)
      && decide ((ls p).endSpeed = (ls p).maxJunctionSpeed)) = false := by
    simp [hdrive]
  unfold forwardStep
  rw [hq]
  simp only [hD, Bool.false_eq_true, if_false]
  generalize (if (ls p).flags.nominal = true then (ls p).fullSpeed
    else cfg.fsqrt (leftspeed * leftspeed + (ls p).acceleration)) = v
  cases hfix : (ls p).isEndSpeedFixed
  · simp only [Bool.false_eq_true, if_false, false_implies, true_implies, true_and]
    by_cases hv : v > (ls p).endSpeed
    · rw [if_pos hv]
      have hmin : min (ls p).endSpeed v = (ls p).endSpeed := min_eq_left (le_of_lt hv)
      have hle : (ls p).endSpeed ≤ v := le_of_lt hv
      by_cases hm : (ls p).endSpeed = (ls p).maxJunctionSpeed
      · rw [if_pos (by simp only [upd, setLine, if_true]; exact hm)]
        simp only [upd, setLine, hdist, hpq, if_true, if_false, PrintLine.invalidateParameter,
          PrintLine.setEndSpeedFixed, PrintLine.setStartSpeedFixed, hmin, lt_self_iff_false,
          false_implies, and_true, true_and]
        exact ⟨le_refl _, hle⟩
      · rw [if_neg (by simp only [upd, setLine, if_true]; exact hm)]
        simp only [upd, setLine, hdist, hpq, if_true, if_false, PrintLine.invalidateParameter,
          hmin, lt_self_iff_false, false_implies, and_true, true_and]
        exact ⟨le_refl _, hle⟩
    · rw [if_neg hv]
      have hle : v ≤ (ls p).endSpeed := not_lt.mp hv
      have hmin : min (ls p).endSpeed v = v := min_eq_right hle
      simp [upd, setLine, hdist, hpq, hmin, hle, PrintLine.invalidateParameter,
        PrintLine.setEndSpeedFixed, PrintLine.setStartSpeedFixed, PrintLine.isEndSpeedFixed,
        PrintLine.isStartSpeedFixed]
  · simp only [if_true, true_implies, Bool.true_eq_false, false_implies, and_self]

/-- C29 at line 0 of `reversalLines`, entered at 10 mm/s: the end speed after the pass is
`min(endSpeed, vRight)`. -/
theorem forwardStep_end_speed_witness :
    ((forwardStep sampleConfig reversalLines 0 10).1 0).endSpeed
      = min (reversalLines 0).endSpeed
          (if (reversalLines 0).flags.nominal then (reversalLines 0).fullSpeed
            else sampleConfig.fsqrt (10 * 10 + (reversalLines 0).acceleration)) :=
  ((forwardStep_end_speed sampleConfig reversalLines 0 10 (by decide) (by decide)).1
    (by decide)).1

/-! ## The materialise walk (C30) -/

/-- C30, evaluated on the code: on an empty four-slot cache `updateTrapezoids(0)` plans the
window `first = p = 0`, yet the materialise walk goes round the whole ring: the stale record in
slot 2, outside the range from `first` to `p`, comes back materialised (`accelSteps` 0 -> 2,
parameters up to date). -/
theorem updateTrapezoids_walks_whole_ring :
    planningStart smallCacheConfig staleSlotPlanner 0 = some 0 ∧
    (staleSlotPlanner.lines 2).accelSteps = 0 ∧
    (staleSlotPlanner.lines 2).areParameterUpToDate = false ∧
    (updateTrapezoids smallCacheConfig staleSlotPlanner 0).map
        (fun s => ((s.lines 2).accelSteps, (s.lines 2).areParameterUpToDate))
      = some (2, true) := by
  decide!

/-! ## Junction continuity and junction cap (C2, C3) -/

/-- Going on and back returns to the same cache position. -/
theorem previous_next (cfg : Config) (i : Nat) :
    previousPlannerIndex cfg (nextPlannerIndex cfg i) = i := by
  unfold previousPlannerIndex nextPlannerIndex
  by_cases h : i + 1 = cfg.moveCacheSize
  · rw [if_pos h, if_pos rfl]; omega
  · rw [if_neg h, if_neg (Nat.succ_ne_zero i)]; rfl

/-- Inside the ring the byte computation of `previdx` is the previous cache position. -/
theorem previdxOf_eq (cfg : Config) (p : Nat) (hp : p < cfg.moveCacheSize)
    (hN : cfg.moveCacheSize ≤ 256) : previdxOf cfg p = previousPlannerIndex cfg p := by
  unfold previdxOf previousPlannerIndex wrapByte
  simp only []
  split_ifs <;> omega

/-- The materialiser leaves the planned speeds, the fixed flags, the duration and the
direction of a segment alone. -/
theorem updateStepsParameter_speeds (cfg : Config) (l : PrintLine) :
    (updateStepsParameter cfg l).startSpeed = l.startSpeed ∧
    (updateStepsParameter cfg l).endSpeed = l.endSpeed ∧
    (updateStepsParameter cfg l).maxJunctionSpeed = l.maxJunctionSpeed := by
  unfold updateStepsParameter
  simp only [PrintLine.setParameterUpToDate]
  split_ifs <;> exact ⟨rfl, rfl, rfl⟩

/-- Reading a field that the written function preserves. -/
theorem upd_field {α : Type} (g : PrintLine → α) (ls : Lines) (i : Nat)
    (f : PrintLine → PrintLine) (j : Nat) (hf : ∀ l, g (f l) = g l) :
    g (upd ls i f j) = g (ls j) := by
  unfold upd setLine
  by_cases h : j = i
  · simp only [h, if_true, hf]
  · simp only [h, if_false]

/-- A write that preserves the end speed of a record preserves every end speed. -/
theorem upd_endSpeed (ls : Lines) (i : Nat) (f : PrintLine → PrintLine) (j : Nat)
    (hf : ∀ l, (f l).endSpeed = l.endSpeed) : (upd ls i f j).endSpeed = (ls j).endSpeed :=
  upd_field PrintLine.endSpeed ls i f j hf

/-- A write that preserves the start speed of a record preserves every start speed. -/
theorem upd_startSpeed (ls : Lines) (i : Nat) (f : PrintLine → PrintLine) (j : Nat)
    (hf : ∀ l, (f l).startSpeed = l.startSpeed) :
    (upd ls i f j).startSpeed = (ls j).startSpeed :=
  upd_field PrintLine.startSpeed ls i f j hf

/-- A write that preserves the junction limit of a record preserves every junction limit. -/
theorem upd_maxJunctionSpeed (ls : Lines) (i : Nat) (f : PrintLine → PrintLine) (j : Nat)
    (hf : ∀ l, (f l).maxJunctionSpeed = l.maxJunctionSpeed) :
    (upd ls i f j).maxJunctionSpeed = (ls j).maxJunctionSpeed :=
  upd_field PrintLine.maxJunctionSpeed ls i f j hf

/-- The materialising walk leaves the planned speeds of every segment alone. -/
theorem materialiseLoop_speeds (cfg : Config) (wp : Nat) :
    ∀ (fuel : Nat) (ls : Lines) (first : Nat) (r : Lines),
      materialiseLoop cfg wp fuel ls first = some r →
      ∀ j, (r j).startSpeed = (ls j).startSpeed ∧ (r j).endSpeed = (ls j).endSpeed ∧
        (r j).maxJunctionSpeed = (ls j).maxJunctionSpeed := by
  intro fuel
  induction fuel with
  | zero => intro ls first r h; simp [materialiseLoop] at h
  | succ n ih =>
    intro ls first r h j
    unfold materialiseLoop at h
    simp only [] at h
    have key : ∀ j, ((upd (upd (upd ls first (updateStepsParameter cfg)) first PrintLine.unblock)
        (nextPlannerIndex cfg first) PrintLine.block) j).startSpeed = (ls j).startSpeed ∧
        ((upd (upd (upd ls first (updateStepsParameter cfg)) first PrintLine.unblock)
        (nextPlannerIndex cfg first) PrintLine.block) j).endSpeed = (ls j).endSpeed ∧
        ((upd (upd (upd ls first (updateStepsParameter cfg)) first PrintLine.unblock)
        (nextPlannerIndex cfg first) PrintLine.block) j).maxJunctionSpeed
          = (ls j).maxJunctionSpeed := by
      intro j
      have hu := fun l => updateStepsParameter_speeds cfg l
      simp only [upd_startSpeed, upd_endSpeed, upd_maxJunctionSpeed, PrintLine.block,
        PrintLine.unblock, implies_true, fun l => (hu l).1, fun l => (hu l).2.1,
        fun l => (hu l).2.2, and_self]
    by_cases hc : nextPlannerIndex cfg first ≠ wp
    · rw [if_pos hc] at h
      have := ih _ _ _ h j
      rw [this.1, this.2.1, this.2.2]
      exact key j
    · rw [if_neg hc] at h
      cases h
      exact key j

/-- The speed carried out of one pass of the forward loop is the end speed of the segment just
visited. -/
theorem forwardStep_carry (cfg : Config) (ls : Lines) (p : Nat) (leftspeed : ℚ) :
    (forwardStep cfg ls p leftspeed).2 = ((forwardStep cfg ls p leftspeed).1 p).endSpeed := by
  unfold forwardStep
  simp only []
  split_ifs <;>
  simp only [upd_endSpeed, PrintLine.invalidateParameter, PrintLine.setEndSpeedFixed,
      PrintLine.setStartSpeedFixed, implies_true, upd_same]

/-- One pass of the forward loop changes no junction limit and raises no end speed. -/
theorem forwardStep_frame (cfg : Config) (ls : Lines) (p : Nat) (leftspeed : ℚ) (j : Nat) :
    ((forwardStep cfg ls p leftspeed).1 j).maxJunctionSpeed = (ls j).maxJunctionSpeed ∧
    ((forwardStep cfg ls p leftspeed).1 j).endSpeed ≤ (ls j).endSpeed := by
  unfold forwardStep
  simp only []
  by_cases hj : j = p
  · subst hj
    split_ifs <;>
    simp only [upd_endSpeed, upd_maxJunctionSpeed, PrintLine.invalidateParameter,
      PrintLine.setEndSpeedFixed, PrintLine.setStartSpeedFixed, implies_true, upd_same, le_refl,
      and_self, true_and] <;>
    exact not_lt.mp ‹_›
  · split_ifs <;>
    simp only [upd_endSpeed, upd_maxJunctionSpeed, PrintLine.invalidateParameter,
      PrintLine.setEndSpeedFixed, PrintLine.setStartSpeedFixed, implies_true, upd_same, le_refl,
      and_self, true_and, upd_other _ _ _ _ hj]

/-- The forward loop ends with the end speed of the segment before the last position in its
hands. -/
theorem forwardLoop_last (cfg : Config) (last : Nat) :
    ∀ (fuel : Nat) (ls : Lines) (p : Nat) (leftspeed : ℚ) (r : Lines × ℚ),
      p ≠ last → forwardLoop cfg last fuel ls p leftspeed = some r →
      r.2 = (r.1 (previousPlannerIndex cfg last)).endSpeed := by
  intro fuel
  induction fuel with
  | zero =>
    intro ls p leftspeed r hne h
    unfold forwardLoop at h
    rw [if_neg hne] at h
    cases h
  | succ n ih =>
    intro ls p leftspeed r hne h
    unfold forwardLoop at h
    rw [if_neg hne] at h
    simp only [] at h
    by_cases hn : nextPlannerIndex cfg p = last
    · unfold forwardLoop at h
      rw [if_pos hn] at h
      cases h
      simp only []
      rw [← hn, previous_next]
      exact forwardStep_carry cfg ls p leftspeed
    · exact ih _ _ _ _ hn h

/-- The forward loop changes no junction limit and raises no end speed. -/
theorem forwardLoop_frame (cfg : Config) (last : Nat) :
    ∀ (fuel : Nat) (ls : Lines) (p : Nat) (leftspeed : ℚ) (r : Lines × ℚ),
      forwardLoop cfg last fuel ls p leftspeed = some r →
      ∀ j, (r.1 j).maxJunctionSpeed = (ls j).maxJunctionSpeed ∧
        (r.1 j).endSpeed ≤ (ls j).endSpeed := by
  intro fuel
  induction fuel with
  | zero =>
    intro ls p leftspeed r h j
    unfold forwardLoop at h
    by_cases hp : p = last
    · rw [if_pos hp] at h; cases h; exact ⟨rfl, le_refl _⟩
    · rw [if_neg hp] at h; cases h
  | succ n ih =>
    intro ls p leftspeed r h j
    unfold forwardLoop at h
    by_cases hp : p = last
    · rw [if_pos hp] at h; cases h; exact ⟨rfl, le_refl _⟩
    · rw [if_neg hp] at h
      simp only [] at h
      have h1 := ih _ _ _ _ h j
      have h2 := forwardStep_frame cfg ls p leftspeed j
      exact ⟨h1.1.trans h2.1, le_trans h1.2 h2.2⟩

/-- Going back and on returns to the same cache position. -/
theorem next_previous (cfg : Config) (i : Nat) (hi : i < cfg.moveCacheSize) :
    nextPlannerIndex cfg (previousPlannerIndex cfg i) = i := by
  unfold previousPlannerIndex nextPlannerIndex
  by_cases h : i = 0
  · rw [if_pos h, if_pos (by omega)]; exact h.symm
  · rw [if_neg h, if_neg (by omega)]; omega

/-- A write that preserves the end-fixed flag of a record preserves every end-fixed flag. -/
theorem upd_isEndSpeedFixed (ls : Lines) (i : Nat) (f : PrintLine → PrintLine) (j : Nat)
    (hf : ∀ l, (f l).isEndSpeedFixed = l.isEndSpeedFixed) :
    (upd ls i f j).isEndSpeedFixed = (ls j).isEndSpeedFixed :=
  upd_field PrintLine.isEndSpeedFixed ls i f j hf

/-- A write that preserves the direction byte of a record preserves every direction byte. -/
theorem upd_dir (ls : Lines) (i : Nat) (f : PrintLine → PrintLine) (j : Nat)
    (hf : ∀ l, (f l).dir = l.dir) : (upd ls i f j).dir = (ls j).dir :=
  upd_field PrintLine.dir ls i f j hf

/-- The second horizon loop, started at `p`, either stays at `p` or passes over `p` with a free
end speed and then stops at the position before `p` or passes over it as well. -/
theorem firstLoop_window (cfg : Config) (ls : Lines) (m : Nat) (fuel p r : Nat)
    (h : firstLoop cfg ls m fuel p = some r) :
    r = p ∨ ((ls p).isEndSpeedFixed = false ∧
      (r = previousPlannerIndex cfg p ∨
        (ls (previousPlannerIndex cfg p)).isEndSpeedFixed = false)) := by
  unfold firstLoop at h
  by_cases c1 : p ≠ m ∧ (!(ls p).isEndSpeedFixed) = true
  · rw [if_pos c1] at h
    have f1 : (ls p).isEndSpeedFixed = false := by
      have := c1.2
      revert this
      cases (ls p).isEndSpeedFixed <;> simp
    cases fuel with
    | zero => cases h
    | succ n =>
      simp only [] at h
      unfold firstLoop at h
      by_cases c2 : previousPlannerIndex cfg p ≠ m ∧
          (!(ls (previousPlannerIndex cfg p)).isEndSpeedFixed) = true
      · have f2 : (ls (previousPlannerIndex cfg p)).isEndSpeedFixed = false := by
          have := c2.2
          revert this
          cases (ls (previousPlannerIndex cfg p)).isEndSpeedFixed <;> simp
        exact Or.inr ⟨f1, Or.inr f2⟩
      · rw [if_neg c2] at h
        cases h
        exact Or.inr ⟨f1, Or.inl rfl⟩
  · rw [if_neg c1] at h
    cases h
    exact Or.inl rfl

/-- When the planning window reaches back beyond the new line, the end speed of the segment
before the new line is not fixed. -/
theorem planningStart_window (cfg : Config) (s : Planner) (p first : Nat)
    (hp : p < cfg.moveCacheSize)
    (h : planningStart cfg s p = some first) (hne : first ≠ p) :
    (s.lines (previousPlannerIndex cfg p)).isEndSpeedFixed = false := by
  unfold planningStart at h
  simp only [] at h
  rcases hh : horizonLoop cfg s.lines p cfg.moveCacheSize 0
      (if s.lines_pos ≠ p then nextPlannerIndex cfg s.lines_pos else s.lines_pos) with _ | m
  · rw [hh] at h; cases h
  · rw [hh] at h
    simp only [] at h
    rcases hf : firstLoop cfg s.lines m cfg.moveCacheSize p with _ | r
    · rw [hf] at h; cases h
    · rw [hf] at h
      simp only [] at h
      rcases firstLoop_window cfg s.lines m _ p r hf with hr | ⟨_, hr | hr⟩
      · subst hr
        rw [if_neg (fun c => c.1 rfl)] at h
        cases h
        exact absurd rfl hne
      · subst hr
        cases hfx : (s.lines (previousPlannerIndex cfg p)).isEndSpeedFixed
        · rfl
        · by_cases hd : previousPlannerIndex cfg p ≠ p
          · rw [if_pos ⟨hd, hfx⟩, next_previous cfg p hp] at h
            cases h
            exact absurd rfl hne
          · rw [if_neg (fun c => hd c.1)] at h
            cases h
            exact absurd (not_not.mp hd) hne
      · exact hr

/-- One pass of the backward loop changes no junction limit, and no end speed except that of
the segment before the loop index. -/
theorem backwardStep_frame (cfg : Config) (ls : Lines) (p : Nat) (lj : ℚ) (j : Nat) :
    ((backwardStep cfg ls p lj).1 j).maxJunctionSpeed = (ls j).maxJunctionSpeed ∧
    (j ≠ previousPlannerIndex cfg p →
      ((backwardStep cfg ls p lj).1 j).endSpeed = (ls j).endSpeed) := by
  generalize hq : previousPlannerIndex cfg p = q
  unfold backwardStep
  rw [hq]
  simp only []
  generalize hL : (if (decide (cfg.driveSystem = 3) && decide ((ls q).moveID = (ls p).moveID)
        && decide (lj = (ls q).maxJunctionSpeed)) = true then
      upd (upd (upd (upd ls q fun l => { l with endSpeed := lj }) p fun l =>
        { l with startSpeed := lj }) q PrintLine.invalidateParameter) p
        PrintLine.invalidateParameter
    else ls) = L
  have fm : (L j).maxJunctionSpeed = (ls j).maxJunctionSpeed := by
    rw [← hL]
    split_ifs
    · simp only [upd_maxJunctionSpeed, PrintLine.invalidateParameter, implies_true]
    · rfl
  have fe : j ≠ q → (L j).endSpeed = (ls j).endSpeed := by
    intro hj
    rw [← hL]
    split_ifs
    · simp only [upd_endSpeed, PrintLine.invalidateParameter, implies_true,
        upd_other _ _ _ _ hj]
    · rfl
  clear hL
  constructor
  · rw [← fm]
    split_ifs <;>
    simp only [upd_maxJunctionSpeed, PrintLine.invalidateParameter,
      PrintLine.setEndSpeedFixed, PrintLine.setStartSpeedFixed, implies_true]
  · intro hj
    rw [← fe hj]
    split_ifs <;>
    simp only [upd_endSpeed, PrintLine.invalidateParameter,
      PrintLine.setEndSpeedFixed, PrintLine.setStartSpeedFixed, implies_true,
      upd_other _ _ _ _ hj]

/-- One pass of the backward loop over a junction that is not a switch from a move to an
extruder-only move leaves the end speed of the earlier segment at or below its junction limit,
provided this holds beforehand whenever that end speed is fixed. -/
theorem backwardStep_cap (cfg : Config) (ls : Lines) (p : Nat) (lj : ℚ)
    (hdist : previousPlannerIndex cfg p ≠ p)
    (hswitch : ¬ (((ls (previousPlannerIndex cfg p)).dir &&& 240) ≠ 128 ∧
      ((ls p).dir &&& 240) = 128))
    (hfix : (ls (previousPlannerIndex cfg p)).isEndSpeedFixed = true →
      (ls (previousPlannerIndex cfg p)).endSpeed
        ≤ (ls (previousPlannerIndex cfg p)).maxJunctionSpeed) :
    ((backwardStep cfg ls p lj).1 (previousPlannerIndex cfg p)).endSpeed
      ≤ (ls (previousPlannerIndex cfg p)).maxJunctionSpeed := by
  generalize hq : previousPlannerIndex cfg p = q at hdist hswitch hfix ⊢
  have hpq : p ≠ q := fun h => hdist h.symm
  unfold backwardStep
  rw [hq]
  simp only []
  generalize hL : (if (decide (cfg.driveSystem = 3) && decide ((ls q).moveID = (ls p).moveID)
        && decide (lj = (ls q).maxJunctionSpeed)) = true then
      upd (upd (upd (upd ls q fun l => { l with endSpeed := lj }) p fun l =>
        { l with startSpeed := lj }) q PrintLine.invalidateParameter) p
        PrintLine.invalidateParameter
    else ls) = L
  have fq : (L q).dir = (ls q).dir ∧ (L q).isEndSpeedFixed = (ls q).isEndSpeedFixed ∧
      (L q).maxJunctionSpeed = (ls q).maxJunctionSpeed := by
    rw [← hL]
    split_ifs
    · simp only [upd, setLine, if_neg hdist, if_neg hpq, if_true, PrintLine.invalidateParameter,
        PrintLine.isEndSpeedFixed, and_self]
    · exact ⟨rfl, rfl, rfl⟩
  have fp : (L p).dir = (ls p).dir := by
    rw [← hL]
    split_ifs
    · simp only [upd, setLine, if_neg hdist, if_neg hpq, if_true, PrintLine.invalidateParameter]
    · rfl
  have fe : (L q).isEndSpeedFixed = true → (L q).endSpeed ≤ (ls q).maxJunctionSpeed := by
    rw [fq.2.1]
    intro hf
    rw [← hL]
    split_ifs with hc
    · simp only [Bool.and_eq_true, decide_eq_true_eq] at hc
      simp only [upd, setLine, if_neg hdist, if_neg hpq, if_true, PrintLine.invalidateParameter]
      exact le_of_eq hc.2
    · exact hfix hf
  have hsw : ¬ ((((L q).dir &&& 240) != 128 && ((L p).dir &&& 240) == 128) = true) := by
    rw [fq.1, fp]
    simpa using hswitch
  rw [if_neg hsw]
  have hmj := fq.2.2
  clear hL
  cases hfx : (L q).isEndSpeedFixed
  · simp only [Bool.false_eq_true, if_false]
    generalize (if (L p).flags.nominal = true then (L p).fullSpeed
      else cfg.fsqrt (lj * lj + (L p).acceleration)) = v
    rw [← hmj]
    by_cases hv : v ≥ (L q).maxJunctionSpeed
    · rw [if_pos hv]
      by_cases h1 : (L q).endSpeed = (L q).maxJunctionSpeed
      · simp only [h1, ne_eq, not_true_eq_false, if_false]
        split_ifs <;>
        simp only [upd_endSpeed, PrintLine.invalidateParameter, implies_true, h1, le_refl]
      · simp only [h1, ne_eq, not_false_eq_true, if_true]
        split_ifs <;>
        simp only [upd_endSpeed, upd_maxJunctionSpeed, PrintLine.invalidateParameter,
          implies_true, upd_same, le_refl]
    · rw [if_neg hv]
      simp only [upd_endSpeed, PrintLine.invalidateParameter, implies_true,
        upd_other _ _ _ _ hpq.symm, upd_same]
      exact le_of_lt (not_le.mp hv)
  · simp only [if_true, upd_endSpeed, PrintLine.setStartSpeedFixed, implies_true]
    exact fe hfx

/-- The backward loop changes no junction limit, and no end speed of a segment that lies at or
beyond its loop index as seen from `last`. -/
theorem backwardLoop_frame (cfg : Config) (last : Nat) (hl : last < cfg.moveCacheSize)
    (j : Nat) :
    ∀ (fuel : Nat) (ls : Lines) (i : Nat) (lj : ℚ) (r : Lines), i < cfg.moveCacheSize →
      ringDistance cfg last i ≤ ringDistance cfg last j →
      backwardLoop cfg last fuel ls i lj = some r →
      (r j).maxJunctionSpeed = (ls j).maxJunctionSpeed ∧ (r j).endSpeed = (ls j).endSpeed := by
  intro fuel
  induction fuel with
  | zero =>
    intro ls i lj r hi hd h
    unfold backwardLoop at h
    by_cases hc : i = last
    · rw [if_pos hc] at h; cases h; exact ⟨rfl, rfl⟩
    · rw [if_neg hc] at h; cases h
  | succ n ih =>
    intro ls i lj r hi hd h
    unfold backwardLoop at h
    by_cases hc : i = last
    · rw [if_pos hc] at h; cases h; exact ⟨rfl, rfl⟩
    · rw [if_neg hc] at h
      simp only [] at h
      have hstep := ringDistance_previous cfg last i hl hi (fun e => hc e.symm)
      have hne : j ≠ previousPlannerIndex cfg i := by
        intro e
        rw [e] at hd
        omega
      have hf := backwardStep_frame cfg ls i lj j
      rcases hs : backwardStep cfg ls i lj with ⟨ls1, _ | lj1⟩
      · rw [hs] at h hf
        simp only [] at h hf
        cases h
        exact ⟨hf.1, hf.2 hne⟩
      · rw [hs] at h hf
        simp only [] at h hf
        have := ih ls1 _ lj1 r (previousPlannerIndex_lt cfg _ hi) (by omega) h
        exact ⟨this.1.trans hf.1, this.2.trans (hf.2 hne)⟩

/-- The backward pass, started at a junction that is not a switch from a move to an
extruder-only move, leaves the end speed of the earlier segment at or below its junction
limit. -/
theorem backwardPlanner_cap (cfg : Config) (ls r : Lines) (p last : Nat)
    (hp : p < cfg.moveCacheSize) (hl : last < cfg.moveCacheSize) (hne : p ≠ last)
    (hdist : previousPlannerIndex cfg p ≠ p)
    (hswitch : ¬ (((ls (previousPlannerIndex cfg p)).dir &&& 240) ≠ 128 ∧
      ((ls p).dir &&& 240) = 128))
    (hfix : (ls (previousPlannerIndex cfg p)).isEndSpeedFixed = true →
      (ls (previousPlannerIndex cfg p)).endSpeed
        ≤ (ls (previousPlannerIndex cfg p)).maxJunctionSpeed)
    (h : backwardPlanner cfg ls p last = some r) :
    (r (previousPlannerIndex cfg p)).endSpeed
        ≤ (r (previousPlannerIndex cfg p)).maxJunctionSpeed ∧
    (r (previousPlannerIndex cfg p)).maxJunctionSpeed
        = (ls (previousPlannerIndex cfg p)).maxJunctionSpeed := by
  unfold backwardPlanner at h
  rw [if_neg hne] at h
  have hN : cfg.moveCacheSize = (cfg.moveCacheSize - 1) + 1 := by omega
  rw [hN] at h
  unfold backwardLoop at h
  rw [if_neg hne] at h
  simp only [] at h
  have hcap := backwardStep_cap cfg ls p (ls p).endSpeed hdist hswitch hfix
  have hf := backwardStep_frame cfg ls p (ls p).endSpeed (previousPlannerIndex cfg p)
  rcases hs : backwardStep cfg ls p (ls p).endSpeed with ⟨ls1, _ | lj1⟩
  · rw [hs] at h hf hcap
    simp only [] at h hf hcap
    cases h
    exact ⟨by rw [hf.1]; exact hcap, hf.1⟩
  · rw [hs] at h hf hcap
    simp only [] at h hf hcap
    have := backwardLoop_frame cfg last hl _ _ ls1 _ lj1 r
      (previousPlannerIndex_lt cfg _ hp) (le_refl _) h
    exact ⟨by rw [this.1, this.2, hf.1]; exact hcap, this.1.trans hf.1⟩

/-- Reading back a field that the written function preserves. -/
theorem upd_field_of {α : Type} (g : PrintLine → α) (ls : Lines) (i : Nat)
    (f : PrintLine → PrintLine) (j : Nat) (a : α) (h : g (upd ls i f j) = a)
    (hf : ∀ l, g (f l) = g l) : g (ls j) = a := by
  rw [← h, upd_field g ls i f j hf]

/-- The junction computation leaves every direction byte alone, and when it fixes the end speed
of the earlier segment it sets that end speed to the junction limit. -/
theorem computeMaxJunctionSpeed_fixed (cfg : Config) (ls : Lines) (pv cu : Nat)
    (hfree : (ls pv).isEndSpeedFixed = false) :
    (∀ j, ((computeMaxJunctionSpeed cfg ls pv cu) j).dir = (ls j).dir) ∧
    (((computeMaxJunctionSpeed cfg ls pv cu) pv).isEndSpeedFixed = true →
      ((computeMaxJunctionSpeed cfg ls pv cu) pv).endSpeed
        ≤ ((computeMaxJunctionSpeed cfg ls pv cu) pv).maxJunctionSpeed) := by
  generalize hR : computeMaxJunctionSpeed cfg ls pv cu = R
  unfold computeMaxJunctionSpeed at hR
  by_cases h1 : (ls pv).isWarmUp = true
  · rw [if_pos h1] at hR
    subst hR
    refine ⟨fun j => upd_dir _ _ _ _ (fun _ => rfl), ?_⟩
    intro h
    have h2 := upd_field_of PrintLine.isEndSpeedFixed _ _ _ _ _ h (fun _ => rfl)
    rw [hfree] at h2
    cases h2
  · rw [if_neg h1] at hR
    by_cases h2 : (cfg.useAdvance && cfg.advanceActivated
        && (((ls pv).dir &&& 128) != ((ls cu).dir &&& 128))
        && (((ls pv).dir &&& 48) != 0 || ((ls cu).dir &&& 48) != 0)) = true
    · rw [if_pos h2] at hR
      simp only [] at hR
      subst hR
      refine ⟨fun j => ?_, fun _ => ?_⟩
      · simp only [upd_dir, PrintLine.invalidateParameter, PrintLine.setEndSpeedFixed,
          PrintLine.setStartSpeedFixed, implies_true]
      · simp only [upd_maxJunctionSpeed, PrintLine.invalidateParameter, implies_true, upd_same,
          le_refl]
    · rw [if_neg h2] at hR
      by_cases h3 : (decide (cfg.driveSystem = 3) && decide ((ls pv).moveID = (ls cu).moveID))
          = true
      · rw [if_pos h3] at hR
        by_cases h4 : (ls pv).fullSpeed > (ls cu).fullSpeed
        · rw [if_pos h4] at hR
          subst hR
          refine ⟨fun j => upd_dir _ _ _ _ (fun _ => rfl), ?_⟩
          intro h
          have h2 := upd_field_of PrintLine.isEndSpeedFixed _ _ _ _ _ h (fun _ => rfl)
          rw [hfree] at h2
          cases h2
        · rw [if_neg h4] at hR
          subst hR
          refine ⟨fun j => upd_dir _ _ _ _ (fun _ => rfl), ?_⟩
          intro h
          have h2 := upd_field_of PrintLine.isEndSpeedFixed _ _ _ _ _ h (fun _ => rfl)
          rw [hfree] at h2
          cases h2
      · rw [if_neg h3] at hR
        subst hR
        refine ⟨fun j => upd_dir _ _ _ _ (fun _ => rfl), ?_⟩
        intro h
        have h2 := upd_field_of PrintLine.isEndSpeedFixed _ _ _ _ _ h (fun _ => rfl)
        rw [hfree] at h2
        cases h2

/-- The shape of a planner run whose window reaches back beyond the new line: the run returns,
the end speed of the segment before the new line equals the start speed of the new line, and
after the backward pass that end speed is not raised and the junction limit not changed. -/
theorem updateTrapezoids_window (cfg : Config) (s : Planner) (first : Nat)
    (hwp : s.lines_write_pos < cfg.moveCacheSize) (hfl : first < cfg.moveCacheSize)
    (hfirst : planningStart cfg s s.lines_write_pos = some first)
    (hne : first ≠ s.lines_write_pos) :
    ∃ ls2 s1,
      backwardPlanner cfg
        (if s.lines_count ≠ 0 ∧ (!(upd s.lines first PrintLine.block
            (previdxOf cfg s.lines_write_pos)).isWarmUp) = true then
          computeMaxJunctionSpeed cfg (upd s.lines first PrintLine.block)
            (previdxOf cfg s.lines_write_pos) s.lines_write_pos
        else upd (upd s.lines first PrintLine.block) s.lines_write_pos
          PrintLine.setStartSpeedFixed) s.lines_write_pos first = some ls2 ∧
      updateTrapezoids cfg s s.lines_write_pos = some s1 ∧
      (s1.lines (previousPlannerIndex cfg s.lines_write_pos)).endSpeed
        = (s1.lines s.lines_write_pos).startSpeed ∧
      (s1.lines (previousPlannerIndex cfg s.lines_write_pos)).endSpeed
        ≤ (ls2 (previousPlannerIndex cfg s.lines_write_pos)).endSpeed ∧
      (s1.lines (previousPlannerIndex cfg s.lines_write_pos)).maxJunctionSpeed
        = (ls2 (previousPlannerIndex cfg s.lines_write_pos)).maxJunctionSpeed := by
  unfold updateTrapezoids
  rw [hfirst]
  simp only []
  obtain ⟨ls2, h2⟩ := backwardPlanner_returns cfg
      (if s.lines_count ≠ 0 ∧ (!(upd s.lines first PrintLine.block
          (previdxOf cfg s.lines_write_pos)).isWarmUp) = true then
        computeMaxJunctionSpeed cfg (upd s.lines first PrintLine.block)
          (previdxOf cfg s.lines_write_pos) s.lines_write_pos
      else upd (upd s.lines first PrintLine.block) s.lines_write_pos
        PrintLine.setStartSpeedFixed) s.lines_write_pos first hwp hfl
  rw [h2]
  simp only []
  unfold forwardPlanner
  rw [if_neg hne]
  obtain ⟨r, hr⟩ := forwardLoop_returns cfg s.lines_write_pos hwp cfg.moveCacheSize ls2 first
    (ls2 first).startSpeed hfl (le_of_lt (ringDistance_lt cfg _ _ hfl hwp))
  have hlast := forwardLoop_last cfg _ _ _ _ _ r hne hr
  have hframe := forwardLoop_frame cfg _ _ _ _ _ r hr
    (previousPlannerIndex cfg s.lines_write_pos)
  rw [hr]
  obtain ⟨ls3, left⟩ := r
  simp only [] at hlast hframe ⊢
  obtain ⟨ls4, h4⟩ := materialiseLoop_returns cfg s.lines_write_pos hwp cfg.moveCacheSize
    (upd ls3 s.lines_write_pos (fun l => { l with startSpeed := left }))
    first hfl (by
      have := ringDistance_lt cfg _ _ (nextPlannerIndex_lt cfg _ hfl) hwp
      omega)
  have hm := materialiseLoop_speeds cfg _ _ _ _ _ h4
  rw [h4]
  simp only []
  have hu := fun l => updateStepsParameter_speeds cfg l
  refine ⟨ls2, _, rfl, rfl, ?_, ?_, ?_⟩
  · simp only [upd_startSpeed, upd_endSpeed, PrintLine.unblock, implies_true,
      fun l => (hu l).1, fun l => (hu l).2.1, (hm _).1, (hm _).2.1, upd_same]
    exact hlast.symm
  · simp only [upd_endSpeed, PrintLine.unblock, implies_true, fun l => (hu l).2.1,
      (hm _).2.1]
    exact hframe.2
  · simp only [upd_maxJunctionSpeed, PrintLine.unblock, implies_true, fun l => (hu l).2.2,
      (hm _).2.2]
    exact hframe.1

/-! ## Junction continuity and junction cap of the planner run (C2, C3) -/

/-- C2, counterexample: in `slowAfterFastPlanner` the planning window of `updateTrapezoids(1)`
is the new line alone; after the run the committed line 0 still ends at 10 mm/s while the new
line 1 starts at 5 mm/s. -/
theorem updateTrapezoids_junction_discontinuous :
    slowAfterFastPlanner.lines_write_pos = 1 ∧
    planningStart smallCacheConfig slowAfterFastPlanner 1 = some 1 ∧
    (slowAfterFastPlanner.lines 0).isWarmUp = false ∧
    (slowAfterFastPlanner.lines 1).isWarmUp = false ∧
    (updateTrapezoids smallCacheConfig slowAfterFastPlanner 1).map
        (fun s => ((s.lines 0).endSpeed, (s.lines 1).startSpeed)) = some (10, 5) := by
  decide!

/-- C2, amended: when the planning window of `updateTrapezoids(lines_write_pos)` reaches back
beyond the new line (the horizon selection does not return the new line itself), the run
returns and leaves the end speed of the segment before the new line equal to the start speed of
the new line. -/
theorem updateTrapezoids_last_junction_continuous (cfg : Config) (s : Planner)
    (hwp : s.lines_write_pos < cfg.moveCacheSize) (hpos : s.lines_pos < cfg.moveCacheSize)
    (hwin : planningStart cfg s s.lines_write_pos ≠ some s.lines_write_pos) :
    ∃ s1, updateTrapezoids cfg s s.lines_write_pos = some s1 ∧
      (s1.lines (previousPlannerIndex cfg s.lines_write_pos)).endSpeed
        = (s1.lines s.lines_write_pos).startSpeed := by
  obtain ⟨first, hfirst, hfl⟩ := planningStart_returns cfg s s.lines_write_pos hwp hpos
  have hne : first ≠ s.lines_write_pos := fun e => hwin (by rw [hfirst, e])
  obtain ⟨_, s1, _, hu, hc, _, _⟩ := updateTrapezoids_window cfg s first hwp hfl hfirst hne
  exact ⟨s1, hu, hc⟩

/-- C2 amended, on `queuedRunPlanner`: the window of `updateTrapezoids(3)` starts before the
new line, and after the run line 2 ends at the speed at which line 3 starts. -/
theorem updateTrapezoids_last_junction_continuous_witness :
    ∃ s1, updateTrapezoids smallCacheConfig queuedRunPlanner queuedRunPlanner.lines_write_pos
        = some s1 ∧
      (s1.lines (previousPlannerIndex smallCacheConfig queuedRunPlanner.lines_write_pos)).endSpeed
        = (s1.lines queuedRunPlanner.lines_write_pos).startSpeed :=
  updateTrapezoids_last_junction_continuous smallCacheConfig queuedRunPlanner (by decide)
    (by decide) (by decide!)

/-- C3, counterexample: in `slowAfterFastPlanner` the end speed of the predecessor, line 0, is
already fixed at 10 mm/s; `updateTrapezoids(1)` computes the junction limit 5 mm/s for it and
leaves its end speed at 10 mm/s, above the limit. -/
theorem updateTrapezoids_fixed_predecessor_exceeds_junction_limit :
    (slowAfterFastPlanner.lines 0).isWarmUp = false ∧
    (slowAfterFastPlanner.lines 0).isEndSpeedFixed = true ∧
    (updateTrapezoids smallCacheConfig slowAfterFastPlanner 1).map
        (fun s => ((s.lines 0).endSpeed, (s.lines 0).maxJunctionSpeed)) = some (10, 5) ∧
    ¬ ((10 : ℚ) ≤ 5) := by
  decide!

/-- C3, amended: when the planning window of `updateTrapezoids(lines_write_pos)` reaches back
beyond the new line and the last junction is not a switch from a move to an extruder-only move,
the run returns and leaves both the end speed of the segment before the new line and the start
speed of the new line at or below that segment's `maxJunctionSpeed`. -/
theorem updateTrapezoids_last_junction_capped (cfg : Config) (s : Planner)
    (hN : cfg.moveCacheSize ≤ 256)
    (hwp : s.lines_write_pos < cfg.moveCacheSize) (hpos : s.lines_pos < cfg.moveCacheSize)
    (hwin : planningStart cfg s s.lines_write_pos ≠ some s.lines_write_pos)
    (hswitch : ¬ (((s.lines (previousPlannerIndex cfg s.lines_write_pos)).dir &&& 240) ≠ 128 ∧
      ((s.lines s.lines_write_pos).dir &&& 240) = 128)) :
    ∃ s1, updateTrapezoids cfg s s.lines_write_pos = some s1 ∧
      (s1.lines (previousPlannerIndex cfg s.lines_write_pos)).endSpeed
        ≤ (s1.lines (previousPlannerIndex cfg s.lines_write_pos)).maxJunctionSpeed ∧
      (s1.lines s.lines_write_pos).startSpeed
        ≤ (s1.lines (previousPlannerIndex cfg s.lines_write_pos)).maxJunctionSpeed := by
  obtain ⟨first, hfirst, hfl⟩ := planningStart_returns cfg s s.lines_write_pos hwp hpos
  have hne : first ≠ s.lines_write_pos := fun e => hwin (by rw [hfirst, e])
  have hfree := planningStart_window cfg s _ first hwp hfirst hne
  have hdist : previousPlannerIndex cfg s.lines_write_pos ≠ s.lines_write_pos := by
    unfold previousPlannerIndex
    split_ifs <;> omega
  obtain ⟨ls2, s1, hb, hu, hc, hle, hmj⟩ :=
    updateTrapezoids_window cfg s first hwp hfl hfirst hne
  rw [previdxOf_eq cfg _ hwp hN] at hb
  have hfree0 : (upd s.lines first PrintLine.block
      (previousPlannerIndex cfg s.lines_write_pos)).isEndSpeedFixed = false := by
    rw [upd_field PrintLine.isEndSpeedFixed s.lines first PrintLine.block _ (fun _ => rfl)]
    exact hfree
  have hcm := computeMaxJunctionSpeed_fixed cfg (upd s.lines first PrintLine.block)
    (previousPlannerIndex cfg s.lines_write_pos) s.lines_write_pos hfree0
  have hd0 : ∀ j, (upd s.lines first PrintLine.block j).dir = (s.lines j).dir :=
    fun j => upd_field PrintLine.dir s.lines first PrintLine.block j (fun _ => rfl)
  have hcap := backwardPlanner_cap cfg _ ls2 s.lines_write_pos first hwp hfl
    (fun e => hne e.symm) hdist
    (by
      split_ifs
      · rw [hcm.1, hcm.1, hd0, hd0]; exact hswitch
      · rw [upd_field PrintLine.dir _ _ PrintLine.setStartSpeedFixed _ (fun _ => rfl),
          upd_field PrintLine.dir _ _ PrintLine.setStartSpeedFixed _ (fun _ => rfl), hd0, hd0]
        exact hswitch)
    (by
      split_ifs
      · exact hcm.2
      · intro h
        rw [upd_field PrintLine.isEndSpeedFixed _ _ PrintLine.setStartSpeedFixed _
          (fun _ => rfl), hfree0] at h
        cases h)
    hb
  have h1 : (s1.lines (previousPlannerIndex cfg s.lines_write_pos)).endSpeed
      ≤ (s1.lines (previousPlannerIndex cfg s.lines_write_pos)).maxJunctionSpeed := by
    rw [hmj]
    exact le_trans hle hcap.1
  exact ⟨s1, hu, h1, by rw [← hc]; exact h1⟩

/-- C3 amended, on `queuedRunPlanner`: after `updateTrapezoids(3)` line 2 ends and line 3
starts at or below the junction limit of line 2. -/
theorem updateTrapezoids_last_junction_capped_witness :
    ∃ s1, updateTrapezoids smallCacheConfig queuedRunPlanner queuedRunPlanner.lines_write_pos
        = some s1 ∧
      (s1.lines (previousPlannerIndex smallCacheConfig queuedRunPlanner.lines_write_pos)).endSpeed
        ≤ (s1.lines (previousPlannerIndex smallCacheConfig
            queuedRunPlanner.lines_write_pos)).maxJunctionSpeed ∧
      (s1.lines queuedRunPlanner.lines_write_pos).startSpeed
        ≤ (s1.lines (previousPlannerIndex smallCacheConfig
            queuedRunPlanner.lines_write_pos)).maxJunctionSpeed :=
  updateTrapezoids_last_junction_capped smallCacheConfig queuedRunPlanner (by decide)
    (by decide) (by decide) (by decide!) (by decide)

/-! ## The planner run on a window of one line (C6) -/

/-- The materialiser does not look at the blocked flag. -/
theorem updateStepsParameter_block (cfg : Config) (l : PrintLine) :
    (updateStepsParameter cfg l.block).unblock = (updateStepsParameter cfg l).unblock := by
  unfold updateStepsParameter
  by_cases h : (l.isWarmUp || l.areParameterUpToDate) = true
  · have h' : (l.block.isWarmUp || l.block.areParameterUpToDate) = true := h
    rw [if_pos h, if_pos h']
    rfl
  · have h' : ¬ (l.block.isWarmUp || l.block.areParameterUpToDate) = true := h
    rw [if_neg h, if_neg h']
    simp only [PrintLine.block, PrintLine.unblock, PrintLine.setParameterUpToDate]
    split_ifs <;> rfl

/-- Materialising a blocked line gives the same record as materialising the line. -/
theorem materialise_block (cfg : Config) (l : PrintLine) :
    materialise cfg l.block = materialise cfg l :=
  updateStepsParameter_block cfg l

/-- Materialising twice is materialising once. -/
theorem materialise_materialise (cfg : Config) (l : PrintLine) :
    materialise cfg (materialise cfg l) = materialise cfg l := by
  unfold materialise
  have h : ((updateStepsParameter cfg l).unblock.isWarmUp
      || (updateStepsParameter cfg l).unblock.areParameterUpToDate) = true := by
    unfold updateStepsParameter
    by_cases h : (l.isWarmUp || l.areParameterUpToDate) = true
    · rw [if_pos h]; exact h
    · rw [if_neg h]
      simp only [PrintLine.setParameterUpToDate, PrintLine.unblock,
        PrintLine.areParameterUpToDate, Bool.or_true]
  have e : updateStepsParameter cfg (updateStepsParameter cfg l).unblock
      = (updateStepsParameter cfg l).unblock := by
    generalize (updateStepsParameter cfg l).unblock = x at h ⊢
    unfold updateStepsParameter
    rw [if_pos h]
  rw [e]
  rfl

/-- A cache position is no way from itself. -/
theorem ringDistance_self (cfg : Config) (a : Nat) : ringDistance cfg a a = 0 := by
  unfold ringDistance; simp

/-- From the position after `a` the way round to `a` is one step short of the whole ring. -/
theorem ringDistance_next_self (cfg : Config) (a : Nat) (ha : a < cfg.moveCacheSize) :
    ringDistance cfg (nextPlannerIndex cfg a) a + 1 = cfg.moveCacheSize := by
  unfold ringDistance nextPlannerIndex at *
  split_ifs at * <;> omega

/-- The materialise walk from `i` to a different position `wp`: it returns, blocks the line at
`wp`, materialises the lines from `i` up to the line before `wp` and leaves the others alone. -/
theorem materialiseLoop_walk (cfg : Config) (wp : Nat) (hw : wp < cfg.moveCacheSize) :
    ∀ (fuel : Nat) (L : Lines) (i : Nat), i < cfg.moveCacheSize → i ≠ wp →
      ringDistance cfg i wp ≤ fuel →
      ∃ M, materialiseLoop cfg wp fuel L i = some M ∧
        ∀ j, M j = if j = wp then (L wp).block
          else if j < cfg.moveCacheSize ∧ ringDistance cfg i j < ringDistance cfg i wp then
            materialise cfg (L j)
          else L j := by
  intro fuel
  induction fuel with
  | zero =>
    intro L i hi hne hd
    have := ringDistance_next cfg i wp hi hw hne
    omega
  | succ n ih =>
    intro L i hi hne hd
    have hstep := ringDistance_next cfg i wp hi hw hne
    have hni : nextPlannerIndex cfg i ≠ i := by
      unfold nextPlannerIndex; split_ifs <;> omega
    have hnl := nextPlannerIndex_lt cfg i hi
    unfold materialiseLoop
    simp only []
    by_cases hc : nextPlannerIndex cfg i ≠ wp
    · rw [if_pos hc]
      obtain ⟨M, hM, hspec⟩ := ih
        (upd (upd (upd L i (updateStepsParameter cfg)) i PrintLine.unblock)
          (nextPlannerIndex cfg i) PrintLine.block) (nextPlannerIndex cfg i) hnl hc (by omega)
      refine ⟨M, hM, fun j => ?_⟩
      rw [hspec j]
      by_cases hjw : j = wp
      · rw [if_pos hjw, if_pos hjw, upd_other _ _ _ _ (fun e => hc e.symm),
          upd_other _ _ _ _ (fun e => hne e.symm), upd_other _ _ _ _ (fun e => hne e.symm)]
      · rw [if_neg hjw, if_neg hjw]
        by_cases hji : j = i
        · subst hji
          have h0 := ringDistance_self cfg j
          have h1 := ringDistance_next_self cfg j hi
          have h3 := ringDistance_lt cfg j wp hi hw
          rw [if_neg (by omega), if_pos ⟨hi, by omega⟩, upd_other _ _ _ _ (fun e => hni e.symm),
            upd_same, upd_same]
          rfl
        · by_cases hjn : j = nextPlannerIndex cfg i
          · subst hjn
            have h0 := ringDistance_self cfg (nextPlannerIndex cfg i)
            have h1 := ringDistance_next cfg (nextPlannerIndex cfg i) wp hnl hw hc
            have h2 := ringDistance_next cfg i (nextPlannerIndex cfg i) hi hnl
              (fun e => hni e.symm)
            rw [if_pos ⟨hnl, by omega⟩, if_pos ⟨hnl, by omega⟩, upd_same,
              upd_other _ _ _ _ hni, upd_other _ _ _ _ hni, materialise_block]
          · rw [upd_other _ _ _ _ hjn, upd_other _ _ _ _ hji, upd_other _ _ _ _ hji]
            by_cases hjl : j < cfg.moveCacheSize
            · have h1 := ringDistance_next cfg i j hi hjl (fun e => hji e.symm)
              by_cases hcmp : ringDistance cfg (nextPlannerIndex cfg i) j
                  < ringDistance cfg (nextPlannerIndex cfg i) wp
              · rw [if_pos ⟨hjl, hcmp⟩, if_pos ⟨hjl, by omega⟩]
              · rw [if_neg (fun c => hcmp c.2), if_neg (fun c => hcmp (by have := c.2; omega))]
            · rw [if_neg (fun c => hjl c.1), if_neg (fun c => hjl c.1)]
    · rw [if_neg hc]
      have hc' : nextPlannerIndex cfg i = wp := not_not.mp hc
      refine ⟨_, rfl, fun j => ?_⟩
      by_cases hjw : j = wp
      · rw [if_pos hjw, hjw, ← hc', upd_same, upd_other _ _ _ _ hni, upd_other _ _ _ _ hni]
      · rw [if_neg hjw, upd_other _ _ _ _ (by rw [hc']; exact hjw)]
        by_cases hji : j = i
        · subst hji
          have h0 := ringDistance_self cfg j
          rw [if_pos ⟨hi, by omega⟩, upd_same, upd_same]
          rfl
        · rw [upd_other _ _ _ _ hji, upd_other _ _ _ _ hji]
          by_cases hjl : j < cfg.moveCacheSize
          · have h1 := ringDistance_next cfg i j hi hjl (fun e => hji e.symm)
            have h2 := ringDistance_self cfg wp
            rw [hc'] at hstep
            rw [if_neg (fun c => by have := c.2; omega)]
          · rw [if_neg (fun c => hjl c.1)]

/-- The materialise walk round the whole ring, followed by the closing update of the line at
`p`: it returns and materialises every line of the ring. -/
theorem materialiseLoop_ring (cfg : Config) (p : Nat) (hp : p < cfg.moveCacheSize)
    (L : Lines) :
    ∃ M, materialiseLoop cfg p cfg.moveCacheSize L p = some M ∧
      ∀ j, (upd (upd M p (updateStepsParameter cfg)) p PrintLine.unblock) j
        = if j < cfg.moveCacheSize then materialise cfg (L j) else L j := by
  obtain ⟨n, hn⟩ : ∃ n, cfg.moveCacheSize = n + 1 := ⟨cfg.moveCacheSize - 1, by omega⟩
  rw [hn]
  unfold materialiseLoop
  simp only []
  have hself := ringDistance_next_self cfg p hp
  have hnl := nextPlannerIndex_lt cfg p hp
  by_cases hc : nextPlannerIndex cfg p ≠ p
  · rw [if_pos hc]
    obtain ⟨M, hM, hspec⟩ := materialiseLoop_walk cfg p hp n
      (upd (upd (upd L p (updateStepsParameter cfg)) p PrintLine.unblock)
        (nextPlannerIndex cfg p) PrintLine.block) (nextPlannerIndex cfg p) hnl hc (by omega)
    refine ⟨M, hM, fun j => ?_⟩
    by_cases hjp : j = p
    · subst hjp
      rw [upd_same, upd_same, hspec j, if_pos rfl, if_pos (by omega),
        upd_other _ _ _ _ (fun e => hc e.symm), upd_same, upd_same]
      exact (materialise_block cfg _).trans (materialise_materialise cfg _)
    · rw [upd_other _ _ _ _ hjp, upd_other _ _ _ _ hjp, hspec j, if_neg hjp]
      by_cases hjl : j < cfg.moveCacheSize
      · have h1 := ringDistance_next cfg p j hp hjl (fun e => hjp e.symm)
        have h2 := ringDistance_lt cfg p j hp hjl
        rw [if_pos ⟨hjl, by omega⟩, if_pos (by omega)]
        by_cases hjn : j = nextPlannerIndex cfg p
        · rw [hjn, upd_same, upd_other _ _ _ _ hc, upd_other _ _ _ _ hc, materialise_block]
        · rw [upd_other _ _ _ _ hjn, upd_other _ _ _ _ hjp, upd_other _ _ _ _ hjp]
      · rw [if_neg (fun c => hjl c.1), if_neg (by omega),
          upd_other _ _ _ _ (fun e => hjl (by rw [e]; exact hnl)),
          upd_other _ _ _ _ hjp, upd_other _ _ _ _ hjp]
  · rw [if_neg hc]
    have hc' : nextPlannerIndex cfg p = p := not_not.mp hc
    refine ⟨_, rfl, fun j => ?_⟩
    rw [hc']
    by_cases hjp : j = p
    · subst hjp
      rw [upd_same, upd_same, upd_same, upd_same, upd_same, if_pos (by omega)]
      exact (materialise_block cfg _).trans (materialise_materialise cfg _)
    · have hjl : ¬ j < n + 1 := by
        have h0 := ringDistance_self cfg p
        rw [hc'] at hself
        omega
      rw [upd_other _ _ _ _ hjp, upd_other _ _ _ _ hjp, upd_other _ _ _ _ hjp,
        upd_other _ _ _ _ hjp, upd_other _ _ _ _ hjp, if_neg hjl]

/-- The shape of a planner run whose window is the new line alone: the run returns and its
cache is the junction stage with every line of the ring materialised. -/
theorem updateTrapezoids_collapsed (cfg : Config) (s : Planner)
    (hwp : s.lines_write_pos < cfg.moveCacheSize)
    (hfirst : planningStart cfg s s.lines_write_pos = some s.lines_write_pos) :
    ∃ L1, updateTrapezoids cfg s s.lines_write_pos = some { s with lines := L1 } ∧
      ∀ j, L1 j = if j < cfg.moveCacheSize then
          materialise cfg (junctionStage cfg s s.lines_write_pos j)
        else junctionStage cfg s s.lines_write_pos j := by
  unfold updateTrapezoids
  rw [hfirst]
  simp only []
  have hb : ∀ L, backwardPlanner cfg L s.lines_write_pos s.lines_write_pos = some L := by
    intro L; unfold backwardPlanner; rw [if_pos rfl]
  have hf : ∀ L, forwardPlanner cfg L s.lines_write_pos s.lines_write_pos = some L := by
    intro L; unfold forwardPlanner; rw [if_pos rfl]
  rw [hb]
  simp only []
  rw [hf]
  simp only []
  obtain ⟨M, hM, hspec⟩ := materialiseLoop_ring cfg s.lines_write_pos hwp
    (junctionStage cfg s s.lines_write_pos)
  unfold junctionStage at hM hspec
  rw [hM]
  exact ⟨_, rfl, fun j => by unfold junctionStage; exact hspec j⟩

/-- The junction stage line by line: it rewrites the line before the new one and the new line
and leaves the others alone. -/
theorem junctionStage_apply (cfg : Config) (s : Planner) (p : Nat)
    (hpv : previdxOf cfg p ≠ p) (j : Nat) :
    junctionStage cfg s p j =
      if j = previdxOf cfg p then
        junctionPrev cfg s.lines_count (s.lines (previdxOf cfg p)) (s.lines p).block
      else if j = p then
        junctionCur cfg s.lines_count (s.lines (previdxOf cfg p)) (s.lines p).block
      else s.lines j := by
  generalize hq : previdxOf cfg p = q at hpv ⊢
  have hpq : p ≠ q := fun e => hpv e.symm
  unfold junctionStage junctionPrev junctionCur
  rw [hq, upd_other _ _ _ _ hpv]
  by_cases hc : s.lines_count ≠ 0 ∧ (!(s.lines q).isWarmUp) = true
  · rw [if_pos hc, if_pos hc, if_pos hc]
    have hw : ¬ (s.lines q).isWarmUp = true := by
      have := hc.2
      revert this
      cases (s.lines q).isWarmUp <;> simp
    unfold computeMaxJunctionSpeed
    rw [upd_other _ _ _ _ hpv, upd_same, if_neg hw]
    by_cases ha : advanceSwitch cfg (s.lines q) (s.lines p).block = true
    · rw [if_pos ha, if_pos ha]
      have ha' : (cfg.useAdvance && cfg.advanceActivated
          && (((s.lines q).dir &&& 128) != ((s.lines p).block.dir &&& 128))
          && (((s.lines q).dir &&& 48) != 0 || ((s.lines p).block.dir &&& 48) != 0)) = true := ha
      rw [if_pos ha']
      simp only []
      by_cases hjq : j = q
      · subst hjq
        rw [if_pos rfl]
        simp only [upd_same, upd_other _ _ _ _ hpv, upd_other _ _ _ _ hpq]
        rfl
      · rw [if_neg hjq]
        by_cases hjp : j = p
        · subst hjp
          rw [if_pos rfl]
          simp only [upd_same, upd_other _ _ _ _ hpv, upd_other _ _ _ _ hpq]
          rfl
        · rw [if_neg hjp]
          simp only [upd_other _ _ _ _ hjq, upd_other _ _ _ _ hjp]
    · rw [if_neg ha, if_neg ha]
      have ha' : ¬ (cfg.useAdvance && cfg.advanceActivated
          && (((s.lines q).dir &&& 128) != ((s.lines p).block.dir &&& 128))
          && (((s.lines q).dir &&& 48) != 0 || ((s.lines p).block.dir &&& 48) != 0)) = true := ha
      rw [if_neg ha']
      unfold junctionLimit
      by_cases hd : (decide (cfg.driveSystem = 3)
          && decide ((s.lines q).moveID = (s.lines p).block.moveID)) = true
      · rw [if_pos hd, if_pos hd]
        by_cases hf : (s.lines q).fullSpeed > (s.lines p).block.fullSpeed
        · rw [if_pos hf, if_pos hf]
          by_cases hjq : j = q
          · subst hjq; rw [if_pos rfl, upd_same]; simp only [upd_other _ _ _ _ hpv]
          · rw [if_neg hjq, upd_other _ _ _ _ hjq]
            by_cases hjp : j = p
            · subst hjp; rw [if_pos rfl, upd_same]
            · rw [if_neg hjp, upd_other _ _ _ _ hjp]
        · rw [if_neg hf, if_neg hf]
          by_cases hjq : j = q
          · subst hjq; rw [if_pos rfl, upd_same]; simp only [upd_other _ _ _ _ hpv]
          · rw [if_neg hjq, upd_other _ _ _ _ hjq]
            by_cases hjp : j = p
            · subst hjp; rw [if_pos rfl, upd_same]
            · rw [if_neg hjp, upd_other _ _ _ _ hjp]
      · rw [if_neg hd, if_neg hd]
        by_cases hjq : j = q
        · subst hjq; rw [if_pos rfl, upd_same]; simp only [upd_other _ _ _ _ hpv]
        · rw [if_neg hjq, upd_other _ _ _ _ hjq]
          by_cases hjp : j = p
          · subst hjp; rw [if_pos rfl, upd_same]
          · rw [if_neg hjp, upd_other _ _ _ _ hjp]
  · rw [if_neg hc, if_neg hc, if_neg hc]
    by_cases hjq : j = q
    · subst hjq
      rw [if_pos rfl, upd_other _ _ _ _ hpv, upd_other _ _ _ _ hpv]
    · rw [if_neg hjq]
      by_cases hjp : j = p
      · subst hjp; rw [if_pos rfl, upd_same, upd_same]
      · rw [if_neg hjp, upd_other _ _ _ _ hjp, upd_other _ _ _ _ hjp]

/-- Materialising a stale line, marking the result stale and materialising again gives the
first result: the materialiser reads none of the fields it writes. -/
theorem materialise_restale (cfg : Config) (l : PrintLine)
    (hs : l.areParameterUpToDate = false) :
    materialise cfg (materialise cfg l).invalidateParameter = materialise cfg l := by
  unfold materialise
  by_cases hw : l.isWarmUp = true
  · have h1 : updateStepsParameter cfg l = l := by
      unfold updateStepsParameter
      rw [if_pos (by rw [hw]; rfl)]
    have h2 : updateStepsParameter cfg l.unblock.invalidateParameter
        = l.unblock.invalidateParameter := by
      unfold updateStepsParameter
      rw [if_pos (by
        have : l.unblock.invalidateParameter.isWarmUp = true := hw
        rw [this]; rfl)]
    rw [h1, h2]
    have : l.joinFlags.stepParamsComputed = false := hs
    unfold PrintLine.invalidateParameter PrintLine.unblock
    simp only []
    rw [← this]
  · have hc : ¬ (l.isWarmUp || l.areParameterUpToDate) = true := by
      rw [hs]; simpa using hw
    unfold updateStepsParameter
    rw [if_neg hc]
    simp only [PrintLine.setParameterUpToDate, PrintLine.unblock, PrintLine.invalidateParameter,
      PrintLine.isWarmUp, PrintLine.areParameterUpToDate]
    have hw' : l.flags.warmup = false := by
      revert hw
      unfold PrintLine.isWarmUp
      cases l.flags.warmup <;> simp
    split_ifs <;> simp_all

/-- Materialising leaves the motion, the planned speeds, the duration and the fixed flags of a
line alone. -/
theorem materialise_plan (cfg : Config) (l : PrintLine) :
    samePlan (materialise cfg l) l ∧
    (materialise cfg l).startSpeed = l.startSpeed ∧
    (materialise cfg l).endSpeed = l.endSpeed ∧
    (materialise cfg l).maxJunctionSpeed = l.maxJunctionSpeed ∧
    (materialise cfg l).timeInTicks = l.timeInTicks ∧
    (materialise cfg l).isEndSpeedFixed = l.isEndSpeedFixed ∧
    (materialise cfg l).isStartSpeedFixed = l.isStartSpeedFixed := by
  unfold materialise updateStepsParameter samePlan
  simp only [PrintLine.setParameterUpToDate, PrintLine.unblock]
  split_ifs <;> exact ⟨⟨rfl, rfl, rfl, rfl, rfl, rfl, rfl, rfl⟩, rfl, rfl, rfl, rfl, rfl, rfl⟩

/-- The junction limit depends on the motion of the two segments only. -/
theorem junctionLimit_congr (cfg : Config) (a b a' b' : PrintLine)
    (ha : samePlan a a') (hb : samePlan b b') :
    junctionLimit cfg a b = junctionLimit cfg a' b' := by
  obtain ⟨_, a2, a3, a4, a5, a6, a7, a8⟩ := ha
  obtain ⟨_, b2, b3, b4, b5, b6, b7, b8⟩ := hb
  unfold junctionLimit
  simp only [a2, a3, a4, a5, a6, a7, a8, b2, b3, b4, b5, b6, b7, b8]

/-- The advance test depends on the motion of the two segments only. -/
theorem advanceSwitch_congr (cfg : Config) (a b a' b' : PrintLine)
    (ha : samePlan a a') (hb : samePlan b b') :
    advanceSwitch cfg a b = advanceSwitch cfg a' b' := by
  unfold advanceSwitch
  rw [ha.2.1, hb.2.1]

/-- The junction stage keeps the motion of the line before the new one. -/
theorem junctionPrev_plan (cfg : Config) (count : Nat) (a b : PrintLine) :
    samePlan (junctionPrev cfg count a b) a ∧
    (junctionPrev cfg count a b).timeInTicks = a.timeInTicks ∧
    (a.isEndSpeedFixed = true → (junctionPrev cfg count a b).isEndSpeedFixed = true) := by
  unfold junctionPrev samePlan
  split_ifs <;> exact ⟨⟨rfl, rfl, rfl, rfl, rfl, rfl, rfl, rfl⟩, rfl, fun h => by first | exact h | rfl⟩

/-- The junction stage keeps the motion, the duration and the end flag of the new line. -/
theorem junctionCur_plan (cfg : Config) (count : Nat) (a b : PrintLine) :
    samePlan (junctionCur cfg count a b) b ∧
    (junctionCur cfg count a b).timeInTicks = b.timeInTicks ∧
    (junctionCur cfg count a b).isEndSpeedFixed = b.isEndSpeedFixed := by
  unfold junctionCur samePlan
  split_ifs <;> exact ⟨⟨rfl, rfl, rfl, rfl, rfl, rfl, rfl, rfl⟩, rfl, rfl⟩

/-- Blocking keeps the motion of a line. -/
theorem block_plan (l : PrintLine) : samePlan l.block l :=
  ⟨rfl, rfl, rfl, rfl, rfl, rfl, rfl, rfl⟩

/-- The relation `samePlan` is transitive. -/
theorem samePlan_trans (a b c : PrintLine) (h1 : samePlan a b) (h2 : samePlan b c) :
    samePlan a c := by
  unfold samePlan at *
  obtain ⟨a1, a2, a3, a4, a5, a6, a7, a8⟩ := h1
  obtain ⟨b1, b2, b3, b4, b5, b6, b7, b8⟩ := h2
  exact ⟨a1.trans b1, a2.trans b2, a3.trans b3, a4.trans b4, a5.trans b5, a6.trans b6,
    a7.trans b7, a8.trans b8⟩

/-- Fixing a start speed that is fixed changes nothing. -/
theorem setStartSpeedFixed_self (l : PrintLine) (h : l.isStartSpeedFixed = true) :
    l.setStartSpeedFixed = l := by
  have h' : l.joinFlags.startFixed = true := h
  unfold PrintLine.setStartSpeedFixed
  rw [← h']

/-- Repeating the junction stage on the materialised lines and materialising again gives the
same record for the line before the new one. -/
theorem junctionPrev_stable (cfg : Config) (count : Nat) (a b : PrintLine) :
    materialise cfg (junctionPrev cfg count (materialise cfg (junctionPrev cfg count a b))
        (materialise cfg (junctionCur cfg count a b)).block)
      = materialise cfg (junctionPrev cfg count a b) := by
  have pa := samePlan_trans _ _ _ (materialise_plan cfg (junctionPrev cfg count a b)).1
    (junctionPrev_plan cfg count a b).1
  have pb := samePlan_trans _ _ _ (block_plan (materialise cfg (junctionCur cfg count a b)))
    (samePlan_trans _ _ _ (materialise_plan cfg (junctionCur cfg count a b)).1
      (junctionCur_plan cfg count a b).1)
  have hsw := advanceSwitch_congr cfg _ _ _ _ pa pb
  have hjl := junctionLimit_congr cfg _ _ _ _ pa pb
  have hwu := pa.1
  have hm := materialise_plan cfg (junctionPrev cfg count a b)
  have hmc := materialise_plan cfg (junctionCur cfg count a b)
  generalize hA : materialise cfg (junctionPrev cfg count a b) = A at *
  generalize hB : (materialise cfg (junctionCur cfg count a b)).block = B at *
  have hBs : B.startSpeed = (junctionCur cfg count a b).startSpeed := by
    rw [← hB]; exact hmc.2.1
  conv_lhs => unfold junctionPrev
  rw [hwu, hsw, hjl]
  by_cases hc : count ≠ 0 ∧ (!a.isWarmUp) = true
  · rw [if_pos hc]
    by_cases hs : advanceSwitch cfg a b = true
    · rw [if_pos hs]
      have e1 : A.endSpeed = min a.endSpeed b.startSpeed := by
        rw [hm.2.2.1]; unfold junctionPrev; rw [if_pos hc, if_pos hs]
      have e2 : B.startSpeed = min a.endSpeed b.startSpeed := by
        rw [hBs]; unfold junctionCur; rw [if_pos hc, if_pos hs]
      have e3 : A.maxJunctionSpeed = min a.endSpeed b.startSpeed := by
        rw [hm.2.2.2.1]; unfold junctionPrev; rw [if_pos hc, if_pos hs]
      have e4 : A.joinFlags.endFixed = true := by
        have := hm.2.2.2.2.2.1
        unfold PrintLine.isEndSpeedFixed at this
        rw [this]; unfold junctionPrev; rw [if_pos hc, if_pos hs]
      have e5 : (junctionPrev cfg count a b).areParameterUpToDate = false := by
        unfold junctionPrev; rw [if_pos hc, if_pos hs]; rfl
      rw [e1, e2, min_self]
      have : ({ A with
            joinFlags := { A.joinFlags with endFixed := true, stepParamsComputed := false },
            maxJunctionSpeed := min a.endSpeed b.startSpeed,
            endSpeed := min a.endSpeed b.startSpeed } : PrintLine)
          = A.invalidateParameter := by
        unfold PrintLine.invalidateParameter
        have e13 : A.endSpeed = A.maxJunctionSpeed := e1.trans e3.symm
        rw [← e1, ← e4]
        nth_rewrite 1 [e13]
        rfl
      rw [this, ← hA]
      exact materialise_restale cfg _ e5
    · rw [if_neg hs]
      have e3 : A.maxJunctionSpeed = junctionLimit cfg a b := by
        rw [hm.2.2.2.1]; unfold junctionPrev; rw [if_pos hc, if_neg hs]
      rw [← e3, ← hA]
      exact materialise_materialise cfg _
  · rw [if_neg hc, ← hA]
    exact materialise_materialise cfg _

/-- Repeating the junction stage on the materialised lines and materialising again gives the
same record for the new line. -/
theorem junctionCur_stable (cfg : Config) (count : Nat) (a b : PrintLine) :
    materialise cfg (junctionCur cfg count (materialise cfg (junctionPrev cfg count a b))
        (materialise cfg (junctionCur cfg count a b)).block)
      = materialise cfg (junctionCur cfg count a b) := by
  have pa := samePlan_trans _ _ _ (materialise_plan cfg (junctionPrev cfg count a b)).1
    (junctionPrev_plan cfg count a b).1
  have pb := samePlan_trans _ _ _ (block_plan (materialise cfg (junctionCur cfg count a b)))
    (samePlan_trans _ _ _ (materialise_plan cfg (junctionCur cfg count a b)).1
      (junctionCur_plan cfg count a b).1)
  have hsw := advanceSwitch_congr cfg _ _ _ _ pa pb
  have hwu := pa.1
  have hm := materialise_plan cfg (junctionPrev cfg count a b)
  have hmc := materialise_plan cfg (junctionCur cfg count a b)
  generalize hA : materialise cfg (junctionPrev cfg count a b) = A at *
  have hBs : (materialise cfg (junctionCur cfg count a b)).block.startSpeed
      = (junctionCur cfg count a b).startSpeed := hmc.2.1
  have hBf : (materialise cfg (junctionCur cfg count a b)).block.joinFlags.startFixed
      = (junctionCur cfg count a b).joinFlags.startFixed := hmc.2.2.2.2.2.2
  generalize hC : materialise cfg (junctionCur cfg count a b) = C at *
  conv_lhs => unfold junctionCur
  rw [hwu, hsw]
  by_cases hc : count ≠ 0 ∧ (!a.isWarmUp) = true
  · rw [if_pos hc]
    by_cases hs : advanceSwitch cfg a b = true
    · rw [if_pos hs]
      have e1 : A.endSpeed = min a.endSpeed b.startSpeed := by
        rw [hm.2.2.1]; unfold junctionPrev; rw [if_pos hc, if_pos hs]
      have e2 : C.block.startSpeed = min a.endSpeed b.startSpeed := by
        rw [hBs]; unfold junctionCur; rw [if_pos hc, if_pos hs]
      have e4 : C.block.joinFlags.startFixed = true := by
        rw [hBf]; unfold junctionCur; rw [if_pos hc, if_pos hs]
      have e5 : (junctionCur cfg count a b).areParameterUpToDate = false := by
        unfold junctionCur; rw [if_pos hc, if_pos hs]; rfl
      rw [e1, e2, min_self]
      have : ({ C.block with
            joinFlags := { C.block.joinFlags with startFixed := true,
                                                  stepParamsComputed := false },
            startSpeed := min a.endSpeed b.startSpeed } : PrintLine)
          = C.invalidateParameter.block := by
        unfold PrintLine.invalidateParameter
        rw [← e2, ← e4]
        rfl
      rw [this, materialise_block, ← hC]
      exact materialise_restale cfg _ e5
    · rw [if_neg hs, materialise_block, ← hC]
      exact materialise_materialise cfg _
  · rw [if_neg hc]
    have e4 : C.block.isStartSpeedFixed = true := by
      have : C.block.isStartSpeedFixed = (junctionCur cfg count a b).joinFlags.startFixed := hBf
      rw [this]; unfold junctionCur; rw [if_neg hc]; rfl
    rw [setStartSpeedFixed_self _ e4, materialise_block, ← hC]
    exact materialise_materialise cfg _

/-- The first horizon loop reads the durations of the lines only. -/
theorem horizonLoop_congr (cfg : Config) (ls ls' : Lines) (p : Nat)
    (ht : ∀ j, (ls' j).timeInTicks = (ls j).timeInTicks) :
    ∀ (fuel : Nat) (t : Int) (m : Nat),
      horizonLoop cfg ls' p fuel t m = horizonLoop cfg ls p fuel t m := by
  intro fuel
  induction fuel with
  | zero => intro t m; unfold horizonLoop; rfl
  | succ n ih =>
    intro t m
    unfold horizonLoop
    simp only []
    rw [ht, ih]

/-- The second horizon loop stops at `maxfirst` or at a line whose end speed is fixed. -/
theorem firstLoop_stop (cfg : Config) (ls : Lines) (m : Nat) :
    ∀ (fuel i r : Nat), firstLoop cfg ls m fuel i = some r →
      ¬ (r ≠ m ∧ (!(ls r).isEndSpeedFixed) = true) := by
  intro fuel
  induction fuel with
  | zero =>
    intro i r h
    unfold firstLoop at h
    by_cases c : i ≠ m ∧ (!(ls i).isEndSpeedFixed) = true
    · rw [if_pos c] at h; cases h
    · rw [if_neg c] at h; cases h; exact c
  | succ n ih =>
    intro i r h
    unfold firstLoop at h
    by_cases c : i ≠ m ∧ (!(ls i).isEndSpeedFixed) = true
    · rw [if_pos c] at h; exact ih _ _ h
    · rw [if_neg c] at h; cases h; exact c

/-- A horizon selection that returns the new line itself returns it again after a change of
the cache that keeps the durations and the end flag of the new line and clears no end flag of
the line before it. -/
theorem planningStart_stays (cfg : Config) (s s' : Planner) (p : Nat)
    (hp : p < cfg.moveCacheSize) (hdist : previousPlannerIndex cfg p ≠ p)
    (hpos : s'.lines_pos = s.lines_pos)
    (ht : ∀ j, (s'.lines j).timeInTicks = (s.lines j).timeInTicks)
    (hfp : (s'.lines p).isEndSpeedFixed = (s.lines p).isEndSpeedFixed)
    (hfq : (s.lines (previousPlannerIndex cfg p)).isEndSpeedFixed = true →
      (s'.lines (previousPlannerIndex cfg p)).isEndSpeedFixed = true)
    (h : planningStart cfg s p = some p) : planningStart cfg s' p = some p := by
  unfold planningStart at h ⊢
  simp only [] at h ⊢
  rw [hpos, horizonLoop_congr cfg s.lines s'.lines p ht]
  rcases hh : horizonLoop cfg s.lines p cfg.moveCacheSize 0
      (if s.lines_pos ≠ p then nextPlannerIndex cfg s.lines_pos else s.lines_pos) with _ | m
  · rw [hh] at h; cases h
  · rw [hh] at h
    simp only [] at h ⊢
    obtain ⟨n, hn⟩ : ∃ n, cfg.moveCacheSize = n + 1 := ⟨cfg.moveCacheSize - 1, by omega⟩
    rw [hn] at h ⊢
    unfold firstLoop at h ⊢
    rw [hfp]
    by_cases c1 : p ≠ m ∧ (!(s.lines p).isEndSpeedFixed) = true
    · rw [if_pos c1] at h ⊢
      simp only [] at h ⊢
      unfold firstLoop at h ⊢
      by_cases c2 : previousPlannerIndex cfg p ≠ m ∧
          (!(s.lines (previousPlannerIndex cfg p)).isEndSpeedFixed) = true
      · exfalso
        rw [if_pos c2] at h
        cases n with
        | zero => simp only [] at h; cases h
        | succ k =>
          simp only [] at h
          rcases hf : firstLoop cfg s.lines m k
              (previousPlannerIndex cfg (previousPlannerIndex cfg p)) with _ | r
          · rw [hf] at h; cases h
          · rw [hf] at h
            simp only [] at h
            have hstop := firstLoop_stop cfg s.lines m k _ r hf
            by_cases hr : r ≠ p ∧ (s.lines r).isEndSpeedFixed = true
            · rw [if_pos hr] at h
              have e : nextPlannerIndex cfg r = p := Option.some.inj h
              have e2 : r = previousPlannerIndex cfg p := by
                rw [← e, previous_next]
              rw [e2] at hr
              have := c2.2
              rw [hr.2] at this
              cases this
            · rw [if_neg hr] at h
              have e : r = p := Option.some.inj h
              rw [e] at hstop
              exact hstop c1
      · rw [if_neg c2] at h
        simp only [] at h
        have hq : (s.lines (previousPlannerIndex cfg p)).isEndSpeedFixed = true := by
          by_contra hq
          rw [if_neg (fun c => hq c.2)] at h
          exact hdist (Option.some.inj h)
        have hq' := hfq hq
        rw [if_neg (fun c => by have := c.2; rw [hq'] at this; cases this)]
        simp only []
        rw [if_pos ⟨hdist, hq'⟩]
        rw [if_pos ⟨hdist, hq⟩] at h
        exact h
    · rw [if_neg c1]
      simp only []
      rw [if_neg (fun c => c.1 rfl)]

/-- Idempotence on a single-line window: when the planning window of
`updateTrapezoids(lines_write_pos)` is the new line alone (the horizon selection returns the new
line itself), the run returns a planner state on which a second run returns the very same
state: no field of any line changes. -/
theorem updateTrapezoids_idempotent_on_single_line_window (cfg : Config) (s : Planner)
    (h2 : 2 ≤ cfg.moveCacheSize) (hN : cfg.moveCacheSize ≤ 256)
    (hwp : s.lines_write_pos < cfg.moveCacheSize)
    (hfirst : planningStart cfg s s.lines_write_pos = some s.lines_write_pos) :
    ∃ s1, updateTrapezoids cfg s s.lines_write_pos = some s1 ∧
      updateTrapezoids cfg s1 s.lines_write_pos = some s1 := by
  obtain ⟨L1, h1, hl1⟩ := updateTrapezoids_collapsed cfg s hwp hfirst
  have hpe := previdxOf_eq cfg s.lines_write_pos hwp hN
  have hql := previousPlannerIndex_lt cfg s.lines_write_pos hwp
  have hdist : previousPlannerIndex cfg s.lines_write_pos ≠ s.lines_write_pos := by
    unfold previousPlannerIndex
    split_ifs <;> omega
  have hpv : previdxOf cfg s.lines_write_pos ≠ s.lines_write_pos := by rw [hpe]; exact hdist
  have hJ := junctionStage_apply cfg s s.lines_write_pos hpv
  rw [hpe] at hJ
  have hJ2 := junctionStage_apply cfg { s with lines := L1 } s.lines_write_pos hpv
  rw [hpe] at hJ2
  simp only [] at hJ2
  obtain ⟨p, hp⟩ : ∃ p, s.lines_write_pos = p := ⟨_, rfl⟩
  obtain ⟨q, hq⟩ : ∃ q, previousPlannerIndex cfg p = q := ⟨_, rfl⟩
  rw [hp] at h1 hl1 hql hdist hJ hJ2 hwp hfirst ⊢
  rw [hq] at hql hdist hJ hJ2
  have hpq : p ≠ q := fun e => hdist e.symm
  have eq1 : L1 q = materialise cfg (junctionPrev cfg s.lines_count (s.lines q)
      (s.lines p).block) := by
    rw [hl1, if_pos hql, hJ, if_pos rfl]
  have ep1 : L1 p = materialise cfg (junctionCur cfg s.lines_count (s.lines q)
      (s.lines p).block) := by
    rw [hl1, if_pos hwp, hJ, if_neg hpq, if_pos rfl]
  have eo1 : ∀ j, j ≠ q → j ≠ p → L1 j
      = if j < cfg.moveCacheSize then materialise cfg (s.lines j) else s.lines j := by
    intro j hjq hjp
    rw [hl1, hJ, if_neg hjq, if_neg hjp]
  have hstay : planningStart cfg { s with lines := L1 } p = some p := by
    refine planningStart_stays cfg s { s with lines := L1 } p hwp (by rw [hq]; exact hdist) rfl
      ?_ ?_ ?_ hfirst
    · intro j
      show (L1 j).timeInTicks = (s.lines j).timeInTicks
      by_cases hjq : j = q
      · rw [hjq, eq1, (materialise_plan cfg _).2.2.2.2.1, (junctionPrev_plan cfg _ _ _).2.1]
      · by_cases hjp : j = p
        · rw [hjp, ep1, (materialise_plan cfg _).2.2.2.2.1, (junctionCur_plan cfg _ _ _).2.1]
          rfl
        · rw [eo1 j hjq hjp]
          split_ifs
          · exact (materialise_plan cfg _).2.2.2.2.1
          · rfl
    · show (L1 p).isEndSpeedFixed = (s.lines p).isEndSpeedFixed
      rw [ep1, (materialise_plan cfg _).2.2.2.2.2.1, (junctionCur_plan cfg _ _ _).2.2]
      rfl
    · rw [hq]
      intro hfx
      show (L1 q).isEndSpeedFixed = true
      rw [eq1, (materialise_plan cfg _).2.2.2.2.2.1]
      exact (junctionPrev_plan cfg _ _ _).2.2 hfx
  have hwp' : ({ s with lines := L1 } : Planner).lines_write_pos = p := hp
  obtain ⟨L2, h2', hl2⟩ := updateTrapezoids_collapsed cfg { s with lines := L1 }
    (by rw [hwp']; exact hwp) (by rw [hwp']; exact hstay)
  rw [hwp'] at h2' hl2
  have hL : L2 = L1 := by
    funext j
    rw [hl2, hJ2]
    by_cases hjq : j = q
    · rw [hjq, if_pos hql, if_pos rfl, eq1, ep1]
      exact junctionPrev_stable cfg _ _ _
    · rw [if_neg hjq]
      by_cases hjp : j = p
      · rw [hjp, if_pos hwp, if_pos rfl, eq1, ep1]
        exact junctionCur_stable cfg _ _ _
      · rw [if_neg hjp, eo1 j hjq hjp]
        by_cases hjl : j < cfg.moveCacheSize
        · rw [if_pos hjl, if_pos hjl]
          exact materialise_materialise cfg _
        · rw [if_neg hjl, if_neg hjl]
  rw [hL] at h2'
  exact ⟨_, h1, h2'⟩

/-- Materialising a line that is no warm-up leaves its parameters up to date. -/
theorem materialise_upToDate (cfg : Config) (l : PrintLine) (hw : l.isWarmUp = false) :
    (materialise cfg l).areParameterUpToDate = true := by
  unfold materialise updateStepsParameter
  by_cases hu : l.areParameterUpToDate = true
  · rw [if_pos (by rw [hu]; simp)]
    exact hu
  · rw [if_neg (by rw [hw]; simpa using hu)]
    rfl

/-- C6, evaluated on the code: on `queuedRunPlanner` the first `updateTrapezoids(3)` plans the
window from line 2 and leaves line 1, outside the window, as stale as it found it; the run fixes
the end speed of line 2, so an immediate second run selects the new line alone, and its
do-while walk, entered with `first == p`, goes round the whole ring and materialises line 1:
its parameters are up to date after the second run and were not after the first. -/
theorem updateTrapezoids_second_run_changes_stale_line :
    planningStart smallCacheConfig queuedRunPlanner 3 = some 2 ∧
    (updateTrapezoids smallCacheConfig queuedRunPlanner 3).map
        (fun s => (s.lines 1).areParameterUpToDate) = some false ∧
    ((updateTrapezoids smallCacheConfig queuedRunPlanner 3).bind
        (fun s => updateTrapezoids smallCacheConfig s 3)).map
        (fun s => (s.lines 1).areParameterUpToDate) = some true := by
  have e1 : planningStart smallCacheConfig queuedRunPlanner 3 = some 2 := by decide!
  have e2 : (updateTrapezoids smallCacheConfig queuedRunPlanner 3).map
      (fun s => ((s.lines 1).areParameterUpToDate, (s.lines 1).isWarmUp)) = some (false, false) := by
    decide!
  have e3 : (updateTrapezoids smallCacheConfig queuedRunPlanner 3).bind
      (fun s => planningStart smallCacheConfig s 3) = some 3 := by
    decide!
  obtain ⟨s1, h1, hw1, _, _, _⟩ := updateTrapezoids_returns smallCacheConfig queuedRunPlanner 3
    (by decide) (by decide) (by decide)
  rw [h1] at e2 e3 ⊢
  simp only [Option.map_some', Option.some_bind, Option.some.injEq, Prod.mk.injEq] at e2 e3 ⊢
  have hw3 : s1.lines_write_pos = 3 := hw1
  obtain ⟨L2, h2, hl2⟩ := updateTrapezoids_collapsed smallCacheConfig s1
    (by rw [hw3]; decide) (by rw [hw3]; exact e3)
  rw [hw3] at h2 hl2
  rw [h2]
  refine ⟨e1, e2.1, ?_⟩
  simp only [Option.map_some', Option.some.injEq]
  rw [hl2 1, if_pos (by decide), junctionStage_apply smallCacheConfig s1 3 (by decide),
    if_neg (by decide), if_neg (by decide)]
  exact materialise_upToDate smallCacheConfig _ e2.2

/-- Idempotence on `slowAfterFastPlanner`: the window of `updateTrapezoids(1)` is the new line
alone and the second run returns the state of the first. -/
theorem updateTrapezoids_idempotent_on_single_line_window_witness :
    ∃ s1, updateTrapezoids smallCacheConfig slowAfterFastPlanner
        slowAfterFastPlanner.lines_write_pos = some s1 ∧
      updateTrapezoids smallCacheConfig s1 slowAfterFastPlanner.lines_write_pos = some s1 :=
  updateTrapezoids_idempotent_on_single_line_window smallCacheConfig slowAfterFastPlanner
    (by decide) (by decide) (by decide) (by decide!)

/-! ## HAL kernels (C35, C36, C40) -/

/-- C35: for every 16 bit unsigned `val` the byte-wise multiply/add sequence of
`HAL::U16SquaredToU32` returns `val * val`, which fits in 32 bits: no carry is lost. -/
theorem U16SquaredToU32_is_square (val : Nat) (h : val < 65536) :
    U16SquaredToU32 val = val * val ∧ U16SquaredToU32 val < 4294967296 := by
  have e := U16SquaredToU32_eq_sq val h
  refine ⟨e, ?_⟩
  rw [e]
  have : val * val ≤ 65535 * 65535 := Nat.mul_le_mul (by omega) (by omega)
  omega

/-- C35 at the largest 16 bit value: the kernel returns `65535 * 65535`. -/
theorem U16SquaredToU32_is_square_witness :
    U16SquaredToU32 65535 = 65535 * 65535 ∧ U16SquaredToU32 65535 < 4294967296 :=
  U16SquaredToU32_is_square 65535 (by decide)

/-- C40, evaluated on the code: `HAL::delayMicroseconds` does not return, whatever the
argument and however many calls are allowed: every call makes the same call again. -/
theorem delayMicroseconds_never_returns (fuel delayUs : Nat) :
    delayMicroseconds fuel delayUs = none := by
  induction fuel with
  | zero => rfl
  | succ n ih => unfold delayMicroseconds; exact ih

/-- The 24 bit effect of `add %A0,r0 ; adc %B0,r1 ; adc %A1,0`. -/
theorem Acc24.add3_val (x : Acc24) (r0 r1 : Nat) (hx : x.bytes) :
    (x.add3 r0 r1 0).bytes ∧ (x.add3 r0 r1 0).val = (x.val + r0 + 256 * r1) % 16777216 := by
  obtain ⟨hp, hq, hr⟩ := hx
  simp only [Acc24.add3, Acc24.val, Acc24.bytes, adc8]
  generalize x.a0 = p at *
  generalize x.b0 = q at *
  generalize x.a1 = r at *
  omega

/-- The 24 bit effect of `add %B0,r0 ; adc %A1,r1`. -/
theorem Acc24.add2_val (x : Acc24) (r0 r1 : Nat) (hx : x.bytes) :
    (x.add2 r0 r1).bytes ∧
    (x.add2 r0 r1).val = (x.val + 256 * r0 + 65536 * r1) % 16777216 := by
  obtain ⟨hp, hq, hr⟩ := hx
  simp only [Acc24.add2, Acc24.val, Acc24.bytes, adc8]
  generalize x.a0 = p at *
  generalize x.b0 = q at *
  generalize x.a1 = r at *
  omega

/-- The 24 bit effect of `add %A1,r0`. -/
theorem Acc24.add1_val (x : Acc24) (r0 : Nat) (hx : x.bytes) :
    (x.add1 r0).bytes ∧ (x.add1 r0).val = (x.val + 65536 * r0) % 16777216 := by
  obtain ⟨hp, hq, hr⟩ := hx
  simp only [Acc24.add1, Acc24.val, Acc24.bytes, adc8]
  generalize x.a0 = p at *
  generalize x.b0 = q at *
  generalize x.a1 = r at *
  omega

/-- The 24 bit effect of `lsr %A1 ; ror %B0 ; ror %A0`. -/
theorem Acc24.shr_val (x : Acc24) (hx : x.bytes) :
    x.shr.bytes ∧ x.shr.val = x.val / 2 := by
  obtain ⟨hp, hq, hr⟩ := hx
  simp only [Acc24.shr, Acc24.val, Acc24.bytes, lsr8, ror8]
  generalize x.a0 = p at *
  generalize x.b0 = q at *
  generalize x.a1 = r at *
  omega

/-- The arithmetic behind `HAL::ComputeV`: bits 10 to 25 of the product, from its nine byte
products. -/
theorem computeV_arith (q00 q01 q02 q10 q11 q12 q20 q21 q22 : Nat) :
    ((q00 / 256 + 256 * q02 + q01 + q10 + 256 * q11 + 256 * q20
        + 65536 * (q12 % 256) + 65536 * (q21 % 256)) % 16777216 / 2 / 2) % 65536
      = (q00 + 256 * q01 + 256 * q10 + 65536 * q02 + 65536 * q11 + 65536 * q20
          + 16777216 * q12 + 16777216 * q21 + 4294967296 * q22) % 4294967296 / 1024
        % 65536 := by
  omega

/-- The accumulator of `HAL::ComputeV` before the two shifts, from the nine byte products. -/
theorem computeV_acc (q00 q01 q02 q10 q11 q12 q20 q21 : Nat) (h02 : q02 < 65536)
    (h00 : q00 < 65536) :
    (((((((⟨q00 / 256, q02 % 256, q02 / 256⟩ : Acc24).add3 (q01 % 256) (q01 / 256) 0).add3
        (q10 % 256) (q10 / 256) 0).add2 (q11 % 256) (q11 / 256)).add2
        (q20 % 256) (q20 / 256)).add1 (q12 % 256)).add1 (q21 % 256)).bytes ∧
    (((((((⟨q00 / 256, q02 % 256, q02 / 256⟩ : Acc24).add3 (q01 % 256) (q01 / 256) 0).add3
        (q10 % 256) (q10 / 256) 0).add2 (q11 % 256) (q11 / 256)).add2
        (q20 % 256) (q20 / 256)).add1 (q12 % 256)).add1 (q21 % 256)).val
      = (q00 / 256 + 256 * q02 + q01 + q10 + 256 * q11 + 256 * q20
        + 65536 * (q12 % 256) + 65536 * (q21 % 256)) % 16777216 := by
  have h0 : (⟨q00 / 256, q02 % 256, q02 / 256⟩ : Acc24).bytes := by
    unfold Acc24.bytes; simp only []; omega
  have v0 : (⟨q00 / 256, q02 % 256, q02 / 256⟩ : Acc24).val = q00 / 256 + 256 * q02 := by
    unfold Acc24.val; simp only []; omega
  generalize (⟨q00 / 256, q02 % 256, q02 / 256⟩ : Acc24) = x0 at h0 v0 ⊢
  have s1 := x0.add3_val (q01 % 256) (q01 / 256) h0
  generalize x0.add3 (q01 % 256) (q01 / 256) 0 = x1 at s1 ⊢
  have s2 := x1.add3_val (q10 % 256) (q10 / 256) s1.1
  generalize x1.add3 (q10 % 256) (q10 / 256) 0 = x2 at s2 ⊢
  have s3 := x2.add2_val (q11 % 256) (q11 / 256) s2.1
  generalize x2.add2 (q11 % 256) (q11 / 256) = x3 at s3 ⊢
  have s4 := x3.add2_val (q20 % 256) (q20 / 256) s3.1
  generalize x3.add2 (q20 % 256) (q20 / 256) = x4 at s4 ⊢
  have s5 := x4.add1_val (q12 % 256) s4.1
  generalize x4.add1 (q12 % 256) = x5 at s5 ⊢
  have s6 := x5.add1_val (q21 % 256) s5.1
  generalize x5.add1 (q21 % 256) = x6 at s6 ⊢
  refine ⟨s6.1, ?_⟩
  have e1 : q01 % 256 + 256 * (q01 / 256) = q01 := by omega
  have e2 : q10 % 256 + 256 * (q10 / 256) = q10 := by omega
  have e3 : 256 * (q11 % 256) + 65536 * (q11 / 256) = 256 * q11 := by omega
  have e4 : 256 * (q20 % 256) + 65536 * (q20 / 256) = 256 * q20 := by omega
  rw [s6.2, s5.2, s4.2, s3.2, s2.2, s1.2, v0]
  simp only [Nat.mod_add_mod, Nat.add_assoc, e1, e2, e3, e4]

/-- C36: for every `timer` below `2^32` and every `accel` below `2^24` the AVR byte-wise
implementation of `HAL::ComputeV` returns the same 16 bit value as the portable expression
`((timer >> 8) * accel) >> 10` computed modulo `2^32` and truncated to 16 bits. -/
theorem ComputeV_eq_portable (timer accel : Nat) (ht : timer < 4294967296)
    (ha : accel < 16777216) : ComputeV timer accel = computeVPortable timer accel := by
  unfold ComputeV computeVPortable wrapU16 wrapU32
  simp only []
  have hd2 : accel / 16777216 % 256 = 0 := by omega
  rw [hd2]
  have hb1 : timer / 256 % 256 < 256 := Nat.mod_lt _ (by norm_num)
  have ha2 : accel % 256 < 256 := Nat.mod_lt _ (by norm_num)
  have hc2 : accel / 65536 % 256 < 256 := Nat.mod_lt _ (by norm_num)
  have et : timer / 256 = timer / 256 % 256 + 256 * (timer / 65536 % 256)
      + 65536 * (timer / 16777216 % 256) := by omega
  have ea : accel = accel % 256 + 256 * (accel / 256 % 256)
      + 65536 * (accel / 65536 % 256) := by omega
  have e : timer / 256 * accel
      = (timer / 256 % 256) * (accel % 256) + 256 * ((timer / 256 % 256) * (accel / 256 % 256))
        + 256 * ((timer / 65536 % 256) * (accel % 256))
        + 65536 * ((timer / 256 % 256) * (accel / 65536 % 256))
        + 65536 * ((timer / 65536 % 256) * (accel / 256 % 256))
        + 65536 * ((timer / 16777216 % 256) * (accel % 256))
        + 16777216 * ((timer / 65536 % 256) * (accel / 65536 % 256))
        + 16777216 * ((timer / 16777216 % 256) * (accel / 256 % 256))
        + 4294967296 * ((timer / 16777216 % 256) * (accel / 65536 % 256)) := by
    conv_lhs => rw [et, ea]
    ring
  rw [e]
  have p00 : (timer / 256 % 256) * (accel % 256) < 65536 := by
    have : (timer / 256 % 256) * (accel % 256) ≤ 255 * 255 :=
      Nat.mul_le_mul (by omega) (by omega)
    omega
  have p02 : (timer / 256 % 256) * (accel / 65536 % 256) < 65536 := by
    have : (timer / 256 % 256) * (accel / 65536 % 256) ≤ 255 * 255 :=
      Nat.mul_le_mul (by omega) (by omega)
    omega
  obtain ⟨hb, hv⟩ := computeV_acc _ ((timer / 256 % 256) * (accel / 256 % 256)) _
    ((timer / 65536 % 256) * (accel % 256)) ((timer / 65536 % 256) * (accel / 256 % 256))
    ((timer / 65536 % 256) * (accel / 65536 % 256))
    ((timer / 16777216 % 256) * (accel % 256))
    ((timer / 16777216 % 256) * (accel / 256 % 256)) p02 p00
  generalize (((((((⟨(timer / 256 % 256) * (accel % 256) / 256,
      (timer / 256 % 256) * (accel / 65536 % 256) % 256,
      (timer / 256 % 256) * (accel / 65536 % 256) / 256⟩ : Acc24).add3 _ _ 0).add3
        _ _ 0).add2 _ _).add2 _ _).add1 _).add1 _) = x6 at hb hv ⊢
  have s7 := x6.shr_val hb
  have s8 := x6.shr.shr_val s7.1
  have hx : x6.shr.shr.a0 + 256 * x6.shr.shr.b0 = x6.shr.shr.val % 65536 := by
    have := s8.1
    unfold Acc24.bytes at this
    unfold Acc24.val
    omega
  rw [hx, s8.2, s7.2, hv]
  exact computeV_arith _ _ _ _ _ _ _ _ _

/-- C36 at `timer = 4000000000`, `accel = 16000000`: both computations give the same value. -/
theorem ComputeV_eq_portable_witness :
    ComputeV 4000000000 16000000 = computeVPortable 4000000000 16000000 :=
  ComputeV_eq_portable 4000000000 16000000 (by decide) (by decide)

/-! ## The planner leaves the geometry of the segments alone -/

/-- The materialiser changes nothing of the static part of a record. -/
theorem staticPart_updateStepsParameter (cfg : Config) (l : PrintLine) :
    (updateStepsParameter cfg l).staticPart = l.staticPart := by
  unfold updateStepsParameter
  simp only [PrintLine.setParameterUpToDate, PrintLine.staticPart]
  split_ifs <;> rfl

/-- A write that preserves the static part of a record preserves every static part. -/
theorem upd_staticPart (ls : Lines) (i : Nat) (f : PrintLine → PrintLine) (j : Nat)
    (hf : ∀ l, (f l).staticPart = l.staticPart) :
    (upd ls i f j).staticPart = (ls j).staticPart :=
  upd_field PrintLine.staticPart ls i f j hf

/-- One write that preserves the static part, in front of a chain of writes. -/
theorem upd_static_step (ls : Lines) (i : Nat) (f : PrintLine → PrintLine) (j : Nat)
    (a : PrintLine) (hf : ∀ l, (f l).staticPart = l.staticPart) (h : (ls j).staticPart = a) :
    (upd ls i f j).staticPart = a := by
  rw [upd_staticPart ls i f j hf, h]

/-- The junction computation changes no static part. -/
theorem computeMaxJunctionSpeed_static (cfg : Config) (ls : Lines) (pv cu j : Nat) :
    (computeMaxJunctionSpeed cfg ls pv cu j).staticPart = (ls j).staticPart := by
  generalize hR : computeMaxJunctionSpeed cfg ls pv cu = R
  unfold computeMaxJunctionSpeed at hR
  by_cases h1 : (ls pv).isWarmUp = true
  · rw [if_pos h1] at hR
    subst hR
    exact upd_staticPart _ _ _ _ (fun _ => rfl)
  · rw [if_neg h1] at hR
    by_cases h2 : (cfg.useAdvance && cfg.advanceActivated
        && (((ls pv).dir &&& 128) != ((ls cu).dir &&& 128))
        && (((ls pv).dir &&& 48) != 0 || ((ls cu).dir &&& 48) != 0)) = true
    · rw [if_pos h2] at hR
      simp only [] at hR
      subst hR
      iterate 7 (apply upd_static_step; exact fun _ => rfl)
      rfl
    · rw [if_neg h2] at hR
      by_cases h3 : (decide (cfg.driveSystem = 3) && decide ((ls pv).moveID = (ls cu).moveID))
          = true
      · rw [if_pos h3] at hR
        by_cases h4 : (ls pv).fullSpeed > (ls cu).fullSpeed
        · rw [if_pos h4] at hR
          subst hR
          exact upd_staticPart _ _ _ _ (fun _ => rfl)
        · rw [if_neg h4] at hR
          subst hR
          exact upd_staticPart _ _ _ _ (fun _ => rfl)
      · rw [if_neg h3] at hR
        subst hR
        exact upd_staticPart _ _ _ _ (fun _ => rfl)

/-- One pass of the backward loop changes no static part. -/
theorem backwardStep_static (cfg : Config) (ls : Lines) (p : Nat) (lj : ℚ) (j : Nat) :
    ((backwardStep cfg ls p lj).1 j).staticPart = (ls j).staticPart := by
  generalize hq : previousPlannerIndex cfg p = q
  unfold backwardStep
  rw [hq]
  simp only []
  generalize hL : (if (decide (cfg.driveSystem = 3) && decide ((ls q).moveID = (ls p).moveID)
        && decide (lj = (ls q).maxJunctionSpeed)) = true then
      upd (upd (upd (upd ls q fun l => { l with endSpeed := lj }) p fun l =>
        { l with startSpeed := lj }) q PrintLine.invalidateParameter) p
        PrintLine.invalidateParameter
    else ls) = L
  have fL : (L j).staticPart = (ls j).staticPart := by
    rw [← hL]
    split_ifs
    · iterate 4 (apply upd_static_step; exact fun _ => rfl)
      rfl
    · rfl
  clear hL
  rw [← fL]
  split_ifs <;>
    repeat (first | rfl | (apply upd_static_step; exact fun _ => rfl))

/-- The backward loop changes no static part. -/
theorem backwardLoop_static (cfg : Config) (last : Nat) (j : Nat) :
    ∀ (fuel : Nat) (ls : Lines) (i : Nat) (lj : ℚ) (r : Lines),
      backwardLoop cfg last fuel ls i lj = some r → (r j).staticPart = (ls j).staticPart := by
  intro fuel
  induction fuel with
  | zero =>
    intro ls i lj r h
    unfold backwardLoop at h
    by_cases hc : i = last
    · rw [if_pos hc] at h; cases h; rfl
    · rw [if_neg hc] at h; cases h
  | succ n ih =>
    intro ls i lj r h
    unfold backwardLoop at h
    by_cases hc : i = last
    · rw [if_pos hc] at h; cases h; rfl
    · rw [if_neg hc] at h
      simp only [] at h
      have hf := backwardStep_static cfg ls i lj j
      rcases hs : backwardStep cfg ls i lj with ⟨ls1, _ | lj1⟩
      · rw [hs] at h hf
        simp only [] at h hf
        cases h
        exact hf
      · rw [hs] at h hf
        simp only [] at h hf
        exact (ih ls1 _ lj1 r h).trans hf

/-- One pass of the forward loop changes no static part. -/
theorem forwardStep_static (cfg : Config) (ls : Lines) (p : Nat) (leftspeed : ℚ) (j : Nat) :
    ((forwardStep cfg ls p leftspeed).1 j).staticPart = (ls j).staticPart := by
  unfold forwardStep
  simp only []
  split_ifs <;>
    repeat (first | rfl | (apply upd_static_step; exact fun _ => rfl))

/-- The forward loop changes no static part. -/
theorem forwardLoop_static (cfg : Config) (last : Nat) (j : Nat) :
    ∀ (fuel : Nat) (ls : Lines) (p : Nat) (leftspeed : ℚ) (r : Lines × ℚ),
      forwardLoop cfg last fuel ls p leftspeed = some r →
      (r.1 j).staticPart = (ls j).staticPart := by
  intro fuel
  induction fuel with
  | zero =>
    intro ls p leftspeed r h
    unfold forwardLoop at h
    by_cases hp : p = last
    · rw [if_pos hp] at h; cases h; rfl
    · rw [if_neg hp] at h; cases h
  | succ n ih =>
    intro ls p leftspeed r h
    unfold forwardLoop at h
    by_cases hp : p = last
    · rw [if_pos hp] at h; cases h; rfl
    · rw [if_neg hp] at h
      simp only [] at h
      exact (ih _ _ _ _ h).trans (forwardStep_static cfg ls p leftspeed j)

/-- The materialise walk changes no static part. -/
theorem materialiseLoop_static (cfg : Config) (wp : Nat) (j : Nat) :
    ∀ (fuel : Nat) (ls : Lines) (first : Nat) (r : Lines),
      materialiseLoop cfg wp fuel ls first = some r →
      (r j).staticPart = (ls j).staticPart := by
  intro fuel
  induction fuel with
  | zero => intro ls first r h; simp [materialiseLoop] at h
  | succ n ih =>
    intro ls first r h
    unfold materialiseLoop at h
    simp only [] at h
    have key : ((upd (upd (upd ls first (updateStepsParameter cfg)) first PrintLine.unblock)
        (nextPlannerIndex cfg first) PrintLine.block) j).staticPart = (ls j).staticPart := by
      apply upd_static_step; exact fun _ => rfl
      apply upd_static_step; exact fun _ => rfl
      apply upd_static_step; exact staticPart_updateStepsParameter cfg
      rfl
    by_cases hc : nextPlannerIndex cfg first ≠ wp
    · rw [if_pos hc] at h
      exact (ih _ _ _ h).trans key
    · rw [if_neg hc] at h
      cases h
      exact key

/-- The path planner changes no static part: after `updateTrapezoids(p)` every line has the
geometry, the flags other than `blocked`, the full speed and the acceleration it had before. -/
theorem updateTrapezoids_static (cfg : Config) (s s1 : Planner) (p : Nat)
    (h : updateTrapezoids cfg s p = some s1) (j : Nat) :
    (s1.lines j).staticPart = (s.lines j).staticPart := by
  unfold updateTrapezoids at h
  rcases hf : planningStart cfg s p with _ | first
  · rw [hf] at h; cases h
  · rw [hf] at h
    simp only [] at h
    generalize hL1 : (if s.lines_count ≠ 0 ∧
          (!(upd s.lines first PrintLine.block (previdxOf cfg p)).isWarmUp) = true then
        computeMaxJunctionSpeed cfg (upd s.lines first PrintLine.block) (previdxOf cfg p) p
      else upd (upd s.lines first PrintLine.block) p PrintLine.setStartSpeedFixed) = L1 at h
    have f1 : (L1 j).staticPart = (s.lines j).staticPart := by
      rw [← hL1]
      split_ifs
      · rw [computeMaxJunctionSpeed_static]
        exact upd_staticPart _ _ _ _ (fun _ => rfl)
      · apply upd_static_step; exact fun _ => rfl
        apply upd_static_step; exact fun _ => rfl
        rfl
    rcases hb : backwardPlanner cfg L1 p first with _ | L2
    · rw [hb] at h; cases h
    · rw [hb] at h
      simp only [] at h
      have f2 : (L2 j).staticPart = (L1 j).staticPart := by
        unfold backwardPlanner at hb
        by_cases hc : p = first
        · rw [if_pos hc] at hb; cases hb; rfl
        · rw [if_neg hc] at hb
          exact backwardLoop_static cfg first j _ _ _ _ _ hb
      rcases hw : forwardPlanner cfg L2 s.lines_write_pos first with _ | L3
      · rw [hw] at h; cases h
      · rw [hw] at h
        simp only [] at h
        have f3 : (L3 j).staticPart = (L2 j).staticPart := by
          unfold forwardPlanner at hw
          by_cases hc : first = s.lines_write_pos
          · rw [if_pos hc] at hw; cases hw; rfl
          · rw [if_neg hc] at hw
            rcases hl : forwardLoop cfg s.lines_write_pos cfg.moveCacheSize L2 first
                (L2 first).startSpeed with _ | ⟨L, left⟩
            · rw [hl] at hw; cases hw
            · rw [hl] at hw
              simp only [] at hw
              cases hw
              apply upd_static_step; exact fun _ => rfl
              exact forwardLoop_static cfg _ j _ _ _ _ _ hl
        rcases hm : materialiseLoop cfg s.lines_write_pos cfg.moveCacheSize L3 first with _ | L4
        · rw [hm] at h; cases h
        · rw [hm] at h
          simp only [] at h
          cases h
          simp only []
          apply upd_static_step; exact fun _ => rfl
          apply upd_static_step; exact staticPart_updateStepsParameter cfg
          exact (materialiseLoop_static cfg _ j _ _ _ _ hm).trans (f3.trans (f2.trans f1))

/-! ## The fields of the new line after `calculate_move` (C31, C32, C33, C38) -/

/-- The body of `calculate_move` before the planner, in three stages. -/
theorem calculateMoveLine_stages (cfg : Config) (lines_count : Nat) (l : PrintLine)
    (axis_diff : Nat → ℚ) :
    (calculateMoveLine cfg lines_count l axis_diff).1
      = advanceStep cfg (nominalStep cfg (moveProfile cfg lines_count l axis_diff))
          (moveProfile cfg lines_count l axis_diff).fullInterval
          (moveProfile cfg lines_count l axis_diff).accelerationPrim := rfl

/-- The line that `calculate_move` leaves at the write position: the halfstep block applied to
a record that agrees with the profiled segment in everything the planner leaves alone. -/
theorem calculate_move_line (cfg : Config) (s s1 : Planner) (axis_diff : Nat → ℚ)
    (pathOptimize : Bool) (h : calculate_move cfg s axis_diff pathOptimize = some s1) :
    ∃ l : PrintLine,
      l.staticPart
        = (calculateMoveLine cfg s.lines_count (s.lines s.lines_write_pos)
            axis_diff).1.staticPart ∧
      s1.lines s.lines_write_pos
        = halfstepStep cfg
            (calculateMoveLine cfg s.lines_count (s.lines s.lines_write_pos) axis_diff).2 l := by
  unfold calculate_move at h
  simp only [] at h
  rcases hu : updateTrapezoids cfg
      { s with lines := (setLine s.lines s.lines_write_pos
        (calculateMoveLine cfg s.lines_count (s.lines s.lines_write_pos) axis_diff).1) }
      s.lines_write_pos with _ | s2
  · rw [hu] at h; cases h
  · rw [hu] at h
    simp only [] at h
    cases h
    refine ⟨s2.lines s.lines_write_pos, ?_, ?_⟩
    · have := updateTrapezoids_static cfg _ s2 _ hu s.lines_write_pos
      rw [this]
      simp only [setLine, if_true]
    · simp only [setLine, if_true]
      rfl

/-- The advance block changes neither the flags nor the geometry nor the speeds of the
segment. -/
theorem advanceStep_fields (cfg : Config) (l4 : PrintLine) (fi ap : Nat) :
    (advanceStep cfg l4 fi ap).flags = l4.flags ∧
    (advanceStep cfg l4 fi ap).dir = l4.dir ∧
    (advanceStep cfg l4 fi ap).fullSpeed = l4.fullSpeed ∧
    (advanceStep cfg l4 fi ap).speedZ = l4.speedZ ∧
    (advanceStep cfg l4 fi ap).speedE = l4.speedE ∧
    (advanceStep cfg l4 fi ap).acceleration = l4.acceleration ∧
    (advanceStep cfg l4 fi ap).accelerationPrim = l4.accelerationPrim ∧
    (advanceStep cfg l4 fi ap).distance = l4.distance ∧
    (advanceStep cfg l4 fi ap).stepsRemaining = l4.stepsRemaining ∧
    (advanceStep cfg l4 fi ap).delta = l4.delta ∧
    (advanceStep cfg l4 fi ap).primaryAxis = l4.primaryAxis ∧
    (advanceStep cfg l4 fi ap).fullInterval = l4.fullInterval ∧
    (advanceStep cfg l4 fi ap).error = l4.error := by
  unfold advanceStep
  simp only []
  split_ifs <;> exact ⟨rfl, rfl, rfl, rfl, rfl, rfl, rfl, rfl, rfl, rfl, rfl, rfl, rfl⟩

/-- The nominal test changes nothing but the flag `nominal`, which it sets when the test
holds. -/
theorem nominalStep_fields (cfg : Config) (l3 : PrintLine) :
    ((nominalStep cfg l3).flags.nominal = true ↔
      (cfg.fsqrt (l3.startSpeed * l3.startSpeed + l3.acceleration) ≥ l3.fullSpeed
        ∨ l3.flags.nominal = true)) ∧
    (nominalStep cfg l3).dir = l3.dir ∧
    (nominalStep cfg l3).fullSpeed = l3.fullSpeed ∧
    (nominalStep cfg l3).speedZ = l3.speedZ ∧
    (nominalStep cfg l3).speedE = l3.speedE ∧
    (nominalStep cfg l3).acceleration = l3.acceleration ∧
    (nominalStep cfg l3).accelerationPrim = l3.accelerationPrim ∧
    (nominalStep cfg l3).distance = l3.distance ∧
    (nominalStep cfg l3).stepsRemaining = l3.stepsRemaining ∧
    (nominalStep cfg l3).delta = l3.delta ∧
    (nominalStep cfg l3).primaryAxis = l3.primaryAxis ∧
    (nominalStep cfg l3).fullInterval = l3.fullInterval ∧
    (nominalStep cfg l3).error = l3.error := by
  unfold nominalStep
  by_cases hc : cfg.fsqrt (l3.startSpeed * l3.startSpeed + l3.acceleration) ≥ l3.fullSpeed
  · rw [if_pos hc]
    exact ⟨⟨fun _ => Or.inl hc, fun _ => rfl⟩, rfl, rfl, rfl, rfl, rfl, rfl, rfl, rfl, rfl,
      rfl, rfl, rfl⟩
  · rw [if_neg hc]
    exact ⟨⟨fun h => Or.inr h, fun h => h.resolve_left hc⟩, rfl, rfl, rfl, rfl, rfl, rfl, rfl,
      rfl, rfl, rfl, rfl, rfl⟩

/-- The halfstep block changes nothing but `halfstep` and `error`. -/
theorem halfstepStep_fields (cfg : Config) (critical : Bool) (l : PrintLine) :
    (halfstepStep cfg critical l).flags = l.flags ∧
    (halfstepStep cfg critical l).dir = l.dir ∧
    (halfstepStep cfg critical l).fullSpeed = l.fullSpeed ∧
    (halfstepStep cfg critical l).speedZ = l.speedZ ∧
    (halfstepStep cfg critical l).speedE = l.speedE ∧
    (halfstepStep cfg critical l).acceleration = l.acceleration ∧
    (halfstepStep cfg critical l).accelerationPrim = l.accelerationPrim ∧
    (halfstepStep cfg critical l).distance = l.distance ∧
    (halfstepStep cfg critical l).stepsRemaining = l.stepsRemaining ∧
    (halfstepStep cfg critical l).delta = l.delta ∧
    (halfstepStep cfg critical l).primaryAxis = l.primaryAxis ∧
    (halfstepStep cfg critical l).fullInterval = l.fullInterval := by
  unfold halfstepStep
  simp only []
  split_ifs <;> exact ⟨rfl, rfl, rfl, rfl, rfl, rfl, rfl, rfl, rfl, rfl, rfl, rfl⟩

/-- The safe speed reads the direction byte, the full speed and the Z and E speeds only. -/
theorem safeSpeed_congr (cfg : Config) (a b : PrintLine) (hd : a.dir = b.dir)
    (hf : a.fullSpeed = b.fullSpeed) (hz : a.speedZ = b.speedZ) (he : a.speedE = b.speedE) :
    safeSpeed cfg a = safeSpeed cfg b := by
  unfold safeSpeed PrintLine.isEMove PrintLine.isZMove
  rw [hd, hf, hz, he]

/-- The new line after `calculate_move`, field by field: `calculate_move` returns, and the
line at the old write position carries the geometry of the segment on entry, the values
computed by the profile stage, and the flag `nominal` of the nominal test. -/
theorem calculate_move_fields (cfg : Config) (s : Planner) (axis_diff : Nat → ℚ)
    (pathOptimize : Bool) (hpos : s.lines_pos < cfg.moveCacheSize)
    (hwp : s.lines_write_pos < cfg.moveCacheSize) :
    ∃ s1 l0, calculate_move cfg s axis_diff pathOptimize = some s1 ∧
      s1.lines s.lines_write_pos
        = halfstepStep cfg (moveTime cfg s.lines_count (s.lines s.lines_write_pos).distance).2
            l0 ∧
      ((s1.lines s.lines_write_pos).flags.nominal = true ↔
        (cfg.fsqrt (safeSpeed cfg (s1.lines s.lines_write_pos)
              * safeSpeed cfg (s1.lines s.lines_write_pos)
            + (s1.lines s.lines_write_pos).acceleration)
            ≥ (s1.lines s.lines_write_pos).fullSpeed
          ∨ (s.lines s.lines_write_pos).flags.nominal = true)) ∧
      l0.fullInterval
        = (moveProfile cfg s.lines_count (s.lines s.lines_write_pos) axis_diff).fullInterval ∧
      l0.error = (moveProfile cfg s.lines_count (s.lines s.lines_write_pos) axis_diff).error ∧
      l0.delta = (s.lines s.lines_write_pos).delta ∧
      l0.primaryAxis = (s.lines s.lines_write_pos).primaryAxis ∧
      (s1.lines s.lines_write_pos).acceleration
        = (moveProfile cfg s.lines_count (s.lines s.lines_write_pos) axis_diff).acceleration ∧
      (s1.lines s.lines_write_pos).accelerationPrim
        = (calculateMoveLine cfg s.lines_count (s.lines s.lines_write_pos)
            axis_diff).1.accelerationPrim ∧
      (s1.lines s.lines_write_pos).distance = (s.lines s.lines_write_pos).distance ∧
      (s1.lines s.lines_write_pos).stepsRemaining
        = (s.lines s.lines_write_pos).stepsRemaining ∧
      (s1.lines s.lines_write_pos).dir = (s.lines s.lines_write_pos).dir := by
  obtain ⟨s1, h1, _⟩ := calculate_move_returns cfg s axis_diff pathOptimize hpos hwp
  obtain ⟨l0, hst, hL⟩ := calculate_move_line cfg s s1 axis_diff pathOptimize h1
  have hcrit : (calculateMoveLine cfg s.lines_count (s.lines s.lines_write_pos) axis_diff).2
      = (moveTime cfg s.lines_count (s.lines s.lines_write_pos).distance).2 := rfl
  rw [hcrit] at hL
  rw [calculateMoveLine_stages] at hst
  generalize hP : moveProfile cfg s.lines_count (s.lines s.lines_write_pos) axis_diff = P
    at hst ⊢
  have hA := advanceStep_fields cfg (nominalStep cfg P) P.fullInterval P.accelerationPrim
  have hNm := nominalStep_fields cfg P
  have hH := halfstepStep_fields cfg
    (moveTime cfg s.lines_count (s.lines s.lines_write_pos).distance).2 l0
  generalize hR : advanceStep cfg (nominalStep cfg P) P.fullInterval P.accelerationPrim = R
    at hst hA
  have g : ∀ {α : Type} (f : PrintLine → α), (∀ x, f x = f x.staticPart) → f l0 = f R :=
    fun f hf => by rw [hf l0, hf R, hst]
  have eflags : l0.flags.nominal = R.flags.nominal := g (fun x => x.flags.nominal) (fun _ => rfl)
  have edir : l0.dir = R.dir := g PrintLine.dir (fun _ => rfl)
  have efull : l0.fullSpeed = R.fullSpeed := g PrintLine.fullSpeed (fun _ => rfl)
  have ez : l0.speedZ = R.speedZ := g PrintLine.speedZ (fun _ => rfl)
  have ee : l0.speedE = R.speedE := g PrintLine.speedE (fun _ => rfl)
  have eacc : l0.acceleration = R.acceleration := g PrintLine.acceleration (fun _ => rfl)
  have eap : l0.accelerationPrim = R.accelerationPrim :=
    g PrintLine.accelerationPrim (fun _ => rfl)
  have edist : l0.distance = R.distance := g PrintLine.distance (fun _ => rfl)
  have esteps : l0.stepsRemaining = R.stepsRemaining := g PrintLine.stepsRemaining (fun _ => rfl)
  have edelta : l0.delta = R.delta := g PrintLine.delta (fun _ => rfl)
  have eprim : l0.primaryAxis = R.primaryAxis := g PrintLine.primaryAxis (fun _ => rfl)
  have efi : l0.fullInterval = R.fullInterval := g PrintLine.fullInterval (fun _ => rfl)
  have eerr : l0.error = R.error := g PrintLine.error (fun _ => rfl)
  obtain ⟨a1, a2, a3, a4, a5, a6, a7, a8, a9, a10, a11, a12, a13⟩ := hA
  obtain ⟨n1, n2, n3, n4, n5, n6, n7, n8, n9, n10, n11, n12, n13⟩ := hNm
  obtain ⟨c1, c2, c3, c4, c5, c6, c7, c8, c9, c10, c11, c12⟩ := hH
  have hsafe : safeSpeed cfg (s1.lines s.lines_write_pos) = P.startSpeed := by
    rw [hL, ← hP]
    refine (safeSpeed_congr cfg _ _ ?_ ?_ ?_ ?_).trans
      (show safeSpeed cfg _ = (moveProfile cfg s.lines_count (s.lines s.lines_write_pos)
        axis_diff).startSpeed from rfl)
    · rw [c2, edir, a2, n2, ← hP]; rfl
    · rw [c3, efull, a3, n3, ← hP]; rfl
    · rw [c4, ez, a4, n4, ← hP]; rfl
    · rw [c5, ee, a5, n5, ← hP]; rfl
  refine ⟨s1, l0, h1, hL, ?_, ?_, ?_, ?_, ?_, ?_, ?_, ?_, ?_, ?_⟩
  · rw [hsafe, hL, c1, c6, c3, eflags, eacc, efull, a1, a6, a3, n6, n3, n1]
    have : P.flags.nominal = (s.lines s.lines_write_pos).flags.nominal := by rw [← hP]; rfl
    rw [this]
  · rw [efi, a12, n12]
  · rw [eerr, a13, n13]
  · rw [edelta, a10, n10, ← hP]; rfl
  · rw [eprim, a11, n11, ← hP]; rfl
  · rw [hL, c6, eacc, a6, n6]
  · rw [hL, c7, eap, calculateMoveLine_stages, hP, hR]
  · rw [hL, c8, edist, a8, n8, ← hP]; rfl
  · rw [hL, c9, esteps, a9, n9, ← hP]; rfl
  · rw [hL, c2, edir, a2, n2, ← hP]; rfl

/-- The nominal test in squared form: where the square root is exact at the argument of the
test and neither it nor `fullSpeed` is negative, the test
`sqrt(startSpeed*startSpeed + acceleration) >= fullSpeed` of a line is the test
`startSpeed^2 + acceleration >= fullSpeed^2`. -/
theorem nominal_test_squared_form (cfg : Config) (l : PrintLine) (hf : 0 ≤ l.fullSpeed)
    (hr : 0 ≤ cfg.fsqrt (safeSpeed cfg l * safeSpeed cfg l + l.acceleration))
    (hsq : cfg.fsqrt (safeSpeed cfg l * safeSpeed cfg l + l.acceleration)
        * cfg.fsqrt (safeSpeed cfg l * safeSpeed cfg l + l.acceleration)
      = safeSpeed cfg l * safeSpeed cfg l + l.acceleration) :
    cfg.fsqrt (safeSpeed cfg l * safeSpeed cfg l + l.acceleration) ≥ l.fullSpeed ↔
      safeSpeed cfg l * safeSpeed cfg l + l.acceleration ≥ l.fullSpeed * l.fullSpeed := by
  generalize cfg.fsqrt (safeSpeed cfg l * safeSpeed cfg l + l.acceleration) = r at hr hsq ⊢
  rw [← hsq]
  exact (mul_self_le_mul_self_iff hf hr)

/-- C33: on a build that is not a delta, `calculate_move` returns with `halfstep` 0 or 1 in the
new line; `halfstep == 0` iff `fullInterval < MAX_HALFSTEP_INTERVAL` or the move is critical;
with `halfstep == 0` every `error[i]` is `delta[primaryAxis] >> 1`, with `halfstep == 1` every
`error[i]` is `delta[primaryAxis]`. -/
theorem calculate_move_halfstep (cfg : Config) (s : Planner) (axis_diff : Nat → ℚ)
    (pathOptimize : Bool) (hdrive : cfg.driveSystem ≠ 3)
    (hpos : s.lines_pos < cfg.moveCacheSize) (hwp : s.lines_write_pos < cfg.moveCacheSize) :
    ∃ s1, calculate_move cfg s axis_diff pathOptimize = some s1 ∧
      ((s1.lines s.lines_write_pos).halfstep = 0 ∨ (s1.lines s.lines_write_pos).halfstep = 1) ∧
      ((s1.lines s.lines_write_pos).halfstep = 0 ↔
        ((s1.lines s.lines_write_pos).fullInterval < cfg.maxHalfstepInterval ∨
          (moveTime cfg s.lines_count (s.lines s.lines_write_pos).distance).2 = true)) ∧
      ((s1.lines s.lines_write_pos).halfstep = 0 →
        (s1.lines s.lines_write_pos).error
          = ⟨(s1.lines s.lines_write_pos).delta.get (s1.lines s.lines_write_pos).primaryAxis / 2,
             (s1.lines s.lines_write_pos).delta.get (s1.lines s.lines_write_pos).primaryAxis / 2,
             (s1.lines s.lines_write_pos).delta.get (s1.lines s.lines_write_pos).primaryAxis / 2,
             (s1.lines s.lines_write_pos).delta.get
              (s1.lines s.lines_write_pos).primaryAxis / 2⟩) ∧
      ((s1.lines s.lines_write_pos).halfstep = 1 →
        (s1.lines s.lines_write_pos).error
          = ⟨(s1.lines s.lines_write_pos).delta.get (s1.lines s.lines_write_pos).primaryAxis,
             (s1.lines s.lines_write_pos).delta.get (s1.lines s.lines_write_pos).primaryAxis,
             (s1.lines s.lines_write_pos).delta.get (s1.lines s.lines_write_pos).primaryAxis,
             (s1.lines s.lines_write_pos).delta.get
              (s1.lines s.lines_write_pos).primaryAxis⟩) := by
  obtain ⟨s1, l0, h1, hL, _, _, herr, hdelta, hprim, _⟩ :=
    calculate_move_fields cfg s axis_diff pathOptimize hpos hwp
  have hPerr : (moveProfile cfg s.lines_count (s.lines s.lines_write_pos) axis_diff).error
      = ⟨(s.lines s.lines_write_pos).delta.get (s.lines s.lines_write_pos).primaryAxis / 2,
         (s.lines s.lines_write_pos).delta.get (s.lines s.lines_write_pos).primaryAxis / 2,
         (s.lines s.lines_write_pos).delta.get (s.lines s.lines_write_pos).primaryAxis / 2,
         (s.lines s.lines_write_pos).delta.get (s.lines s.lines_write_pos).primaryAxis / 2⟩ := by
    show (if cfg.driveSystem ≠ 3 then _ else _) = _
    rw [if_pos hdrive]
  rw [hPerr, ← hdelta, ← hprim] at herr
  refine ⟨s1, h1, ?_⟩
  rw [hL]
  unfold halfstepStep
  by_cases hc : l0.fullInterval < cfg.maxHalfstepInterval ∨
      (moveTime cfg s.lines_count (s.lines s.lines_write_pos).distance).2 = true
  · rw [if_pos hc]
    refine ⟨Or.inl rfl, ⟨fun _ => hc, fun _ => rfl⟩, fun _ => herr, fun h => ?_⟩
    simp at h
  · rw [if_neg hc, if_neg hdrive]
    refine ⟨Or.inr rfl, ⟨fun h => ?_, fun h => absurd h hc⟩, fun h => ?_, fun _ => rfl⟩
    · simp at h
    · simp at h

/-- C33 on the travel move `diagonalMove` queued into an idle planner. -/
theorem calculate_move_halfstep_witness :
    ∃ s1, calculate_move sampleConfig diagonalQueued diagonalDiff true = some s1 ∧
      ((s1.lines diagonalQueued.lines_write_pos).halfstep = 0 ↔
        ((s1.lines diagonalQueued.lines_write_pos).fullInterval
            < sampleConfig.maxHalfstepInterval ∨
          (moveTime sampleConfig diagonalQueued.lines_count
            (diagonalQueued.lines diagonalQueued.lines_write_pos).distance).2 = true)) :=
  (calculate_move_halfstep sampleConfig diagonalQueued diagonalDiff true (by decide)
    (by decide) (by decide)).imp (fun _ h => ⟨h.1, h.2.2.1⟩)

/-- An integer-valued float converts to that integer. -/
theorem truncToLong_intCast (z : Int) : truncToLong (z : ℚ) = z := by
  unfold truncToLong
  split_ifs with h
  · exact Int.floor_intCast z
  · have : (-(z : ℚ)) = ((-z : Int) : ℚ) := by push_cast; rfl
    rw [this, Int.floor_intCast]
    omega

/-- A float that is not negative converts to an `unsigned long` that is not above it. -/
theorem truncToU32_le_self (q : ℚ) (h : 0 ≤ q) : (truncToU32 q : ℚ) ≤ q := by
  unfold truncToU32 wrapU32 truncToLong
  rw [if_pos h]
  have h0 : 0 ≤ ⌊q⌋ := Int.floor_nonneg.mpr h
  have h1 : ((⌊q⌋.toNat % 4294967296 : Nat) : ℚ) ≤ ((⌊q⌋.toNat : Nat) : ℚ) := by
    exact_mod_cast Nat.mod_le _ _
  have h2 : ((⌊q⌋.toNat : Nat) : ℚ) = ((⌊q⌋ : Int) : ℚ) := by
    have : ((⌊q⌋.toNat : Nat) : Int) = ⌊q⌋ := Int.toNat_of_nonneg h0
    exact_mod_cast this
  have h3 : ((⌊q⌋ : Int) : ℚ) ≤ q := Int.floor_le q
  linarith

/-- A negative float converts to the `unsigned long` 0. -/
theorem truncToU32_neg (q : ℚ) (h : q < 0) : truncToU32 q = 0 := by
  unfold truncToU32 wrapU32 truncToLong
  rw [if_neg (not_le.mpr h)]
  have : 0 ≤ ⌊-q⌋ := Int.floor_nonneg.mpr (by linarith)
  have h2 : (-⌊-q⌋).toNat = 0 := by omega
  rw [h2]

/-- A float in the range of `unsigned long` exceeds its conversion by less than one. -/
theorem truncToU32_lt_succ (q : ℚ) (h : 0 ≤ q) (hlt : q < 4294967296) :
    q < (truncToU32 q : ℚ) + 1 := by
  unfold truncToU32 wrapU32 truncToLong
  rw [if_pos h]
  have h0 : 0 ≤ ⌊q⌋ := Int.floor_nonneg.mpr h
  have hb : ⌊q⌋ < 4294967296 := by
    have h3 : ((⌊q⌋ : Int) : ℚ) ≤ q := Int.floor_le q
    have : ((⌊q⌋ : Int) : ℚ) < ((4294967296 : Int) : ℚ) := by push_cast; linarith
    exact_mod_cast this
  have hm : ⌊q⌋.toNat % 4294967296 = ⌊q⌋.toNat := Nat.mod_eq_of_lt (by omega)
  rw [hm]
  have h2 : ((⌊q⌋.toNat : Nat) : ℚ) = ((⌊q⌋ : Int) : ℚ) := by
    have : ((⌊q⌋.toNat : Nat) : Int) = ⌊q⌋ := Int.toNat_of_nonneg h0
    exact_mod_cast this
  rw [h2]
  exact Int.lt_floor_add_one q

/-- The interval of the primary axis is `limitInterval` when that axis moves and takes
`stepsRemaining` steps. -/
theorem moveAxisIntervals_primary (cfg : Config) (lines_count : Nat) (l : PrintLine)
    (axis_diff : Nat → ℚ) (hp : l.primaryAxis < 4)
    (hmove : (l.dir &&& (16 <<< l.primaryAxis)) ≠ 0)
    (hdelta : l.delta.get l.primaryAxis = l.stepsRemaining)
    (hs : l.stepsRemaining ≠ 0) :
    moveAxisIntervals cfg lines_count l axis_diff l.primaryAxis
      = moveLimitInterval cfg lines_count l axis_diff := by
  have key : truncToLong ((moveLimitInterval cfg lines_count l axis_diff : ℚ)
      * (l.stepsRemaining : ℚ) / (l.delta.get l.primaryAxis : ℚ))
      = moveLimitInterval cfg lines_count l axis_diff := by
    rw [hdelta]
    have hs' : (l.stepsRemaining : ℚ) ≠ 0 := by exact_mod_cast hs
    rw [mul_div_assoc, div_self hs', mul_one]
    exact truncToLong_intCast _
  unfold moveAxisIntervals axisIntervals
  obtain h | h | h | h : l.primaryAxis = 0 ∨ l.primaryAxis = 1 ∨ l.primaryAxis = 2
      ∨ l.primaryAxis = 3 := by omega
  all_goals rw [h] at hmove key ⊢
  · have hm : l.isXMove = true := by unfold PrintLine.isXMove; simpa using hmove
    simp only []
    rw [if_pos hm]
    exact key
  · have hm : l.isYMove = true := by unfold PrintLine.isYMove; simpa using hmove
    simp only []
    rw [if_pos hm]
    exact key
  · have hm : l.isZMove = true := by unfold PrintLine.isZMove; simpa using hmove
    simp only []
    rw [if_pos hm]
    exact key
  · have hm : l.isEMove = true := by unfold PrintLine.isEMove; simpa using hmove
    simp only []
    rw [if_pos hm]
    exact key

/-- C32, evaluated on the code: for the travel move of 400 steps in X and 300 steps in Y
(6.25 mm), `calculate_move` stores `accelerationPrim = 133` and
`acceleration = 1735625/66656` (26.04 mm²/s²), which is not
`2 * distance * (accelerationPrim * distance / stepsRemaining) = 3325/128` (25.98):
`accelerationPrim` is the integer part of 555400/4166 = 133.3, the stored `acceleration` uses
the fraction. -/
theorem calculate_move_acceleration_not_from_accelerationPrim :
    ∃ s1, calculate_move sampleConfig diagonalQueued diagonalDiff true = some s1 ∧
      (s1.lines diagonalQueued.lines_write_pos).accelerationPrim = 133 ∧
      (s1.lines diagonalQueued.lines_write_pos).distance = 25 / 4 ∧
      (s1.lines diagonalQueued.lines_write_pos).stepsRemaining = 400 ∧
      (s1.lines diagonalQueued.lines_write_pos).acceleration = 1735625 / 66656 ∧
      (s1.lines diagonalQueued.lines_write_pos).acceleration
        ≠ 2 * (s1.lines diagonalQueued.lines_write_pos).distance
            * (((s1.lines diagonalQueued.lines_write_pos).accelerationPrim : ℚ)
                * (s1.lines diagonalQueued.lines_write_pos).distance
                / ((s1.lines diagonalQueued.lines_write_pos).stepsRemaining : ℚ)) := by
  obtain ⟨s1, l0, h1, _, _, _, _, _, _, hacc, hprim, hdist, hsteps, _⟩ :=
    calculate_move_fields sampleConfig diagonalQueued diagonalDiff true (by decide) (by decide)
  have e1 : (moveProfile sampleConfig diagonalQueued.lines_count
      (diagonalQueued.lines diagonalQueued.lines_write_pos) diagonalDiff).acceleration
      = 1735625 / 66656 := by decide!
  have e2 : (calculateMoveLine sampleConfig diagonalQueued.lines_count
      (diagonalQueued.lines diagonalQueued.lines_write_pos) diagonalDiff).1.accelerationPrim
      = 133 := by decide!
  have e3 : (diagonalQueued.lines diagonalQueued.lines_write_pos).distance = 25 / 4 := by
    decide!
  have e4 : (diagonalQueued.lines diagonalQueued.lines_write_pos).stepsRemaining = 400 := by
    decide
  rw [e1] at hacc
  rw [e2] at hprim
  rw [e3] at hdist
  rw [e4] at hsteps
  refine ⟨s1, h1, hprim, hdist, hsteps, hacc, ?_⟩
  rw [hacc, hprim, hdist, hsteps]
  norm_num

/-- C32, amended: when the primary axis is one of the four motor axes, moves, and takes
`stepsRemaining != 0` steps, and `F_CPU != 0`, `calculate_move` returns with
`acceleration == 2 * distance * (q * distance / stepsRemaining)` in the new line, where
`q = slowest_axis_plateau_time_repro / axis_interval[primaryAxis]` is the quotient before its
conversion to `unsigned long`; for `0 <= q < 2^32` the stored `accelerationPrim` is its
integer part, `accelerationPrim <= q < accelerationPrim + 1`. -/
theorem calculate_move_acceleration (cfg : Config) (s : Planner) (axis_diff : Nat → ℚ)
    (pathOptimize : Bool) (hpos : s.lines_pos < cfg.moveCacheSize)
    (hwp : s.lines_write_pos < cfg.moveCacheSize)
    (hp : (s.lines s.lines_write_pos).primaryAxis < 4)
    (hmove : ((s.lines s.lines_write_pos).dir
        &&& (16 <<< (s.lines s.lines_write_pos).primaryAxis)) ≠ 0)
    (hdelta : (s.lines s.lines_write_pos).delta.get (s.lines s.lines_write_pos).primaryAxis
        = (s.lines s.lines_write_pos).stepsRemaining)
    (hs : (s.lines s.lines_write_pos).stepsRemaining ≠ 0)
    (hf : cfg.fCpu ≠ 0) :
    ∃ s1, calculate_move cfg s axis_diff pathOptimize = some s1 ∧
      (s1.lines s.lines_write_pos).acceleration
        = 2 * (s1.lines s.lines_write_pos).distance
            * (moveSlowest cfg s.lines_count (s.lines s.lines_write_pos) axis_diff
                / (moveAxisIntervals cfg s.lines_count (s.lines s.lines_write_pos) axis_diff
                    (s.lines s.lines_write_pos).primaryAxis : ℚ)
                * (s1.lines s.lines_write_pos).distance
                / ((s1.lines s.lines_write_pos).stepsRemaining : ℚ)) ∧
      (0 ≤ moveSlowest cfg s.lines_count (s.lines s.lines_write_pos) axis_diff
            / (moveAxisIntervals cfg s.lines_count (s.lines s.lines_write_pos) axis_diff
                (s.lines s.lines_write_pos).primaryAxis : ℚ) →
        moveSlowest cfg s.lines_count (s.lines s.lines_write_pos) axis_diff
            / (moveAxisIntervals cfg s.lines_count (s.lines s.lines_write_pos) axis_diff
                (s.lines s.lines_write_pos).primaryAxis : ℚ) < 4294967296 →
        ((s1.lines s.lines_write_pos).accelerationPrim : ℚ)
          ≤ moveSlowest cfg s.lines_count (s.lines s.lines_write_pos) axis_diff
            / (moveAxisIntervals cfg s.lines_count (s.lines s.lines_write_pos) axis_diff
                (s.lines s.lines_write_pos).primaryAxis : ℚ) ∧
        moveSlowest cfg s.lines_count (s.lines s.lines_write_pos) axis_diff
            / (moveAxisIntervals cfg s.lines_count (s.lines s.lines_write_pos) axis_diff
                (s.lines s.lines_write_pos).primaryAxis : ℚ)
          < ((s1.lines s.lines_write_pos).accelerationPrim : ℚ) + 1) := by
  obtain ⟨s1, l0, h1, _, _, _, _, _, _, hacc, hprim, hdist, hsteps, _⟩ :=
    calculate_move_fields cfg s axis_diff pathOptimize hpos hwp
  refine ⟨s1, h1, ?_, ?_⟩
  · rw [hacc, hdist, hsteps,
      moveAxisIntervals_primary cfg s.lines_count _ axis_diff hp hmove hdelta hs]
    show 2 * (s.lines s.lines_write_pos).distance
        * moveSlowest cfg s.lines_count (s.lines s.lines_write_pos) axis_diff
        * ((s.lines s.lines_write_pos).distance * ((cfg.fCpu : ℚ)
            / ((moveLimitInterval cfg s.lines_count (s.lines s.lines_write_pos) axis_diff : ℚ)
                * ((s.lines s.lines_write_pos).stepsRemaining : ℚ))))
        / (cfg.fCpu : ℚ) = _
    have hf' : (cfg.fCpu : ℚ) ≠ 0 := by exact_mod_cast hf
    have hs' : ((s.lines s.lines_write_pos).stepsRemaining : ℚ) ≠ 0 := by exact_mod_cast hs
    by_cases hl : (moveLimitInterval cfg s.lines_count (s.lines s.lines_write_pos) axis_diff : ℚ)
        = 0
    · rw [hl]
      simp
    · field_simp
      ring
  · intro h0 hlt
    rw [hprim, calculateMoveLine_accelerationPrim]
    exact ⟨truncToU32_le_self _ h0, truncToU32_lt_succ _ h0 hlt⟩

/-- C32, amended, on the travel move `diagonalMove` queued into an idle planner. -/
theorem calculate_move_acceleration_witness :
    ∃ s1, calculate_move sampleConfig diagonalQueued diagonalDiff true = some s1 ∧
      (s1.lines diagonalQueued.lines_write_pos).acceleration
        = 2 * (s1.lines diagonalQueued.lines_write_pos).distance
            * (moveSlowest sampleConfig diagonalQueued.lines_count
                  (diagonalQueued.lines diagonalQueued.lines_write_pos) diagonalDiff
                / (moveAxisIntervals sampleConfig diagonalQueued.lines_count
                    (diagonalQueued.lines diagonalQueued.lines_write_pos) diagonalDiff
                    (diagonalQueued.lines diagonalQueued.lines_write_pos).primaryAxis : ℚ)
                * (s1.lines diagonalQueued.lines_write_pos).distance
                / ((s1.lines diagonalQueued.lines_write_pos).stepsRemaining : ℚ)) :=
  (calculate_move_acceleration sampleConfig diagonalQueued diagonalDiff true (by decide)
    (by decide) (by decide) (by decide) (by decide) (by decide) (by decide)).imp
    (fun _ h => ⟨h.1, h.2.1⟩)

/-- C38: `calculate_move` returns, and for every motor axis `i` whose moving bit is set
`accelerationPrim * axis_interval[primaryAxis] <= axis_interval[i] * limit_i` in the new line,
with `limit_i` the print limit of axis `i` for a printing move and the travel limit otherwise,
when the interval of the primary axis is positive and that of axis `i` is not negative. -/
theorem calculate_move_axis_acceleration_limit (cfg : Config) (s : Planner)
    (axis_diff : Nat → ℚ) (pathOptimize : Bool) (hpos : s.lines_pos < cfg.moveCacheSize)
    (hwp : s.lines_write_pos < cfg.moveCacheSize) (i : Nat) (hi : i < 4)
    (hmove : ((s.lines s.lines_write_pos).dir &&& (16 <<< i)) ≠ 0)
    (hint : 0 < moveAxisIntervals cfg s.lines_count (s.lines s.lines_write_pos) axis_diff
        (s.lines s.lines_write_pos).primaryAxis)
    (hnn : 0 ≤ moveAxisIntervals cfg s.lines_count (s.lines s.lines_write_pos) axis_diff i) :
    ∃ s1, calculate_move cfg s axis_diff pathOptimize = some s1 ∧
      (s1.lines s.lines_write_pos).dir = (s.lines s.lines_write_pos).dir ∧
      (s1.lines s.lines_write_pos).primaryAxis = (s.lines s.lines_write_pos).primaryAxis ∧
      ((s1.lines s.lines_write_pos).accelerationPrim : Int)
          * moveAxisIntervals cfg s.lines_count (s.lines s.lines_write_pos) axis_diff
              (s.lines s.lines_write_pos).primaryAxis
        ≤ moveAxisIntervals cfg s.lines_count (s.lines s.lines_write_pos) axis_diff i
          * (axisAccelLimit cfg (s.lines s.lines_write_pos) i : Int) := by
  obtain ⟨s1, l0, h1, hL, _, _, _, _, hpr, _, hprim, _, _, hdir⟩ :=
    calculate_move_fields cfg s axis_diff pathOptimize hpos hwp
  refine ⟨s1, h1, hdir, ?_, ?_⟩
  · rw [hL]
    exact ((halfstepStep_fields cfg _ l0).2.2.2.2.2.2.2.2.2.2.1).trans hpr
  · rw [hprim, calculateMoveLine_accelerationPrim]
    have h := moveSlowest_le_axis cfg s.lines_count (s.lines s.lines_write_pos) axis_diff i hi
      hmove
    have hq : (0 : ℚ) < (moveAxisIntervals cfg s.lines_count (s.lines s.lines_write_pos)
        axis_diff (s.lines s.lines_write_pos).primaryAxis : ℚ) := by exact_mod_cast hint
    have hn : (0 : ℚ) ≤ (moveAxisIntervals cfg s.lines_count (s.lines s.lines_write_pos)
        axis_diff i : ℚ) := by exact_mod_cast hnn
    have goal : ((truncToU32 (moveSlowest cfg s.lines_count (s.lines s.lines_write_pos)
          axis_diff / (moveAxisIntervals cfg s.lines_count (s.lines s.lines_write_pos)
          axis_diff (s.lines s.lines_write_pos).primaryAxis : ℚ)) : Nat) : ℚ)
        * (moveAxisIntervals cfg s.lines_count (s.lines s.lines_write_pos) axis_diff
            (s.lines s.lines_write_pos).primaryAxis : ℚ)
        ≤ (moveAxisIntervals cfg s.lines_count (s.lines s.lines_write_pos) axis_diff i : ℚ)
          * (axisAccelLimit cfg (s.lines s.lines_write_pos) i : ℚ) := by
      have hlim : (0 : ℚ) ≤ (axisAccelLimit cfg (s.lines s.lines_write_pos) i : ℚ) :=
        Nat.cast_nonneg _
      generalize moveSlowest cfg s.lines_count (s.lines s.lines_write_pos) axis_diff = sl at h ⊢
      generalize (moveAxisIntervals cfg s.lines_count (s.lines s.lines_write_pos) axis_diff
        (s.lines s.lines_write_pos).primaryAxis : ℚ) = ap at hq ⊢
      generalize (moveAxisIntervals cfg s.lines_count (s.lines s.lines_write_pos) axis_diff i
        : ℚ) = ai at h hn ⊢
      generalize (axisAccelLimit cfg (s.lines s.lines_write_pos) i : ℚ) = lim at h hlim ⊢
      by_cases h0 : 0 ≤ sl / ap
      · have h2 := truncToU32_le_self _ h0
        have h3 : (truncToU32 (sl / ap) : ℚ) * ap ≤ sl / ap * ap :=
          mul_le_mul_of_nonneg_right h2 hq.le
        rw [div_mul_cancel₀ _ hq.ne'] at h3
        linarith
      · rw [truncToU32_neg _ (not_le.mp h0)]
        simp only [Nat.cast_zero, zero_mul]
        positivity
    exact_mod_cast goal

/-- C38 on the travel move `diagonalMove` queued into an idle planner, for the axis Y. -/
theorem calculate_move_axis_acceleration_limit_witness :
    ∃ s1, calculate_move sampleConfig diagonalQueued diagonalDiff true = some s1 ∧
      ((s1.lines diagonalQueued.lines_write_pos).accelerationPrim : Int)
          * moveAxisIntervals sampleConfig diagonalQueued.lines_count
              (diagonalQueued.lines diagonalQueued.lines_write_pos) diagonalDiff
              (diagonalQueued.lines diagonalQueued.lines_write_pos).primaryAxis
        ≤ moveAxisIntervals sampleConfig diagonalQueued.lines_count
              (diagonalQueued.lines diagonalQueued.lines_write_pos) diagonalDiff 1
          * (axisAccelLimit sampleConfig (diagonalQueued.lines diagonalQueued.lines_write_pos) 1
              : Int) :=
  (calculate_move_axis_acceleration_limit sampleConfig diagonalQueued diagonalDiff true
    (by decide) (by decide) 1 (by decide) (by decide) (by decide!) (by decide!)).imp
    (fun _ h => ⟨h.1, h.2.2.2⟩)

/-- One step forward lengthens the way from `b` by one, unless it arrives at `b`. -/
theorem ringDistance_from_next (cfg : Config) (b x : Nat) (hb : b < cfg.moveCacheSize)
    (h : nextPlannerIndex cfg x ≠ b) :
    ringDistance cfg b (nextPlannerIndex cfg x) = ringDistance cfg b x + 1 := by
  unfold ringDistance nextPlannerIndex at *; split_ifs at * <;> omega

/-- A position that lies before another one on the way from `b` is not followed by `b`. -/
theorem next_ne_of_ringDistance_lt (cfg : Config) (b x y : Nat) (hb : b < cfg.moveCacheSize)
    (hy : y < cfg.moveCacheSize)
    (h : ringDistance cfg b x < ringDistance cfg b y) : nextPlannerIndex cfg x ≠ b := by
  unfold ringDistance nextPlannerIndex at *; split_ifs at * <;> omega

/-- Two cache positions equally far from `b` coincide. -/
theorem ringDistance_from_inj (cfg : Config) (b x y : Nat) (hb : b < cfg.moveCacheSize)
    (hx : x < cfg.moveCacheSize) (hy : y < cfg.moveCacheSize)
    (h : ringDistance cfg b x = ringDistance cfg b y) : x = y := by
  unfold ringDistance at *; split_ifs at * <;> omega

/-- A write at another cache position, in front of a chain of writes. -/
theorem upd_other_step (ls : Lines) (i : Nat) (f : PrintLine → PrintLine) (j : Nat)
    (a : PrintLine) (hj : j ≠ i) (h : ls j = a) : upd ls i f j = a := by
  rw [upd_other ls i j f hj, h]

/-- One pass of the backward loop writes the lines `p` and `previous` only. -/
theorem backwardStep_other (cfg : Config) (ls : Lines) (p : Nat) (lj : ℚ) (j : Nat)
    (hjp : j ≠ p) (hjq : j ≠ previousPlannerIndex cfg p) :
    (backwardStep cfg ls p lj).1 j = ls j := by
  generalize hq : previousPlannerIndex cfg p = q at hjq
  unfold backwardStep
  rw [hq]
  simp only []
  generalize hL : (if (decide (cfg.driveSystem = 3) && decide ((ls q).moveID = (ls p).moveID)
        && decide (lj = (ls q).maxJunctionSpeed)) = true then
      upd (upd (upd (upd ls q fun l => { l with endSpeed := lj }) p fun l =>
        { l with startSpeed := lj }) q PrintLine.invalidateParameter) p
        PrintLine.invalidateParameter
    else ls) = L
  have fL : L j = ls j := by
    rw [← hL]
    split_ifs
    · repeat (first | rfl | apply upd_other_step _ _ _ _ _ hjp | apply upd_other_step _ _ _ _ _ hjq)
    · rfl
  clear hL
  rw [← fL]
  split_ifs
  all_goals try dsimp only
  all_goals
    repeat (first | rfl | apply upd_other_step _ _ _ _ _ hjp | apply upd_other_step _ _ _ _ _ hjq)

/-- One pass of the forward loop writes the lines `p` and `next` only. -/
theorem forwardStep_other (cfg : Config) (ls : Lines) (p : Nat) (leftspeed : ℚ) (j : Nat)
    (hjp : j ≠ p) (hjq : j ≠ nextPlannerIndex cfg p) :
    (forwardStep cfg ls p leftspeed).1 j = ls j := by
  generalize hq : nextPlannerIndex cfg p = q at hjq
  unfold forwardStep
  rw [hq]
  simp only []
  split_ifs
  all_goals try dsimp only
  all_goals
    repeat (first | rfl | apply upd_other_step _ _ _ _ _ hjp | apply upd_other_step _ _ _ _ _ hjq)

/-- The backward loop from `i` down to `last` leaves every line that lies before `last` on the
way from `b` as it was. -/
theorem backwardLoop_before (cfg : Config) (b last : Nat) (hb : b < cfg.moveCacheSize)
    (hl : last < cfg.moveCacheSize) (j : Nat)
    (hjl : ringDistance cfg b j < ringDistance cfg b last) :
    ∀ (fuel : Nat) (ls : Lines) (i : Nat) (lj : ℚ) (r : Lines), i < cfg.moveCacheSize →
      ringDistance cfg b last ≤ ringDistance cfg b i →
      backwardLoop cfg last fuel ls i lj = some r → r j = ls j := by
  intro fuel
  induction fuel with
  | zero =>
    intro ls i lj r _ _ h
    unfold backwardLoop at h
    by_cases hc : i = last
    · rw [if_pos hc] at h; cases h; rfl
    · rw [if_neg hc] at h; cases h
  | succ n ih =>
    intro ls i lj r hi hd h
    unfold backwardLoop at h
    by_cases hc : i = last
    · rw [if_pos hc] at h; cases h; rfl
    · rw [if_neg hc] at h
      simp only [] at h
      have hlt : ringDistance cfg b last < ringDistance cfg b i := by
        rcases Nat.lt_or_ge (ringDistance cfg b last) (ringDistance cfg b i) with h1 | h1
        · exact h1
        · exact absurd (ringDistance_from_inj cfg b i last hb hi hl (by omega)) hc
      have hib : b ≠ i := by
        intro e
        rw [← e, ringDistance_self] at hlt
        omega
      have hpv := ringDistance_previous cfg b i hb hi hib
      have hji : j ≠ i := by
        intro e
        rw [e] at hjl
        omega
      have hjq : j ≠ previousPlannerIndex cfg i := by
        intro e
        rw [e] at hjl
        omega
      have hf := backwardStep_other cfg ls i lj j hji hjq
      rcases hs : backwardStep cfg ls i lj with ⟨ls1, _ | lj1⟩
      · rw [hs] at h hf
        simp only [] at h hf
        cases h
        exact hf
      · rw [hs] at h hf
        simp only [] at h hf
        exact (ih ls1 _ lj1 r (previousPlannerIndex_lt cfg i hi) (by omega) h).trans hf

/-- The forward loop from `i` up to `last` leaves every line that lies before `i` on the way
from `b` as it was. -/
theorem forwardLoop_before (cfg : Config) (b last : Nat) (hb : b < cfg.moveCacheSize)
    (hl : last < cfg.moveCacheSize) (j : Nat) :
    ∀ (fuel : Nat) (ls : Lines) (i : Nat) (leftspeed : ℚ) (r : Lines × ℚ),
      i < cfg.moveCacheSize → ringDistance cfg b j < ringDistance cfg b i →
      ringDistance cfg b i ≤ ringDistance cfg b last →
      forwardLoop cfg last fuel ls i leftspeed = some r → r.1 j = ls j := by
  intro fuel
  induction fuel with
  | zero =>
    intro ls i leftspeed r _ _ _ h
    unfold forwardLoop at h
    by_cases hc : i = last
    · rw [if_pos hc] at h; cases h; rfl
    · rw [if_neg hc] at h; cases h
  | succ n ih =>
    intro ls i leftspeed r hi hji hd h
    unfold forwardLoop at h
    by_cases hc : i = last
    · rw [if_pos hc] at h; cases h; rfl
    · rw [if_neg hc] at h
      simp only [] at h
      have hlt : ringDistance cfg b i < ringDistance cfg b last := by
        rcases Nat.lt_or_ge (ringDistance cfg b i) (ringDistance cfg b last) with h1 | h1
        · exact h1
        · exact absurd (ringDistance_from_inj cfg b i last hb hi hl (by omega)) hc
      have hnb := next_ne_of_ringDistance_lt cfg b i last hb hl hlt
      have hnx := ringDistance_from_next cfg b i hb hnb
      have hj1 : j ≠ i := by
        intro e
        rw [e] at hji
        omega
      have hj2 : j ≠ nextPlannerIndex cfg i := by
        intro e
        rw [e] at hji
        omega
      have hf := forwardStep_other cfg ls i leftspeed j hj1 hj2
      exact (ih _ _ _ r (nextPlannerIndex_lt cfg i hi) (by omega) (by omega) h).trans hf

/-- The first horizon loop stops between its start and `p` on the way from `b`. -/
theorem horizonLoop_range (cfg : Config) (ls : Lines) (b p : Nat) (hb : b < cfg.moveCacheSize)
    (hp : p < cfg.moveCacheSize) :
    ∀ (fuel : Nat) (t : Int) (m r : Nat), m < cfg.moveCacheSize →
      ringDistance cfg b m ≤ ringDistance cfg b p →
      horizonLoop cfg ls p fuel t m = some r →
      r < cfg.moveCacheSize ∧ ringDistance cfg b m ≤ ringDistance cfg b r
        ∧ ringDistance cfg b r ≤ ringDistance cfg b p := by
  intro fuel
  induction fuel with
  | zero =>
    intro t m r hm hd h
    unfold horizonLoop at h
    by_cases hc : t < 4500 * (cfg.moveCacheSize : Int) ∧ m ≠ p
    · rw [if_pos hc] at h; cases h
    · rw [if_neg hc] at h; cases h; exact ⟨hm, le_refl _, hd⟩
  | succ n ih =>
    intro t m r hm hd h
    unfold horizonLoop at h
    by_cases hc : t < 4500 * (cfg.moveCacheSize : Int) ∧ m ≠ p
    · rw [if_pos hc] at h
      simp only [] at h
      have hlt : ringDistance cfg b m < ringDistance cfg b p := by
        rcases Nat.lt_or_ge (ringDistance cfg b m) (ringDistance cfg b p) with h1 | h1
        · exact h1
        · exact absurd (ringDistance_from_inj cfg b m p hb hm hp (by omega)) hc.2
      have hnb := next_ne_of_ringDistance_lt cfg b m p hb hp hlt
      have hnx := ringDistance_from_next cfg b m hb hnb
      obtain ⟨h1, h2, h3⟩ := ih _ _ r (nextPlannerIndex_lt cfg m hm) (by omega) h
      exact ⟨h1, by omega, h3⟩
    · rw [if_neg hc] at h; cases h; exact ⟨hm, le_refl _, hd⟩

/-- The second horizon loop stops between `maxfirst` and its start on the way from `b`. -/
theorem firstLoop_range (cfg : Config) (ls : Lines) (b m : Nat) (hb : b < cfg.moveCacheSize)
    (hm : m < cfg.moveCacheSize) :
    ∀ (fuel f r : Nat), f < cfg.moveCacheSize →
      ringDistance cfg b m ≤ ringDistance cfg b f →
      firstLoop cfg ls m fuel f = some r →
      r < cfg.moveCacheSize ∧ ringDistance cfg b m ≤ ringDistance cfg b r
        ∧ ringDistance cfg b r ≤ ringDistance cfg b f := by
  intro fuel
  induction fuel with
  | zero =>
    intro f r hf hd h
    unfold firstLoop at h
    by_cases hc : f ≠ m ∧ (!(ls f).isEndSpeedFixed) = true
    · rw [if_pos hc] at h; cases h
    · rw [if_neg hc] at h; cases h; exact ⟨hf, hd, le_refl _⟩
  | succ n ih =>
    intro f r hf hd h
    unfold firstLoop at h
    by_cases hc : f ≠ m ∧ (!(ls f).isEndSpeedFixed) = true
    · rw [if_pos hc] at h
      simp only [] at h
      have hlt : ringDistance cfg b m < ringDistance cfg b f := by
        rcases Nat.lt_or_ge (ringDistance cfg b m) (ringDistance cfg b f) with h1 | h1
        · exact h1
        · exact absurd (ringDistance_from_inj cfg b f m hb hf hm (by omega)) hc.1
      have hfb : b ≠ f := by
        intro e
        rw [← e, ringDistance_self] at hlt
        omega
      have hpv := ringDistance_previous cfg b f hb hf hfb
      obtain ⟨h1, h2, h3⟩ := ih _ r (previousPlannerIndex_lt cfg f hf) (by omega) h
      exact ⟨h1, h2, by omega⟩
    · rw [if_neg hc] at h; cases h; exact ⟨hf, hd, le_refl _⟩

/-- The backward pass of `updateTrapezoids` leaves every line before `last` on the way from `b`
as it was. -/
theorem backwardPlanner_before (cfg : Config) (b last p : Nat) (hb : b < cfg.moveCacheSize)
    (hl : last < cfg.moveCacheSize) (hp : p < cfg.moveCacheSize)
    (hd : ringDistance cfg b last ≤ ringDistance cfg b p) (ls r : Lines)
    (h : backwardPlanner cfg ls p last = some r) (j : Nat)
    (hj : ringDistance cfg b j < ringDistance cfg b last) : r j = ls j := by
  unfold backwardPlanner at h
  by_cases hc : p = last
  · rw [if_pos hc] at h; cases h; rfl
  · rw [if_neg hc] at h
    exact backwardLoop_before cfg b last hb hl j hj _ ls p _ r hp hd h

/-- The forward pass of `updateTrapezoids` from `first` to the write position leaves every line
before `first` on the way from `b` as it was. -/
theorem forwardPlanner_before (cfg : Config) (b wp first : Nat) (hb : b < cfg.moveCacheSize)
    (hw : wp < cfg.moveCacheSize) (hf : first < cfg.moveCacheSize)
    (hd : ringDistance cfg b first ≤ ringDistance cfg b wp) (ls r : Lines)
    (h : forwardPlanner cfg ls wp first = some r) (j : Nat)
    (hj : ringDistance cfg b j < ringDistance cfg b first) : r j = ls j := by
  unfold forwardPlanner at h
  by_cases hc : first = wp
  · rw [if_pos hc] at h; cases h; rfl
  · rw [if_neg hc] at h
    rcases hs : forwardLoop cfg wp cfg.moveCacheSize ls first (ls first).startSpeed
      with _ | ⟨ls1, left⟩
    · rw [hs] at h; cases h
    · rw [hs] at h
      simp only [] at h
      cases h
      have hjw : j ≠ wp := by
        intro e
        rw [e] at hj
        omega
      rw [upd_other _ _ _ _ hjw]
      exact forwardLoop_before cfg b wp hb hw j _ ls first _ (ls1, left) hf hj hd hs

/-- C37: in `updateTrapezoids(lines_write_pos)` with `lines_write_pos != lines_pos`
(both inside the ring), the horizon loops return `maxfirst` and `first` with
`lines_pos < maxfirst <= first <= lines_write_pos` in queue order (distances counted from
`lines_pos` along `NEXT_PLANNER_INDEX`), `backwardPlanner(lines_write_pos, first)` and
`forwardPlanner(first)` return, they are the two passes that `updateTrapezoids` runs, and they
leave every line before `first` in queue order, the line at `lines_pos` among them, exactly as
it was. -/
theorem updateTrapezoids_horizon_protects_head (cfg : Config) (s : Planner)
    (hpos : s.lines_pos < cfg.moveCacheSize) (hwp : s.lines_write_pos < cfg.moveCacheSize)
    (hne : s.lines_write_pos ≠ s.lines_pos) :
    ∃ maxfirst first ls2 ls3,
      horizonLoop cfg s.lines s.lines_write_pos cfg.moveCacheSize 0
        (nextPlannerIndex cfg s.lines_pos) = some maxfirst ∧
      planningStart cfg s s.lines_write_pos = some first ∧
      1 ≤ ringDistance cfg s.lines_pos maxfirst ∧
      ringDistance cfg s.lines_pos maxfirst ≤ ringDistance cfg s.lines_pos first ∧
      ringDistance cfg s.lines_pos first ≤ ringDistance cfg s.lines_pos s.lines_write_pos ∧
      backwardPlanner cfg (junctionCache cfg s s.lines_write_pos first) s.lines_write_pos first
        = some ls2 ∧
      forwardPlanner cfg ls2 s.lines_write_pos first = some ls3 ∧
      updateTrapezoids cfg s s.lines_write_pos
        = (materialiseLoop cfg s.lines_write_pos cfg.moveCacheSize ls3 first).map
            (fun ls4 => { s with lines := upd (upd ls4 s.lines_write_pos
              (updateStepsParameter cfg)) s.lines_write_pos PrintLine.unblock }) ∧
      (∀ j, ringDistance cfg s.lines_pos j < ringDistance cfg s.lines_pos first →
        ls2 j = junctionCache cfg s s.lines_write_pos first j ∧
        ls3 j = junctionCache cfg s s.lines_write_pos first j) ∧
      ls2 s.lines_pos = junctionCache cfg s s.lines_write_pos first s.lines_pos ∧
      ls3 s.lines_pos = junctionCache cfg s s.lines_write_pos first s.lines_pos := by
  have hN : nextPlannerIndex cfg s.lines_pos ≠ s.lines_pos := by
    unfold nextPlannerIndex; split_ifs <;> omega
  have hd1 : ringDistance cfg s.lines_pos (nextPlannerIndex cfg s.lines_pos) = 1 := by
    rw [ringDistance_from_next cfg _ _ hpos hN, ringDistance_self]
  have hdw : 1 ≤ ringDistance cfg s.lines_pos s.lines_write_pos := by
    rcases Nat.eq_zero_or_pos (ringDistance cfg s.lines_pos s.lines_write_pos) with h0 | h0
    · exact absurd (ringDistance_from_inj cfg _ _ _ hpos hwp hpos
        (h0.trans (ringDistance_self cfg _).symm)) hne
    · exact h0
  have hnl := nextPlannerIndex_lt cfg _ hpos
  obtain ⟨m, hm, _⟩ := horizonLoop_returns cfg s.lines s.lines_write_pos hwp cfg.moveCacheSize 0
    _ hnl (le_of_lt (ringDistance_lt cfg _ _ hnl hwp))
  obtain ⟨hml, hm1, hm2⟩ := horizonLoop_range cfg s.lines s.lines_pos s.lines_write_pos hpos hwp
    _ _ _ m hnl (by omega) hm
  obtain ⟨f, hf, _⟩ := firstLoop_returns cfg s.lines m hml cfg.moveCacheSize s.lines_write_pos
    hwp (le_of_lt (ringDistance_lt cfg _ _ hml hwp))
  obtain ⟨hfl, hf1, hf2⟩ := firstLoop_range cfg s.lines s.lines_pos m hpos hml _ _ f hwp hm2 hf
  obtain ⟨first, hfirst, hfirstl, hr1, hr2⟩ : ∃ first,
      planningStart cfg s s.lines_write_pos = some first ∧ first < cfg.moveCacheSize ∧
      ringDistance cfg s.lines_pos m ≤ ringDistance cfg s.lines_pos first ∧
      ringDistance cfg s.lines_pos first ≤ ringDistance cfg s.lines_pos s.lines_write_pos := by
    unfold planningStart
    simp only []
    rw [if_pos (Ne.symm hne), hm]
    simp only []
    rw [hf]
    simp only []
    by_cases hc : f ≠ s.lines_write_pos ∧ (s.lines f).isEndSpeedFixed = true
    · rw [if_pos hc]
      have hlt : ringDistance cfg s.lines_pos f
          < ringDistance cfg s.lines_pos s.lines_write_pos := by
        rcases Nat.lt_or_ge (ringDistance cfg s.lines_pos f)
          (ringDistance cfg s.lines_pos s.lines_write_pos) with h1 | h1
        · exact h1
        · exact absurd (ringDistance_from_inj cfg _ _ _ hpos hfl hwp (by omega)) hc.1
      have hnb := next_ne_of_ringDistance_lt cfg _ _ _ hpos hwp hlt
      have hnx := ringDistance_from_next cfg _ _ hpos hnb
      exact ⟨_, rfl, nextPlannerIndex_lt cfg _ hfl, by omega, by omega⟩
    · rw [if_neg hc]
      exact ⟨_, rfl, hfl, hf1, hf2⟩
  obtain ⟨ls2, h2⟩ := backwardPlanner_returns cfg (junctionCache cfg s s.lines_write_pos first)
    s.lines_write_pos first hwp hfirstl
  obtain ⟨ls3, h3⟩ := forwardPlanner_returns cfg ls2 s.lines_write_pos first hfirstl hwp
  have hframe : ∀ j, ringDistance cfg s.lines_pos j < ringDistance cfg s.lines_pos first →
      ls2 j = junctionCache cfg s s.lines_write_pos first j ∧
      ls3 j = junctionCache cfg s s.lines_write_pos first j := by
    intro j hj
    have a := backwardPlanner_before cfg s.lines_pos first s.lines_write_pos hpos hfirstl hwp
      hr2 _ _ h2 j hj
    have b := forwardPlanner_before cfg s.lines_pos s.lines_write_pos first hpos hwp hfirstl
      hr2 _ _ h3 j hj
    exact ⟨a, b.trans a⟩
  have hhead := hframe s.lines_pos (by rw [ringDistance_self]; omega)
  refine ⟨m, first, ls2, ls3, hm, hfirst, by omega, hr1, hr2, h2, h3, ?_, hframe, hhead.1,
    hhead.2⟩
  unfold updateTrapezoids
  rw [hfirst]
  simp only []
  unfold junctionCache at h2
  rw [h2]
  simp only []
  rw [h3]
  simp only []
  cases materialiseLoop cfg s.lines_write_pos cfg.moveCacheSize ls3 first <;> rfl

/-- C37 on the four-slot cache `queuedRunPlanner` (`lines_pos = 0`,
`lines_write_pos = 3`): the line in slot 0 is the same before and after the two passes. -/
theorem updateTrapezoids_horizon_protects_head_witness :
    ∃ maxfirst first ls2 ls3,
      horizonLoop smallCacheConfig queuedRunPlanner.lines queuedRunPlanner.lines_write_pos
        smallCacheConfig.moveCacheSize 0
        (nextPlannerIndex smallCacheConfig queuedRunPlanner.lines_pos) = some maxfirst ∧
      planningStart smallCacheConfig queuedRunPlanner queuedRunPlanner.lines_write_pos
        = some first ∧
      1 ≤ ringDistance smallCacheConfig queuedRunPlanner.lines_pos maxfirst ∧
      backwardPlanner smallCacheConfig
        (junctionCache smallCacheConfig queuedRunPlanner queuedRunPlanner.lines_write_pos first)
        queuedRunPlanner.lines_write_pos first = some ls2 ∧
      forwardPlanner smallCacheConfig ls2 queuedRunPlanner.lines_write_pos first = some ls3 ∧
      ls3 queuedRunPlanner.lines_pos
        = junctionCache smallCacheConfig queuedRunPlanner queuedRunPlanner.lines_write_pos first
            queuedRunPlanner.lines_pos := by
  obtain ⟨m, first, ls2, ls3, h1, h2, h3, _, _, h6, h7, _, _, _, h11⟩ :=
    updateTrapezoids_horizon_protects_head smallCacheConfig queuedRunPlanner (by decide)
      (by decide) (by decide)
  exact ⟨m, first, ls2, ls3, h1, h2, h3, h6, h7, h11⟩

/-- The nominal test keeps the flag `checkEndstops`. -/
theorem nominalStep_checkEndstops (cfg : Config) (l3 : PrintLine) :
    (nominalStep cfg l3).flags.checkEndstops = l3.flags.checkEndstops := by
  unfold nominalStep
  split_ifs <;> rfl

/-- Every line of the cache keeps its flag `checkEndstops`, its `delta` and its `dir` through
`calculate_move`. -/
theorem calculate_move_keeps (cfg : Config) (s s1 : Planner) (axis_diff : Nat → ℚ)
    (pathOptimize : Bool) (h : calculate_move cfg s axis_diff pathOptimize = some s1) (j : Nat) :
    (s1.lines j).flags.checkEndstops = (s.lines j).flags.checkEndstops ∧
    (s1.lines j).delta = (s.lines j).delta ∧ (s1.lines j).dir = (s.lines j).dir := by
  by_cases hj : j = s.lines_write_pos
  · subst hj
    obtain ⟨l, hst, hL⟩ := calculate_move_line cfg s s1 axis_diff pathOptimize h
    rw [calculateMoveLine_stages] at hst
    generalize hP : moveProfile cfg s.lines_count (s.lines s.lines_write_pos) axis_diff = P
      at hst
    have hA := advanceStep_fields cfg (nominalStep cfg P) P.fullInterval P.accelerationPrim
    have hNm := nominalStep_fields cfg P
    have hNc := nominalStep_checkEndstops cfg P
    have hH := halfstepStep_fields cfg
      (calculateMoveLine cfg s.lines_count (s.lines s.lines_write_pos) axis_diff).2 l
    generalize hR : advanceStep cfg (nominalStep cfg P) P.fullInterval P.accelerationPrim = R
      at hst hA
    have g : ∀ {α : Type} (f : PrintLine → α), (∀ x, f x = f x.staticPart) → f l = f R :=
      fun f hf => by rw [hf l, hf R, hst]
    have e1 : l.flags.checkEndstops = R.flags.checkEndstops :=
      g (fun x => x.flags.checkEndstops) (fun _ => rfl)
    have e2 : l.delta = R.delta := g PrintLine.delta (fun _ => rfl)
    have e3 : l.dir = R.dir := g PrintLine.dir (fun _ => rfl)
    rw [hL]
    refine ⟨?_, ?_, ?_⟩
    · rw [hH.1, e1, hA.1, hNc, ← hP]; rfl
    · rw [hH.2.2.2.2.2.2.2.2.2.1, e2, hA.2.2.2.2.2.2.2.2.2.1, hNm.2.2.2.2.2.2.2.2.2.1, ← hP]
      rfl
    · rw [hH.2.1, e3, hA.2.1, hNm.2.1, ← hP]; rfl
  · unfold calculate_move at h
    simp only [] at h
    rcases hu : updateTrapezoids cfg
        { s with lines := (setLine s.lines s.lines_write_pos
          (calculateMoveLine cfg s.lines_count (s.lines s.lines_write_pos) axis_diff).1) }
        s.lines_write_pos with _ | s2
    · rw [hu] at h; cases h
    · rw [hu] at h
      simp only [] at h
      cases h
      have hs := updateTrapezoids_static cfg _ s2 _ hu j
      simp only [setLine, if_neg hj] at hs ⊢
      have g : ∀ {α : Type} (f : PrintLine → α), (∀ x, f x = f x.staticPart) →
          f (s2.lines j) = f (s.lines j) := fun f hf => by rw [hf (s2.lines j), hf (s.lines j), hs]
      exact ⟨g (fun x => x.flags.checkEndstops) (fun _ => rfl), g PrintLine.delta (fun _ => rfl),
        g PrintLine.dir (fun _ => rfl)⟩

/-- The slot `wpos2` of the backlash block is the cache position after the write position. -/
theorem wpos2_eq_next (cfg : Config) (wp : Nat) (hN : cfg.moveCacheSize ≤ 256)
    (hwp : wp < cfg.moveCacheSize) :
    (if wrapByte (wp + 1) ≥ cfg.moveCacheSize then 0 else wrapByte (wp + 1))
      = nextPlannerIndex cfg wp := by
  unfold wrapByte nextPlannerIndex
  split_ifs <;> omega

/-- A byte with one of the bits 16, 32, 64 set has one of the bits 16 to 128 set. -/
theorem moving_of_xyz_moving (d : Nat) (h : d &&& 112 ≠ 0) : d &&& 240 ≠ 0 := by
  intro h0
  apply h
  have e : d &&& 112 = (d &&& 240) &&& 112 := by
    have c : (240 &&& 112 : Nat) = 112 := by decide
    rw [Nat.land_assoc, c]
  rw [e, h0]
  rfl

/-- Truncation towards zero commutes with the sign. -/
theorem truncToLong_neg (q : ℚ) : truncToLong (-q) = -truncToLong q := by
  unfold truncToLong
  rcases lt_trichotomy q 0 with h | h | h
  · rw [if_pos (by linarith), if_neg (by linarith)]
    simp
  · subst h
    simp
  · rw [if_neg (by linarith), if_pos (by linarith)]
    simp

/-- The deltas of the backlash prologue: on X, Y and Z the magnitude of
`(long)(backlash_i * axis_steps_per_unit[i])` when the direction bit of the axis differs from
the one kept in `backlashDir`, and 0 otherwise; 0 on E. -/
theorem backlashPrologue_delta (cfg : Config) (ms : MoveSettings) (backlashDir : Nat)
    (l : PrintLine) :
    (backlashPrologue cfg ms backlashDir l).delta
      = ⟨if ((l.dir &&& 7) ^^^ (backlashDir &&& 7)) &&& 1 ≠ 0 then
           abs (truncToLong (ms.backlashX * cfg.axis_steps_per_unit.get 0)) else 0,
         if ((l.dir &&& 7) ^^^ (backlashDir &&& 7)) &&& 2 ≠ 0 then
           abs (truncToLong (ms.backlashY * cfg.axis_steps_per_unit.get 1)) else 0,
         if ((l.dir &&& 7) ^^^ (backlashDir &&& 7)) &&& 4 ≠ 0 then
           abs (truncToLong (ms.backlashZ * cfg.axis_steps_per_unit.get 2)) else 0,
         0⟩ := by
  have key : ∀ t : Int, (if t > 0 then t else -t) = abs t := by
    intro t
    split_ifs with h
    · exact (abs_of_pos h).symm
    · exact (abs_of_nonpos (not_lt.mp h)).symm
  have k0 : truncToLong 0 = 0 := by unfold truncToLong; simp
  simp only [backlashPrologue, backlashStep, backlashDiff, List.foldl, Vec4.get, Vec4.set, key]
  congr 1
  · split_ifs <;> simp [truncToLong_neg, k0]
  · split_ifs <;> simp [truncToLong_neg, k0]
  · split_ifs <;> simp [truncToLong_neg, k0]
  · simp [k0]

/-- The backlash block returns when a second cache entry is free: the prologue is queued at the
write position with the deltas of `backlashPrologue` and with the flag `checkEndstops` that
the record of the move carried, and the record of the move stands in the next slot, which is
the new write position. -/
theorem queueMoveBacklash_spec (cfg : Config) (ms : MoveSettings) (pr1 : CartesianPrinter)
    (pathOptimize : Bool) (hN : cfg.moveCacheSize ≤ 256)
    (hc : pr1.planner.lines_count + 1 < cfg.moveCacheSize)
    (hwp : pr1.planner.lines_write_pos < cfg.moveCacheSize)
    (hpos : pr1.planner.lines_pos < cfg.moveCacheSize) :
    ∃ pr2, queueMoveBacklash cfg ms pr1 pathOptimize = some pr2 ∧
      pr2.planner.lines_write_pos = nextPlannerIndex cfg pr1.planner.lines_write_pos ∧
      pr2.planner.lines_pos = pr1.planner.lines_pos ∧
      pr2.planner.lines_count = wrapByte (pr1.planner.lines_count + 1) ∧
      (pr2.planner.lines pr1.planner.lines_write_pos).delta
        = (backlashPrologue cfg ms pr1.backlashDir
            (pr1.planner.lines pr1.planner.lines_write_pos)).delta ∧
      (pr2.planner.lines pr1.planner.lines_write_pos).flags.checkEndstops
        = (pr1.planner.lines pr1.planner.lines_write_pos).flags.checkEndstops ∧
      (pr2.planner.lines (nextPlannerIndex cfg pr1.planner.lines_write_pos)).delta
        = (pr1.planner.lines pr1.planner.lines_write_pos).delta ∧
      (pr2.planner.lines (nextPlannerIndex cfg pr1.planner.lines_write_pos)).dir
        = (pr1.planner.lines pr1.planner.lines_write_pos).dir ∧
      (pr2.planner.lines (nextPlannerIndex cfg
          pr1.planner.lines_write_pos)).flags.checkEndstops
        = (pr1.planner.lines pr1.planner.lines_write_pos).flags.checkEndstops := by
  have hne : pr1.planner.lines_write_pos ≠ nextPlannerIndex cfg pr1.planner.lines_write_pos := by
    unfold nextPlannerIndex; split_ifs <;> omega
  unfold queueMoveBacklash
  rw [if_neg (by omega)]
  simp only [wpos2_eq_next cfg _ hN hwp]
  have hA : setLine pr1.planner.lines (nextPlannerIndex cfg pr1.planner.lines_write_pos)
      (pr1.planner.lines pr1.planner.lines_write_pos) pr1.planner.lines_write_pos
      = pr1.planner.lines pr1.planner.lines_write_pos := by
    simp only [setLine, if_neg hne]
  simp only [hA]
  generalize hB : setLine (setLine pr1.planner.lines
      (nextPlannerIndex cfg pr1.planner.lines_write_pos)
      (pr1.planner.lines pr1.planner.lines_write_pos)) pr1.planner.lines_write_pos
      (backlashPrologue cfg ms pr1.backlashDir
        (pr1.planner.lines pr1.planner.lines_write_pos)) = lsB
  have hBw : lsB pr1.planner.lines_write_pos
      = backlashPrologue cfg ms pr1.backlashDir
          (pr1.planner.lines pr1.planner.lines_write_pos) := by
    rw [← hB]; simp only [setLine, if_true]
  have hBn : lsB (nextPlannerIndex cfg pr1.planner.lines_write_pos)
      = pr1.planner.lines pr1.planner.lines_write_pos := by
    rw [← hB]; simp only [setLine, if_neg (Ne.symm hne), if_true]
  obtain ⟨s1, h1, e1, e2, e3, _⟩ := calculate_move_returns cfg
    { pr1.planner with lines := lsB }
    (fun i => (backlashDiff ms pr1.backlashDir
      (pr1.planner.lines pr1.planner.lines_write_pos).dir).get i) pathOptimize hpos hwp
  have hk := calculate_move_keeps cfg _ s1 _ pathOptimize h1
  rw [h1]
  refine ⟨_, rfl, e1, e3, e2, ?_, ?_, ?_, ?_, ?_⟩
  · exact ((hk _).2.1).trans (congrArg PrintLine.delta hBw)
  · exact ((hk _).1).trans (congrArg (fun x => x.flags.checkEndstops) hBw)
  · exact ((hk _).2.1).trans (congrArg PrintLine.delta hBn)
  · exact ((hk _).2.2).trans (congrArg PrintLine.dir hBn)
  · exact ((hk _).1).trans (congrArg (fun x => x.flags.checkEndstops) hBn)

/-- The end of `queue_move` returns for a move with steps on X, Y or Z: the move in the write
slot is queued, and every line of the cache keeps its flag `checkEndstops`, its `delta` and its
`dir`. -/
theorem queueMoveFinish_spec (cfg : Config) (pr2 : CartesianPrinter) (axis_diff : Vec4 ℚ)
    (pathOptimize : Bool) (hwp : pr2.planner.lines_write_pos < cfg.moveCacheSize)
    (hpos : pr2.planner.lines_pos < cfg.moveCacheSize)
    (hmv : (pr2.planner.lines pr2.planner.lines_write_pos).dir &&& 112 ≠ 0) :
    ∃ pr3, queueMoveFinish cfg pr2 axis_diff pathOptimize = some pr3 ∧
      pr3.planner.lines_write_pos = nextPlannerIndex cfg pr2.planner.lines_write_pos ∧
      pr3.planner.lines_count = wrapByte (pr2.planner.lines_count + 1) ∧
      pr3.backlashDir = pr2.backlashDir ∧
      ∀ j, (pr3.planner.lines j).flags.checkEndstops = (pr2.planner.lines j).flags.checkEndstops ∧
        (pr3.planner.lines j).delta = (pr2.planner.lines j).delta ∧
        (pr3.planner.lines j).dir = (pr2.planner.lines j).dir := by
  obtain ⟨d, hd⟩ : ∃ d, queueMoveDistance cfg
      (setPrimaryAxis (pr2.planner.lines pr2.planner.lines_write_pos)).dir axis_diff
      = some d := by
    have hb : ((pr2.planner.lines pr2.planner.lines_write_pos).dir &&& 112 != 0) = true := by
      simpa using hmv
    have hb2 : ((setPrimaryAxis (pr2.planner.lines pr2.planner.lines_write_pos)).dir
        &&& 112 != 0) = true := hb
    unfold queueMoveDistance
    rw [if_pos hb2]
    simp only []
    split_ifs <;> exact ⟨_, rfl⟩
  unfold queueMoveFinish
  simp only []
  rw [hd]
  simp only []
  obtain ⟨s1, h1, e1, e2, _⟩ := calculate_move_returns cfg
    { pr2.planner with
      lines := setLine pr2.planner.lines pr2.planner.lines_write_pos
        { setPrimaryAxis (pr2.planner.lines pr2.planner.lines_write_pos) with distance := d } }
    (fun i => axis_diff.get i) pathOptimize hpos hwp
  have hk := calculate_move_keeps cfg _ s1 _ pathOptimize h1
  rw [h1]
  refine ⟨_, rfl, e1, e2, rfl, ?_⟩
  intro j
  have hj : (setLine pr2.planner.lines pr2.planner.lines_write_pos
      { setPrimaryAxis (pr2.planner.lines pr2.planner.lines_write_pos) with distance := d }
      j).flags.checkEndstops = (pr2.planner.lines j).flags.checkEndstops ∧
      (setLine pr2.planner.lines pr2.planner.lines_write_pos
      { setPrimaryAxis (pr2.planner.lines pr2.planner.lines_write_pos) with distance := d }
      j).delta = (pr2.planner.lines j).delta ∧
      (setLine pr2.planner.lines pr2.planner.lines_write_pos
      { setPrimaryAxis (pr2.planner.lines pr2.planner.lines_write_pos) with distance := d }
      j).dir = (pr2.planner.lines j).dir := by
    by_cases c : j = pr2.planner.lines_write_pos
    · subst c
      simp only [setLine, if_true]
      exact ⟨rfl, rfl, rfl⟩
    · simp only [setLine, if_neg c]
      exact ⟨trivial, trivial, trivial⟩
  exact ⟨((hk j).1).trans hj.1, ((hk j).2.1).trans hj.2.1, ((hk j).2.2).trans hj.2.2⟩

/-- C34, on the code: when `queue_move(check_endstops, pathOptimize)` synthesises a backlash
prologue (backlash compensation compiled in, a move with steps on X, Y or Z whose direction
bits differ from `backlashDir` on a compensated axis, two free cache entries), it returns, the
prologue stands at the old write position and the move right after it, the X/Y/Z deltas of the
prologue are the magnitudes of `(long)(backlash_i * axis_steps_per_unit[i])` on the axes whose
direction bit changed and 0 elsewhere, and the prologue carries the flag `checkEndstops`
exactly when `check_endstops` was passed: the flag is set for the move and the prologue alike. -/
theorem queue_move_backlash_prologue_keeps_check_endstops (cfg : Config) (ms : MoveSettings)
    (pr : CartesianPrinter) (check_endstops pathOptimize : Bool)
    (hN : cfg.moveCacheSize ≤ 256)
    (h0 : pr.planner.lines_count < cfg.moveCacheSize)
    (hc : (queueMoveStart cfg ms pr check_endstops pathOptimize).1.planner.lines_count + 1
      < cfg.moveCacheSize)
    (hwp : (queueMoveStart cfg ms pr check_endstops pathOptimize).1.planner.lines_write_pos
      < cfg.moveCacheSize)
    (hpos : (queueMoveStart cfg ms pr check_endstops pathOptimize).1.planner.lines_pos
      < cfg.moveCacheSize)
    (hen : ms.enableBacklashCompensation = true)
    (hmv : ((queueMoveStart cfg ms pr check_endstops pathOptimize).1.planner.lines
      (queueMoveStart cfg ms pr check_endstops pathOptimize).1.planner.lines_write_pos).dir
        &&& 112 ≠ 0)
    (hch : ((((queueMoveStart cfg ms pr check_endstops pathOptimize).1.planner.lines
      (queueMoveStart cfg ms pr check_endstops pathOptimize).1.planner.lines_write_pos).dir
        &&& 7) ^^^ (pr.backlashDir &&& 7)) &&& (pr.backlashDir >>> 3) ≠ 0) :
    ∃ pr3, queue_move cfg ms pr check_endstops pathOptimize = some pr3 ∧
      pr3.planner.lines_write_pos
        = nextPlannerIndex cfg (nextPlannerIndex cfg
            (queueMoveStart cfg ms pr check_endstops pathOptimize).1.planner.lines_write_pos) ∧
      (pr3.planner.lines
          (queueMoveStart cfg ms pr check_endstops pathOptimize).1.planner.lines_write_pos).delta
        = (backlashPrologue cfg ms pr.backlashDir
            ((queueMoveStart cfg ms pr check_endstops pathOptimize).1.planner.lines
              (queueMoveStart cfg ms pr check_endstops
                pathOptimize).1.planner.lines_write_pos)).delta ∧
      (pr3.planner.lines
          (queueMoveStart cfg ms pr check_endstops
            pathOptimize).1.planner.lines_write_pos).flags.checkEndstops = check_endstops ∧
      (pr3.planner.lines (nextPlannerIndex cfg
          (queueMoveStart cfg ms pr check_endstops pathOptimize).1.planner.lines_write_pos)).delta
        = ((queueMoveStart cfg ms pr check_endstops pathOptimize).1.planner.lines
            (queueMoveStart cfg ms pr check_endstops
              pathOptimize).1.planner.lines_write_pos).delta ∧
      (pr3.planner.lines (nextPlannerIndex cfg
          (queueMoveStart cfg ms pr check_endstops
            pathOptimize).1.planner.lines_write_pos)).flags.checkEndstops = check_endstops := by
  have hbd : (queueMoveStart cfg ms pr check_endstops pathOptimize).1.backlashDir
      = pr.backlashDir := rfl
  have hfl : ((queueMoveStart cfg ms pr check_endstops pathOptimize).1.planner.lines
      (queueMoveStart cfg ms pr check_endstops
        pathOptimize).1.planner.lines_write_pos).flags.checkEndstops = check_endstops := by
    simp only [queueMoveStart, setLine, if_true]
  generalize hst : queueMoveStart cfg ms pr check_endstops pathOptimize = st at *
  obtain ⟨pr2, hb, b1, b2, b3, b4, b5, b6, b7, b8⟩ :=
    queueMoveBacklash_spec cfg ms st.1 pathOptimize hN hc hwp hpos
  have hmv2 : (pr2.planner.lines pr2.planner.lines_write_pos).dir &&& 112 ≠ 0 := by
    rw [b1, b7]; exact hmv
  obtain ⟨pr3, hf, f1, f2, f3, f4⟩ := queueMoveFinish_spec cfg pr2 st.2.1 pathOptimize
    (by rw [b1]; exact nextPlannerIndex_lt cfg _ hwp) (by rw [b2]; exact hpos) hmv2
  refine ⟨pr3, ?_, ?_, ?_, ?_, ?_, ?_⟩
  · unfold queue_move
    rw [if_neg (by omega)]
    simp only []
    rw [hst, if_neg (moving_of_xyz_moving _ hmv), hbd, if_pos ⟨hen, hmv, hch⟩, hb]
    exact hf
  · rw [f1, b1]
  · rw [(f4 _).2.1, b4, hbd]
  · rw [(f4 _).1, b5, hfl]
  · rw [(f4 _).2.1, b6]
  · rw [(f4 _).1, b8, hfl]

/-- C34 at a concrete call: the printer stands at the origin with an empty cache, X has
0.05 mm of backlash at 80 steps/mm and moved in -X last; `queue_move(true, true)` towards 400
steps in +X queues the prologue in slot 0 with deltas (4, 0, 0, 0) and the move in slot 1 with
deltas (400, 0, 0, 0), and the prologue has `checkEndstops` set. -/
theorem queue_move_backlash_prologue_keeps_check_endstops_witness :
    ∃ pr3, queue_move sampleConfig backlashSettings reversingPrinter true true = some pr3 ∧
      pr3.planner.lines_write_pos = 2 ∧
      (pr3.planner.lines 0).delta = ⟨4, 0, 0, 0⟩ ∧
      (pr3.planner.lines 0).flags.checkEndstops = true ∧
      (pr3.planner.lines 1).delta = ⟨400, 0, 0, 0⟩ ∧
      (pr3.planner.lines 1).flags.checkEndstops = true := by
  obtain ⟨pr3, h1, h2, h3, h4, h5, h6⟩ :=
    queue_move_backlash_prologue_keeps_check_endstops sampleConfig backlashSettings
      reversingPrinter true true (by decide) (by decide) (by decide) (by decide) (by decide)
      rfl (by decide) (by decide)
  have w : (queueMoveStart sampleConfig backlashSettings reversingPrinter true
      true).1.planner.lines_write_pos = 0 := by decide
  have d0 : (backlashPrologue sampleConfig backlashSettings reversingPrinter.backlashDir
      ((queueMoveStart sampleConfig backlashSettings reversingPrinter true true).1.planner.lines
        0)).delta = ⟨4, 0, 0, 0⟩ := by decide!
  have d1 : ((queueMoveStart sampleConfig backlashSettings reversingPrinter true
      true).1.planner.lines 0).delta = ⟨400, 0, 0, 0⟩ := by decide!
  rw [w] at h2 h3 h4 h5 h6
  exact ⟨pr3, h1, h2, h3.trans d0, h4, h5.trans d1, h6⟩

/-! ## Pure Z delta moves (C21) -/

/-- C21, evaluated on the code: a pure +Z delta move of 1507305 = 23 * 65535 steps with
`MAX_DELTA_SEGMENTS_PER_LINE = 22` gets `segment_count = 23`, `num_lines = 2` and
`segments_per_line = 23 / 2 = 11`, so 22 sub-segments share the way.  The first line ends at
`z = 1507305 * 1 / 2 = 753652`; `calculate_delta_segments` splits it into 11 sub-segments of
68513 or 68514 tower steps each (the towers go from 17320 to 770972), reports 33 overflows
(`DEBUG_DELTA_OVERFLOW`), stores the 16 bit remainders 2977 in the first segment and returns
`max_axis_move = 2978`. -/
theorem pure_z_split_exceeds_tower_step_width :
    (∀ d, splitCounts deltaPrinterConfig sampleDelta 79 d ⟨0, 0, 1507305, 0⟩
      = { segment_count := 23, num_lines := 2, segments_per_line := 11 }) ∧
    wrapLong (0 + Int.tdiv (wrapLong (1507305 * 1)) 2) = pureZLine.destinationSteps.get 2 ∧
    (pureZLine.planner.lines pureZLine.planner.lines_write_pos).numDeltaSegments = 11 ∧
    pureZLine.currentDeltaPositionSteps = ⟨17320, 17320, 17320, 0⟩ ∧
    (calculate_delta_segments deltaPrinterConfig sampleDelta pureZLine false).map
      (fun r => (r.2, r.1.output, (r.1.segments 0).deltaSteps, r.1.delta_segment_count,
        r.1.currentDeltaPositionSteps))
      = some (2978, 33, ⟨2977, 2977, 2977, 0⟩, 11, ⟨770972, 770972, 770972, 0⟩) ∧
    (770972 - 17320 : Int) = 11 * 68513 + 9 := by
  refine ⟨fun d => ?_, ?_, ?_, ?_, ?_, ?_⟩
  · rfl
  · decide
  · decide
  · decide
  · decide!
  · decide

/-! ## The delta split lands on its target (C39) -/

/-- The sub-segment loop of `calculate_delta_segments` leaves the move cache, the Cartesian
positions, the filament counter and `lastMoveID` alone. -/
theorem deltaSegmentsLoop_frame (cfg : Config) (dc : DeltaConfig) (softEndstop : Bool) :
    ∀ (n : Nat) (st st1 : DeltaSegmentsState),
      deltaSegmentsLoop cfg dc softEndstop n st = some st1 →
      st1.printer.planner = st.printer.planner ∧
      st1.printer.currentPositionSteps = st.printer.currentPositionSteps ∧
      st1.printer.destinationSteps = st.printer.destinationSteps ∧
      st1.printer.lastMoveID = st.printer.lastMoveID ∧
      st1.printer.filamentPrinted = st.printer.filamentPrinted := by
  intro n
  induction n with
  | zero =>
    intro st st1 h
    unfold deltaSegmentsLoop at h
    cases h
    exact ⟨rfl, rfl, rfl, rfl, rfl⟩
  | succ s ih =>
    intro st st1 h
    unfold deltaSegmentsLoop at h
    simp only [] at h
    by_cases hc : st.printer.delta_segment_count + st.produced_segments ≥ dc.deltaCacheSize
    · rw [if_pos hc] at h; cases h
    · rw [if_neg hc] at h
      have h2 := ih _ _ h
      refine ⟨h2.1.trans ?_, h2.2.1.trans ?_, h2.2.2.1.trans ?_, h2.2.2.2.1.trans ?_,
        h2.2.2.2.2.trans ?_⟩ <;> (split_ifs <;> rfl)

/-- The function `calculate_delta_segments` changes the field `deltaSegmentReadPos` of the line
at the write position and nothing else in the move cache; it leaves the Cartesian positions and
`lastMoveID` alone. -/
theorem calculate_delta_segments_frame (cfg : Config) (dc : DeltaConfig) (pr pr2 : DeltaPrinter)
    (softEndstop : Bool) (m : Int)
    (h : calculate_delta_segments cfg dc pr softEndstop = some (pr2, m)) :
    pr2.planner = { pr.planner with
      lines := upd pr.planner.lines pr.planner.lines_write_pos
        (fun l => { l with deltaSegmentReadPos := pr.delta_segment_write_pos }) } ∧
    pr2.currentPositionSteps = pr.currentPositionSteps ∧
    pr2.destinationSteps = pr.destinationSteps ∧
    pr2.lastMoveID = pr.lastMoveID := by
  unfold calculate_delta_segments at h
  simp only [] at h
  generalize hn : (wrapInt ((upd pr.planner.lines pr.planner.lines_write_pos
      (fun l => { l with deltaSegmentReadPos := pr.delta_segment_write_pos })
      pr.planner.lines_write_pos).numDeltaSegments : Int)).toNat = n at h
  rcases hl : deltaSegmentsLoop cfg dc softEndstop n
      { printer := { pr with planner := { pr.planner with
          lines := upd pr.planner.lines pr.planner.lines_write_pos
            (fun l => { l with deltaSegmentReadPos := pr.delta_segment_write_pos }) } },
        destination_steps := { pr.currentPositionSteps with e := 0 },
        destination_delta_steps := ⟨0, 0, 0, 0⟩,
        max_axis_move := 0, produced_segments := 0 } with _ | st
  · rw [hl] at h; cases h
  · rw [hl] at h
    simp only [] at h
    cases h
    obtain ⟨f1, f2, f3, f4, _⟩ := deltaSegmentsLoop_frame cfg dc softEndstop n _ st hl
    exact ⟨f1, f2, f3, f4⟩

/-- The advance block keeps `moveID`. -/
theorem advanceStep_moveID (cfg : Config) (l4 : PrintLine) (fi ap : Nat) :
    (advanceStep cfg l4 fi ap).moveID = l4.moveID := by
  unfold advanceStep
  simp only []
  split_ifs <;> rfl

/-- The nominal test keeps `moveID`. -/
theorem nominalStep_moveID (cfg : Config) (l3 : PrintLine) :
    (nominalStep cfg l3).moveID = l3.moveID := by
  unfold nominalStep
  split_ifs <;> rfl

/-- The halfstep block keeps `moveID`. -/
theorem halfstepStep_moveID (cfg : Config) (critical : Bool) (l : PrintLine) :
    (halfstepStep cfg critical l).moveID = l.moveID := by
  unfold halfstepStep
  simp only []
  split_ifs <;> rfl

/-- Every line of the cache keeps its `moveID` through `calculate_move`. -/
theorem calculate_move_moveID (cfg : Config) (s s1 : Planner) (axis_diff : Nat → ℚ)
    (pathOptimize : Bool) (h : calculate_move cfg s axis_diff pathOptimize = some s1) (j : Nat) :
    (s1.lines j).moveID = (s.lines j).moveID := by
  by_cases hj : j = s.lines_write_pos
  · subst hj
    obtain ⟨l, hst, hL⟩ := calculate_move_line cfg s s1 axis_diff pathOptimize h
    rw [calculateMoveLine_stages] at hst
    have e1 : l.moveID = (advanceStep cfg (nominalStep cfg
        (moveProfile cfg s.lines_count (s.lines s.lines_write_pos) axis_diff))
        (moveProfile cfg s.lines_count (s.lines s.lines_write_pos) axis_diff).fullInterval
        (moveProfile cfg s.lines_count (s.lines s.lines_write_pos)
          axis_diff).accelerationPrim).moveID := by
      have g : ∀ x : PrintLine, x.moveID = x.staticPart.moveID := fun _ => rfl
      rw [g l, hst, ← g]
    rw [hL, halfstepStep_moveID, e1, advanceStep_moveID, nominalStep_moveID]
    rfl
  · unfold calculate_move at h
    simp only [] at h
    rcases hu : updateTrapezoids cfg
        { s with lines := (setLine s.lines s.lines_write_pos
          (calculateMoveLine cfg s.lines_count (s.lines s.lines_write_pos) axis_diff).1) }
        s.lines_write_pos with _ | s2
    · rw [hu] at h; cases h
    · rw [hu] at h
      simp only [] at h
      cases h
      have hs := updateTrapezoids_static cfg _ s2 _ hu j
      simp only [setLine, if_neg hj] at hs ⊢
      have g : ∀ x : PrintLine, x.moveID = x.staticPart.moveID := fun _ => rfl
      rw [g (s2.lines j), hs, ← g]

/-- The quotient `d * k / n` of C, for `0 <= k <= n`, is not larger in magnitude than `d`. -/
theorem tdiv_mul_natAbs_le (d k n : Int) (hk0 : 0 ≤ k) (hk : k ≤ n) :
    (Int.tdiv (d * k) n).natAbs ≤ d.natAbs := by
  rw [Int.natAbs_tdiv, Int.natAbs_mul]
  apply Nat.div_le_of_le_mul
  have : k.natAbs ≤ n.natAbs := by omega
  calc d.natAbs * k.natAbs ≤ d.natAbs * n.natAbs := Nat.mul_le_mul_left _ this
    _ = n.natAbs * d.natAbs := Nat.mul_comm _ _

/-- One axis of one pass of the line loop of `split_delta_move` without overflow: the
intermediate target is `start + difference * line_number / num_lines`, and adding the
fractional steps to the current position lands on it. -/
theorem split_axis_target (s d n k cur : Int) (hk0 : 0 ≤ k) (hk : k ≤ n)
    (hs : s.natAbs < 536870912) (hd : d.natAbs < 536870912)
    (hdn : d.natAbs * n.natAbs < 2147483648) (hcur : (cur - s).natAbs ≤ d.natAbs) :
    wrapLong (s + Int.tdiv (wrapLong (d * k)) n) = s + Int.tdiv (d * k) n ∧
    wrapLong (cur + wrapLong (s + Int.tdiv (d * k) n - cur)) = s + Int.tdiv (d * k) n := by
  have ht := tdiv_mul_natAbs_le d k n hk0 hk
  have hdk : (d * k).natAbs < 2147483648 := by
    rw [Int.natAbs_mul]
    have : k.natAbs ≤ n.natAbs := by omega
    exact lt_of_le_of_lt (Nat.mul_le_mul_left _ this) hdn
  have w1 : wrapLong (d * k) = d * k := wrapLong_of_range _ (by omega) (by omega)
  rw [w1]
  generalize Int.tdiv (d * k) n = t at ht ⊢
  have w2 : wrapLong (s + t) = s + t := wrapLong_of_range _ (by omega) (by omega)
  have w3 : wrapLong (s + t - cur) = s + t - cur := wrapLong_of_range _ (by omega) (by omega)
  rw [w2, w3]
  exact ⟨rfl, (wrapLong_of_range _ (by omega) (by omega)).trans (by omega)⟩

/-- The write position after `calculate_move`. -/
theorem calculate_move_write_pos (cfg : Config) (s s1 : Planner) (axis_diff : Nat → ℚ)
    (pathOptimize : Bool) (h : calculate_move cfg s axis_diff pathOptimize = some s1) :
    s1.lines_write_pos = nextPlannerIndex cfg s.lines_write_pos := by
  unfold calculate_move at h
  simp only [] at h
  rcases hu : updateTrapezoids cfg
      { s with lines := (setLine s.lines s.lines_write_pos
        (calculateMoveLine cfg s.lines_count (s.lines s.lines_write_pos) axis_diff).1) }
      s.lines_write_pos with _ | s2
  · rw [hu] at h; cases h
  · rw [hu] at h
    simp only [] at h
    cases h
    rfl

/-- The fold of the first loop of one pass of the line loop writes all four entries. -/
theorem splitLineDest_many (c : SplitCounts) (difference start_position : Vec4 Int)
    (pr : DeltaPrinter) (k : Int) (hn : c.num_lines ≠ 1) :
    splitLineDest c difference start_position pr k
      = ⟨wrapLong (start_position.get 0 + Int.tdiv (wrapLong (difference.get 0 * k)) c.num_lines),
         wrapLong (start_position.get 1 + Int.tdiv (wrapLong (difference.get 1 * k)) c.num_lines),
         wrapLong (start_position.get 2 + Int.tdiv (wrapLong (difference.get 2 * k)) c.num_lines),
         wrapLong (start_position.get 3
           + Int.tdiv (wrapLong (difference.get 3 * k)) c.num_lines)⟩ := by
  unfold splitLineDest
  rw [if_neg hn]
  rfl

/-- The targets of the lines stay within `|difference|` of the start position. -/
theorem lineTarget_near (start_position difference : Vec4 Int) (n k : Int) (hk0 : 0 ≤ k)
    (hk : k ≤ n) (i : Nat) :
    ((lineTarget start_position difference n k).get i - start_position.get i).natAbs
      ≤ (difference.get i).natAbs := by
  have key : ∀ s d : Int, (s + Int.tdiv (d * k) n - s).natAbs ≤ d.natAbs := by
    intro s d
    have := tdiv_mul_natAbs_le d k n hk0 hk
    have e : s + Int.tdiv (d * k) n - s = Int.tdiv (d * k) n := by ring
    rw [e]
    exact this
  unfold lineTarget
  rcases i with _ | _ | _ | _ | i <;> exact key _ _

/-- The current position after one pass of the line loop without overflow: the target of the
line. -/
theorem splitLine_position (c : SplitCounts) (difference start_position : Vec4 Int)
    (pr : DeltaPrinter) (k : Int) (hk1 : 1 ≤ k) (hkn : k ≤ c.num_lines)
    (hr : splitInRange start_position difference c.num_lines)
    (hcur : pr.currentPositionSteps = lineTarget start_position difference c.num_lines (k - 1)) :
    (⟨wrapLong (pr.currentPositionSteps.get 0
        + (splitLineFractional c difference
            (splitLineDest c difference start_position pr k) pr).get 0),
      wrapLong (pr.currentPositionSteps.get 1
        + (splitLineFractional c difference
            (splitLineDest c difference start_position pr k) pr).get 1),
      wrapLong (pr.currentPositionSteps.get 2
        + (splitLineFractional c difference
            (splitLineDest c difference start_position pr k) pr).get 2),
      wrapLong (pr.currentPositionSteps.get 3
        + (splitLineFractional c difference
            (splitLineDest c difference start_position pr k) pr).get 3)⟩ : Vec4 Int)
      = lineTarget start_position difference c.num_lines k := by
  by_cases hn : c.num_lines = 1
  · have hk : k = 1 := by omega
    subst hk
    unfold splitLineFractional
    rw [if_pos hn, hcur, hn]
    unfold lineTarget
    simp only [sub_self, mul_zero, Int.zero_tdiv, add_zero, mul_one, Int.tdiv_one, Vec4.get]
    have h0 := hr 0 (by decide)
    have h1 := hr 1 (by decide)
    have h2 := hr 2 (by decide)
    have h3 := hr 3 (by decide)
    simp only [Vec4.get] at h0 h1 h2 h3
    rw [wrapLong_of_range _ (by omega) (by omega), wrapLong_of_range _ (by omega) (by omega),
      wrapLong_of_range _ (by omega) (by omega), wrapLong_of_range _ (by omega) (by omega)]
  · rw [splitLineDest_many c difference start_position pr k hn]
    unfold splitLineFractional
    rw [if_neg hn, hcur]
    have near := lineTarget_near start_position difference c.num_lines (k - 1) (by omega)
      (by omega)
    have a0 := split_axis_target (start_position.get 0) (difference.get 0) c.num_lines k
      ((lineTarget start_position difference c.num_lines (k - 1)).get 0) (by omega) hkn
      (hr 0 (by decide)).1 (hr 0 (by decide)).2.1 (hr 0 (by decide)).2.2 (near 0)
    have a1 := split_axis_target (start_position.get 1) (difference.get 1) c.num_lines k
      ((lineTarget start_position difference c.num_lines (k - 1)).get 1) (by omega) hkn
      (hr 1 (by decide)).1 (hr 1 (by decide)).2.1 (hr 1 (by decide)).2.2 (near 1)
    have a2 := split_axis_target (start_position.get 2) (difference.get 2) c.num_lines k
      ((lineTarget start_position difference c.num_lines (k - 1)).get 2) (by omega) hkn
      (hr 2 (by decide)).1 (hr 2 (by decide)).2.1 (hr 2 (by decide)).2.2 (near 2)
    have a3 := split_axis_target (start_position.get 3) (difference.get 3) c.num_lines k
      ((lineTarget start_position difference c.num_lines (k - 1)).get 3) (by omega) hkn
      (hr 3 (by decide)).1 (hr 3 (by decide)).2.1 (hr 3 (by decide)).2.2 (near 3)
    show (⟨wrapLong (_ + wrapLong (wrapLong _ - _)), wrapLong (_ + wrapLong (wrapLong _ - _)),
      wrapLong (_ + wrapLong (wrapLong _ - _)), wrapLong (_ + wrapLong (wrapLong _ - _))⟩
      : Vec4 Int) = _
    rw [a0.1, a1.1, a2.1, a3.1, a0.2, a1.2, a2.2, a3.2]
    rfl

/-- The commit of one pass of the line loop, when it queues the line: the planner is the one
returned by `calculate_move`, the current position has the fractional steps added, and
everything else is as `calculate_delta_segments` left it. -/
theorem splitLineCommit_spec (cfg : Config) (pathOptimize : Bool) (c : SplitCounts) (wp : Nat)
    (axis_diff : Vec4 ℚ) (fractional_steps : Vec4 Int) (pr2 : DeltaPrinter)
    (max_delta_step : Int) (st : SplitState)
    (h : splitLineCommit cfg pathOptimize c wp axis_diff fractional_steps pr2 max_delta_step
      = some st) (hret : st.returned = false) :
    ∃ p1 ad pl, p1.moveID = (pr2.planner.lines wp).moveID ∧
      calculate_move cfg { pr2.planner with lines := setLine pr2.planner.lines wp p1 } ad
        pathOptimize = some pl ∧
      st.printer = { pr2 with
        planner := pl,
        currentPositionSteps :=
          ⟨wrapLong (pr2.currentPositionSteps.get 0 + fractional_steps.get 0),
           wrapLong (pr2.currentPositionSteps.get 1 + fractional_steps.get 1),
           wrapLong (pr2.currentPositionSteps.get 2 + fractional_steps.get 2),
           wrapLong (pr2.currentPositionSteps.get 3 + fractional_steps.get 3)⟩ } := by
  unfold splitLineCommit at h
  simp only [] at h
  by_cases hz : wrapLong (max_delta_step * c.segments_per_line) = 0
      ∧ (pr2.planner.lines wp).delta.get 3 = 0
  · rw [if_pos hz] at h
    cases h
    cases hret
  · rw [if_neg hz] at h
    by_cases hv : wrapLong (max_delta_step * c.segments_per_line)
        > (pr2.planner.lines wp).delta.get 3
    · simp only [if_pos hv] at h
      split at h
      · cases h
      · rename_i pl hcm
        cases h
        refine ⟨_, _, pl, ?_, hcm, ?_⟩ <;> rfl
    · simp only [if_neg hv] at h
      split at h
      · cases h
      · rename_i pl hcm
        cases h
        refine ⟨_, _, pl, ?_, hcm, ?_⟩ <;> rfl

/-- One pass of the line loop of `split_delta_move` that queues a line: the current position
moves from the target of the previous line to the target of this line, `lastMoveID` stays, the
line written at the write position carries `moveID = lastMoveID`, the other lines keep their
`moveID`, and the write position advances. -/
theorem splitLineStep_spec (cfg : Config) (dc : DeltaConfig)
    (check_endstops pathOptimize softEndstop : Bool) (c : SplitCounts) (save_dir : Nat)
    (save_delta : Vec4 Int) (save_distance : ℚ) (difference start_position : Vec4 Int)
    (axis_diff0 : Vec4 ℚ) (pr : DeltaPrinter) (k : Int) (st : SplitState)
    (hk1 : 1 ≤ k) (hkn : k ≤ c.num_lines)
    (hr : splitInRange start_position difference c.num_lines)
    (hcur : pr.currentPositionSteps = lineTarget start_position difference c.num_lines (k - 1))
    (h : splitLineStep cfg dc check_endstops pathOptimize softEndstop c save_dir save_delta
      save_distance difference start_position axis_diff0 pr k = some st)
    (hret : st.returned = false) :
    st.printer.currentPositionSteps = lineTarget start_position difference c.num_lines k ∧
    st.printer.lastMoveID = pr.lastMoveID ∧
    st.printer.planner.lines_write_pos = nextPlannerIndex cfg pr.planner.lines_write_pos ∧
    (st.printer.planner.lines pr.planner.lines_write_pos).moveID = pr.lastMoveID ∧
    (∀ j, j ≠ pr.planner.lines_write_pos →
      (st.printer.planner.lines j).moveID = (pr.planner.lines j).moveID) := by
  unfold splitLineStep at h
  by_cases hc : pr.planner.lines_count ≥ cfg.moveCacheSize
  · rw [if_pos hc] at h; cases h
  · rw [if_neg hc] at h
    simp only [] at h
    split at h
    · cases h
    · rename_i pr2 m hcds
      obtain ⟨f1, f2, _, f4⟩ := calculate_delta_segments_frame cfg dc _ pr2 softEndstop m hcds
      obtain ⟨p1, ad, pl, hm, hcm, hst⟩ := splitLineCommit_spec cfg pathOptimize c _ _ _ pr2 m st
        h hret
      have hw := calculate_move_write_pos cfg _ pl ad pathOptimize hcm
      have hid := calculate_move_moveID cfg _ pl ad pathOptimize hcm
      rw [hst]
      refine ⟨?_, f4, ?_, ?_, ?_⟩
      · show (⟨wrapLong (pr2.currentPositionSteps.get 0 + _),
          wrapLong (pr2.currentPositionSteps.get 1 + _),
          wrapLong (pr2.currentPositionSteps.get 2 + _),
          wrapLong (pr2.currentPositionSteps.get 3 + _)⟩ : Vec4 Int) = _
        rw [f2]
        exact splitLine_position c difference start_position pr k hk1 hkn hr hcur
      · show pl.lines_write_pos = _
        rw [hw]
        show nextPlannerIndex cfg pr2.planner.lines_write_pos = _
        rw [f1]
      · show (pl.lines pr.planner.lines_write_pos).moveID = _
        rw [hid]
        show (setLine pr2.planner.lines pr.planner.lines_write_pos p1
          pr.planner.lines_write_pos).moveID = _
        simp only [setLine, if_true]
        rw [hm, f1]
        show (upd _ pr.planner.lines_write_pos _ pr.planner.lines_write_pos).moveID = _
        rw [upd_same]
        simp only [setLine, if_true]
        rfl
      · intro j hj
        show (pl.lines j).moveID = _
        rw [hid]
        show (setLine pr2.planner.lines pr.planner.lines_write_pos p1 j).moveID = _
        simp only [setLine, if_neg hj]
        rw [f1]
        show (upd _ pr.planner.lines_write_pos _ j).moveID = _
        rw [upd_other _ _ _ _ hj]
        simp only [setLine, if_neg hj]

/-- The line loop of `split_delta_move`, when every pass queues its line: started at line
`k` with the current position on the target of line `k - 1`, it ends on the target of the
last line; `lastMoveID` stays; the lines written at the `n` cache positions from the write
position on carry `moveID = lastMoveID`, and all other lines keep their `moveID`. -/
theorem splitLineLoop_spec (cfg : Config) (dc : DeltaConfig)
    (check_endstops pathOptimize softEndstop : Bool) (c : SplitCounts) (save_dir : Nat)
    (save_delta : Vec4 Int) (save_distance : ℚ) (difference start_position : Vec4 Int)
    (axis_diff0 : Vec4 ℚ) (hr : splitInRange start_position difference c.num_lines) :
    ∀ (n : Nat) (k : Int) (pr : DeltaPrinter) (st : SplitState),
      1 ≤ k → k + n = c.num_lines + 1 →
      pr.currentPositionSteps = lineTarget start_position difference c.num_lines (k - 1) →
      splitLineLoop cfg dc check_endstops pathOptimize softEndstop c save_dir save_delta
        save_distance difference start_position axis_diff0 n k pr = some st →
      st.returned = false →
      st.printer.currentPositionSteps
        = lineTarget start_position difference c.num_lines c.num_lines ∧
      st.printer.lastMoveID = pr.lastMoveID ∧
      (∀ i, i < n →
        (st.printer.planner.lines
          ((nextPlannerIndex cfg)^[i] pr.planner.lines_write_pos)).moveID = pr.lastMoveID) ∧
      (∀ j, (∀ i, i < n → j ≠ (nextPlannerIndex cfg)^[i] pr.planner.lines_write_pos) →
        (st.printer.planner.lines j).moveID = (pr.planner.lines j).moveID) := by
  intro n
  induction n with
  | zero =>
    intro k pr st _ hkn hcur h _
    unfold splitLineLoop at h
    cases h
    have e : k - 1 = c.num_lines := by omega
    rw [e] at hcur
    exact ⟨hcur, rfl, fun i hi => absurd hi (Nat.not_lt_zero i), fun _ _ => rfl⟩
  | succ n ih =>
    intro k pr st hk1 hkn hcur h hret
    unfold splitLineLoop at h
    split at h
    · cases h
    · rename_i st1 hstep
      by_cases hr1 : st1.returned = true
      · rw [if_pos hr1] at h
        cases h
        rw [hr1] at hret
        cases hret
      · rw [if_neg hr1] at h
        have hr1' : st1.returned = false := by
          cases hb : st1.returned
          · rfl
          · exact absurd hb hr1
        obtain ⟨s1, s2, s3, s4, s5⟩ := splitLineStep_spec cfg dc check_endstops pathOptimize
          softEndstop c save_dir save_delta save_distance difference start_position axis_diff0
          pr k st1 hk1 (by omega) hr hcur hstep hr1'
        have hcur1 : st1.printer.currentPositionSteps
            = lineTarget start_position difference c.num_lines (k + 1 - 1) := by
          rw [s1]
          congr 1
          omega
        obtain ⟨i1, i2, i3, i4⟩ := ih (k + 1) st1.printer st (by omega)
          (by push_cast at hkn ⊢; omega) hcur1 h hret
        rw [s3] at i3 i4
        refine ⟨i1, i2.trans s2, ?_, ?_⟩
        · intro i hi
          rcases i with _ | i
          · show (st.printer.planner.lines pr.planner.lines_write_pos).moveID = _
            by_cases hex : ∃ i', i' < n ∧ pr.planner.lines_write_pos
                = (nextPlannerIndex cfg)^[i'] (nextPlannerIndex cfg pr.planner.lines_write_pos)
            · obtain ⟨i', hi', he⟩ := hex
              have := i3 i' hi'
              rw [← he] at this
              exact this.trans s2
            · have : ∀ i', i' < n → pr.planner.lines_write_pos
                  ≠ (nextPlannerIndex cfg)^[i']
                    (nextPlannerIndex cfg pr.planner.lines_write_pos) :=
                fun i' hi' he => hex ⟨i', hi', he⟩
              exact (i4 _ this).trans s4
          · rw [Function.iterate_succ_apply]
            exact (i3 i (by omega)).trans s2
        · intro j hj
          have hj0 : j ≠ pr.planner.lines_write_pos := hj 0 (by omega)
          have hjs : ∀ i, i < n → j ≠ (nextPlannerIndex cfg)^[i]
              (nextPlannerIndex cfg pr.planner.lines_write_pos) := by
            intro i hi
            have := hj (i + 1) (by omega)
            rwa [Function.iterate_succ_apply] at this
          exact (i4 j hjs).trans (s5 j hj0)

/-- The interpolation of `calculate_delta_segments` ends on the target: after the pass for the
last sub-segment the local `destination_steps` equals `Printer::destinationSteps` on X, Y and
Z, when the coordinates are below `2^30` in magnitude. -/
theorem deltaSegmentsLoop_last (cfg : Config) (dc : DeltaConfig) (softEndstop : Bool) :
    ∀ (n : Nat) (st r : DeltaSegmentsState),
      (∀ i, i < 3 → (st.printer.destinationSteps.get i).natAbs < 1073741824) →
      (∀ i, i < 3 → (st.destination_steps.get i).natAbs < 1073741824) →
      deltaSegmentsLoop cfg dc softEndstop (n + 1) st = some r →
      ∀ i, i < 3 → r.destination_steps.get i = st.printer.destinationSteps.get i := by
  have step : ∀ (D ds : Int) (s : Nat), D.natAbs < 1073741824 → ds.natAbs < 1073741824 →
      (wrapLong (ds + Int.tdiv (wrapLong (D - ds)) ((s : Int) + 1))).natAbs < 1073741824 ∧
      (s = 0 → wrapLong (ds + Int.tdiv (wrapLong (D - ds)) ((s : Int) + 1)) = D) := by
    intro D ds s hD hds
    have w1 : wrapLong (D - ds) = D - ds := wrapLong_of_range _ (by omega) (by omega)
    rw [w1]
    have ht := tdiv_mul_natAbs_le (D - ds) 1 ((s : Int) + 1) (by omega) (by omega)
    rw [mul_one] at ht
    have hsign : 0 ≤ D - ds → 0 ≤ Int.tdiv (D - ds) ((s : Int) + 1) :=
      fun h => Int.tdiv_nonneg h (by omega)
    have hsign2 : D - ds ≤ 0 → Int.tdiv (D - ds) ((s : Int) + 1) ≤ 0 := by
      intro h
      have := Int.tdiv_nonneg (a := -(D - ds)) (b := (s : Int) + 1) (by omega) (by omega)
      rw [Int.neg_tdiv] at this
      omega
    constructor
    · generalize Int.tdiv (D - ds) ((s : Int) + 1) = t at ht hsign hsign2
      have w2 : wrapLong (ds + t) = ds + t := wrapLong_of_range _ (by omega) (by omega)
      rw [w2]
      omega
    · intro hs
      subst hs
      simp only [Nat.cast_zero, zero_add, Int.tdiv_one]
      rw [wrapLong_of_range _ (by omega) (by omega)]
      omega
  intro n
  induction n with
  | zero =>
    intro st r hD hds h
    unfold deltaSegmentsLoop at h
    simp only [] at h
    by_cases hc : st.printer.delta_segment_count + st.produced_segments ≥ dc.deltaCacheSize
    · rw [if_pos hc] at h; cases h
    · rw [if_neg hc] at h
      unfold deltaSegmentsLoop at h
      cases h
      intro i hi
      have e0 := (step (st.printer.destinationSteps.get 0) (st.destination_steps.get 0) 0
        (hD 0 (by omega)) (hds 0 (by omega))).2 rfl
      have e1 := (step (st.printer.destinationSteps.get 1) (st.destination_steps.get 1) 0
        (hD 1 (by omega)) (hds 1 (by omega))).2 rfl
      have e2 := (step (st.printer.destinationSteps.get 2) (st.destination_steps.get 2) 0
        (hD 2 (by omega)) (hds 2 (by omega))).2 rfl
      simp only [Nat.cast_zero] at e0 e1 e2
      rcases i with _ | _ | _ | i
      · split_ifs <;> simpa [List.foldl, Vec4.get, Vec4.set] using e0
      · split_ifs <;> simpa [List.foldl, Vec4.get, Vec4.set] using e1
      · split_ifs <;> simpa [List.foldl, Vec4.get, Vec4.set] using e2
      · omega
  | succ n ih =>
    intro st r hD hds h
    unfold deltaSegmentsLoop at h
    simp only [] at h
    by_cases hc : st.printer.delta_segment_count + st.produced_segments ≥ dc.deltaCacheSize
    · rw [if_pos hc] at h; cases h
    · rw [if_neg hc] at h
      have b0 := (step (st.printer.destinationSteps.get 0) (st.destination_steps.get 0) (n + 1)
        (hD 0 (by omega)) (hds 0 (by omega))).1
      have b1 := (step (st.printer.destinationSteps.get 1) (st.destination_steps.get 1) (n + 1)
        (hD 1 (by omega)) (hds 1 (by omega))).1
      have b2 := (step (st.printer.destinationSteps.get 2) (st.destination_steps.get 2) (n + 1)
        (hD 2 (by omega)) (hds 2 (by omega))).1
      have := ih _ r ?_ ?_ h
      · intro i hi
        rw [this i hi]
        split_ifs <;> rfl
      · intro i hi
        split_ifs <;> exact hD i hi
      · intro i hi
        rcases i with _ | _ | _ | i
        · split_ifs <;> simpa [List.foldl, Vec4.get, Vec4.set] using b0
        · split_ifs <;> simpa [List.foldl, Vec4.get, Vec4.set] using b1
        · split_ifs <;> simpa [List.foldl, Vec4.get, Vec4.set] using b2
        · omega

/-- The method `split_delta_move` on a move with steps on X, Y or Z and a free cache entry:
the line loop, then the increment of `lastMoveID` unless a pass has returned early. -/
theorem split_delta_move_lines (cfg : Config) (dc : DeltaConfig) (pr : DeltaPrinter)
    (check_endstops pathOptimize softEndstop : Bool)
    (hd : (splitDistance cfg pr softEndstop).1 ≠ 0)
    (hx : (splitSave cfg pr softEndstop).1 &&& 112 ≠ 0)
    (hcnt : pr.planner.lines_count < cfg.moveCacheSize) :
    split_delta_move cfg dc pr check_endstops pathOptimize softEndstop
      = match splitLoopResult cfg dc pr check_endstops pathOptimize softEndstop with
        | none => none
        | some st =>
          if st.returned then some st.printer
          else some { st.printer with lastMoveID := wrapByte (st.printer.lastMoveID + 1) } := by
  have hcl : (splitClamp pr softEndstop).planner = pr.planner := by
    unfold splitClamp; split_ifs <;> rfl
  have hx2 : ((splitSave cfg pr softEndstop).1 &&& 112 == 0) = false := by
    simpa using hx
  have hcnt2 : ¬ (splitClamp pr softEndstop).planner.lines_count ≥ cfg.moveCacheSize := by
    rw [hcl]; omega
  unfold split_delta_move
  show (if (splitDistance cfg pr softEndstop).1 = 0 then _
    else if ((splitSave cfg pr softEndstop).1 &&& 112 == 0) = true then _
    else if (splitClamp pr softEndstop).planner.lines_count ≥ cfg.moveCacheSize then _
    else _) = _
  rw [if_neg hd, hx2, if_neg (by decide), if_neg hcnt2]
  rfl

/-- One pass of the sub-segment loop of `calculate_delta_segments` with a free entry in the
delta segment cache: the pass does not wait, counts one produced segment and leaves
`delta_segment_count` alone. -/
theorem deltaSegmentsLoop_pass (cfg : Config) (dc : DeltaConfig) (softEndstop : Bool) (s : Nat)
    (st : DeltaSegmentsState)
    (hc : st.printer.delta_segment_count + st.produced_segments < dc.deltaCacheSize) :
    ∃ st2, deltaSegmentsLoop cfg dc softEndstop (s + 1) st
        = deltaSegmentsLoop cfg dc softEndstop s st2 ∧
      st2.produced_segments = wrapU16 (st.produced_segments + 1) ∧
      st2.printer.delta_segment_count = st.printer.delta_segment_count := by
  have hc' : ¬ st.printer.delta_segment_count + st.produced_segments ≥ dc.deltaCacheSize := by
    omega
  rw [deltaSegmentsLoop]
  simp only []
  rw [if_neg hc']
  refine ⟨_, rfl, ?_, ?_⟩
  · split_ifs <;> rfl
  · split_ifs <;> rfl

/-- The sub-segment loop of `calculate_delta_segments` returns when the delta segment cache has
room for the sub-segments to go: no pass waits, the loop counts `n` produced segments and
leaves `delta_segment_count` alone. -/
theorem deltaSegmentsLoop_returns (cfg : Config) (dc : DeltaConfig) (softEndstop : Bool)
    (hsize : dc.deltaCacheSize < 65536) :
    ∀ (n : Nat) (st : DeltaSegmentsState),
      st.printer.delta_segment_count + st.produced_segments + n ≤ dc.deltaCacheSize →
      ∃ r, deltaSegmentsLoop cfg dc softEndstop n st = some r ∧
        r.produced_segments = st.produced_segments + n ∧
        r.printer.delta_segment_count = st.printer.delta_segment_count := by
  intro n
  induction n with
  | zero =>
    intro st _
    exact ⟨st, by rw [deltaSegmentsLoop], rfl, rfl⟩
  | succ s ih =>
    intro st h
    obtain ⟨st2, e, p2, c2⟩ := deltaSegmentsLoop_pass cfg dc softEndstop s st (by omega)
    have hp : st2.produced_segments = st.produced_segments + 1 := by
      rw [p2]
      unfold wrapU16
      exact Nat.mod_eq_of_lt (by omega)
    obtain ⟨r, h1, h2, h3⟩ := ih st2 (by rw [hp, c2]; omega)
    refine ⟨r, by rw [e, h1], ?_, ?_⟩
    · rw [h2, hp]; omega
    · rw [h3, c2]

/-- The function `calculate_delta_segments` returns when the delta segment cache has room for
the sub-segments of the line at the write position, and it adds their number to
`delta_segment_count`. -/
theorem calculate_delta_segments_returns (cfg : Config) (dc : DeltaConfig) (pr : DeltaPrinter)
    (softEndstop : Bool) (hsize : dc.deltaCacheSize < 65536)
    (hroom : pr.delta_segment_count
        + (wrapInt ((pr.planner.lines pr.planner.lines_write_pos).numDeltaSegments : Int)).toNat
      ≤ dc.deltaCacheSize) :
    ∃ pr2 m, calculate_delta_segments cfg dc pr softEndstop = some (pr2, m) ∧
      pr2.delta_segment_count = pr.delta_segment_count
        + (wrapInt ((pr.planner.lines pr.planner.lines_write_pos).numDeltaSegments : Int)).toNat
      := by
  unfold calculate_delta_segments
  simp only []
  have hn : (upd pr.planner.lines pr.planner.lines_write_pos
      (fun l => { l with deltaSegmentReadPos := pr.delta_segment_write_pos })
      pr.planner.lines_write_pos).numDeltaSegments
      = (pr.planner.lines pr.planner.lines_write_pos).numDeltaSegments := by
    rw [upd_same]
  rw [hn]
  obtain ⟨r, h1, h2, h3⟩ := deltaSegmentsLoop_returns cfg dc softEndstop hsize
    (wrapInt ((pr.planner.lines pr.planner.lines_write_pos).numDeltaSegments : Int)).toNat
    { printer := { pr with planner := { pr.planner with
        lines := upd pr.planner.lines pr.planner.lines_write_pos
          (fun l => { l with deltaSegmentReadPos := pr.delta_segment_write_pos }) } },
      destination_steps := { pr.currentPositionSteps with e := 0 },
      destination_delta_steps := ⟨0, 0, 0, 0⟩,
      max_axis_move := 0, produced_segments := 0 }
    (by simpa using hroom)
  rw [h1]
  refine ⟨_, _, rfl, ?_⟩
  show r.printer.delta_segment_count + r.produced_segments = _
  rw [h2, h3]
  simp

/-- The method `calculate_move` does not wait on a cache whose positions lie inside the
ring. -/
theorem calculate_move_not_none (cfg : Config) (s : Planner) (axis_diff : Nat → ℚ)
    (pathOptimize : Bool) (h : calculate_move cfg s axis_diff pathOptimize = none)
    (hpos : s.lines_pos < cfg.moveCacheSize) (hwp : s.lines_write_pos < cfg.moveCacheSize) :
    False := by
  obtain ⟨s1, h1, _⟩ := calculate_move_returns cfg s axis_diff pathOptimize hpos hwp
  rw [h1] at h
  cases h

/-- The commit of `calculate_move` on a cache whose positions lie inside the ring counts the
line, keeps the read position and advances the write position. -/
theorem calculate_move_counts (cfg : Config) (s s1 : Planner) (axis_diff : Nat → ℚ)
    (pathOptimize : Bool) (h : calculate_move cfg s axis_diff pathOptimize = some s1)
    (hpos : s.lines_pos < cfg.moveCacheSize) (hwp : s.lines_write_pos < cfg.moveCacheSize) :
    s1.lines_count = wrapByte (s.lines_count + 1) ∧ s1.lines_pos = s.lines_pos ∧
    s1.lines_write_pos = nextPlannerIndex cfg s.lines_write_pos := by
  obtain ⟨s2, h2, e1, e2, e3, _⟩ := calculate_move_returns cfg s axis_diff pathOptimize hpos hwp
  rw [h2] at h
  cases h
  exact ⟨e2, e3, e1⟩

/-- The commit of one pass of the line loop returns on a cache whose positions lie inside the
ring; when it queues the line, the line is counted in `lines_count`, the write position
advances, and the read position and the delta segment count stay. -/
theorem splitLineCommit_returns (cfg : Config) (pathOptimize : Bool) (c : SplitCounts)
    (wp : Nat) (axis_diff : Vec4 ℚ) (fractional_steps : Vec4 Int) (pr2 : DeltaPrinter)
    (max_delta_step : Int) (hpos : pr2.planner.lines_pos < cfg.moveCacheSize)
    (hwp : pr2.planner.lines_write_pos < cfg.moveCacheSize) :
    ∃ st, splitLineCommit cfg pathOptimize c wp axis_diff fractional_steps pr2 max_delta_step
        = some st ∧
      (st.returned = false →
        st.printer.planner.lines_count = wrapByte (pr2.planner.lines_count + 1) ∧
        st.printer.planner.lines_pos = pr2.planner.lines_pos ∧
        st.printer.planner.lines_write_pos
          = nextPlannerIndex cfg pr2.planner.lines_write_pos ∧
        st.printer.delta_segment_count = pr2.delta_segment_count) := by
  unfold splitLineCommit
  simp only []
  by_cases hz : wrapLong (max_delta_step * c.segments_per_line) = 0
      ∧ (pr2.planner.lines wp).delta.get 3 = 0
  · rw [if_pos hz]
    exact ⟨_, rfl, fun h => by cases h⟩
  · rw [if_neg hz]
    by_cases hv : wrapLong (max_delta_step * c.segments_per_line)
        > (pr2.planner.lines wp).delta.get 3
    · simp only [if_pos hv]
      split
      · rename_i hcm
        exact (calculate_move_not_none cfg _ _ pathOptimize hcm hpos hwp).elim
      · rename_i pl hcm
        obtain ⟨a1, a2, a3⟩ := calculate_move_counts cfg _ pl _ pathOptimize hcm hpos hwp
        exact ⟨_, rfl, fun _ => ⟨a1, a2, a3, rfl⟩⟩
    · simp only [if_neg hv]
      split
      · rename_i hcm
        exact (calculate_move_not_none cfg _ _ pathOptimize hcm hpos hwp).elim
      · rename_i pl hcm
        obtain ⟨a1, a2, a3⟩ := calculate_move_counts cfg _ pl _ pathOptimize hcm hpos hwp
        exact ⟨_, rfl, fun _ => ⟨a1, a2, a3, rfl⟩⟩

/-- One pass of the line loop of `split_delta_move` returns when the move cache has a free
entry, its positions lie inside the ring and the delta segment cache has room for the
sub-segments of one line; when the pass queues its line, the line is counted, the write
position advances, and the sub-segments of the line are counted in `delta_segment_count`. -/
theorem splitLineStep_returns (cfg : Config) (dc : DeltaConfig)
    (check_endstops pathOptimize softEndstop : Bool) (c : SplitCounts) (save_dir : Nat)
    (save_delta : Vec4 Int) (save_distance : ℚ) (difference start_position : Vec4 Int)
    (axis_diff0 : Vec4 ℚ) (pr : DeltaPrinter) (k : Int)
    (hcnt : pr.planner.lines_count < cfg.moveCacheSize)
    (hpos : pr.planner.lines_pos < cfg.moveCacheSize)
    (hwp : pr.planner.lines_write_pos < cfg.moveCacheSize)
    (hsize : dc.deltaCacheSize < 65536)
    (hroom : pr.delta_segment_count + splitSegments c ≤ dc.deltaCacheSize) :
    ∃ st, splitLineStep cfg dc check_endstops pathOptimize softEndstop c save_dir save_delta
        save_distance difference start_position axis_diff0 pr k = some st ∧
      (st.returned = false →
        st.printer.planner.lines_count = wrapByte (pr.planner.lines_count + 1) ∧
        st.printer.planner.lines_pos = pr.planner.lines_pos ∧
        st.printer.planner.lines_write_pos
          = nextPlannerIndex cfg pr.planner.lines_write_pos ∧
        st.printer.delta_segment_count = pr.delta_segment_count + splitSegments c) := by
  unfold splitLineStep
  have hc : ¬ pr.planner.lines_count ≥ cfg.moveCacheSize := by omega
  rw [if_neg hc]
  simp only []
  have hnum : ∀ (l : PrintLine),
      (setLine pr.planner.lines pr.planner.lines_write_pos l
        pr.planner.lines_write_pos) = l := by
    intro l
    simp only [setLine, if_true]
  obtain ⟨pr2, m, h2, hcount⟩ := calculate_delta_segments_returns cfg dc
    { pr with
      planner := { pr.planner with
        lines := setLine pr.planner.lines pr.planner.lines_write_pos
          (splitLineRecord cfg check_endstops pathOptimize c save_dir save_delta save_distance
            (splitLineFractional c difference
              (splitLineDest c difference start_position pr k) pr)
            (splitLineAxisDiff cfg c axis_diff0
              (splitLineFractional c difference
                (splitLineDest c difference start_position pr k) pr)) pr k) },
      destinationSteps := splitLineDest c difference start_position pr k }
    softEndstop hsize (by
      show pr.delta_segment_count + (wrapInt ((setLine pr.planner.lines
        pr.planner.lines_write_pos _ pr.planner.lines_write_pos).numDeltaSegments : Int)).toNat
        ≤ _
      rw [hnum]
      exact hroom)
  have hcount2 : pr2.delta_segment_count = pr.delta_segment_count + splitSegments c := by
    rw [hcount]
    show pr.delta_segment_count + (wrapInt ((setLine pr.planner.lines
        pr.planner.lines_write_pos _ pr.planner.lines_write_pos).numDeltaSegments : Int)).toNat
        = _
    rw [hnum]
    rfl
  obtain ⟨f1, _, _, _⟩ := calculate_delta_segments_frame cfg dc _ pr2 softEndstop m h2
  rw [h2]
  simp only []
  have hpos2 : pr2.planner.lines_pos < cfg.moveCacheSize := by rw [f1]; exact hpos
  have hwp2 : pr2.planner.lines_write_pos < cfg.moveCacheSize := by rw [f1]; exact hwp
  obtain ⟨st, hst, hp⟩ := splitLineCommit_returns cfg pathOptimize c pr.planner.lines_write_pos
    (splitLineAxisDiff cfg c axis_diff0
      (splitLineFractional c difference (splitLineDest c difference start_position pr k) pr))
    (splitLineFractional c difference (splitLineDest c difference start_position pr k) pr)
    pr2 m hpos2 hwp2
  refine ⟨st, hst, fun hret => ?_⟩
  obtain ⟨b1, b2, b3, b4⟩ := hp hret
  rw [f1] at b1 b2 b3
  exact ⟨b1, b2, b3, b4.trans hcount2⟩

/-- The line loop of `split_delta_move` returns when the move cache has a free entry for every
line to go, its positions lie inside the ring, and the delta segment cache has room for the
sub-segments of every line to go: no pass waits. -/
theorem splitLineLoop_returns (cfg : Config) (dc : DeltaConfig)
    (check_endstops pathOptimize softEndstop : Bool) (c : SplitCounts) (save_dir : Nat)
    (save_delta : Vec4 Int) (save_distance : ℚ) (difference start_position : Vec4 Int)
    (axis_diff0 : Vec4 ℚ) (hN : cfg.moveCacheSize ≤ 255) (hsize : dc.deltaCacheSize < 65536) :
    ∀ (n : Nat) (k : Int) (pr : DeltaPrinter),
      pr.planner.lines_count + n ≤ cfg.moveCacheSize →
      pr.planner.lines_pos < cfg.moveCacheSize →
      pr.planner.lines_write_pos < cfg.moveCacheSize →
      pr.delta_segment_count + n * splitSegments c ≤ dc.deltaCacheSize →
      ∃ st, splitLineLoop cfg dc check_endstops pathOptimize softEndstop c save_dir save_delta
        save_distance difference start_position axis_diff0 n k pr = some st := by
  intro n
  induction n with
  | zero =>
    intro k pr _ _ _ _
    exact ⟨_, by rw [splitLineLoop]⟩
  | succ n ih =>
    intro k pr hcnt hpos hwp hroom
    have hroom1 : pr.delta_segment_count + splitSegments c ≤ dc.deltaCacheSize := by
      rw [Nat.succ_mul] at hroom
      omega
    obtain ⟨st1, h1, hp⟩ := splitLineStep_returns cfg dc check_endstops pathOptimize softEndstop
      c save_dir save_delta save_distance difference start_position axis_diff0 pr k
      (by omega) hpos hwp hsize hroom1
    rw [splitLineLoop, h1]
    simp only []
    by_cases hr1 : st1.returned = true
    · rw [if_pos hr1]
      exact ⟨st1, rfl⟩
    · rw [if_neg hr1]
      have hr1' : st1.returned = false := by
        cases hb : st1.returned
        · rfl
        · exact absurd hb hr1
      obtain ⟨b1, b2, b3, b4⟩ := hp hr1'
      have hw : wrapByte (pr.planner.lines_count + 1) = pr.planner.lines_count + 1 := by
        unfold wrapByte
        exact Nat.mod_eq_of_lt (by omega)
      rw [hw] at b1
      exact ih (k + 1) st1.printer (by rw [b1]; omega) (by rw [b2]; exact hpos)
        (by rw [b3]; exact nextPlannerIndex_lt cfg _ hwp)
        (by rw [b4]; rw [Nat.succ_mul] at hroom; omega)

/-- C39: for a delta move with steps on X, Y or Z that is split into `num_lines >= 1` lines,
with coordinates that fit the `long` arithmetic, a move cache with a free entry for every line
and a delta segment cache with room for the sub-segments of every line (so that no wait for the
stepper interrupt is entered): the line loop and `split_delta_move` return; when every pass has
queued its line (no pass returned early for want of motion), `currentPositionSteps` equals the
target `destinationSteps` (after the soft endstop clamp of Z) on all four axes, the
`num_lines` cache entries from the first written slot on carry `moveID = lastMoveID`, and
`lastMoveID` is incremented once (modulo 256) at the end.  Moreover the sub-segment loop of
`calculate_delta_segments`, run for at least one sub-segment from the current position with
room in the delta segment cache, returns, and its last interpolated target equals
`destinationSteps` on X, Y and Z. -/
theorem split_delta_move_lands_on_target (cfg : Config) (dc : DeltaConfig) (pr : DeltaPrinter)
    (check_endstops pathOptimize softEndstop : Bool)
    (hd : (splitDistance cfg pr softEndstop).1 ≠ 0)
    (hx : (splitSave cfg pr softEndstop).1 &&& 112 ≠ 0)
    (hcnt : pr.planner.lines_count < cfg.moveCacheSize)
    (hnl : 1 ≤ (splitPlan cfg dc pr softEndstop).num_lines)
    (hfit : splitFits (splitClamp pr softEndstop) (splitPlan cfg dc pr softEndstop).num_lines)
    (hN : cfg.moveCacheSize ≤ 255) (hsize : dc.deltaCacheSize < 65536)
    (hpos : (splitStart cfg dc pr pathOptimize softEndstop).planner.lines_pos
      < cfg.moveCacheSize)
    (hwp : (splitStart cfg dc pr pathOptimize softEndstop).planner.lines_write_pos
      < cfg.moveCacheSize)
    (hslots : (splitStart cfg dc pr pathOptimize softEndstop).planner.lines_count
        + (splitPlan cfg dc pr softEndstop).num_lines.toNat ≤ cfg.moveCacheSize)
    (hroom : pr.delta_segment_count
        + (splitPlan cfg dc pr softEndstop).num_lines.toNat
          * splitSegments (splitPlan cfg dc pr softEndstop) ≤ dc.deltaCacheSize) :
    ∃ st, splitLoopResult cfg dc pr check_endstops pathOptimize softEndstop = some st ∧
      split_delta_move cfg dc pr check_endstops pathOptimize softEndstop
        = some (if st.returned then st.printer
                else { st.printer with lastMoveID := wrapByte (pr.lastMoveID + 1) }) ∧
      (st.returned = false →
        st.printer.currentPositionSteps = (splitClamp pr softEndstop).destinationSteps ∧
        st.printer.lastMoveID = pr.lastMoveID ∧
        (∀ i : Nat, (i : Int) < (splitPlan cfg dc pr softEndstop).num_lines →
          (st.printer.planner.lines ((nextPlannerIndex cfg)^[i]
            (splitStart cfg dc pr pathOptimize softEndstop).planner.lines_write_pos)).moveID
            = pr.lastMoveID)) ∧
      (∀ (q : DeltaPrinter) (soft : Bool) (n : Nat),
        (∀ i, i < 3 → (q.destinationSteps.get i).natAbs < 1073741824 ∧
          (q.currentPositionSteps.get i).natAbs < 1073741824) →
        q.delta_segment_count + (n + 1) ≤ dc.deltaCacheSize →
        ∃ r, deltaSegmentsLoop cfg dc soft (n + 1)
            { printer := q, destination_steps := { q.currentPositionSteps with e := 0 },
              destination_delta_steps := ⟨0, 0, 0, 0⟩, max_axis_move := 0,
              produced_segments := 0 } = some r ∧
          ∀ i, i < 3 → r.destination_steps.get i = q.destinationSteps.get i) := by
  have hid : (splitStart cfg dc pr pathOptimize softEndstop).lastMoveID = pr.lastMoveID := by
    unfold splitStart splitClamp
    split_ifs <;> rfl
  have hdc : (splitStart cfg dc pr pathOptimize softEndstop).delta_segment_count
      = pr.delta_segment_count := by
    unfold splitStart splitClamp
    split_ifs <;> rfl
  have hr : splitInRange (splitClamp pr softEndstop).currentPositionSteps
      (splitDifference pr softEndstop) (splitPlan cfg dc pr softEndstop).num_lines := by
    intro i hi
    obtain ⟨a, b, c⟩ := hfit i hi
    have e : (splitDifference pr softEndstop).get i
        = (splitClamp pr softEndstop).destinationSteps.get i
          - (splitClamp pr softEndstop).currentPositionSteps.get i := by
      have w := wrapLong_of_range ((splitClamp pr softEndstop).destinationSteps.get i
        - (splitClamp pr softEndstop).currentPositionSteps.get i) (by omega) (by omega)
      rcases i with _ | _ | _ | _ | i
      · exact w
      · exact w
      · exact w
      · exact w
      · omega
    rw [e]
    exact ⟨by omega, by omega, c⟩
  have hcur : (splitStart cfg dc pr pathOptimize softEndstop).currentPositionSteps
      = lineTarget (splitClamp pr softEndstop).currentPositionSteps
          (splitDifference pr softEndstop) (splitPlan cfg dc pr softEndstop).num_lines
          (1 - 1) := by
    unfold lineTarget
    simp only [sub_self, mul_zero, Int.zero_tdiv, add_zero]
    rfl
  obtain ⟨st, hloop⟩ := splitLineLoop_returns cfg dc check_endstops pathOptimize softEndstop
    (splitPlan cfg dc pr softEndstop) (splitSave cfg pr softEndstop).1
    (splitSave cfg pr softEndstop).2 (splitDistance cfg pr softEndstop).2
    (splitDifference pr softEndstop) (splitClamp pr softEndstop).currentPositionSteps
    (splitAxisDiff cfg pr softEndstop) hN hsize
    (splitPlan cfg dc pr softEndstop).num_lines.toNat 1
    (splitStart cfg dc pr pathOptimize softEndstop) hslots hpos hwp (by rw [hdc]; exact hroom)
  have hloop' : splitLoopResult cfg dc pr check_endstops pathOptimize softEndstop = some st :=
    hloop
  have hspec := splitLineLoop_spec cfg dc check_endstops pathOptimize softEndstop
    (splitPlan cfg dc pr softEndstop) (splitSave cfg pr softEndstop).1
    (splitSave cfg pr softEndstop).2 (splitDistance cfg pr softEndstop).2
    (splitDifference pr softEndstop) (splitClamp pr softEndstop).currentPositionSteps
    (splitAxisDiff cfg pr softEndstop) hr
    (splitPlan cfg dc pr softEndstop).num_lines.toNat 1
    (splitStart cfg dc pr pathOptimize softEndstop) st (le_refl 1)
    (by rw [Int.toNat_of_nonneg (by omega)]; omega) hcur hloop
  refine ⟨st, hloop', ?_, ?_, ?_⟩
  · rw [split_delta_move_lines cfg dc pr check_endstops pathOptimize softEndstop hd hx hcnt,
      hloop']
    simp only []
    by_cases hret : st.returned = true
    · rw [if_pos hret, if_pos hret]
    · rw [if_neg hret, if_neg hret]
      have hret' : st.returned = false := by
        cases hb : st.returned
        · rfl
        · exact absurd hb hret
      obtain ⟨_, l2, _, _⟩ := hspec hret'
      rw [l2.trans hid]
  · intro hret
    obtain ⟨l1, l2, l3, _⟩ := hspec hret
    refine ⟨?_, l2.trans hid, ?_⟩
    · rw [l1]
      have hn0 : (splitPlan cfg dc pr softEndstop).num_lines ≠ 0 := by omega
      have key : ∀ i, i < 4 →
          (splitClamp pr softEndstop).currentPositionSteps.get i
            + Int.tdiv ((splitDifference pr softEndstop).get i
                * (splitPlan cfg dc pr softEndstop).num_lines)
                (splitPlan cfg dc pr softEndstop).num_lines
          = (splitClamp pr softEndstop).destinationSteps.get i := by
        intro i hi
        obtain ⟨a, b, _⟩ := hfit i hi
        rw [Int.mul_tdiv_cancel _ hn0]
        have w := wrapLong_of_range ((splitClamp pr softEndstop).destinationSteps.get i
          - (splitClamp pr softEndstop).currentPositionSteps.get i) (by omega) (by omega)
        have e : (splitDifference pr softEndstop).get i
            = (splitClamp pr softEndstop).destinationSteps.get i
              - (splitClamp pr softEndstop).currentPositionSteps.get i := by
          rcases i with _ | _ | _ | _ | i
          · exact w
          · exact w
          · exact w
          · exact w
          · omega
        rw [e]
        omega
      unfold lineTarget
      rw [key 0 (by omega), key 1 (by omega), key 2 (by omega), key 3 (by omega)]
      rfl
    · intro i hi
      rw [← hid]
      exact l3 i (by omega)
  · intro q soft n hq hqroom
    obtain ⟨r, hl, _, _⟩ := deltaSegmentsLoop_returns cfg dc soft hsize (n + 1)
      { printer := q, destination_steps := { q.currentPositionSteps with e := 0 },
        destination_delta_steps := ⟨0, 0, 0, 0⟩, max_axis_move := 0,
        produced_segments := 0 } (by simpa using hqroom)
    refine ⟨r, hl, ?_⟩
    exact deltaSegmentsLoop_last cfg dc soft n _ r (fun j hj => (hq j hj).1)
      (fun j hj => by
        have := (hq j hj).2
        rcases j with _ | _ | _ | j
        · exact this
        · exact this
        · exact this
        · omega) hl

/-- C39 on a two-line move: from the centre of the bed towards 1000 steps in +X, with an
empty four-slot cache and an empty delta segment cache, the line loop returns without an early
return, and `split_delta_move` returns at the target with `lastMoveID` 6; the two queued lines
in slots 0 and 1 carry `moveID` 5. -/
theorem split_delta_move_lands_on_target_witness :
    (splitPlan smallDeltaConfig sampleDelta twoLineMove false).num_lines = 2 ∧
    ∃ r, split_delta_move smallDeltaConfig sampleDelta twoLineMove false true false = some r ∧
      r.currentPositionSteps = ⟨1000, 0, 0, 0⟩ ∧ r.lastMoveID = 6 ∧
      (r.planner.lines 0).moveID = 5 ∧ (r.planner.lines 1).moveID = 5 := by
  have hnl : (splitPlan smallDeltaConfig sampleDelta twoLineMove false).num_lines = 2 := by
    decide!
  have hsg : splitSegments (splitPlan smallDeltaConfig sampleDelta twoLineMove false) = 16 := by
    decide!
  have w : (splitStart smallDeltaConfig sampleDelta twoLineMove true
      false).planner.lines_write_pos = 0 := by decide!
  obtain ⟨st, hst, h1, h2, _⟩ := split_delta_move_lands_on_target smallDeltaConfig sampleDelta
    twoLineMove false true false (by decide!) (by decide!) (by decide) (by rw [hnl]; decide)
    (by rw [hnl]; unfold splitFits; decide) (by decide) (by decide) (by decide!)
    (by rw [w]; decide) (by rw [hnl]; decide!) (by rw [hnl, hsg]; decide)
  have hs : (splitLoopResult smallDeltaConfig sampleDelta twoLineMove false true false).map
      (fun st => st.returned) = some false := by decide!
  rw [hst] at hs
  have hret : st.returned = false := by simpa using hs
  obtain ⟨a1, a2, a3⟩ := h2 hret
  rw [hret] at h1
  refine ⟨hnl, _, h1, a1, rfl, ?_, ?_⟩
  · have := a3 0 (by rw [hnl]; decide)
    rw [w] at this
    exact this
  · have := a3 1 (by rw [hnl]; decide)
    rw [w] at this
    exact this

end Repetier
